import Mathlib

/-! # Tiledjinn scanline rasterizer

A shallow embedding of the scanline compositor (`src/src/Draw.c`), the frame
loop (`src/src/Tilengine.c`) and the layer operations (`src/src/Layer.c`),
followed by theorems about them.

Conventions of the embedding

* C `int` values are mathematical integers (`Int`); signed overflow is
  undefined in C and no operation modelled here relies on wrap-around.
  Unsigned 8, 16 and 32 bit cells hold natural numbers.
* A C array or buffer is a total function from the element index to the
  element (`Buf`); the typed element view is kept, the byte layout is not,
  except where the code itself stores through a pointer of another width.
* Handles to tilesets, tilemaps and palettes are indices into stores kept
  next to the engine state; `none` is the null handle.
* Function pointers are values of an enumeration (`ScanDrawPtr`) or a
  record naming the selected routine (`ScanBlitPtr`); user callbacks are
  identifiers resolved through `Env.callbacks`.
-/

namespace Tiledjinn

/-! ## C integer arithmetic -/

/-- C remainder `a % b` on `int`, truncating toward zero. -/
def cmod (a b : Int) : Int := Int.tmod a b

/-- C quotient `a / b` on `int`, truncating toward zero. -/
def cdiv (a b : Int) : Int := Int.tdiv a b

/-- C shift `a >> n` on `int` (arithmetic shift). -/
def shr (a n : Int) : Int := a >>> n.toNat

/-- C shift `a << n` on `int`. -/
def shl (a n : Int) : Int := a * 2 ^ n.toNat

/-- C bitwise and `a & b` on `int` (two's complement). -/
def band (a b : Int) : Int := Int.land a b

/-- C `abs`. -/
def cabs (a : Int) : Int := if a < 0 then -a else a

/-- A C array or pixel buffer, indexed by element. -/
abbrev Buf := Int → Nat

/-! ## Public constants (`include/tiledjinn.h`) -/

def FLAG_NONE : Nat := 0
def FLAG_FLIPX : Nat := 0x8000
def FLAG_FLIPY : Nat := 0x4000
def FLAG_ROTATE : Nat := 0x2000
def FLAG_PRIORITY : Nat := 0x1000
def FLAG_MASKED : Nat := 0x0800
def FLAG_PALETTES : Nat := 0x00FF

/-- The C test `flags & flag` used as a condition. -/
def hasFlag (flags flag : Nat) : Bool := (flags &&& flag) != 0

/-- Error codes of `TLN_Error`. -/
inductive TLN_Error
  | TLN_ERR_OK
  | TLN_ERR_OUT_OF_MEMORY
  | TLN_ERR_IDX_LAYER
  | TLN_ERR_IDX_SPRITE
  | TLN_ERR_IDX_ANIMATION
  | TLN_ERR_IDX_PICTURE
  | TLN_ERR_REF_TILESET
  | TLN_ERR_REF_TILEMAP
  | TLN_ERR_REF_SPRITESET
  | TLN_ERR_REF_PALETTE
  | TLN_ERR_REF_SEQUENCE
  | TLN_ERR_REF_SEQPACK
  | TLN_ERR_REF_BITMAP
  | TLN_ERR_NULL_POINTER
  | TLN_ERR_FILE_NOT_FOUND
  | TLN_ERR_WRONG_FORMAT
  | TLN_ERR_WRONG_SIZE
  | TLN_ERR_UNSUPPORTED
  | TLN_ERR_REF_LIST
  deriving DecidableEq, Repr

/-- Log levels of `TLN_LogLevel`. -/
inductive TLN_LogLevel
  | TLN_LOG_NONE
  | TLN_LOG_ERRORS
  | TLN_LOG_VERBOSE
  deriving DecidableEq, Repr

/-- A tilemap cell (`union Tile`): 16-bit tile index and 16-bit flag word. -/
structure Tile where
  index : Nat
  flags : Nat
  deriving DecidableEq, Repr

/-- Tile attributes (`TLN_TileAttributes`). -/
structure TLN_TileAttributes where
  type : Nat
  priority : Bool
  deriving DecidableEq, Repr

/-- Pixel displacement of the pixel-mapping mode (`TLN_PixelMap`). -/
structure TLN_PixelMap where
  dx : Int
  dy : Int
  deriving DecidableEq, Repr

/-! ## Draw modes and procedures (`Draw.h`, `Draw.c`) -/

/-- Render modes (`draw_t`). -/
inductive draw_t
  | MODE_NORMAL
  | MODE_SCALING
  | MODE_TRANSFORM
  | MODE_PIXEL_MAP
  deriving DecidableEq, Repr

/-- The six scanline draw procedures of `Draw.c`, as function pointer values. -/
inductive ScanDrawPtr
  | DrawSpriteScanline
  | DrawScalingSpriteScanline
  | DrawLayerScanline
  | DrawLayerScanlineScaling
  | DrawLayerScanlineAffine
  | DrawLayerScanlinePixelMapping
  deriving DecidableEq, Repr

/-- Rows of the `drawers` table. -/
inductive DrawType
  | DRAW_SPRITE
  | DRAW_TILED_LAYER
  deriving DecidableEq, Repr

/-- The table `drawers[MAX_DRAW_TYPE][MAX_DRAW_MODE]`; `none` is `NULL`. -/
def drawers : DrawType → draw_t → Option ScanDrawPtr
  | .DRAW_SPRITE, .MODE_NORMAL => some .DrawSpriteScanline
  | .DRAW_SPRITE, .MODE_SCALING => some .DrawScalingSpriteScanline
  | .DRAW_SPRITE, .MODE_TRANSFORM => none
  | .DRAW_SPRITE, .MODE_PIXEL_MAP => none
  | .DRAW_TILED_LAYER, .MODE_NORMAL => some .DrawLayerScanline
  | .DRAW_TILED_LAYER, .MODE_SCALING => some .DrawLayerScanlineScaling
  | .DRAW_TILED_LAYER, .MODE_TRANSFORM => some .DrawLayerScanlineAffine
  | .DRAW_TILED_LAYER, .MODE_PIXEL_MAP => some .DrawLayerScanlinePixelMapping

/-! ## Blitters

`Blitters.c` is not among the sources; only its interface `Blitters.h` is.
-/

/-- Modelled from the spec: the blitter that `GetBlitter` selects. `Blitters.c` is
missing; section 4.8 of the spec says the variants are dispatched by four
booleans: 32-bit final versus 8-bit intermediate output, keyed, scaling, blend. -/
structure ScanBlitPtr where
  bpp32 : Bool
  key : Bool
  scaling : Bool
  blend : Bool
  deriving DecidableEq, Repr

/-- Modelled from the spec: `GetBlitter(bpp, key, scaling, blend)` of the missing
`Blitters.c`, dispatching on the four booleans of section 4.8. -/
def GetBlitter (bpp : Int) (key scaling blend : Bool) : ScanBlitPtr :=
  { bpp32 := decide (bpp = 32), key := key, scaling := scaling, blend := blend }

/-- A blend table: 256 x 256 bytes, indexed by `(a << 8) + b`. -/
abbrev BlendTable := Int → Nat

/-- The macro `blendfunc(t, a, b)` of `Tables.h`. -/
def blendfunc (t : BlendTable) (a b : Nat) : Nat := t (((a : Int) * 256) + (b : Int))

/-- A palette (`struct Palette`): entry count and packed 32-bit colors by index. -/
structure Palette where
  entries : Int
  data : Buf

/-- The color of `indexed_palettes[id]->data[s]`; a missing palette, which C
would dereference as a null pointer, reads as 0. -/
def paletteColor (pals : Nat → Option Palette) (id s : Nat) : Nat :=
  match pals id with
  | some p => p.data (s : Int)
  | none => 0

/-- One 8-bit channel of a packed color. -/
def channel (c shift : Nat) : Nat := (c >>> shift) &&& 0xFF

/-- Modelled from the spec: blending of one pixel. Section 4.8: the output is the
palette entry, and when blending each of R, G, B passes through
`blend_table[(src_component << 8) | dst_component]`. -/
def blendColor (t : BlendTable) (src dst : Nat) : Nat :=
  (src &&& 0xFF000000)
    ||| ((blendfunc t (channel src 16) (channel dst 16)) <<< 16)
    ||| ((blendfunc t (channel src 8) (channel dst 8)) <<< 8)
    ||| (blendfunc t (channel src 0) (channel dst 0))

/-- Modelled from the spec: the source index a blitter reads for the `i`-th pixel of
its span. Sections 4.2 and 4.3: an integer blitter reads `src[i * step]`, a
scaling blitter keeps a fixed-point position starting at `offset` and reads
`src[pos >> FIXED_BITS]`. -/
def blitSource (b : ScanBlitPtr) (fixedBits : Nat) (src : Buf) (srcoff dx offset i : Int) : Nat :=
  if b.scaling then src (srcoff + ((offset + i * dx) >>> fixedBits))
  else src (srcoff + i * dx)

/-- Modelled from the spec: what a blitter stores for source index `s` over the old
destination value `old`; `none` when the pixel is skipped. Section 4.8: a
keyed blitter skips source index 0, a 32-bit blitter stores the palette
entry (blended when it is a blend variant), an 8-bit blitter stores the
index itself. -/
def blitValue (b : ScanBlitPtr) (pals : Nat → Option Palette) (pal : Nat)
    (blend : Option BlendTable) (s old : Nat) : Option Nat :=
  if b.key && s == 0 then none
  else if b.bpp32 then
    if b.blend then
      match blend with
      | some t => some (blendColor t (paletteColor pals pal s) old)
      | none => some (paletteColor pals pal s)
    else some (paletteColor pals pal s)
  else some s

/-- Replace byte `j` (little endian) of the word `w` by `v`. -/
def setByte (w j v : Nat) : Nat :=
  w - ((w / 256 ^ j) % 256) * 256 ^ j + (v % 256) * 256 ^ j

/-- An 8-bit store at byte offset `k` of a buffer of 32-bit words (little endian). -/
def pokeByte (buf : Buf) (k : Int) (v : Nat) : Buf :=
  fun p => if p = k / 4 then setByte (buf p) (k % 4).toNat v else buf p

/-- A run of `width` 32-bit stores into a buffer of 32-bit words, starting at the
byte offset `boff`; `f i old` is the value stored for the `i`-th pixel.
A misaligned run is undefined in C and leaves the buffer as it is. -/
def storeWords (dst : Buf) (boff width : Int) (f : Int → Nat → Option Nat) : Buf :=
  if boff % 4 = 0 then
    fun p =>
      let i := p - boff / 4
      if 0 ≤ i ∧ i < width then (f i (dst p)).getD (dst p) else dst p
  else dst

/-- A run of `width` 8-bit stores into a buffer of bytes starting at `off`. -/
def storeBytes (dst : Buf) (off width : Int) (f : Int → Nat → Option Nat) : Buf :=
  fun p =>
    let i := p - off
    if 0 ≤ i ∧ i < width then (f i (dst p)).getD (dst p) else dst p

/-- A run of `width` 8-bit stores into a buffer of 32-bit words, starting at the
byte offset `boff` (an 8-bit blitter applied to a 32-bit line). -/
def storeBytesInWords (dst : Buf) (boff width : Int) (f : Int → Option Nat) : Buf :=
  (List.range width.toNat).foldl
    (fun (d : Buf) (i : Nat) => match f (i : Int) with
      | some v => pokeByte d (boff + (i : Int)) v
      | none => d) dst

/-- Modelled from the spec: a blitter call whose destination is a buffer of 32-bit
words (a framebuffer line or the priority buffer), `boff` being the byte
offset of the destination pointer. `src`/`srcoff` is the source pointer. -/
def blitToWords (b : Option ScanBlitPtr) (fixedBits : Nat) (pals : Nat → Option Palette)
    (src : Buf) (srcoff : Int) (pal : Nat) (dst : Buf) (boff width dx offset : Int)
    (blend : Option BlendTable) : Buf :=
  match b with
  | none => dst
  | some b =>
    if b.bpp32 then
      storeWords dst boff width
        (fun i old => blitValue b pals pal blend (blitSource b fixedBits src srcoff dx offset i) old)
    else
      storeBytesInWords dst boff width
        (fun i => blitValue b pals pal blend (blitSource b fixedBits src srcoff dx offset i) 0)

/-- Modelled from the spec: a blitter call whose destination is a buffer of bytes
(the mosaic line), `off` being the offset of the destination pointer. A
32-bit blitter is never bound while mosaic is on; such a call would run
past the buffer and leaves it as it is here. -/
def blitToBytes (b : Option ScanBlitPtr) (fixedBits : Nat) (pals : Nat → Option Palette)
    (src : Buf) (srcoff : Int) (pal : Nat) (dst : Buf) (off width dx offset : Int)
    (blend : Option BlendTable) : Buf :=
  match b with
  | none => dst
  | some b =>
    if b.bpp32 then dst
    else
      storeBytes dst off width
        (fun i old => blitValue b pals pal blend (blitSource b fixedBits src srcoff dx offset i) old)

/-- Modelled from the spec: `BlitColor(dst, color, width)` of the missing
`Blitters.c`; section 4.8: it fills a line with one packed color. -/
def BlitColor (dst : Buf) (color : Nat) (width : Int) : Buf :=
  storeWords dst 0 width (fun _ _ => some color)

/-- Modelled from the spec: `BlitMosaicSolid` of the missing `Blitters.c`. Section
4.6: the mosaic line is expanded to the framebuffer line with step `size`,
each source pixel being emitted `size` times; index 0 is the transparent
key throughout the engine and is not emitted. -/
def BlitMosaicSolid (pals : Nat → Option Palette) (src : Buf) (srcoff : Int) (pal : Nat)
    (dst : Buf) (boff width size : Int) : Buf :=
  storeWords dst boff width (fun i _ =>
    let s := src (srcoff + (i / size) * size)
    if s = 0 then none else some (paletteColor pals pal s))

/-- Modelled from the spec: `BlitMosaicBlend` of the missing `Blitters.c`: as
`BlitMosaicSolid`, each emitted color blended over the destination. -/
def BlitMosaicBlend (pals : Nat → Option Palette) (src : Buf) (srcoff : Int) (pal : Nat)
    (dst : Buf) (boff width size : Int) (blend : BlendTable) : Buf :=
  storeWords dst boff width (fun i old =>
    let s := src (srcoff + (i / size) * size)
    if s = 0 then none else some (blendColor blend (paletteColor pals pal s) old))

/-! ## Data model (`Tileset.h`, `Tilemap.h`, `Sprite.h`, and the uses of the
missing `Layer.h` and `Engine.h`) -/

/-- Tileset kinds (`TilesetType`). -/
inductive TilesetType
  | TILESET_NONE
  | TILESET_TILES
  deriving DecidableEq, Repr

/-- The record `struct Tileset`. `attributes` is a nullable pointer; `color_key`,
`tiles` and `data` are arrays. -/
structure Tileset where
  tstype : TilesetType
  numtiles : Int
  width : Int
  height : Int
  hshift : Int
  vshift : Int
  hmask : Int
  vmask : Int
  attributes : Option (Int → TLN_TileAttributes)
  color_key : Int → Bool
  tiles : Buf
  data : Buf

/-- The macro `GetTilesetLine(tileset, index, y)`. -/
def GetTilesetLine (tileset : Tileset) (index y : Int) : Int :=
  shl index tileset.vshift + y

/-- The element index selected by the macro `GetTilesetPixel(tileset, index, x, y)`
in `tileset->data`. -/
def GetTilesetPixelAddr (tileset : Tileset) (index x y : Int) : Int :=
  shl (shl index tileset.vshift + y) tileset.hshift + x

/-- The macro `GetTilesetPixel(tileset, index, x, y)` read as a value. -/
def GetTilesetPixel (tileset : Tileset) (index x y : Int) : Nat :=
  tileset.data (GetTilesetPixelAddr tileset index x y)

/-- The record `struct Tilemap`; `tileset` is a handle, `tiles` the cell array. -/
structure Tilemap where
  rows : Int
  cols : Int
  maxindex : Int
  bgcolor : Int
  id : Int
  visible : Bool
  tileset : Option Nat
  tiles : Int → Tile

/-- A rectangle (`rect_t`). -/
structure rect_t where
  x1 : Int
  y1 : Int
  x2 : Int
  y2 : Int
  deriving DecidableEq, Repr

/-- The mosaic settings of a layer and its line buffer of 8-bit indices. -/
structure Mosaic where
  w : Int
  h : Int
  buffer : Buf

/-- The world parallax settings of a layer. The factors are C floats; the model
keeps, for each factor `f`, the map `v ↦ (int)(v * f)` that `UpdateLayer`
computes with it. -/
structure LayerWorld where
  xfactor : Int → Int
  yfactor : Int → Int
  offsetx : Int
  offsety : Int

/-- A layer, with the fields that `Draw.c`, `Layer.c` and `World.c` use (the
declaring header `Layer.h` is missing). `blitters k` is `blitters[k]`.
`transform x y` stands for the fixed-point image of the point `(x, y)` under
the layer's floating-point matrix, `float2fix` of `Point2DMultiply`. -/
structure Layer where
  tileset : Option Nat
  tilemap : Option Nat
  width : Int
  height : Int
  ok : Bool
  priority : Bool
  dirty : Bool
  mode : draw_t
  draw : Option ScanDrawPtr
  blitters : Bool → Option ScanBlitPtr
  clip : rect_t
  hstart : Int
  vstart : Int
  column : Option (Int → Int)
  mosaic : Mosaic
  blend : Option BlendTable
  dx : Int
  dy : Int
  xfactor : Int
  transform : Int → Int → Int × Int
  pixel_map : Option (Int → TLN_PixelMap)
  world : LayerWorld

/-- Sprite picture size (`SpriteEntry`). -/
structure SpriteEntry where
  w : Int
  h : Int
  deriving DecidableEq, Repr

/-- A sprite (`struct Sprite`). The float fields `sx`, `sy`, `ptx`, `pty` are read
only by `UpdateSprite`, which is not among the sources, and are left out. -/
structure Sprite where
  palette_id : Nat
  info : SpriteEntry
  tileset : Option Nat
  tileset_entry : Int
  x : Int
  y : Int
  dx : Int
  dy : Int
  xworld : Int
  yworld : Int
  srcrect : rect_t
  dstrect : rect_t
  mode : draw_t
  blend : Option BlendTable
  flags : Nat
  draw : Option ScanDrawPtr
  blitter : Option ScanBlitPtr
  ok : Bool
  do_collision : Bool
  collision : Bool
  world_space : Bool
  dirty : Bool

/-- The render target: `data line x` is the 32-bit pixel `x` of scanline `line`.
Lines are kept as separate word arrays: `pitch` is at least `4 * width`
by the interface contract, so the lines do not overlap. -/
structure Framebuffer where
  data : Int → Buf
  width : Int
  height : Int
  pitch : Int

/-- The engine context (`struct Engine`, whose header is missing) together with the
objects it reaches: the tileset and tilemap stores and the table
`indexed_palettes`. `numlayers` and `numsprites` are the lengths of
`layers` and `sprites`, fixed by `TLN_Init`. `priority` holds 32-bit words,
`collision` 16-bit slots, `tmpindex` bytes. `cb_raster` and `cb_frame`
identify user callbacks. -/
structure Engine where
  framebuffer : Framebuffer
  line : Int
  frame : Int
  dirty : Bool
  bgcolor : Nat
  cb_raster : Option Nat
  cb_frame : Option Nat
  xworld : Int
  yworld : Int
  sprite_mask_top : Int
  sprite_mask_bottom : Int
  priority : Buf
  collision : Buf
  tmpindex : Buf
  layers : List Layer
  sprites : List Sprite
  error : TLN_Error
  log_level : TLN_LogLevel
  tilesets : Nat → Option Tileset
  tilemaps : Nat → Option Tilemap
  indexed_palettes : Nat → Option Palette

/-- The count `engine->numlayers`. -/
def Engine.numlayers (e : Engine) : Int := e.layers.length

/-- The count `engine->numsprites`. -/
def Engine.numsprites (e : Engine) : Int := e.sprites.length

/-- What lies outside the sources: the user callbacks, by identifier; the routine
`UpdateSprite` of the missing `Sprite.c`, which recomputes a sprite's
rectangles from its position and the framebuffer width and height; the value
of the macro `FIXED_BITS`; and `outside n`, the memory that a layer index
`n` outside the layer array designates (C does not check for negative
indices, see `layerRead`). -/
structure Env where
  callbacks : Nat → Int → Engine → Engine
  UpdateSprite : Int → Int → Sprite → Sprite
  FIXED_BITS : Nat
  outside : Int → Layer

/-- The layer record `engine->layers[n]` for a C index `n`: the array element when
`n` is inside the array, else whatever memory lies there. -/
def layerRead (env : Env) (e : Engine) (n : Int) : Layer :=
  if 0 ≤ n then (e.layers[n.toNat]?).getD (env.outside n) else env.outside n

/-- Store a layer record at the C index `n`; a store outside the array does not
reach the engine state. -/
def layerWrite (e : Engine) (n : Int) (l : Layer) : Engine :=
  if 0 ≤ n then { e with layers := e.layers.set n.toNat l } else e

/-- The macro `GetFramebufferLine(line)`. -/
def GetFramebufferLine (e : Engine) (line : Int) : Buf := e.framebuffer.data line

/-- Store a scanline back into the framebuffer. -/
def Engine.setLine (e : Engine) (line : Int) (scan : Buf) : Engine :=
  { e with framebuffer := { e.framebuffer with data := Function.update e.framebuffer.data line scan } }

/-- Resolve a tileset handle. -/
def Engine.tilesetAt (e : Engine) (h : Option Nat) : Option Tileset := h.bind e.tilesets

/-- Resolve a tilemap handle. -/
def Engine.tilemapAt (e : Engine) (h : Option Nat) : Option Tilemap := h.bind e.tilemaps

/-- `memset(buf, 0, n)` on a buffer of bytes. -/
def memsetZero (buf : Buf) (n : Int) : Buf :=
  fun p => if 0 ≤ p ∧ p < n then 0 else buf p

/-! ## Error recording (`Tilengine.c`) -/

/-- The routine `TLN_SetLastError`, for a valid current context. The trace it
prints for an error is not part of the state. -/
def TLN_SetLastError (error : TLN_Error) (e : Engine) : Engine :=
  { e with error := error }

/-! ## Layer position (`Layer.c`) -/

/-- The routine `TLN_SetLayerPosition(nlayer, hstart, vstart)`. -/
def TLN_SetLayerPosition (env : Env) (nlayer hstart vstart : Int) (e : Engine) : Bool × Engine :=
  if nlayer ≥ e.numlayers then (false, TLN_SetLastError .TLN_ERR_IDX_LAYER e)
  else
    let layer := layerRead env e nlayer
    if layer.width = 0 ∨ layer.height = 0 then (false, TLN_SetLastError .TLN_ERR_REF_TILEMAP e)
    else
      let h0 := cmod hstart layer.width
      let v0 := cmod vstart layer.height
      let h1 := if h0 < 0 then h0 + layer.width else h0
      let v1 := if v0 < 0 then v0 + layer.height else v0
      let layer1 := { layer with hstart := h1, vstart := v1 }
      let visible := match e.tilemapAt layer1.tilemap with
        | some tm => tm.visible
        | none => false
      let layer2 := if visible then { layer1 with ok := true } else layer1
      (true, layerWrite (TLN_SetLastError .TLN_ERR_OK e) nlayer layer2)

/-- The routine `UpdateLayer(nlayer)`: the layer position from the world position,
the parallax factors and the offsets. -/
def UpdateLayer (env : Env) (nlayer : Nat) (e : Engine) : Engine :=
  let layer := layerRead env e nlayer
  let lx := layer.world.xfactor e.xworld - layer.world.offsetx
  let ly := layer.world.yfactor e.yworld - layer.world.offsety
  (TLN_SetLayerPosition env nlayer lx ly e).2

/-! ## Normal-mode layer renderer (`DrawLayerScanline`) -/

/-- The variables of one iteration of the span loop of a tiled layer renderer, as
they stand when the cell has been looked up and the span width computed:
`x` the destination position, `width` the clipped span width, `srcx`,
`srcy` the in-tile offset before flipping, `tile` the cell, `step` the
horizontal step before flipping (1 in normal mode), `dstoff` and `prioff`
the byte offsets of `dstpixel` and `dstpixel_pri` in their buffers. -/
structure Span where
  x : Int
  width : Int
  tilewidth : Int
  xtile : Int
  ytile : Int
  srcx : Int
  srcy : Int
  column : Int
  tile : Tile
  step : Int
  dstoff : Int
  prioff : Int
  deriving DecidableEq, Repr

/-- The step `direction` handed to the blitter for a non-empty cell. -/
def Span.direction (s : Span) : Int :=
  if hasFlag s.tile.flags FLAG_FLIPX then -s.step else s.step

/-- The column `srcx` handed to `GetTilesetPixel` for a non-empty cell. -/
def Span.blitSrcx (s : Span) : Int :=
  if hasFlag s.tile.flags FLAG_FLIPX then s.tilewidth - 1 else s.srcx

/-- The row `srcy` handed to `GetTilesetPixel` for a non-empty cell. -/
def Span.blitSrcy (tileset : Tileset) (s : Span) : Int :=
  if hasFlag s.tile.flags FLAG_FLIPY then tileset.height - s.srcy - 1 else s.srcy

/-- The physical tile `tileset->tiles[tile->index]` of the span's cell. -/
def Span.tileIndex (tileset : Tileset) (s : Span) : Int :=
  (tileset.tiles (s.tile.index : Int) : Int)

/-- The source pointer of the span's blit, as an index into `tileset->data`. -/
def Span.srcoff (tileset : Tileset) (s : Span) : Int :=
  GetTilesetPixelAddr tileset (s.tileIndex tileset) s.blitSrcx (s.blitSrcy tileset)

/-- The blitter of the span's blit: `layer->blitters[color_key]`. -/
def Span.blitter (layer : Layer) (tileset : Tileset) (s : Span) : Option ScanBlitPtr :=
  layer.blitters (tileset.color_key (GetTilesetLine tileset (s.tileIndex tileset) (s.blitSrcy tileset)))

/-- The palette argument of the span's blit: `tile->flags & FLAG_PALETTES`. -/
def Span.palette (s : Span) : Nat := s.tile.flags &&& FLAG_PALETTES

/-- The row `ypos` of the layer that a normal-mode span samples. -/
def DrawLayerScanline.ypos (layer : Layer) (nscan column : Int) : Int :=
  match layer.column with
  | some offsets =>
    let y := cmod (layer.vstart + nscan + offsets column) layer.height
    if y < 0 then layer.height + y else y
  | none => cmod (layer.vstart + nscan) layer.height

/-- The span loop `while (x < layer->clip.x2)` of `DrawLayerScanline`: the list of
its iterations. The loop state is `x`, `xtile`, `srcx`, `column` and the two
destination pointers. The first argument bounds the number of iterations;
`DrawLayerScanline.spans` passes the width of the clip range, which the
loop does not exceed when every span is at least one pixel wide. -/
def DrawLayerScanline.loop (layer : Layer) (tileset : Tileset) (tilemap : Tilemap)
    (nscan shift : Int) : Nat → Int → Int → Int → Int → Int → Int → List Span
  | 0, _, _, _, _, _, _ => []
  | fuel + 1, x, xtile, srcx, column, dstoff, prioff =>
    if x < layer.clip.x2 then
      let ypos := DrawLayerScanline.ypos layer nscan column
      let ytile := shr ypos tileset.vshift
      let srcy := band ypos tileset.vmask
      let tile := tilemap.tiles (ytile * tilemap.cols + xtile)
      let tilewidth := tileset.width - srcx
      let x1 := if x + tilewidth > layer.clip.x2 then layer.clip.x2 else x + tilewidth
      let width := x1 - x
      { x := x, width := width, tilewidth := tilewidth, xtile := xtile, ytile := ytile,
        srcx := srcx, srcy := srcy, column := column, tile := tile, step := 1,
        dstoff := dstoff, prioff := prioff } ::
        DrawLayerScanline.loop layer tileset tilemap nscan shift fuel
          (x + width) (cmod (xtile + 1) tilemap.cols) 0 (column + 1)
          (dstoff + shl width shift) (prioff + shl width shift)
    else []

/-- The spans of `DrawLayerScanline` on scanline `nscan`: the initial state and the
loop. `shift` is 2 when drawing to the framebuffer line, 0 under mosaic. -/
def DrawLayerScanline.spans (layer : Layer) (tileset : Tileset) (tilemap : Tilemap)
    (nscan shift : Int) : List Span :=
  let x := layer.clip.x1
  let xpos := cmod (layer.hstart + x) layer.width
  DrawLayerScanline.loop layer tileset tilemap nscan shift
    (layer.clip.x2 - layer.clip.x1).toNat
    x (shr xpos tileset.hshift) (band xpos tileset.hmask) (cmod x tileset.width)
    (shl x shift) 0

/-- The body `if (tile->index) { ... }` of a span: the blit of a non-empty cell
into the priority buffer (priority cell) or the layer's destination line,
which is the mosaic buffer (bytes) when `mosaicOn` and the framebuffer line
(words) otherwise. The state is the pair (destination line, priority). -/
def paintSpan (fixedBits : Nat) (pals : Nat → Option Palette) (layer : Layer)
    (tileset : Tileset) (mosaicOn : Bool) (st : Buf × Buf) (s : Span) : Buf × Buf :=
  if s.tile.index ≠ 0 then
    if hasFlag s.tile.flags FLAG_PRIORITY then
      (st.1, blitToWords (s.blitter layer tileset) fixedBits pals tileset.data (s.srcoff tileset)
        s.palette st.2 s.prioff s.width s.direction 0 layer.blend)
    else if mosaicOn then
      (blitToBytes (s.blitter layer tileset) fixedBits pals tileset.data (s.srcoff tileset)
        s.palette st.1 s.dstoff s.width s.direction 0 layer.blend, st.2)
    else
      (blitToWords (s.blitter layer tileset) fixedBits pals tileset.data (s.srcoff tileset)
        s.palette st.1 s.dstoff s.width s.direction 0 layer.blend, st.2)
  else st

/-- Whether a span sets the local `priority` flag of the renderer. -/
def Span.setsPriority (s : Span) : Bool :=
  decide (s.tile.index ≠ 0) && hasFlag s.tile.flags FLAG_PRIORITY

/-- The palette `tile->flags & FLAG_PALETTES` used at `draw_end`, where `tile` is the
cell of the last iteration. When the loop did not run, C reads an
uninitialised pointer; the model then uses palette 0. -/
def lastPalette (last : Option Tile) : Nat :=
  match last with
  | some t => t.flags &&& FLAG_PALETTES
  | none => 0

/-- The block at `draw_end` of a renderer under mosaic: the mosaic line is expanded to
the framebuffer line. `offset` is `clip.x1 << shift`, used both as the
source offset and as the byte offset into the framebuffer line. -/
def mosaicFlush (pals : Nat → Option Palette) (layer : Layer) (last : Option Tile)
    (shift : Int) (mosaicbuf scan : Buf) : Buf :=
  let offset := shl layer.clip.x1 shift
  let width := layer.clip.x2 - layer.clip.x1
  match layer.blend with
  | some t => BlitMosaicBlend pals mosaicbuf offset (lastPalette last) scan offset width layer.mosaic.w t
  | none => BlitMosaicSolid pals mosaicbuf offset (lastPalette last) scan offset width layer.mosaic.w

/-- What a layer renderer leaves behind: the framebuffer line, the priority buffer,
the `tmpindex` line, the layer's mosaic buffer, and its return value. -/
structure LayerOut where
  scan : Buf
  priority : Buf
  tmpindex : Buf
  mosaic : Buf
  ret : Bool

/-- The procedure `DrawLayerScanline(nlayer, nscan)` on the data it touches: the layer,
its tileset and tilemap, the framebuffer line `scan`, the priority buffer
and the `tmpindex` line (untouched here). -/
def DrawLayerScanlineCore (fixedBits : Nat) (pals : Nat → Option Palette) (fbwidth : Int)
    (layer : Layer) (tileset : Tileset) (tilemap : Tilemap) (nscan : Int)
    (scan pri tmpindex : Buf) : LayerOut :=
  if layer.mosaic.h ≠ 0 then
    if cmod nscan layer.mosaic.h = 0 then
      let spans := DrawLayerScanline.spans layer tileset tilemap nscan 0
      let st := spans.foldl (paintSpan fixedBits pals layer tileset true)
        (memsetZero layer.mosaic.buffer fbwidth, pri)
      { scan := mosaicFlush pals layer (spans.getLast?.map Span.tile) 0 st.1 scan,
        priority := st.2, tmpindex := tmpindex, mosaic := st.1,
        ret := spans.any Span.setsPriority }
    else
      { scan := mosaicFlush pals layer none 0 layer.mosaic.buffer scan,
        priority := pri, tmpindex := tmpindex, mosaic := layer.mosaic.buffer, ret := false }
  else
    let spans := DrawLayerScanline.spans layer tileset tilemap nscan 2
    let st := spans.foldl (paintSpan fixedBits pals layer tileset false) (scan, pri)
    { scan := st.1, priority := st.2, tmpindex := tmpindex, mosaic := layer.mosaic.buffer,
      ret := spans.any Span.setsPriority }

/-! ## Fixed point (`FIXED_BITS` and the conversion macros are in a missing header) -/

/-- Modelled from the spec: the macro `int2fix`; section 4.10: the fixed-point format
is the integer shifted left by `FIXED_BITS`. -/
def int2fix (fixedBits : Nat) (a : Int) : Int := a * 2 ^ fixedBits

/-- Modelled from the spec: the macro `fix2int`, the inverse shift of `int2fix`
(section 4.10). -/
def fix2int (fixedBits : Nat) (a : Int) : Int := a >>> fixedBits

/-! ## Scaling layer renderer (`DrawLayerScanlineScaling`) -/

/-- The row `ypos` of the layer that a scaling-mode span samples. -/
def DrawLayerScanlineScaling.ypos (fixedBits : Nat) (layer : Layer) (nscan column : Int) : Int :=
  let y0 := match layer.column with
    | some offsets => nscan + offsets column
    | none => nscan
  let y := layer.vstart + fix2int fixedBits (y0 * layer.dy)
  if y < 0 then layer.height + y else cmod y layer.height

/-- The span loop of `DrawLayerScanlineScaling`: the list of its iterations. The loop
state is `x`, `fix_x`, `xtile`, `srcx`, `column` and the two destination
pointers; the first argument bounds the number of iterations. -/
def DrawLayerScanlineScaling.loop (fixedBits : Nat) (layer : Layer) (tileset : Tileset)
    (tilemap : Tilemap) (nscan shift : Int) :
    Nat → Int → Int → Int → Int → Int → Int → Int → List Span
  | 0, _, _, _, _, _, _, _ => []
  | fuel + 1, x, fix_x, xtile, srcx, column, dstoff, prioff =>
    if x < layer.clip.x2 then
      let ypos := DrawLayerScanlineScaling.ypos fixedBits layer nscan column
      let ytile := shr ypos tileset.vshift
      let srcy := band ypos tileset.vmask
      let tile := tilemap.tiles (ytile * tilemap.cols + xtile)
      let tilewidth := tileset.width - srcx
      let fix_x1 := fix_x + tilewidth * layer.xfactor
      let x1 := fix2int fixedBits fix_x1
      let tilescalewidth := x1 - x
      let dx := if tilescalewidth ≠ 0 then cdiv (int2fix fixedBits tilewidth) tilescalewidth else 0
      let x1c := if x1 > layer.clip.x2 then layer.clip.x2 else x1
      let width := x1c - x
      { x := x, width := width, tilewidth := tilewidth, xtile := xtile, ytile := ytile,
        srcx := srcx, srcy := srcy, column := column, tile := tile, step := dx,
        dstoff := dstoff, prioff := prioff } ::
        DrawLayerScanlineScaling.loop fixedBits layer tileset tilemap nscan shift fuel
          x1c fix_x1 (cmod (xtile + 1) tilemap.cols) 0 (column + 1)
          (dstoff + shl width shift) (prioff + shl width shift)
    else []

/-- The spans of `DrawLayerScanlineScaling` on scanline `nscan`. The iteration bound
is the clip width in fixed-point units plus one, which the loop does not
exceed when `fix_x` grows by at least one unit per span. -/
def DrawLayerScanlineScaling.spans (fixedBits : Nat) (layer : Layer) (tileset : Tileset)
    (tilemap : Tilemap) (nscan shift : Int) : List Span :=
  let x := layer.clip.x1
  let xpos := cmod (layer.hstart + fix2int fixedBits (x * layer.dx)) layer.width
  DrawLayerScanlineScaling.loop fixedBits layer tileset tilemap nscan shift
    ((int2fix fixedBits (layer.clip.x2 - layer.clip.x1)).toNat + 1)
    x (int2fix fixedBits x) (shr xpos tileset.hshift) (band xpos tileset.hmask)
    (cmod x tileset.width) (shl x shift) 0

/-- The procedure `DrawLayerScanlineScaling(nlayer, nscan)` on the data it touches. -/
def DrawLayerScanlineScalingCore (fixedBits : Nat) (pals : Nat → Option Palette) (fbwidth : Int)
    (layer : Layer) (tileset : Tileset) (tilemap : Tilemap) (nscan : Int)
    (scan pri tmpindex : Buf) : LayerOut :=
  if layer.mosaic.h ≠ 0 then
    if cmod nscan layer.mosaic.h = 0 then
      let spans := DrawLayerScanlineScaling.spans fixedBits layer tileset tilemap nscan 0
      let st := spans.foldl (paintSpan fixedBits pals layer tileset true)
        (memsetZero layer.mosaic.buffer fbwidth, pri)
      { scan := mosaicFlush pals layer (spans.getLast?.map Span.tile) 0 st.1 scan,
        priority := st.2, tmpindex := tmpindex, mosaic := st.1,
        ret := spans.any Span.setsPriority }
    else
      { scan := mosaicFlush pals layer none 0 layer.mosaic.buffer scan,
        priority := pri, tmpindex := tmpindex, mosaic := layer.mosaic.buffer, ret := false }
  else
    let spans := DrawLayerScanlineScaling.spans fixedBits layer tileset tilemap nscan 2
    let st := spans.foldl (paintSpan fixedBits pals layer tileset false) (scan, pri)
    { scan := st.1, priority := st.2, tmpindex := tmpindex, mosaic := layer.mosaic.buffer,
      ret := spans.any Span.setsPriority }

/-! ## Affine and pixel-mapping layer renderers -/

/-- The cell that the per-pixel renderers look up at layer position `(xpos, ypos)`. -/
def sampleCell (tileset : Tileset) (tilemap : Tilemap) (xpos ypos : Int) : Tile :=
  tilemap.tiles (shr ypos tileset.vshift * tilemap.cols + shr xpos tileset.hshift)

/-- The tile pixel that the per-pixel renderers read for a non-empty cell at layer
position `(xpos, ypos)`, after the H/V flip. -/
def samplePixel (tileset : Tileset) (tilemap : Tilemap) (xpos ypos : Int) : Nat :=
  let tile := sampleCell tileset tilemap xpos ypos
  let srcx0 := band xpos tileset.hmask
  let srcy0 := band ypos tileset.vmask
  let srcx := if hasFlag tile.flags FLAG_FLIPX then tileset.width - srcx0 - 1 else srcx0
  let srcy := if hasFlag tile.flags FLAG_FLIPY then tileset.height - srcy0 - 1 else srcy0
  GetTilesetPixel tileset (tileset.tiles (tile.index : Int) : Int) srcx srcy

/-- One iteration body shared by the per-pixel renderers: store the sampled pixel
at `dstoff` if the cell is not empty, and remember the cell as `tile`. -/
def plotPixel (tileset : Tileset) (tilemap : Tilemap) (xpos ypos dstoff : Int)
    (st : Buf × Option Tile) : Buf × Option Tile :=
  let tile := sampleCell tileset tilemap xpos ypos
  (if tile.index ≠ 0 then Function.update st.1 dstoff (samplePixel tileset tilemap xpos ypos)
   else st.1, some tile)

/-- The pixel loop `while (x < width)` of `DrawLayerScanlineAffine`. The loop state is
`x`, the fixed-point position `(x1, y1)` and the destination pointer. -/
def DrawLayerScanlineAffine.loop (fixedBits : Nat) (layer : Layer) (tileset : Tileset)
    (tilemap : Tilemap) (width dx dy : Int) :
    Nat → Int → Int → Int → Int → Buf × Option Tile → Buf × Option Tile
  | 0, _, _, _, _, st => st
  | fuel + 1, x, x1, y1, dstoff, st =>
    if x < width then
      let xpos := cmod (cabs (fix2int fixedBits x1 + layer.width)) layer.width
      let ypos := cmod (cabs (fix2int fixedBits y1 + layer.height)) layer.height
      DrawLayerScanlineAffine.loop fixedBits layer tileset tilemap width dx dy fuel
        (x + 1) (x1 + dx) (y1 + dy) (dstoff + 1) (plotPixel tileset tilemap xpos ypos dstoff st)
    else st

/-- The first pass of `DrawLayerScanlineAffine` from `x = clip.x1`: the end points of
the line are transformed, the steps derived, and the pixel loop run on
the index buffer `buf`, whose first element receives the first pixel. -/
def DrawLayerScanlineAffine.pass (fixedBits : Nat) (layer : Layer) (tileset : Tileset)
    (tilemap : Tilemap) (nscan : Int) (buf : Buf) : Buf × Option Tile :=
  let x := layer.clip.x1
  let width := layer.clip.x2
  let xpos := layer.hstart
  let ypos := layer.vstart + nscan
  let p1 := layer.transform xpos ypos
  let p2 := layer.transform (xpos + width) ypos
  let dx := cdiv (p2.1 - p1.1) width
  let dy := cdiv (p2.2 - p1.2) width
  DrawLayerScanlineAffine.loop fixedBits layer tileset tilemap width dx dy
    (width - x).toNat x p1.1 p1.2 0 (buf, none)

/-- The block at `draw_end` of the per-pixel renderers without mosaic: the `tmpindex`
line is blitted to the framebuffer line by `blitters[1]`; `offset` is
`clip.x1 << 2` for both pointers. -/
def indexFlush (fixedBits : Nat) (pals : Nat → Option Palette) (layer : Layer)
    (last : Option Tile) (tmpindex scan : Buf) : Buf :=
  let offset := shl layer.clip.x1 2
  let width := layer.clip.x2 - layer.clip.x1
  blitToWords (layer.blitters true) fixedBits pals tmpindex offset (lastPalette last)
    scan offset width 1 0 layer.blend

/-- The procedure `DrawLayerScanlineAffine(nlayer, nscan)` on the data it touches. -/
def DrawLayerScanlineAffineCore (fixedBits : Nat) (pals : Nat → Option Palette) (fbwidth : Int)
    (layer : Layer) (tileset : Tileset) (tilemap : Tilemap) (nscan : Int)
    (scan pri tmpindex : Buf) : LayerOut :=
  if layer.mosaic.h ≠ 0 then
    if cmod nscan layer.mosaic.h = 0 then
      let st := DrawLayerScanlineAffine.pass fixedBits layer tileset tilemap nscan
        (memsetZero layer.mosaic.buffer fbwidth)
      { scan := mosaicFlush pals layer st.2 0 st.1 scan,
        priority := pri, tmpindex := tmpindex, mosaic := st.1, ret := false }
    else
      { scan := mosaicFlush pals layer none 0 layer.mosaic.buffer scan,
        priority := pri, tmpindex := tmpindex, mosaic := layer.mosaic.buffer, ret := false }
  else
    let st := DrawLayerScanlineAffine.pass fixedBits layer tileset tilemap nscan
      (memsetZero tmpindex fbwidth)
    { scan := indexFlush fixedBits pals layer st.2 st.1 scan,
      priority := pri, tmpindex := st.1, mosaic := layer.mosaic.buffer, ret := false }

/-- The pixel loop `while (x < width)` of `DrawLayerScanlinePixelMapping`. The loop state
is `x`, the destination pointer and the pixel-map pointer `pm`. -/
def DrawLayerScanlinePixelMapping.loop (layer : Layer) (tileset : Tileset)
    (tilemap : Tilemap) (pixel_map : Int → TLN_PixelMap) (width hstart vstart : Int) :
    Nat → Int → Int → Int → Buf × Option Tile → Buf × Option Tile
  | 0, _, _, _, st => st
  | fuel + 1, x, dstoff, pm, st =>
    if x < width then
      let xpos := cmod (cabs (hstart + (pixel_map pm).dx)) layer.width
      let ypos := cmod (cabs (vstart + (pixel_map pm).dy)) layer.height
      DrawLayerScanlinePixelMapping.loop layer tileset tilemap pixel_map width hstart vstart fuel
        (x + 1) (dstoff + 1) (pm + 1) (plotPixel tileset tilemap xpos ypos dstoff st)
    else st

/-- The first pass of `DrawLayerScanlinePixelMapping`. A null `pixel_map` is
dereferenced in C; the model then plots nothing. -/
def DrawLayerScanlinePixelMapping.pass (fbwidth : Int) (layer : Layer) (tileset : Tileset)
    (tilemap : Tilemap) (nscan : Int) (buf : Buf) : Buf × Option Tile :=
  match layer.pixel_map with
  | none => (buf, none)
  | some pixel_map =>
    let x := layer.clip.x1
    let width := layer.clip.x2 - layer.clip.x1
    DrawLayerScanlinePixelMapping.loop layer tileset tilemap pixel_map width
      (layer.hstart + layer.width) (layer.vstart + layer.height)
      (width - x).toNat x 0 (nscan * fbwidth + x) (buf, none)

/-- The procedure `DrawLayerScanlinePixelMapping(nlayer, nscan)` on the data it touches. -/
def DrawLayerScanlinePixelMappingCore (fixedBits : Nat) (pals : Nat → Option Palette)
    (fbwidth : Int) (layer : Layer) (tileset : Tileset) (tilemap : Tilemap) (nscan : Int)
    (scan pri tmpindex : Buf) : LayerOut :=
  if layer.mosaic.h ≠ 0 then
    if cmod nscan layer.mosaic.h = 0 then
      let st := DrawLayerScanlinePixelMapping.pass fbwidth layer tileset tilemap nscan
        (memsetZero layer.mosaic.buffer fbwidth)
      { scan := mosaicFlush pals layer st.2 0 st.1 scan,
        priority := pri, tmpindex := tmpindex, mosaic := st.1, ret := true }
    else
      { scan := mosaicFlush pals layer none 0 layer.mosaic.buffer scan,
        priority := pri, tmpindex := tmpindex, mosaic := layer.mosaic.buffer, ret := true }
  else
    let st := DrawLayerScanlinePixelMapping.pass fbwidth layer tileset tilemap nscan
      (memsetZero tmpindex fbwidth)
    { scan := indexFlush fixedBits pals layer st.2 st.1 scan,
      priority := pri, tmpindex := st.1, mosaic := layer.mosaic.buffer, ret := true }

/-- A layer renderer run on the engine: the layer `nlayer`, its tileset and tilemap
are resolved, the renderer `core` runs on framebuffer line `nscan`, the
priority buffer and `tmpindex`, and the results are stored back. A layer
index or a handle that resolves to nothing is a wild pointer in C; the
model then draws nothing. -/
def runLayerDraw
    (core : Nat → (Nat → Option Palette) → Int → Layer → Tileset → Tilemap → Int →
      Buf → Buf → Buf → LayerOut)
    (env : Env) (nlayer : Nat) (nscan : Int) (e : Engine) : Bool × Engine :=
  match e.layers[nlayer]? with
  | none => (false, e)
  | some layer =>
    match e.tilesetAt layer.tileset, e.tilemapAt layer.tilemap with
    | some tileset, some tilemap =>
      let out := core env.FIXED_BITS e.indexed_palettes e.framebuffer.width layer tileset tilemap
        nscan (GetFramebufferLine e nscan) e.priority e.tmpindex
      (out.ret,
        { (e.setLine nscan out.scan) with
          priority := out.priority
          tmpindex := out.tmpindex
          layers := e.layers.set nlayer
            { layer with mosaic := { layer.mosaic with buffer := out.mosaic } } })
    | _, _ => (false, e)

/-! ## Sprite renderers -/

/-- The assignment `engine->sprites[i].collision = true`; an index outside the sprite
array does not reach the engine state. -/
def setCollision (sprites : List Sprite) (i : Nat) : List Sprite :=
  match sprites[i]? with
  | some s => sprites.set i { s with collision := true }
  | none => sprites

/-- The routine `DrawSpriteCollision(nsprite, srcpixel, dstpixel, width, dx)`: the loop
`while (width)` over the sprite list and the collision buffer. The first
argument is `width`; `srcoff` and `dstoff` are the two pointers. -/
def DrawSpriteCollision (nsprite : Nat) (src : Buf) (dx : Int) :
    Nat → Int → Int → List Sprite × Buf → List Sprite × Buf
  | 0, _, _, st => st
  | width + 1, srcoff, dstoff, st =>
    DrawSpriteCollision nsprite src dx width (srcoff + dx) (dstoff + 1)
      (if src srcoff ≠ 0 then
        ((if st.2 dstoff ≠ 0xFFFF then setCollision (setCollision st.1 nsprite) (st.2 dstoff)
          else st.1),
         Function.update st.2 dstoff (nsprite % 65536))
       else st)

/-- The routine `DrawSpriteCollisionScaling`: as `DrawSpriteCollision`, the source pixel
being `srcpixel[srcx / (1 << FIXED_BITS)]` for a fixed-point `srcx`. -/
def DrawSpriteCollisionScaling (fixedBits : Nat) (nsprite : Nat) (src : Buf) (srcoff dx : Int) :
    Nat → Int → Int → List Sprite × Buf → List Sprite × Buf
  | 0, _, _, st => st
  | width + 1, srcx, dstoff, st =>
    DrawSpriteCollisionScaling fixedBits nsprite src srcoff dx width (srcx + dx) (dstoff + 1)
      (if src (srcoff + cdiv srcx (2 ^ fixedBits)) ≠ 0 then
        ((if st.2 dstoff ≠ 0xFFFF then setCollision (setCollision st.1 nsprite) (st.2 dstoff)
          else st.1),
         Function.update st.2 dstoff (nsprite % 65536))
       else st)

/-- The procedure `DrawSpriteScanline(nsprite, nscan)`. A sprite index or tileset handle
that resolves to nothing is a wild pointer in C; the model then draws
nothing. A negative width makes the C loops run away; the model runs them
zero times. -/
def DrawSpriteScanline (env : Env) (nsprite : Nat) (nscan : Int) (e : Engine) : Bool × Engine :=
  match e.sprites[nsprite]? with
  | none => (true, e)
  | some sprite =>
    match e.tilesetAt sprite.tileset with
    | none => (true, e)
    | some tileset =>
      let srcx0 := sprite.srcrect.x1
      let srcy0 := sprite.srcrect.y1 + (nscan - sprite.dstrect.y1)
      let w := sprite.dstrect.x2 - sprite.dstrect.x1
      let direction : Int := if hasFlag sprite.flags FLAG_FLIPX then -1 else 1
      let srcx := if hasFlag sprite.flags FLAG_FLIPX then sprite.info.w - srcx0 - 1 else srcx0
      let srcy := if hasFlag sprite.flags FLAG_FLIPY then sprite.info.h - srcy0 - 1 else srcy0
      let srcoff := GetTilesetPixelAddr tileset sprite.tileset_entry srcx srcy
      let scan := blitToWords sprite.blitter env.FIXED_BITS e.indexed_palettes tileset.data srcoff
        sprite.palette_id (GetFramebufferLine e nscan) (shl sprite.dstrect.x1 2) w direction 0
        sprite.blend
      let e1 := e.setLine nscan scan
      if sprite.do_collision then
        let st := DrawSpriteCollision nsprite tileset.data direction w.toNat srcoff
          sprite.dstrect.x1 (e1.sprites, e1.collision)
        (true, { e1 with sprites := st.1, collision := st.2 })
      else (true, e1)

/-- The procedure `DrawScalingSpriteScanline(nsprite, nscan)`, under the conventions of
`DrawSpriteScanline`. -/
def DrawScalingSpriteScanline (env : Env) (nsprite : Nat) (nscan : Int) (e : Engine) :
    Bool × Engine :=
  match e.sprites[nsprite]? with
  | none => (true, e)
  | some sprite =>
    match e.tilesetAt sprite.tileset with
    | none => (true, e)
    | some tileset =>
      let srcx0 := sprite.srcrect.x1
      let srcy0 := sprite.srcrect.y1 + (nscan - sprite.dstrect.y1) * sprite.dy
      let dstw := sprite.dstrect.x2 - sprite.dstrect.x1
      let dx : Int := if hasFlag sprite.flags FLAG_FLIPX then -sprite.dx else sprite.dx
      let srcx := if hasFlag sprite.flags FLAG_FLIPX
        then int2fix env.FIXED_BITS sprite.info.w - srcx0 else srcx0
      let srcy := if hasFlag sprite.flags FLAG_FLIPY
        then int2fix env.FIXED_BITS sprite.info.h - srcy0 else srcy0
      let srcoff := GetTilesetPixelAddr tileset sprite.tileset_entry srcx srcy
      let scan := blitToWords sprite.blitter env.FIXED_BITS e.indexed_palettes tileset.data srcoff
        sprite.palette_id (GetFramebufferLine e nscan) (shl sprite.dstrect.x1 2) dstw dx srcx
        sprite.blend
      let e1 := e.setLine nscan scan
      if sprite.do_collision then
        let st := DrawSpriteCollisionScaling env.FIXED_BITS nsprite tileset.data srcoff dx
          dstw.toNat srcx sprite.dstrect.x1 (e1.sprites, e1.collision)
        (true, { e1 with sprites := st.1, collision := st.2 })
      else (true, e1)

/-- A call through a draw pointer, `draw(index, line)`. A call through `NULL` does
not return in C; the model draws nothing and yields false. -/
def callDraw (env : Env) (draw : Option ScanDrawPtr) (index : Nat) (line : Int) (e : Engine) :
    Bool × Engine :=
  match draw with
  | none => (false, e)
  | some .DrawSpriteScanline => DrawSpriteScanline env index line e
  | some .DrawScalingSpriteScanline => DrawScalingSpriteScanline env index line e
  | some .DrawLayerScanline => runLayerDraw DrawLayerScanlineCore env index line e
  | some .DrawLayerScanlineScaling => runLayerDraw DrawLayerScanlineScalingCore env index line e
  | some .DrawLayerScanlineAffine => runLayerDraw DrawLayerScanlineAffineCore env index line e
  | some .DrawLayerScanlinePixelMapping =>
    runLayerDraw DrawLayerScanlinePixelMappingCore env index line e

/-- The procedure `GetLayerDraw(layer)`. -/
def GetLayerDraw (layer : Layer) : Option ScanDrawPtr :=
  if layer.tilemap.isSome then drawers .DRAW_TILED_LAYER layer.mode else none

/-- The procedure `GetSpriteDraw(mode)`. -/
def GetSpriteDraw (mode : draw_t) : Option ScanDrawPtr := drawers .DRAW_SPRITE mode

/-! ## Scanline compositor (`DrawScanline`) -/

/-- What `DrawScanline` and the frame loop do that leaves no mark in the engine
state: the calls they make, in order. `scanline L` marks the entry of
`DrawScanline` with `engine->line = L`. -/
inductive Event
  | frame (cb : Nat) (frame : Int)
  | scanline (line : Int)
  | raster (cb : Nat) (line : Int)
  | layerDraw (nlayer : Nat) (line : Int)
  | spriteDraw (nsprite : Nat) (line : Int)
  | overlay (line : Int)
  deriving DecidableEq, Repr

/-- The routine `check_sprite_coverage(sprite, nscan)`. -/
def check_sprite_coverage (e : Engine) (sprite : Sprite) (nscan : Int) : Bool :=
  if nscan < sprite.dstrect.y1 ∨ nscan ≥ sprite.dstrect.y2 then false
  else if sprite.dstrect.x2 < 0 ∨ sprite.srcrect.x2 < 0 then false
  else if hasFlag sprite.flags FLAG_MASKED ∧ nscan ≥ e.sprite_mask_top
      ∧ nscan ≤ e.sprite_mask_bottom then false
  else true

/-- `memset(buf, 0, nbytes)` on a buffer of 32-bit words (little endian): whole words
are cleared, and the low bytes of a last, partly covered word. -/
def memsetZeroWords (buf : Buf) (nbytes : Int) : Buf :=
  fun p =>
    if 0 ≤ p ∧ 4 * p + 4 ≤ nbytes then 0
    else if 0 ≤ p ∧ 4 * p < nbytes then
      (buf p / 256 ^ (nbytes - 4 * p).toNat) * 256 ^ (nbytes - 4 * p).toNat
    else buf p

/-- `memset(buf, -1, n * sizeof(uint16_t))` on the collision buffer. -/
def memsetOnes16 (buf : Buf) (n : Int) : Buf :=
  fun p => if 0 ≤ p ∧ p < n then 0xFFFF else buf p

/-- The overlay loop of `DrawScanline`: every non-zero word of the priority buffer
below `width` replaces the pixel of the line. -/
def overlayPriority (scan pri : Buf) (width : Int) : Buf :=
  fun x => if 0 ≤ x ∧ x < width ∧ pri x ≠ 0 then pri x else scan x

/-- The state carried through the passes of `DrawScanline`: the engine, the locals
`background_priority` and `sprite_priority`, and the calls made so far. -/
structure PassState where
  engine : Engine
  background_priority : Bool
  sprite_priority : Bool
  events : List Event

/-- The assignment `layer->dirty = false` for layer `c`. -/
def clearLayerDirty (e : Engine) (c : Nat) : Engine :=
  match e.layers[c]? with
  | some layer => { e with layers := e.layers.set c { layer with dirty := false } }
  | none => e

/-- The block "update if dirty" of the layer loop, for layer `c` (`layer` is its
record on entry). -/
def DrawScanline.updateLayer (env : Env) (c : Nat) (layer : Layer) (e : Engine) : Engine :=
  if e.dirty || layer.dirty then clearLayerDirty (UpdateLayer env c e) c else e

/-- The block "draw" of the layer loop, for layer `c`. -/
def DrawScanline.drawLayer (env : Env) (line : Int) (c : Nat) (st : PassState) : PassState :=
  match st.engine.layers[c]? with
  | none => st
  | some layer =>
    if !layer.priority && decide (line ≥ layer.clip.y1) && decide (line ≤ layer.clip.y2) then
      { st with
        engine := (callDraw env layer.draw c line st.engine).2
        background_priority :=
          st.background_priority || (callDraw env layer.draw c line st.engine).1
        events := st.events ++ [Event.layerDraw c line] }
    else st

/-- The body of the loop "draw background layers" for layer `c`. -/
def DrawScanline.layerStep (env : Env) (line : Int) (st : PassState) (c : Nat) : PassState :=
  match st.engine.layers[c]? with
  | none => st
  | some layer =>
    if layer.ok then
      DrawScanline.drawLayer env line c
        { st with engine := DrawScanline.updateLayer env c layer st.engine }
    else st

/-- The block "update if dirty" of the sprite loop, for sprite `index` (`sprite` is
its record on entry). -/
def DrawScanline.updateSprite (env : Env) (index : Nat) (sprite : Sprite) (e : Engine) : Engine :=
  if sprite.world_space && (sprite.dirty || e.dirty) then
    let moved := { sprite with x := sprite.xworld - e.xworld, y := sprite.yworld - e.yworld }
    let updated := env.UpdateSprite e.framebuffer.width e.framebuffer.height moved
    { e with sprites := e.sprites.set index { updated with dirty := false } }
  else e

/-- The coverage test and the draw call of the sprite loop, for sprite `index`. -/
def DrawScanline.drawSprite (env : Env) (line : Int) (index : Nat) (st : PassState) : PassState :=
  match st.engine.sprites[index]? with
  | none => st
  | some sprite =>
    if check_sprite_coverage st.engine sprite line then
      if !hasFlag sprite.flags FLAG_PRIORITY then
        { st with
          engine := (callDraw env sprite.draw index line st.engine).2
          events := st.events ++ [Event.spriteDraw index line] }
      else { st with sprite_priority := true }
    else st

/-- The body of the loop "draw regular sprites" for sprite `index`. -/
def DrawScanline.spriteStep (env : Env) (line : Int) (st : PassState) (index : Nat) : PassState :=
  match st.engine.sprites[index]? with
  | none => st
  | some sprite =>
    if !sprite.ok then st
    else
      DrawScanline.drawSprite env line index
        { st with engine := DrawScanline.updateSprite env index sprite st.engine }

/-- The body of the loop "draw background layers with priority" for layer `c`; the
value returned by the draw procedure is dropped. -/
def DrawScanline.priorityLayerStep (env : Env) (line : Int) (st : PassState) (c : Nat) :
    PassState :=
  match st.engine.layers[c]? with
  | none => st
  | some layer =>
    if layer.ok && layer.priority && decide (line ≥ layer.clip.y1)
        && decide (line ≤ layer.clip.y2) then
      { st with
        engine := (callDraw env layer.draw c line st.engine).2
        events := st.events ++ [Event.layerDraw c line] }
    else st

/-- The block "overlay background tiles with priority". -/
def DrawScanline.overlayStep (line : Int) (st : PassState) : PassState :=
  if st.background_priority then
    { st with
      engine := st.engine.setLine line
        (overlayPriority (GetFramebufferLine st.engine line) st.engine.priority
          st.engine.framebuffer.width)
      events := st.events ++ [Event.overlay line] }
  else st

/-- The block "call raster effect callback" of `DrawScanline`. -/
def DrawScanline.afterRaster (env : Env) (e : Engine) : Engine :=
  match e.cb_raster with
  | some cb => env.callbacks cb e.line e
  | none => e

/-- The call that the block "call raster effect callback" makes, if any. -/
def DrawScanline.rasterCall (e : Engine) : List Event :=
  match e.cb_raster with
  | some cb => [Event.raster cb e.line]
  | none => []

/-- The state of `DrawScanline` when the layer loop starts: the raster callback has
run, the line is filled with the background color, the priority and
collision buffers are reset. `line` and `size` are the locals read before
the callback; the line written is line `line` of the render target that
is current after the callback. -/
def DrawScanline.start (env : Env) (e : Engine) : PassState :=
  let line := e.line
  let size := e.framebuffer.width
  let e1 := DrawScanline.afterRaster env e
  let e2 := e1.setLine line (BlitColor (GetFramebufferLine e1 line) e1.bgcolor size)
  { engine := { e2 with
      priority := memsetZeroWords e2.priority e2.framebuffer.pitch
      collision := memsetOnes16 e2.collision e2.framebuffer.width }
    background_priority := false
    sprite_priority := false
    events := Event.scanline line :: DrawScanline.rasterCall e }

/-- The three loops of `DrawScanline` and the overlay, from the state at the start
of the layer loop. Layer loops run from the highest index down to 0, the
sprite loop from 0 up. -/
def DrawScanline.passes (env : Env) (line : Int) (st : PassState) : PassState :=
  let st1 := (List.range st.engine.layers.length).reverse.foldl (DrawScanline.layerStep env line) st
  let st2 := (List.range st1.engine.sprites.length).foldl (DrawScanline.spriteStep env line) st1
  let st3 := (List.range st2.engine.layers.length).reverse.foldl
    (DrawScanline.priorityLayerStep env line) st2
  DrawScanline.overlayStep line st3

/-- The result of `DrawScanline`: its return value, the engine it leaves, and the
calls it made. -/
structure DrawResult where
  ret : Bool
  engine : Engine
  events : List Event

/-- The procedure `DrawScanline()`. -/
def DrawScanline (env : Env) (e : Engine) : DrawResult :=
  let st := DrawScanline.passes env e.line (DrawScanline.start env e)
  let e1 := { st.engine with dirty := false, line := st.engine.line + 1 }
  { ret := decide (e1.line < e1.framebuffer.height), engine := e1, events := st.events }

/-! ## Frame loop (`Tilengine.c`) -/

/-- The routine `BeginFrame(frame)`, with the call of the frame callback it makes. -/
def BeginFrame (env : Env) (frame : Int) (e : Engine) : Engine × List Event :=
  let e1 := if frame ≠ 0 then { e with frame := frame } else { e with frame := e.frame + 1 }
  let e2 := { e1 with line := 0 }
  match e2.cb_frame with
  | some cb => (env.callbacks cb e2.frame e2, [Event.frame cb e2.frame])
  | none => (e2, [])

/-- The loop `while (DrawScanline()) {}`. A callback may keep the loop going for
ever; `fuel` bounds the number of calls, and `none` means the bound was
reached before `DrawScanline` returned false. -/
def TLN_UpdateFrame.loop (env : Env) : Nat → Engine → List Event → Option (Engine × List Event)
  | 0, _, _ => none
  | fuel + 1, e, events =>
    let r := DrawScanline env e
    if r.ret then TLN_UpdateFrame.loop env fuel r.engine (events ++ r.events)
    else some (r.engine, events ++ r.events)

/-- The routine `TLN_UpdateFrame(frame)`, running at most `fuel` scanlines. -/
def TLN_UpdateFrame (env : Env) (fuel : Nat) (frame : Int) (e : Engine) :
    Option (Engine × List Event) :=
  let b := BeginFrame env frame e
  (TLN_UpdateFrame.loop env fuel b.1 b.2).map
    (fun r => (TLN_SetLastError .TLN_ERR_OK r.1, r.2))

/-- The routine `TLN_DisableLayer(nlayer)`. -/
def TLN_DisableLayer (env : Env) (nlayer : Int) (e : Engine) : Bool × Engine :=
  if nlayer ≥ e.numlayers then (false, TLN_SetLastError .TLN_ERR_IDX_LAYER e)
  else
    (true, TLN_SetLastError .TLN_ERR_OK
      (layerWrite e nlayer { layerRead env e nlayer with ok := false }))

/-! ## Projections used to state what a procedure leaves unchanged -/

/-- A layer without the contents of its mosaic line buffer. -/
def Layer.noBuffer (l : Layer) : Layer :=
  { l with mosaic := { l.mosaic with buffer := fun _ => 0 } }

/-- A sprite without its collision output flag. -/
def Sprite.noCollision (s : Sprite) : Sprite := { s with collision := false }

/-- The part of the engine state that no draw procedure writes: everything but the
pixel, priority, collision and index buffers, the mosaic line buffers and
the sprites' collision flags. -/
def Engine.control (e : Engine) : Engine :=
  { e with
    framebuffer := { e.framebuffer with data := fun _ _ => 0 }
    priority := fun _ => 0
    collision := fun _ => 0
    tmpindex := fun _ => 0
    layers := e.layers.map Layer.noBuffer
    sprites := e.sprites.map Sprite.noCollision }

/-- The part of the engine state that one call of `DrawScanline` reads but, the
raster callback and the final bookkeeping apart, never writes: everything
but the buffers, the layers, the sprites and the error code. -/
def Engine.globals (e : Engine) : Engine :=
  { e with
    framebuffer := { e.framebuffer with data := fun _ _ => 0 }
    priority := fun _ => 0
    collision := fun _ => 0
    tmpindex := fun _ => 0
    layers := []
    sprites := []
    error := .TLN_ERR_OK }

/-! ## A small concrete scene

An 8 x 8 tileset with one tile whose pixel `(x, y)` has index `x + 1`, a
2 x 2 tilemap, a 16 x 16 framebuffer, two layers and two sprites. The
theorems are instantiated on it. -/

/-- A layer slot as `calloc` leaves it: every field zero. -/
def blankLayer : Layer :=
  { tileset := none, tilemap := none, width := 0, height := 0, ok := false, priority := false,
    dirty := false, mode := .MODE_NORMAL, draw := none, blitters := fun _ => none,
    clip := { x1 := 0, y1 := 0, x2 := 0, y2 := 0 }, hstart := 0, vstart := 0, column := none,
    mosaic := { w := 0, h := 0, buffer := fun _ => 0 }, blend := none, dx := 0, dy := 0,
    xfactor := 0, transform := fun _ _ => (0, 0), pixel_map := none,
    world := { xfactor := fun _ => 0, yfactor := fun _ => 0, offsetx := 0, offsety := 0 } }

/-- A sprite slot as `TLN_Init` leaves it. -/
def blankSprite : Sprite :=
  { palette_id := 0, info := { w := 0, h := 0 }, tileset := none, tileset_entry := 0,
    x := 0, y := 0, dx := 0, dy := 0, xworld := 0, yworld := 0,
    srcrect := { x1 := 0, y1 := 0, x2 := 0, y2 := 0 },
    dstrect := { x1 := 0, y1 := 0, x2 := 0, y2 := 0 },
    mode := .MODE_NORMAL, blend := none, flags := 0,
    draw := GetSpriteDraw .MODE_NORMAL, blitter := some (GetBlitter 32 true false false),
    ok := false, do_collision := false, collision := false, world_space := false,
    dirty := false }

/-- The demo tileset: one 8 x 8 tile (slot 1) with pixel `(x, y) = x + 1`. -/
def demoTileset : Tileset :=
  { tstype := .TILESET_TILES, numtiles := 2, width := 8, height := 8, hshift := 3, vshift := 3,
    hmask := 7, vmask := 7, attributes := none, color_key := fun _ => false,
    tiles := fun i => i.toNat,
    data := fun a => if 64 ≤ a ∧ a < 128 then (a % 8).toNat + 1 else 0 }

/-- The demo tilemap, 2 x 2 cells: tile 1, tile 1 flipped horizontally, an empty
cell, and tile 1 again. -/
def demoTilemap : Tilemap :=
  { rows := 2, cols := 2, maxindex := 1, bgcolor := 0, id := 0, visible := true,
    tileset := some 0,
    tiles := fun i =>
      if i = 0 then { index := 1, flags := 0 }
      else if i = 1 then { index := 1, flags := FLAG_FLIPX }
      else if i = 3 then { index := 1, flags := 0 }
      else { index := 0, flags := 0 } }

/-- The demo palette: entry `i` is the opaque color `0xFF000000 + i`. -/
def demoPalette : Palette :=
  { entries := 256, data := fun i => 0xFF000000 + i.toNat }

/-- The demo layer: normal mode, bound to the demo tilemap, full-screen clip. -/
def demoLayer : Layer :=
  { blankLayer with
    tileset := some 0, tilemap := some 0, width := 16, height := 16, ok := true,
    draw := some .DrawLayerScanline,
    blitters := fun k => some (GetBlitter 32 k false false),
    clip := { x1 := 0, y1 := 0, x2 := 16, y2 := 16 } }

/-- The demo sprite: the 8 x 8 tile at screen position `(x, 0)`, collision enabled. -/
def demoSprite (x : Int) : Sprite :=
  { blankSprite with
    info := { w := 8, h := 8 }, tileset := some 0, tileset_entry := 1, x := x, y := 0,
    srcrect := { x1 := 0, y1 := 0, x2 := 8, y2 := 8 },
    dstrect := { x1 := x, y1 := 0, x2 := x + 8, y2 := 8 },
    ok := true, do_collision := true }

/-- The demo engine: a 16 x 16 framebuffer, the demo layer in slot 0, a disabled
layer in slot 1, two overlapping sprites, and no callback. -/
def demoEngine : Engine :=
  { framebuffer := { data := fun _ _ => 0, width := 16, height := 16, pitch := 64 },
    line := 0, frame := 0, dirty := false, bgcolor := 0xFF101010,
    cb_raster := none, cb_frame := none, xworld := 0, yworld := 0,
    sprite_mask_top := 0, sprite_mask_bottom := 0,
    priority := fun _ => 0, collision := fun _ => 0, tmpindex := fun _ => 0,
    layers := [demoLayer, { demoLayer with ok := false }],
    sprites := [demoSprite 0, demoSprite 4],
    error := .TLN_ERR_OK, log_level := .TLN_LOG_NONE,
    tilesets := fun h => if h = 0 then some demoTileset else none,
    tilemaps := fun h => if h = 0 then some demoTilemap else none,
    indexed_palettes := fun id => if id = 0 then some demoPalette else none }

/-- The demo environment: one raster callback, which sets the background color to
`0xFF0000FF` on line 1; `UpdateSprite` keeps the rectangles as they are. -/
def demoEnv : Env :=
  { callbacks := fun _ L e => if L = 1 then { e with bgcolor := 0xFF0000FF } else e
    UpdateSprite := fun _ _ s => s
    FIXED_BITS := 16
    outside := fun _ => blankLayer }

/-! ## Vocabulary of the ordering theorem -/

/-- What decides whether a layer loop of `DrawScanline` calls a layer's draw
procedure: the flags `ok` and `priority` and the vertical clip range. -/
def Layer.sched (l : Layer) : Bool × Bool × Int × Int :=
  (l.ok, l.priority, l.clip.y1, l.clip.y2)

/-- The test on `Layer.sched` of the layer loop for whole-layer priority `priority`:
the layer is enabled, its priority flag is `priority`, and
`clip.y1 ≤ line ≤ clip.y2`. -/
def schedDrawn (line : Int) (priority : Bool) (s : Option (Bool × Bool × Int × Int)) : Bool :=
  match s with
  | some (ok, pri, y1, y2) => ok && (pri == priority) && decide (y1 ≤ line) && decide (line ≤ y2)
  | none => false

/-- Layer `c` of the scene `e` is enabled, its whole-layer priority flag is
`priority`, and `clip.y1 ≤ line ≤ clip.y2`. -/
def layerDrawn (e : Engine) (line : Int) (priority : Bool) (c : Nat) : Bool :=
  schedDrawn line priority ((e.layers[c]?).map Layer.sched)

/-- Sprite `i` is enabled in the scene `e` and, with the rectangles and flags it has
in `e'`, is covered on `line` and lacks `FLAG_PRIORITY`. -/
def spriteDrawn (e e' : Engine) (line : Int) (i : Nat) : Bool :=
  match e.sprites[i]?, e'.sprites[i]? with
  | some s, some s' => s.ok && check_sprite_coverage e' s' line && !hasFlag s'.flags FLAG_PRIORITY
  | _, _ => false

/-- The relation between two engine states that differ only in what the draw
procedures and the layer update write. -/
def Similar (e e' : Engine) : Prop :=
  e'.globals = e.globals
  ∧ e'.layers.map Layer.sched = e.layers.map Layer.sched
  ∧ e'.sprites.map Sprite.noCollision = e.sprites.map Sprite.noCollision

/-! ## Vocabulary of the normal-mode renderer theorems -/

/-- What holds of a span `s` of the normal-mode loop entered at position `x0` with the
destination pointers at `dstoff0` and `prioff0`: where the span lies, how
its fields were computed, and where its destination pointers stand. -/
structure SpanWF (layer : Layer) (tileset : Tileset) (tilemap : Tilemap)
    (nscan shift x0 dstoff0 prioff0 : Int) (s : Span) : Prop where
  x_ge : x0 ≤ s.x
  width_pos : 1 ≤ s.width
  width_le : s.width ≤ s.tilewidth
  in_clip : s.x + s.width ≤ layer.clip.x2
  width_eq : s.width = s.tilewidth ∨ s.x + s.width = layer.clip.x2
  tilewidth_eq : s.tilewidth = tileset.width - s.srcx
  srcx_nonneg : 0 ≤ s.srcx
  srcx_lt : s.srcx < tileset.width
  step_eq : s.step = 1
  tile_eq : s.tile = tilemap.tiles (s.ytile * tilemap.cols + s.xtile)
  ytile_eq : s.ytile = shr (DrawLayerScanline.ypos layer nscan s.column) tileset.vshift
  srcy_eq : s.srcy = band (DrawLayerScanline.ypos layer nscan s.column) tileset.vmask
  dstoff_eq : s.dstoff = dstoff0 + shl (s.x - x0) shift
  prioff_eq : s.prioff = prioff0 + shl (s.x - x0) shift

/-- The scenes of the normal-mode theorems: the tileset invariants that
`TLN_CreateTileset` establishes, the layer size that `TLN_SetLayerTilemap`
sets, a position as `TLN_SetLayerPosition` stores it, a clip rectangle as
`TLN_SetLayerClip` stores it, mosaic off, no column offsets, and a scanline
of the frame. -/
structure NormalScene (layer : Layer) (tileset : Tileset) (tilemap : Tilemap)
    (nscan : Int) : Prop where
  hshift_nonneg : 0 ≤ tileset.hshift
  vshift_nonneg : 0 ≤ tileset.vshift
  width_eq : tileset.width = 2 ^ tileset.hshift.toNat
  height_eq : tileset.height = 2 ^ tileset.vshift.toNat
  hmask_eq : tileset.hmask = tileset.width - 1
  vmask_eq : tileset.vmask = tileset.height - 1
  cols_pos : 0 < tilemap.cols
  rows_pos : 0 < tilemap.rows
  layer_width : layer.width = tilemap.cols * tileset.width
  layer_height : layer.height = tilemap.rows * tileset.height
  hstart_nonneg : 0 ≤ layer.hstart
  vstart_nonneg : 0 ≤ layer.vstart
  nscan_nonneg : 0 ≤ nscan
  clip_nonneg : 0 ≤ layer.clip.x1
  mosaic_off : layer.mosaic.h = 0
  no_column : layer.column = none

/-- Follows the claim: the tilemap cell under destination `x` of line `L`, at row
`Y / tile_h` and column `X / tile_w`, where `X = (hstart + x) mod layer_width`
and `Y = (vstart + L) mod layer_height`. -/
def specCell (layer : Layer) (tileset : Tileset) (tilemap : Tilemap) (L x : Int) : Tile :=
  tilemap.tiles
    (((layer.vstart + L) % layer.height) / tileset.height * tilemap.cols
      + ((layer.hstart + x) % layer.width) / tileset.width)

/-- Follows the claim: the in-tile column `u = X mod tile_w`, replaced by
`tile_w - 1 - u` when the cell has `FLAG_FLIPX`. -/
def specSrcX (layer : Layer) (tileset : Tileset) (tilemap : Tilemap) (L x : Int) : Int :=
  if hasFlag (specCell layer tileset tilemap L x).flags FLAG_FLIPX
  then tileset.width - 1 - ((layer.hstart + x) % layer.width) % tileset.width
  else ((layer.hstart + x) % layer.width) % tileset.width

/-- Follows the claim: the in-tile row `v = Y mod tile_h`, replaced by
`tile_h - 1 - v` when the cell has `FLAG_FLIPY`. -/
def specSrcY (layer : Layer) (tileset : Tileset) (tilemap : Tilemap) (L x : Int) : Int :=
  if hasFlag (specCell layer tileset tilemap L x).flags FLAG_FLIPY
  then tileset.height - 1 - ((layer.vstart + L) % layer.height) % tileset.height
  else ((layer.vstart + L) % layer.height) % tileset.height

/-- Follows the claim: the source index shown at destination `x` of line `L`, the
pixel `(u, v)` after flipping of the tile of the cell under `x`. -/
def specSourceIndex (layer : Layer) (tileset : Tileset) (tilemap : Tilemap) (L x : Int) : Nat :=
  GetTilesetPixel tileset
    ((tileset.tiles ((specCell layer tileset tilemap L x).index : Int) : Nat) : Int)
    (specSrcX layer tileset tilemap L x) (specSrcY layer tileset tilemap L x)

/-- The demo layer scrolled to `(8, 0)`: the horizontally flipped cell of the demo
tilemap lies under the destination pixels 0 to 7. -/
def demoLayerFlipped : Layer := { demoLayer with hstart := 8 }

/-- The demo layer scrolled to `(8, 8)` with a 16 x 1 mosaic and the 8-bit blitters
that `TLN_SetLayerMosaic` binds: tile 1 lies under the destination pixels
0 to 7 and the empty cell under the pixels 8 to 15. -/
def demoLayerMosaic : Layer :=
  { demoLayer with
    hstart := 8, vstart := 8,
    mosaic := { w := 16, h := 1, buffer := fun _ => 0 },
    blitters := fun k => some (GetBlitter 8 k false false) }

/-! ## Vocabulary of the frame theorems -/

/-- The scanlines on which `DrawScanline` was entered, in the order of the calls. -/
def scanlines (events : List Event) : List Int :=
  events.filterMap (fun ev => match ev with
    | Event.scanline L => some L
    | _ => none)

/-- The raster callbacks that were called, with their line argument, in order. -/
def rasterCalls (events : List Event) : List (Nat × Int) :=
  events.filterMap (fun ev => match ev with
    | Event.raster cb L => some (cb, L)
    | _ => none)

/-- The draw calls and the overlay that `DrawScanline` makes on line `line` for the
scene `e`, whose sprites have the rectangles of `e'`: non-priority layers
from the highest index down, sprites from index 0 up, priority layers
from the highest index down, and the overlay if `overlay`. -/
def drawCalls (e e' : Engine) (line : Int) (overlay : Bool) : List Event :=
  ((List.range e.layers.length).reverse.filter (layerDrawn e line false)).map
      (fun c => Event.layerDraw c line)
    ++ ((List.range e.sprites.length).filter (spriteDrawn e e' line)).map
      (fun i => Event.spriteDraw i line)
    ++ ((List.range e.layers.length).reverse.filter (layerDrawn e line true)).map
      (fun c => Event.layerDraw c line)
    ++ (if overlay then [Event.overlay line] else [])

/-- The demo engine with no layer and no sprite, and the demo raster callback
registered. -/
def demoBareEngine : Engine :=
  { demoEngine with layers := [], sprites := [], cb_raster := some 0 }

/-! ## Vocabulary of the disabled-layer theorem -/

/-- The engine with the record of layer `k` replaced by `l`. -/
def Engine.setLayer (e : Engine) (k : Nat) (l : Layer) : Engine :=
  { e with layers := e.layers.set k l }

/-- The state of the passes with the record of layer `k` replaced by `l`. -/
def PassState.setLayer (st : PassState) (k : Nat) (l : Layer) : PassState :=
  { st with engine := st.engine.setLayer k l }

/-- The sprite's draw pointer is an entry of the sprite row of `drawers`, as every
pointer that `GetSpriteDraw` hands out is. -/
def Sprite.drawOk (s : Sprite) : Prop := ∃ mode, s.draw = GetSpriteDraw mode

/-! ## Vocabulary of the collision theorems -/

/-- The collision flag of sprite `i`; false for an index outside the sprite array. -/
def flagged (sprites : List Sprite) (i : Nat) : Bool :=
  match sprites[i]? with
  | some s => s.collision
  | none => false

/-- The common shape of the loops of `DrawSpriteCollision` and
`DrawSpriteCollisionScaling`: `width` slots from `dstoff` on are visited in
order, `pix p` being the source pixel tested for slot `p`. -/
def collisionLoop (nsprite : Nat) (pix : Int → Nat) :
    Nat → Int → List Sprite × Buf → List Sprite × Buf
  | 0, _, st => st
  | width + 1, dstoff, st =>
    collisionLoop nsprite pix width (dstoff + 1)
      (if pix dstoff ≠ 0 then
        ((if st.2 dstoff ≠ 0xFFFF then setCollision (setCollision st.1 nsprite) (st.2 dstoff)
          else st.1),
         Function.update st.2 dstoff (nsprite % 65536))
       else st)

/-- The source pixel that the collision pass of `sprite` tests on line `nscan` for
collision slot `p`, from the arguments that `DrawSpriteScanline` hands to
`DrawSpriteCollision` and `DrawScalingSpriteScanline` to
`DrawSpriteCollisionScaling`; 0 when the draw pointer is neither. -/
def collisionPixel (env : Env) (ts : Tileset) (sprite : Sprite) (nscan p : Int) : Nat :=
  match sprite.draw with
  | some .DrawSpriteScanline =>
    let srcx0 := sprite.srcrect.x1
    let srcy0 := sprite.srcrect.y1 + (nscan - sprite.dstrect.y1)
    let direction : Int := if hasFlag sprite.flags FLAG_FLIPX then -1 else 1
    let srcx := if hasFlag sprite.flags FLAG_FLIPX then sprite.info.w - srcx0 - 1 else srcx0
    let srcy := if hasFlag sprite.flags FLAG_FLIPY then sprite.info.h - srcy0 - 1 else srcy0
    ts.data (GetTilesetPixelAddr ts sprite.tileset_entry srcx srcy
      + (p - sprite.dstrect.x1) * direction)
  | some .DrawScalingSpriteScanline =>
    let srcx0 := sprite.srcrect.x1
    let srcy0 := sprite.srcrect.y1 + (nscan - sprite.dstrect.y1) * sprite.dy
    let dx : Int := if hasFlag sprite.flags FLAG_FLIPX then -sprite.dx else sprite.dx
    let srcx := if hasFlag sprite.flags FLAG_FLIPX
      then int2fix env.FIXED_BITS sprite.info.w - srcx0 else srcx0
    let srcy := if hasFlag sprite.flags FLAG_FLIPY
      then int2fix env.FIXED_BITS sprite.info.h - srcy0 else srcy0
    ts.data (GetTilesetPixelAddr ts sprite.tileset_entry srcx srcy
      + cdiv (srcx + (p - sprite.dstrect.x1) * dx) (2 ^ env.FIXED_BITS))
  | _ => 0

/-- The sprite record `sprite` of the scene `e` places a non-zero pixel on collision
slot `p` of line `nscan`: it is enabled, covered on the line, lacks
`FLAG_PRIORITY`, is collision-enabled, its tileset resolves,
`dstrect.x1 ≤ p < dstrect.x2`, and the source pixel for `p` is not 0. -/
def spriteHits (env : Env) (e : Engine) (sprite : Sprite) (nscan p : Int) : Bool :=
  sprite.ok && check_sprite_coverage e sprite nscan && !hasFlag sprite.flags FLAG_PRIORITY
    && sprite.do_collision && decide (sprite.dstrect.x1 ≤ p) && decide (p < sprite.dstrect.x2)
    && match e.tilesetAt sprite.tileset with
       | some ts => collisionPixel env ts sprite nscan p != 0
       | none => false

/-- Sprite `i` of the scene `e` places a non-zero pixel on collision slot `p` of line
`nscan`. -/
def hits (env : Env) (e : Engine) (i : Nat) (nscan p : Int) : Bool :=
  match e.sprites[i]? with
  | some s => spriteHits env e s nscan p
  | none => false

/-- The effect on the sprite list and the collision buffer of a collision pass of sprite
`i` that visits, under non-zero source pixels, the slots `hit`. -/
def Marks (i : Nat) (hit : Int → Bool) (a b : List Sprite × Buf) : Prop :=
  (∀ p, b.2 p = if hit p then i % 65536 else a.2 p)
  ∧ (∀ j, flagged b.1 j = true
      ↔ flagged a.1 j = true
        ∨ (j < a.1.length ∧ ∃ p, hit p = true ∧ a.2 p ≠ 0xFFFF ∧ (j = i ∨ j = a.2 p)))
  ∧ b.1.map Sprite.noCollision = a.1.map Sprite.noCollision

/-- The layer's draw pointer is `NULL` or an entry of the layer row of `drawers`, as
every pointer that `GetLayerDraw` hands out is. -/
def Layer.drawOk (l : Layer) : Prop :=
  l.draw = none ∨ ∃ mode, l.draw = drawers .DRAW_TILED_LAYER mode

/-- The part of the engine state that stays fixed during a frame without callbacks:
`Engine.globals` without the line and frame counters and the dirty flag. -/
def Engine.frameGlobals (e : Engine) : Engine :=
  { e.globals with line := 0, frame := 0, dirty := false }

/-- A scene for the collision theorems: no raster callback, at most 65535 sprites
(slot values are 16-bit and `0xFFFF` means empty), no world-space sprite
(so that `UpdateSprite`, which is not among the sources, is not called),
every sprite's `dstrect` inside the framebuffer width (the part of the
collision buffer that `DrawScanline` resets) and of non-negative width (the
C loops `while (width)` do not end for a negative one), and layer draw
pointers from the layer row of `drawers`. -/
structure CollisionScene (e : Engine) : Prop where
  no_raster : e.cb_raster = none
  count : e.sprites.length ≤ 65535
  sprites : ∀ s ∈ e.sprites,
    s.world_space = false ∧ 0 ≤ s.dstrect.x1 ∧ s.dstrect.x2 ≤ e.framebuffer.width
      ∧ s.dstrect.x1 ≤ s.dstrect.x2
  layers : ∀ l ∈ e.layers, l.drawOk

/-- Engine state `x` has the sprites of the scene `e` up to their collision flags,
the layer draw pointers of `e`, and the frame globals of `e`. -/
structure Kin (e x : Engine) : Prop where
  sprites : x.sprites.map Sprite.noCollision = e.sprites.map Sprite.noCollision
  draws : x.layers.map Layer.draw = e.layers.map Layer.draw
  globals : x.frameGlobals = e.frameGlobals

/-! ## Object handles

`Object.c`, which keeps the kind tag of every object, is not among the
sources. In the model a handle is `none` (the null pointer) or `some k`, and
designates a live object of a kind exactly if the store of that kind holds
an object at `k`. -/

/-- Modelled from the spec: `CheckBaseObject(ptr, kind)` of the missing `Object.c`.
Section 6: an operation validates its handles against the object-kind tags
and records an error code before it returns a falsy value; the error kinds
are "null pointer" and "invalid reference" of the kind. A null handle
records `TLN_ERR_NULL_POINTER`, a handle that designates no live object of
the kind records the kind's code `refError`, a valid handle records
nothing and yields the object. -/
def CheckBaseObject {α : Type} (store : Nat → Option α) (refError : TLN_Error)
    (h : Option Nat) (e : Engine) : Option α × Engine :=
  match h with
  | none => (none, TLN_SetLastError .TLN_ERR_NULL_POINTER e)
  | some k =>
    match store k with
    | none => (none, TLN_SetLastError refError e)
    | some o => (some o, e)

/-! ## Layer operations (`Layer.c`, `World.c`) -/

/-- Blend modes (`TLN_Blend`). -/
inductive TLN_Blend
  | BLEND_NONE
  | BLEND_MIX25
  | BLEND_MIX50
  | BLEND_MIX75
  | BLEND_ADD
  | BLEND_SUB
  | BLEND_MOD
  | BLEND_CUSTOM
  deriving DecidableEq, Repr

/-- The routine `SelectBlitter(layer)`. -/
def SelectBlitter (layer : Layer) : Layer :=
  let scaling := decide (layer.mode = .MODE_SCALING)
  let blend := if layer.mosaic.h = 0 then layer.blend.isSome else false
  let bpp : Int := if layer.mosaic.h = 0 then 32 else 8
  { layer with blitters := fun k => some (GetBlitter bpp k scaling blend) }

/-- The body of the loop "apply priority attribute" of `TLN_SetLayerTilemap` for one
cell: `flags |= FLAG_PRIORITY` or `flags &= ~FLAG_PRIORITY` on the 16-bit
flag word of a non-empty cell. -/
def applyPriorityAttribute (attributes : Int → TLN_TileAttributes) (tile : Tile) : Tile :=
  if tile.index ≠ 0 then
    if (attributes ((tile.index : Int) - 1)).priority then
      { tile with flags := tile.flags ||| FLAG_PRIORITY }
    else { tile with flags := tile.flags &&& 0xEFFF }
  else tile

/-- The loop "apply priority attribute" of `TLN_SetLayerTilemap` over the cells
`0 .. rows * cols - 1` of the tilemap. -/
def applyPriorityAttributes (tileset : Tileset) (tilemap : Tilemap) : Tilemap :=
  match tileset.attributes with
  | some attributes =>
    { tilemap with
      tiles := fun c =>
        if 0 ≤ c ∧ c < tilemap.rows * tilemap.cols
        then applyPriorityAttribute attributes (tilemap.tiles c) else tilemap.tiles c }
  | none => tilemap

/-- Store a tilemap back at its handle. -/
def Engine.setTilemap (e : Engine) (k : Nat) (tm : Tilemap) : Engine :=
  { e with tilemaps := fun j => if j = k then some tm else e.tilemaps j }

/-- The routine `TLN_SetLayerTilemap(nlayer, tilemap)`. -/
def TLN_SetLayerTilemap (env : Env) (nlayer : Int) (tilemap : Option Nat) (e : Engine) :
    Bool × Engine :=
  if nlayer ≥ e.numlayers then (false, TLN_SetLastError .TLN_ERR_IDX_LAYER e)
  else
    let layer0 := { layerRead env e nlayer with ok := false }
    let e0 := layerWrite e nlayer layer0
    match tilemap, CheckBaseObject e0.tilemaps .TLN_ERR_REF_TILEMAP tilemap e0 with
    | some k, (some tm, e1) =>
      match CheckBaseObject e1.tilesets .TLN_ERR_REF_TILESET tm.tileset e1 with
      | (some ts, e2) =>
        let layer1 :=
          if tm.maxindex ≤ ts.numtiles then
            { layer0 with
              tileset := tm.tileset, tilemap := tilemap
              width := tm.cols * ts.width, height := tm.rows * ts.height }
          else layer0
        let e3 := e2.setTilemap k (applyPriorityAttributes ts tm)
        let layer2 :=
          if tm.visible then
            SelectBlitter { layer1 with ok := true, draw := GetLayerDraw { layer1 with ok := true } }
          else layer1
        (true, TLN_SetLastError .TLN_ERR_OK (layerWrite e3 nlayer layer2))
      | (none, e2) => (false, e2)
    | _, (_, e1) => (false, e1)

/-- The routine `TLN_SetLayerPriority(nlayer, enable)`; it records no error code on
success. -/
def TLN_SetLayerPriority (env : Env) (nlayer : Int) (enable : Bool) (e : Engine) :
    Bool × Engine :=
  if nlayer ≥ e.numlayers then (false, TLN_SetLastError .TLN_ERR_IDX_LAYER e)
  else (true, layerWrite e nlayer { layerRead env e nlayer with priority := enable })

/-- The routine `TLN_SetLayerBlendMode(nlayer, mode)`. `SelectBlendTable` belongs to the
missing `Tables.c` and is a parameter; it yields `none` for the null table. -/
def TLN_SetLayerBlendMode (env : Env) (SelectBlendTable : TLN_Blend → Option BlendTable)
    (nlayer : Int) (mode : TLN_Blend) (e : Engine) : Bool × Engine :=
  if nlayer ≥ e.numlayers then (false, TLN_SetLastError .TLN_ERR_IDX_LAYER e)
  else
    (true, TLN_SetLastError .TLN_ERR_OK (layerWrite e nlayer
      (SelectBlitter { layerRead env e nlayer with blend := SelectBlendTable mode })))

/-- The routine `TLN_SetLayerColumnOffset(nlayer, offset)`. -/
def TLN_SetLayerColumnOffset (env : Env) (nlayer : Int) (offset : Option (Int → Int))
    (e : Engine) : Bool × Engine :=
  if nlayer ≥ e.numlayers then (false, TLN_SetLastError .TLN_ERR_IDX_LAYER e)
  else
    (true, TLN_SetLastError .TLN_ERR_OK (layerWrite e nlayer
      { layerRead env e nlayer with column := offset }))

/-- The routine `TLN_EnableLayer(nlayer)`; on success it records
`TLN_ERR_IDX_LAYER`, as the source does. -/
def TLN_EnableLayer (env : Env) (nlayer : Int) (e : Engine) : Bool × Engine :=
  if nlayer ≥ e.numlayers then (false, TLN_SetLastError .TLN_ERR_IDX_LAYER e)
  else
    let layer := layerRead env e nlayer
    if layer.tilemap.isSome ∧ layer.tileset.isSome then
      (true, TLN_SetLastError .TLN_ERR_IDX_LAYER (layerWrite e nlayer { layer with ok := true }))
    else (false, TLN_SetLastError .TLN_ERR_NULL_POINTER e)

/-- The routine `TLN_ResetLayerMode(nlayer)`. -/
def TLN_ResetLayerMode (env : Env) (nlayer : Int) (e : Engine) : Bool × Engine :=
  if nlayer ≥ e.numlayers then (false, TLN_SetLastError .TLN_ERR_IDX_LAYER e)
  else
    let layer := { layerRead env e nlayer with mode := .MODE_NORMAL }
    (true, TLN_SetLastError .TLN_ERR_OK (layerWrite e nlayer
      (SelectBlitter { layer with draw := GetLayerDraw layer })))

/-- The routine `TLN_SetLayerAffineTransform(nlayer, affine)`. The record `TLN_Affine`
holds C floats and the matrix routines belong to the missing `Math2D`; a
non-null `affine` is represented by the map from the layer position
`(hstart, vstart)` to the transform that the matrix products yield. -/
def TLN_SetLayerAffineTransform (env : Env) (nlayer : Int)
    (affine : Option (Int → Int → Int → Int → Int × Int)) (e : Engine) : Bool × Engine :=
  if nlayer ≥ e.numlayers then (false, TLN_SetLastError .TLN_ERR_IDX_LAYER e)
  else
    match affine with
    | some matrix =>
      let layer0 := layerRead env e nlayer
      let layer :=
        { layer0 with transform := matrix layer0.hstart layer0.vstart, mode := .MODE_TRANSFORM }
      (true, TLN_SetLastError .TLN_ERR_OK (layerWrite e nlayer
        (SelectBlitter { layer with draw := GetLayerDraw layer })))
    | none => TLN_ResetLayerMode env nlayer e

/-- The routine `TLN_SetLayerScaling(nlayer, sx, sy)`. The factors are C floats; the
arguments of the model are the fixed-point values `float2fix(sx)`,
`float2fix(1.0f / sx)` and `float2fix(1.0f / sy)` that the routine stores. -/
def TLN_SetLayerScaling (env : Env) (nlayer : Int) (xfactor dx dy : Int) (e : Engine) :
    Bool × Engine :=
  if nlayer ≥ e.numlayers then (false, TLN_SetLastError .TLN_ERR_IDX_LAYER e)
  else
    let layer :=
      { layerRead env e nlayer with xfactor := xfactor, dx := dx, dy := dy, mode := .MODE_SCALING }
    (true, TLN_SetLastError .TLN_ERR_OK (layerWrite e nlayer
      (SelectBlitter { layer with draw := GetLayerDraw layer })))

/-- The routine `TLN_SetLayerPixelMapping(nlayer, table)`; it records no error code on
success and does not select the blitters again. -/
def TLN_SetLayerPixelMapping (env : Env) (nlayer : Int) (table : Option (Int → TLN_PixelMap))
    (e : Engine) : Bool × Engine :=
  if nlayer ≥ e.numlayers then (false, TLN_SetLastError .TLN_ERR_IDX_LAYER e)
  else
    let layer :=
      { layerRead env e nlayer with
        pixel_map := table
        mode := if table.isSome then .MODE_PIXEL_MAP else .MODE_NORMAL }
    (true, layerWrite e nlayer { layer with draw := GetLayerDraw layer })

/-- The routine `TLN_SetLayerClip(nlayer, x1, y1, x2, y2)`. -/
def TLN_SetLayerClip (env : Env) (nlayer x1 y1 x2 y2 : Int) (e : Engine) : Bool × Engine :=
  if nlayer ≥ e.numlayers then (false, TLN_SetLastError .TLN_ERR_IDX_LAYER e)
  else
    let clip : rect_t :=
      { x1 := if x1 ≥ 0 ∧ x1 ≤ e.framebuffer.width then x1 else 0
        x2 := if x2 ≥ 0 ∧ x2 ≤ e.framebuffer.width then x2 else e.framebuffer.width
        y1 := if y1 ≥ 0 ∧ y1 ≤ e.framebuffer.height then y1 else 0
        y2 := if y2 ≥ 0 ∧ y2 ≤ e.framebuffer.height then y2 else e.framebuffer.height }
    (true, TLN_SetLastError .TLN_ERR_OK (layerWrite e nlayer
      { layerRead env e nlayer with clip := clip }))

/-- The routine `TLN_DisableLayerClip(nlayer)`. -/
def TLN_DisableLayerClip (env : Env) (nlayer : Int) (e : Engine) : Bool × Engine :=
  if nlayer ≥ e.numlayers then (false, TLN_SetLastError .TLN_ERR_IDX_LAYER e)
  else
    (true, TLN_SetLastError .TLN_ERR_OK (layerWrite e nlayer
      { layerRead env e nlayer with
        clip := { x1 := 0, x2 := e.framebuffer.width, y1 := 0, y2 := e.framebuffer.height } }))

/-- The routine `TLN_SetLayerMosaic(nlayer, width, height)`. -/
def TLN_SetLayerMosaic (env : Env) (nlayer width height : Int) (e : Engine) : Bool × Engine :=
  if nlayer ≥ e.numlayers then (false, TLN_SetLastError .TLN_ERR_IDX_LAYER e)
  else
    let layer := layerRead env e nlayer
    (true, TLN_SetLastError .TLN_ERR_OK (layerWrite e nlayer
      (SelectBlitter { layer with mosaic := { layer.mosaic with w := width, h := height } })))

/-- The routine `TLN_DisableLayerMosaic(nlayer)`; it does not select the blitters
again. -/
def TLN_DisableLayerMosaic (env : Env) (nlayer : Int) (e : Engine) : Bool × Engine :=
  if nlayer ≥ e.numlayers then (false, TLN_SetLastError .TLN_ERR_IDX_LAYER e)
  else
    let layer := layerRead env e nlayer
    (true, TLN_SetLastError .TLN_ERR_OK (layerWrite e nlayer
      { layer with mosaic := { layer.mosaic with h := 0 } }))

/-- The routine `TLN_SetLayerParallaxFactor(nlayer, x, y)` of `World.c`. The factors are
C floats, given here as the maps `v ↦ (int)(v * x)` and `v ↦ (int)(v * y)`
(see `LayerWorld`). -/
def TLN_SetLayerParallaxFactor (env : Env) (nlayer : Int) (x y : Int → Int) (e : Engine) :
    Bool × Engine :=
  if nlayer ≥ e.numlayers then (false, TLN_SetLastError .TLN_ERR_IDX_LAYER e)
  else
    let layer := layerRead env e nlayer
    (true, TLN_SetLastError .TLN_ERR_OK (layerWrite e nlayer
      { layer with world := { layer.world with xfactor := x, yfactor := y }, dirty := true }))

/-! ## Tilesets (`Tileset.c`) -/

/-- Store a tileset at a handle. -/
def Engine.setTileset (e : Engine) (k : Nat) (ts : Tileset) : Engine :=
  { e with tilesets := fun j => if j = k then some ts else e.tilesets j }

/-- What `CreateBaseObject` (of the missing `Object.c`) and `malloc` hand out for a new
tileset: the handle, the initial contents of the pixel bank, and the
contents of the attribute array before anything is copied into it. -/
structure TilesetAlloc where
  handle : Nat
  data : Buf
  attributes : Int → TLN_TileAttributes

/-- The loop of `TLN_CreateTileset` that searches the shifts: for `c = 0 .. 8`, when
`1 << c` is the width `hshift` becomes `c`, when it is the height `vshift`
becomes `c`; both start at 0. -/
def TLN_CreateTileset.shifts (width height : Int) : Int × Int :=
  (List.range 9).foldl
    (fun (s : Int × Int) (c : Nat) =>
      (if shl 1 (c : Int) = width then (c : Int) else s.1,
       if shl 1 (c : Int) = height then (c : Int) else s.2))
    (0, 0)

/-- The routine `TLN_CreateTileset(numtiles, width, height, attributes)`. `alloc` is what
the allocator returns, `none` when it fails. The `color_key` array comes
zeroed from `calloc`; `tiles[c] = c` is stored in 16-bit cells. -/
def TLN_CreateTileset (alloc : Option TilesetAlloc) (numtiles width height : Int)
    (attributes : Option (Int → TLN_TileAttributes)) (e : Engine) : Option Nat × Engine :=
  let hshift := (TLN_CreateTileset.shifts width height).1
  let vshift := (TLN_CreateTileset.shifts width height).2
  if hshift = 0 ∨ vshift = 0 then (none, TLN_SetLastError .TLN_ERR_WRONG_SIZE e)
  else
    let numtiles := numtiles + 1
    match alloc with
    | none => (none, TLN_SetLastError .TLN_ERR_OUT_OF_MEMORY e)
    | some a =>
      let tileset : Tileset :=
        { tstype := .TILESET_TILES
          numtiles := numtiles
          width := width
          height := height
          hshift := hshift
          vshift := vshift
          hmask := width - 1
          vmask := height - 1
          attributes := some (match attributes with
            | some src => fun i => if 0 ≤ i ∧ i < numtiles then src i else a.attributes i
            | none => a.attributes)
          color_key := fun _ => false
          tiles := fun c => if 0 ≤ c ∧ c < numtiles then (c % 65536).toNat else 0
          data := a.data }
      (some a.handle, TLN_SetLastError .TLN_ERR_OK (e.setTileset a.handle tileset))

/-- `memcpy(dst + dstoff, src + srcoff, n)` on byte buffers. -/
def memcpy (dst : Buf) (dstoff : Int) (src : Buf) (srcoff n : Int) : Buf :=
  fun a => if dstoff ≤ a ∧ a < dstoff + n then src (srcoff + (a - dstoff)) else dst a

/-- The loop `do { if (*src++ == 0) return true; } while (src < end);` of
`HasTransparentPixels`, from position `p`. -/
def HasTransparentPixels.loop (src : Buf) (stop : Int) : Nat → Int → Bool
  | 0, _ => false
  | fuel + 1, p =>
    if src p = 0 then true
    else if p + 1 < stop then HasTransparentPixels.loop src stop fuel (p + 1)
    else false

/-- The routine `HasTransparentPixels(src + off, width)`; the body of the `do` loop runs
at least once. -/
def HasTransparentPixels (src : Buf) (off width : Int) : Bool :=
  HasTransparentPixels.loop src (off + width) (max width 1).toNat off

/-- One turn `c` of the row loop of `TLN_SetTilesetPixels`, on the pixel bank and the
`color_key` array. -/
def TLN_SetTilesetPixels.row (tileset : Tileset) (entry : Int) (srcdata : Buf) (srcpitch : Int)
    (st : Buf × (Int → Bool)) (c : Nat) : Buf × (Int → Bool) :=
  (memcpy st.1 (entry * tileset.width * tileset.height + c * tileset.width) srcdata
      (c * srcpitch) tileset.width,
   Function.update st.2 (entry * tileset.height + c)
      (HasTransparentPixels srcdata (c * srcpitch) tileset.width))

/-- The routine `TLN_SetTilesetPixels(tileset, entry, srcdata, srcpitch)`. -/
def TLN_SetTilesetPixels (tileset : Option Nat) (entry : Int) (srcdata : Buf) (srcpitch : Int)
    (e : Engine) : Bool × Engine :=
  match tileset, CheckBaseObject e.tilesets .TLN_ERR_REF_TILESET tileset e with
  | some k, (some ts, e1) =>
    if ts.tstype ≠ .TILESET_TILES ∨ entry < 1 ∨ entry > ts.numtiles then
      (false, TLN_SetLastError .TLN_ERR_IDX_PICTURE e1)
    else
      let st := (List.range ts.height.toNat).foldl
        (TLN_SetTilesetPixels.row ts entry srcdata srcpitch) (ts.data, ts.color_key)
      (true, TLN_SetLastError .TLN_ERR_OK
        (e1.setTileset k { ts with data := st.1, color_key := st.2 }))
  | _, (_, e1) => (false, e1)

/-- The routine `TLN_GetTilesetPixels(tileset, entry)`: the offset in `tileset->data` of
the pointer it returns. -/
def TLN_GetTilesetPixels (tileset : Tileset) (entry : Int) : Int :=
  entry * tileset.width * tileset.height

/-- What `CloneBaseObject` and `malloc` hand out for the clone of a tileset: the handle
and the contents of the three new arrays before the copies. -/
structure CloneAlloc where
  handle : Nat
  tiles : Buf
  color_key : Int → Bool
  attributes : Int → TLN_TileAttributes

/-- Modelled from the spec: `CloneBaseObject(src)` of the missing `Object.c`. Section 5
lists `clone` among the tileset operations, a duplicate of the object: the
new object starts as a copy of the record together with its pixel bank. -/
def CloneBaseObject (src : Tileset) : Tileset := src

/-- The routine `TLN_CloneTileset(src)`; `alloc` is `none` when the allocator fails. The
arrays `tiles`, `color_key` and `attributes` of the clone are new memory
into which the source arrays are copied. -/
def TLN_CloneTileset (alloc : Option CloneAlloc) (src : Option Nat) (e : Engine) :
    Option Nat × Engine :=
  match CheckBaseObject e.tilesets .TLN_ERR_REF_TILESET src e with
  | (none, e1) => (none, e1)
  | (some ts, e1) =>
    match alloc with
    | none => (none, e1)
    | some a =>
      let clone : Tileset :=
        { CloneBaseObject ts with
          tiles := fun i => if 0 ≤ i ∧ i < ts.numtiles then ts.tiles i else a.tiles i
          color_key := fun i =>
            if 0 ≤ i ∧ i < ts.numtiles * ts.height then ts.color_key i else a.color_key i
          attributes := some (fun i =>
            match ts.attributes with
            | some src => if 0 ≤ i ∧ i < ts.numtiles then src i else a.attributes i
            | none => a.attributes i) }
      (some a.handle, (TLN_SetLastError .TLN_ERR_OK e1).setTileset a.handle clone)

/-! ## Palettes (`Palette.c`) -/

/-- Modelled from the spec: the macro `PackRGB32(r, g, b)` of the missing `Palette.h`.
Section 4.9: colors are stored packed as `0xAARRGGBB`, alpha forced to
`0xFF` on set. -/
def PackRGB32 (r g b : Nat) : Nat := 0xFF000000 + r * 65536 + g * 256 + b

/-- Store a palette in `indexed_palettes[id]`. -/
def Engine.setPalette (e : Engine) (id : Nat) (p : Palette) : Engine :=
  { e with indexed_palettes := fun j => if j = id then some p else e.indexed_palettes j }

/-- The routine `TLN_SetPaletteColor(palette_id, index, r, g, b)`; on failure it records
no error code. -/
def TLN_SetPaletteColor (palette_id : Nat) (index : Int) (r g b : Nat) (e : Engine) :
    Bool × Engine :=
  match e.indexed_palettes palette_id with
  | some palette =>
    if index < palette.entries then
      (true, TLN_SetLastError .TLN_ERR_OK (e.setPalette palette_id
        { palette with data := Function.update palette.data index (PackRGB32 r g b) }))
    else (false, e)
  | none => (false, e)

/-- One turn of the loop of `EditPaletteColor`: the call
`TLN_SetPaletteColor(palette_id, start, blendfunc(blend_table, color_ptr[0], r), ...)`,
where `color_ptr` points at the bytes of entry `start` (little endian:
byte 0 is the lowest byte of the packed color). -/
def EditPaletteColor.step (palette_id : Nat) (blend_table : BlendTable) (r g b start : Nat)
    (e : Engine) : Engine :=
  let color := paletteColor e.indexed_palettes palette_id start
  (TLN_SetPaletteColor palette_id (start : Int)
    (blendfunc blend_table (channel color 0) r)
    (blendfunc blend_table (channel color 8) g)
    (blendfunc blend_table (channel color 16) b) e).2

/-- The routine `EditPaletteColor(palette_id, blend_table, r, g, b, start, num)`. The
object checked is the pointer `indexed_palettes[palette_id]`, null when the
slot is empty. The loop counter `c` runs from `start` to `end` and is not
used in the body. -/
def EditPaletteColor (palette_id : Nat) (blend_table : BlendTable) (r g b start num : Nat)
    (e : Engine) : Bool × Engine :=
  match CheckBaseObject e.indexed_palettes .TLN_ERR_REF_PALETTE
      ((e.indexed_palettes palette_id).map (fun _ => palette_id)) e with
  | (none, e1) => (false, e1)
  | (some palette, e1) =>
    if (start : Int) ≥ palette.entries then (false, TLN_SetLastError .TLN_ERR_IDX_PICTURE e1)
    else
      let end0 : Int := (start : Int) + (num : Int) - 1
      let end1 : Int := if end0 ≥ palette.entries then palette.entries - 1 else end0
      let e2 := (List.range (end1 - (start : Int) + 1).toNat).foldl
        (fun x _ => EditPaletteColor.step palette_id blend_table r g b start x)
        (TLN_SetLastError .TLN_ERR_OK e1)
      (true, TLN_SetLastError .TLN_ERR_OK e2)

/-- The routine `TLN_AddPaletteColor`; `table` is `SelectBlendTable(BLEND_ADD)` of the
missing `Tables.c`. -/
def TLN_AddPaletteColor (table : BlendTable) (palette_id r g b start num : Nat) (e : Engine) :
    Bool × Engine :=
  EditPaletteColor palette_id table r g b start num e

/-- The routine `TLN_SubPaletteColor`; `table` is `SelectBlendTable(BLEND_SUB)`. -/
def TLN_SubPaletteColor (table : BlendTable) (palette_id r g b start num : Nat) (e : Engine) :
    Bool × Engine :=
  EditPaletteColor palette_id table r g b start num e

/-- The routine `TLN_ModPaletteColor`; `table` is `SelectBlendTable(BLEND_MOD)`. -/
def TLN_ModPaletteColor (table : BlendTable) (palette_id r g b start num : Nat) (e : Engine) :
    Bool × Engine :=
  EditPaletteColor palette_id table r g b start num e

/-- The routine `TLN_DisableBGColor()` of `Tilengine.c`. -/
def TLN_DisableBGColor (e : Engine) : Engine := { e with bgcolor := 0 }

/-- The routine `TLN_SetBGColor(r, g, b)` of `Tilengine.c`. -/
def TLN_SetBGColor (r g b : Nat) (e : Engine) : Engine := { e with bgcolor := PackRGB32 r g b }

/-! ## Vocabulary of the tileset theorems -/

/-- The size equalities of a tileset: `width = 1 << hshift`, `height = 1 << vshift`,
`hmask = width - 1` and `vmask = height - 1`. -/
def Tileset.SizesAgree (ts : Tileset) : Prop :=
  ts.width = shl 1 ts.hshift ∧ ts.height = shl 1 ts.vshift
    ∧ ts.hmask = ts.width - 1 ∧ ts.vmask = ts.height - 1

instance (ts : Tileset) : Decidable ts.SizesAgree := by
  unfold Tileset.SizesAgree
  infer_instance

/-- The sizes that `TLN_CreateTileset` accepts for a width or a height. -/
def tileSizes : List Int := [2, 4, 8, 16, 32, 64, 128, 256]

/-- An allocation for the demo scene: handle 7, a zeroed pixel bank. -/
def demoTilesetAlloc : TilesetAlloc :=
  { handle := 7, data := fun _ => 0, attributes := fun _ => { type := 0, priority := false } }

/-- An allocation for a clone in the demo scene: handle 8. -/
def demoCloneAlloc : CloneAlloc :=
  { handle := 8, tiles := fun _ => 0, color_key := fun _ => false,
    attributes := fun _ => { type := 0, priority := false } }

/-- A saturating-add blend table for the demo scene: entry `(a << 8) | b` is
`min(255, a + b)`. -/
def demoAddTable : BlendTable := fun i => min 255 (i / 256 + i % 256).toNat

/-- The demo engine with no layer, no sprite and no callback, over a framebuffer
whose pixels all hold `0xFF0000FF`. -/
def demoPaintedEngine : Engine :=
  { demoEngine with
    layers := [], sprites := []
    framebuffer := { demoEngine.framebuffer with data := fun _ _ => 0xFF0000FF } }

/-- The demo engine with `FLAG_MASKED` set on sprite 0 and the mask span `[0, 3]`. -/
def demoMaskedEngine : Engine :=
  { demoEngine with
    sprites := [{ demoSprite 0 with flags := FLAG_MASKED }, demoSprite 4]
    sprite_mask_top := 0, sprite_mask_bottom := 3 }

/-! ## Error strings (`Tilengine.c`, `include/tiledjinn.h`) -/

/-- The value of an enumerator of `TLN_Error`. -/
def TLN_Error.code : TLN_Error → Nat
  | .TLN_ERR_OK => 0
  | .TLN_ERR_OUT_OF_MEMORY => 1
  | .TLN_ERR_IDX_LAYER => 2
  | .TLN_ERR_IDX_SPRITE => 3
  | .TLN_ERR_IDX_ANIMATION => 4
  | .TLN_ERR_IDX_PICTURE => 5
  | .TLN_ERR_REF_TILESET => 6
  | .TLN_ERR_REF_TILEMAP => 7
  | .TLN_ERR_REF_SPRITESET => 8
  | .TLN_ERR_REF_PALETTE => 9
  | .TLN_ERR_REF_SEQUENCE => 10
  | .TLN_ERR_REF_SEQPACK => 11
  | .TLN_ERR_REF_BITMAP => 12
  | .TLN_ERR_NULL_POINTER => 13
  | .TLN_ERR_FILE_NOT_FOUND => 14
  | .TLN_ERR_WRONG_FORMAT => 15
  | .TLN_ERR_WRONG_SIZE => 16
  | .TLN_ERR_UNSUPPORTED => 17
  | .TLN_ERR_REF_LIST => 18

/-- The enumerator `TLN_MAX_ERR`, which closes the enumeration `TLN_Error`. -/
def TLN_MAX_ERR : Nat := 19

/-- The comment that the header puts next to each enumerator of `TLN_Error`. -/
def TLN_Error.documented : TLN_Error → String
  | .TLN_ERR_OK => "No error"
  | .TLN_ERR_OUT_OF_MEMORY => "Not enough memory"
  | .TLN_ERR_IDX_LAYER => "Layer index out of range"
  | .TLN_ERR_IDX_SPRITE => "Sprite index out of range"
  | .TLN_ERR_IDX_ANIMATION => "Animation index out of range"
  | .TLN_ERR_IDX_PICTURE => "Picture or tile index out of range"
  | .TLN_ERR_REF_TILESET => "Invalid TLN_Tileset reference"
  | .TLN_ERR_REF_TILEMAP => "Invalid TLN_Tilemap reference"
  | .TLN_ERR_REF_SPRITESET => "Invalid TLN_Spriteset reference"
  | .TLN_ERR_REF_PALETTE => "Invalid TLN_Palette reference"
  | .TLN_ERR_REF_SEQUENCE => "Invalid TLN_Sequence reference"
  | .TLN_ERR_REF_SEQPACK => "Invalid TLN_SequencePack reference"
  | .TLN_ERR_REF_BITMAP => "Invalid TLN_Bitmap reference"
  | .TLN_ERR_NULL_POINTER => "Null pointer as argument"
  | .TLN_ERR_FILE_NOT_FOUND => "Resource file not found"
  | .TLN_ERR_WRONG_FORMAT => "Resource file has invalid format"
  | .TLN_ERR_WRONG_SIZE => "A width or height parameter is invalid"
  | .TLN_ERR_UNSUPPORTED => "Unsupported function"
  | .TLN_ERR_REF_LIST => "Invalid TLN_ObjectList reference"

/-- The table `errornames[]`, in the order of the source. -/
def errornames : List String :=
  [ "No error",
    "Not enough memory",
    "Layer index out of range",
    "Sprite index out of range",
    "Animation index out of range",
    "Picture or tile index out of range",
    "Invalid Tileset reference",
    "Invalid Tilemap reference",
    "Invalid Spriteset reference",
    "Invalid Palette reference",
    "Invalid SequencePack reference",
    "Invalid Sequence reference",
    "Invalid Bitmap reference",
    "Null pointer as required argument",
    "Resource file not found",
    "Resource file has invalid format",
    "A width or height parameter is invalid",
    "Unsupported function",
    "Invalid ObjectList reference" ]

/-- The routine `TLN_GetErrorString(error)`; `error` is the value of the enumeration
argument. An index past the table, which the guard excludes, reads as the
empty string. -/
def TLN_GetErrorString (error : Nat) : String :=
  if error < TLN_MAX_ERR then
    match errornames[error]? with
    | some name => name
    | none => ""
  else "Invalid error code"

/-! ## Tile query (`TLN_GetLayerTile`) -/

/-- The record `TLN_TileInfo` of the header. -/
structure TLN_TileInfo where
  index : Nat
  flags : Nat
  row : Int
  col : Int
  xoffset : Int
  yoffset : Int
  color : Nat
  type : Nat
  empty : Bool
  deriving DecidableEq, Repr

/-- The record `TLN_TileInfo` after `memset(info, 0, sizeof(TLN_TileInfo))`. -/
def TLN_TileInfo.zero : TLN_TileInfo :=
  { index := 0, flags := 0, row := 0, col := 0, xoffset := 0, yoffset := 0, color := 0,
    type := 0, empty := false }

/-- The routine `TLN_GetLayerTile(nlayer, x, y, info)`. `info` is the content of the
record the pointer designates, `none` for a null pointer; the second
component of the result is the content the call leaves. The `index` field
is a 16-bit store of `tile->index - 1`. A null `attributes` array, which C
would dereference, reads as type 0. -/
def TLN_GetLayerTile (env : Env) (nlayer x y : Int) (info : Option TLN_TileInfo) (e : Engine) :
    Bool × Option TLN_TileInfo × Engine :=
  if nlayer ≥ e.numlayers then (false, info, TLN_SetLastError .TLN_ERR_IDX_LAYER e)
  else
    match info with
    | none => (false, none, TLN_SetLastError .TLN_ERR_NULL_POINTER e)
    | some info0 =>
      let layer := layerRead env e nlayer
      match CheckBaseObject e.tilesets .TLN_ERR_REF_TILESET layer.tileset e with
      | (none, e1) => (false, some info0, e1)
      | (some tileset, e1) =>
        match CheckBaseObject e1.tilemaps .TLN_ERR_REF_TILEMAP layer.tilemap e1 with
        | (none, e2) => (false, some info0, e2)
        | (some tilemap, e2) =>
          let xpos0 := cmod x layer.width
          let xpos := if xpos0 < 0 then xpos0 + layer.width else xpos0
          let xtile := shr xpos tileset.hshift
          let srcx := band xpos tileset.hmask
          let column_offset := match layer.column with
            | some column =>
              let c := cdiv x tileset.width
              column (if xpos ≠ 0 ∧ x > xpos then c + 1 else c)
            | none => 0
          let ypos0 := cmod (y + column_offset) layer.height
          let ypos := if ypos0 < 0 then ypos0 + layer.height else ypos0
          let srcy := band ypos tileset.vmask
          let ytile := shr ypos tileset.vshift
          let tile := tilemap.tiles (ytile * tilemap.cols + xtile)
          let info1 : TLN_TileInfo :=
            { TLN_TileInfo.zero with col := xtile, row := ytile, xoffset := srcx, yoffset := srcy }
          let info2 : TLN_TileInfo :=
            if tile.index ≠ 0 then
              let index := (((tile.index : Int) - 1) % 65536).toNat
              { info1 with
                index := index
                flags := tile.flags
                color := GetTilesetPixel tileset (tile.index : Int) srcx srcy
                type := match tileset.attributes with
                  | some attributes => (attributes (index : Int)).type
                  | none => 0 }
            else { info1 with empty := true }
          (true, some info2, TLN_SetLastError .TLN_ERR_OK e2)

/-! ## More of the concrete scene -/

/-- The demo engine with `FLAG_PRIORITY` set on sprite 0. -/
def demoPrioritySpriteEngine : Engine :=
  { demoEngine with sprites := [{ demoSprite 0 with flags := FLAG_PRIORITY }, demoSprite 4] }

/-- Two palettes: the demo palette in slot 0, and in slot 1 a palette whose entry
`i` is `0xFF000100 + i`. -/
def demoPalettes : Nat → Option Palette :=
  fun id =>
    if id = 0 then some demoPalette
    else if id = 1 then some { entries := 256, data := fun i => 0xFF000100 + i.toNat }
    else none

/-- The demo tilemap with palette 1 selected by the cell in row 0, column 1: tile 1
with palette 0, tile 1 with palette 1, an empty cell, tile 1 with palette 0. -/
def demoTilemapPalettes : Tilemap :=
  { demoTilemap with
    tiles := fun i =>
      if i = 0 then { index := 1, flags := 0 }
      else if i = 1 then { index := 1, flags := 1 }
      else if i = 3 then { index := 1, flags := 0 }
      else { index := 0, flags := 0 } }

/-- The demo engine without sprites, over the two palettes and the tilemap that uses
both. -/
def demoPaletteEngine : Engine :=
  { demoEngine with
    sprites := []
    tilemaps := fun h => if h = 0 then some demoTilemapPalettes else none
    indexed_palettes := demoPalettes }

/-- The demo tilemap with `FLAG_PRIORITY` on the cell in row 0, column 0. -/
def demoTilemapPriority : Tilemap :=
  { demoTilemap with
    tiles := fun i =>
      if i = 0 then { index := 1, flags := FLAG_PRIORITY }
      else if i = 1 then { index := 1, flags := FLAG_FLIPX }
      else if i = 3 then { index := 1, flags := 0 }
      else { index := 0, flags := 0 } }

/-- The demo layer with the transform that the identity matrix yields: the point
`(x, y)` in fixed point, 16 fractional bits. -/
def demoLayerAffine : Layer :=
  { demoLayer with
    mode := .MODE_TRANSFORM, draw := some .DrawLayerScanlineAffine,
    transform := fun x y => (int2fix 16 x, int2fix 16 y) }

/-- Follows the claim: the tile pixel at the layer coordinates `(X, Y)`, that is the
pixel `(X mod tile_w, Y mod tile_h)`, mirrored as the cell's flip flags
say, of the tile of the cell in row `Y / tile_h` and column `X / tile_w`;
0 when that cell is empty. -/
def tilePixelAt (ts : Tileset) (tm : Tilemap) (X Y : Int) : Nat :=
  if (tm.tiles (Y / ts.height * tm.cols + X / ts.width)).index = 0 then 0
  else GetTilesetPixel ts
    ((ts.tiles ((tm.tiles (Y / ts.height * tm.cols + X / ts.width)).index : Int) : Nat) : Int)
    (if hasFlag (tm.tiles (Y / ts.height * tm.cols + X / ts.width)).flags FLAG_FLIPX
      then ts.width - 1 - X % ts.width else X % ts.width)
    (if hasFlag (tm.tiles (Y / ts.height * tm.cols + X / ts.width)).flags FLAG_FLIPY
      then ts.height - 1 - Y % ts.height else Y % ts.height)

/-- The layer column `xpos` that the pixel-mapping renderer computes for a pixel whose
map entry is `pm`: `abs(hstart + pixel_map->dx) % layer->width`, where the
local `hstart` is `layer->hstart + layer->width`. -/
def DrawLayerScanlinePixelMapping.xpos (layer : Layer) (pm : TLN_PixelMap) : Int :=
  cmod (cabs (layer.hstart + layer.width + pm.dx)) layer.width

/-- The layer row `ypos` that the pixel-mapping renderer computes for a pixel whose map
entry is `pm`. -/
def DrawLayerScanlinePixelMapping.ypos (layer : Layer) (pm : TLN_PixelMap) : Int :=
  cmod (cabs (layer.vstart + layer.height + pm.dy)) layer.height

/-- The scenes of the affine identity theorem: a scene of the normal-mode theorems
with `clip.x1 = 0` and a clip range inside the framebuffer width; the
transform of the identity matrix (angle 0, no displacement, scale 1); the
32-bit non-scaling blitters that `SelectBlitter` binds; and on the line
`L`, no non-empty cell with `FLAG_PRIORITY`, the palette of the last cell
of the line selected by every non-empty cell, and no transparent pixel
in a tile row whose `color_key` flag is false. -/
structure IdentityScene (fb : Nat) (fbwidth : Int) (layer : Layer) (ts : Tileset)
    (tm : Tilemap) (L : Int) : Prop where
  normal : NormalScene layer ts tm L
  clip_x1 : layer.clip.x1 = 0
  clip_pos : 0 < layer.clip.x2
  clip_le : layer.clip.x2 ≤ fbwidth
  identity : ∀ x y, layer.transform x y = (int2fix fb x, int2fix fb y)
  blitters : ∃ blend, ∀ key, layer.blitters key = some (GetBlitter 32 key false blend)
  no_priority : ∀ x, 0 ≤ x → x < layer.clip.x2 → (specCell layer ts tm L x).index ≠ 0 →
    hasFlag (specCell layer ts tm L x).flags FLAG_PRIORITY = false
  one_palette : ∀ x, 0 ≤ x → x < layer.clip.x2 → (specCell layer ts tm L x).index ≠ 0 →
    (specCell layer ts tm L x).flags &&& FLAG_PALETTES
      = (specCell layer ts tm L (layer.clip.x2 - 1)).flags &&& FLAG_PALETTES
  color_key : ∀ x, 0 ≤ x → x < layer.clip.x2 → (specCell layer ts tm L x).index ≠ 0 →
    ts.color_key (GetTilesetLine ts
      ((ts.tiles ((specCell layer ts tm L x).index : Int) : Nat) : Int)
      (specSrcY layer ts tm L x)) = false →
    specSourceIndex layer ts tm L x ≠ 0

/-- A scene for the comparison of the affine and the normal renderer: the given layer
over the tilemap with a priority cell in row 0, column 0, and one sprite
at `(0, 0)`, flipped horizontally. -/
def demoPriorityEngine (layer : Layer) : Engine :=
  { demoEngine with
    layers := [layer]
    sprites := [{ demoSprite 0 with flags := FLAG_FLIPX }]
    tilemaps := fun h => if h = 0 then some demoTilemapPriority else none }

/-! ## Engine creation and render target (`Tilengine.c`) -/

/-- What `malloc` hands out in `TLN_Init`: the contents of the priority buffer and of
the mosaic buffer of each layer. The buffers that `calloc` returns are
zeroed. In the model a buffer has no end: what lies past the allocated
size stands for the memory that follows the allocation. -/
structure InitAlloc where
  priority : Buf
  mosaic : Nat → Buf

/-- The pitch `(((hres * bpp) >> 3) + 3) & ~0x03` that `TLN_Init` stores for `bpp = 32`;
it is also the size in bytes that `TLN_Init` allocates for the priority
buffer. The mask `& ~0x03` clears the two low bits of a two's complement
`int`, which subtracts the remainder modulo 4 (`pitch_mask` shows that this
is `band _ (-4)`). -/
def TLN_Init.pitch (hres : Int) : Int :=
  let bytes := shr (hres * 32) 3 + 3
  bytes - bytes % 4

/-- The context that `TLN_Init` builds before it clears the clip rectangles: the
framebuffer size and pitch, the buffers, the layer slots as `calloc` leaves
them with their mosaic buffers, and the sprite slots with the normal draw
procedure and the keyed 32-bit blitter. The render target is not set yet
and reads as zeros. The blend tables and the float fields of the sprites
are not part of the model. -/
def TLN_Init.context (a : InitAlloc) (hres vres numlayers numsprites : Int) : Engine :=
  { framebuffer :=
      { data := fun _ _ => 0, width := hres, height := vres, pitch := TLN_Init.pitch hres }
    line := 0, frame := 0, dirty := false, bgcolor := PackRGB32 0 0 0
    cb_raster := none, cb_frame := none, xworld := 0, yworld := 0
    sprite_mask_top := 0, sprite_mask_bottom := 0
    priority := a.priority
    collision := fun _ => 0
    tmpindex := fun _ => 0
    layers := (List.range numlayers.toNat).map
      (fun c => { blankLayer with mosaic := { w := 0, h := 0, buffer := a.mosaic c } })
    sprites := List.replicate numsprites.toNat blankSprite
    error := .TLN_ERR_OK, log_level := .TLN_LOG_NONE
    tilesets := fun _ => none
    tilemaps := fun _ => none
    indexed_palettes := fun _ => none }

/-- The routine `TLN_Init(hres, vres, numlayers, numsprites)` creating the first context,
which becomes the current one; `alloc` is `none` when an allocation fails,
and the call then returns null (a request of a negative size, as for
`hres < 0`, is converted to an unsigned size and fails). The arguments are
not checked. The last loop runs `TLN_DisableLayerClip(c)` for every layer
`c`. -/
def TLN_Init (env : Env) (alloc : Option InitAlloc) (hres vres numlayers numsprites : Int) :
    Option Engine :=
  match alloc with
  | none => none
  | some a =>
    some ((List.range numlayers.toNat).foldl
      (fun (e : Engine) (c : Nat) => (TLN_DisableLayerClip env (c : Int) e).2)
      (TLN_Init.context a hres vres numlayers numsprites))

/-- The routine `TLN_SetRenderTarget(data, pitch)`. -/
def TLN_SetRenderTarget (data : Int → Buf) (pitch : Int) (e : Engine) : Engine :=
  TLN_SetLastError .TLN_ERR_OK
    { e with framebuffer := { e.framebuffer with data := data, pitch := pitch } }

/-! ## Vocabulary of the last theorems -/

/-- The source pointer `&GetTilesetPixel(sprite->tileset, sprite->tileset_entry, srcx, srcy)`
that `DrawScalingSpriteScanline` computes on scanline `nscan`, as an index
into `tileset->data`. -/
def DrawScalingSpriteScanline.srcpixel (env : Env) (sprite : Sprite) (tileset : Tileset)
    (nscan : Int) : Int :=
  let srcx0 := sprite.srcrect.x1
  let srcy0 := sprite.srcrect.y1 + (nscan - sprite.dstrect.y1) * sprite.dy
  let srcx := if hasFlag sprite.flags FLAG_FLIPX
    then int2fix env.FIXED_BITS sprite.info.w - srcx0 else srcx0
  let srcy := if hasFlag sprite.flags FLAG_FLIPY
    then int2fix env.FIXED_BITS sprite.info.h - srcy0 else srcy0
  GetTilesetPixelAddr tileset sprite.tileset_entry srcx srcy

/-- The demo sprite in scaling mode at scale 1: the steps `dx` and `dy` are 1.0 in
fixed point, the source rectangle is the whole picture in fixed point. -/
def demoScaledSprite : Sprite :=
  { demoSprite 0 with
    mode := .MODE_SCALING, draw := GetSpriteDraw .MODE_SCALING,
    blitter := some (GetBlitter 32 true true false),
    dx := 65536, dy := 65536, do_collision := false,
    srcrect := { x1 := 0, y1 := 0, x2 := 524288, y2 := 524288 } }

/-- The demo engine with the scaled demo sprite as its only sprite and no layer. -/
def demoScaledEngine : Engine :=
  { demoEngine with layers := [], sprites := [demoScaledSprite] }

/-- An allocation for the demo scene: buffers filled with the byte pattern 7. -/
def demoInitAlloc : InitAlloc :=
  { priority := fun _ => 7, mosaic := fun _ _ => 7 }

/-- The demo tilemap with a maximum tile index above the 2 slots of the demo
tileset. -/
def demoTilemapOver : Tilemap := { demoTilemap with maxindex := 3 }

/-- The engine that `TLN_Init(16, 16, 1, 0)` returns, with the demo tileset and a
tilemap whose maximum index exceeds the tileset created at handle 0. -/
def demoFreshEngine : Engine :=
  match TLN_Init demoEnv (some demoInitAlloc) 16 16 1 0 with
  | some e =>
    { e with
      tilesets := fun h => if h = 0 then some demoTileset else none
      tilemaps := fun h => if h = 0 then some demoTilemapOver else none }
  | none => demoEngine

/-- The demo scene without sprites, over the tilemap with a priority cell in row 0,
column 0. -/
def demoPriorityCellEngine : Engine :=
  { demoEngine with
    sprites := []
    tilemaps := fun h => if h = 0 then some demoTilemapPriority else none }

/-- A rectangle inside the framebuffer: each coordinate lies between 0 and the width
(for `x1`, `x2`) or the height (for `y1`, `y2`). -/
def rect_t.inside (clip : rect_t) (fb : Framebuffer) : Prop :=
  0 ≤ clip.x1 ∧ clip.x1 ≤ fb.width ∧ 0 ≤ clip.x2 ∧ clip.x2 ≤ fb.width
  ∧ 0 ≤ clip.y1 ∧ clip.y1 ≤ fb.height ∧ 0 ≤ clip.y2 ∧ clip.y2 ≤ fb.height

/-- Every layer's clip rectangle lies inside the framebuffer. -/
def ClipsInside (e : Engine) : Prop :=
  ∀ layer ∈ e.layers, layer.clip.inside e.framebuffer

/-- The demo tileset with attributes: tile 0 has priority, the others do not. -/
def demoTilesetAttributes : Tileset :=
  { demoTileset with
    attributes := some (fun i => { type := 0, priority := decide (i = 0) }) }

/-- A tilemap for the priority attribute: a cell of tile 1 without flags, a cell of tile 2
with `FLAG_PRIORITY`, `FLAG_FLIPX` and palette 5, an empty cell with
`FLAG_PRIORITY`, and a cell of tile 1 with `FLAG_FLIPY`. -/
def demoTilemapAttributes : Tilemap :=
  { demoTilemap with
    maxindex := 2
    tiles := fun i =>
      if i = 0 then { index := 1, flags := 0 }
      else if i = 1 then { index := 2, flags := FLAG_PRIORITY ||| FLAG_FLIPX ||| 5 }
      else if i = 2 then { index := 0, flags := FLAG_PRIORITY }
      else if i = 3 then { index := 1, flags := FLAG_FLIPY }
      else { index := 0, flags := 0 } }

/-- The demo engine over the tileset with attributes and the tilemap above. -/
def demoAttributesEngine : Engine :=
  { demoEngine with
    tilesets := fun h => if h = 0 then some demoTilesetAttributes else none
    tilemaps := fun h => if h = 0 then some demoTilemapAttributes else none }

/-- The scenes of the span-loop theorem: the tileset invariants that `TLN_CreateTileset`
establishes, the layer size that `TLN_SetLayerTilemap` sets, a position as
`TLN_SetLayerPosition` stores it, a clip rectangle that starts at or after
0, and a scanline at or after 0. Column offsets and mosaic are free. -/
structure SpanScene (layer : Layer) (tileset : Tileset) (tilemap : Tilemap)
    (nscan : Int) : Prop where
  hshift_nonneg : 0 ≤ tileset.hshift
  vshift_nonneg : 0 ≤ tileset.vshift
  width_eq : tileset.width = 2 ^ tileset.hshift.toNat
  height_eq : tileset.height = 2 ^ tileset.vshift.toNat
  hmask_eq : tileset.hmask = tileset.width - 1
  vmask_eq : tileset.vmask = tileset.height - 1
  layer_width : layer.width = tilemap.cols * tileset.width
  layer_height : layer.height = tilemap.rows * tileset.height
  hstart_nonneg : 0 ≤ layer.hstart
  hstart_lt : layer.hstart < layer.width
  vstart_nonneg : 0 ≤ layer.vstart
  vstart_lt : layer.vstart < layer.height
  nscan_nonneg : 0 ≤ nscan
  clip_nonneg : 0 ≤ layer.clip.x1

/-- The demo layer with column offsets: column `c` is displaced by `3 - 40 * c` rows. -/
def demoLayerColumn : Layer :=
  { demoLayer with column := some (fun c => 3 - 40 * c), hstart := 3, vstart := 5,
                   clip := { x1 := 2, y1 := 0, x2 := 15, y2 := 16 } }

/-- The demo layer with the clip rectangle `(8, 0, 4, 16)`, whose right edge lies before
its left edge. -/
def demoLayerInverted : Layer :=
  { demoLayer with clip := { x1 := 8, y1 := 0, x2 := 4, y2 := 16 } }

/-- The engine that `TLN_Init(16, 16, 1, 0)` returns, with the demo tileset and the demo
tilemap marked as not visible. -/
def demoHiddenEngine : Engine :=
  match TLN_Init demoEnv (some demoInitAlloc) 16 16 1 0 with
  | some e =>
    { e with
      tilesets := fun h => if h = 0 then some demoTileset else none
      tilemaps := fun h => if h = 0 then some { demoTilemap with visible := false } else none }
  | none => demoEngine

/-- The demo layer with the clip rectangle `(4, 0, 16, 16)`, as `TLN_SetLayerClip(0, 4, 0, 16, 16)`
stores it. -/
def demoLayerClipped : Layer :=
  { demoLayer with clip := { x1 := 4, y1 := 0, x2 := 16, y2 := 16 } }
/-! # Theorems -/

/-! ## What the draw procedures leave unchanged -/

variable (env : Env)

theorem map_set_of_eq {α β : Type} (f : α → β) (l : List α) (i : Nat) (x y : α)
    (hx : l[i]? = some x) (hxy : f y = f x) : (l.set i y).map f = l.map f := by
  apply List.ext_getElem?
  intro n
  by_cases hn : i = n
  · subst hn
    rcases List.getElem?_eq_some_iff.mp hx with ⟨hlt, hget⟩
    simp [List.getElem?_map, List.getElem?_set, hlt, hget, hxy]
  · simp [List.getElem?_map, List.getElem?_set, hn]

theorem setCollision_map (sprites : List Sprite) (i : Nat) :
    (setCollision sprites i).map Sprite.noCollision = sprites.map Sprite.noCollision := by
  unfold setCollision
  split
  · next s hs => exact map_set_of_eq _ _ _ _ _ hs rfl
  · rfl

theorem DrawSpriteCollision_map (nsprite : Nat) (src : Buf) (dx : Int) (w : Nat) :
    ∀ (so d : Int) (st : List Sprite × Buf),
      (DrawSpriteCollision nsprite src dx w so d st).1.map Sprite.noCollision
        = st.1.map Sprite.noCollision := by
  induction w with
  | zero => intro so d st; rfl
  | succ w ih =>
    intro so d st
    rw [DrawSpriteCollision, ih]
    split_ifs <;> simp [setCollision_map]

theorem DrawSpriteCollisionScaling_map (fb nsprite : Nat) (src : Buf) (so dx : Int) (w : Nat) :
    ∀ (sx d : Int) (st : List Sprite × Buf),
      (DrawSpriteCollisionScaling fb nsprite src so dx w sx d st).1.map Sprite.noCollision
        = st.1.map Sprite.noCollision := by
  induction w with
  | zero => intro sx d st; rfl
  | succ w ih =>
    intro sx d st
    rw [DrawSpriteCollisionScaling, ih]
    split_ifs <;> simp [setCollision_map]

theorem runLayerDraw_control (core : Nat → (Nat → Option Palette) → Int → Layer → Tileset → Tilemap → Int →
      Buf → Buf → Buf → LayerOut) (i : Nat) (L : Int) (e : Engine) :
    (runLayerDraw core env i L e).2.control = e.control := by
  unfold runLayerDraw
  split
  · rfl
  · next layer hl =>
    split
    · simp only [Engine.control, Engine.setLine]
      congr 1
      exact map_set_of_eq _ _ _ _ _ hl rfl
    · rfl

theorem DrawSpriteScanline_control (i : Nat) (L : Int) (e : Engine) :
    (DrawSpriteScanline env i L e).2.control = e.control := by
  unfold DrawSpriteScanline
  split
  · rfl
  · split
    · rfl
    · next sprite _ _ tileset _ =>
      by_cases hc : sprite.do_collision = true
      · simp only [hc, if_true, Engine.control, Engine.setLine, DrawSpriteCollision_map]
      · simp only [hc, if_false]
        rfl

theorem DrawScalingSpriteScanline_control (i : Nat) (L : Int) (e : Engine) :
    (DrawScalingSpriteScanline env i L e).2.control = e.control := by
  unfold DrawScalingSpriteScanline
  split
  · rfl
  · split
    · rfl
    · next sprite _ _ tileset _ =>
      by_cases hc : sprite.do_collision = true
      · simp only [hc, if_true, Engine.control, Engine.setLine, DrawSpriteCollisionScaling_map]
      · simp only [hc, if_false]
        rfl

theorem callDraw_control (d : Option ScanDrawPtr) (i : Nat) (L : Int) (e : Engine) :
    (callDraw env d i L e).2.control = e.control := by
  unfold callDraw
  split
  · rfl
  · exact DrawSpriteScanline_control env i L e
  · exact DrawScalingSpriteScanline_control env i L e
  all_goals exact runLayerDraw_control env _ i L e

/-! ## What the passes of `DrawScanline` leave unchanged -/

theorem globals_of_control {e e' : Engine} (h : e'.control = e.control) :
    e'.globals = e.globals := by
  have : ∀ x : Engine, x.globals = x.control.globals := fun _ => rfl
  rw [this e', this e, h]

theorem TLN_SetLayerPosition_globals (n h v : Int) (e : Engine) :
    (TLN_SetLayerPosition env n h v e).2.globals = e.globals := by
  unfold TLN_SetLayerPosition
  simp only [TLN_SetLastError, layerWrite]
  split_ifs <;> rfl

theorem UpdateLayer_globals (c : Nat) (e : Engine) :
    (UpdateLayer env c e).globals = e.globals :=
  TLN_SetLayerPosition_globals env _ _ _ e

theorem clearLayerDirty_globals (c : Nat) (e : Engine) :
    (clearLayerDirty e c).globals = e.globals := by
  unfold clearLayerDirty
  split <;> rfl

theorem callDraw_globals (d : Option ScanDrawPtr) (i : Nat) (L : Int) (e : Engine) :
    (callDraw env d i L e).2.globals = e.globals :=
  globals_of_control (callDraw_control env d i L e)

theorem updateLayer_globals (c : Nat) (layer : Layer) (e : Engine) :
    (DrawScanline.updateLayer env c layer e).globals = e.globals := by
  unfold DrawScanline.updateLayer
  split_ifs
  · rw [clearLayerDirty_globals, UpdateLayer_globals]
  · rfl

theorem drawLayer_globals (L : Int) (c : Nat) (st : PassState) :
    (DrawScanline.drawLayer env L c st).engine.globals = st.engine.globals := by
  unfold DrawScanline.drawLayer
  split
  · rfl
  · split_ifs
    · exact callDraw_globals env _ _ _ _
    · rfl

theorem layerStep_globals (L : Int) (st : PassState) (c : Nat) :
    (DrawScanline.layerStep env L st c).engine.globals = st.engine.globals := by
  unfold DrawScanline.layerStep
  split
  · rfl
  · split_ifs
    · rw [drawLayer_globals]
      exact updateLayer_globals env _ _ _
    · rfl

theorem updateSprite_globals (i : Nat) (sprite : Sprite) (e : Engine) :
    (DrawScanline.updateSprite env i sprite e).globals = e.globals := by
  unfold DrawScanline.updateSprite
  split_ifs <;> rfl

theorem drawSprite_globals (L : Int) (i : Nat) (st : PassState) :
    (DrawScanline.drawSprite env L i st).engine.globals = st.engine.globals := by
  unfold DrawScanline.drawSprite
  split
  · rfl
  · split_ifs
    · exact callDraw_globals env _ _ _ _
    · rfl
    · rfl

theorem spriteStep_globals (L : Int) (st : PassState) (i : Nat) :
    (DrawScanline.spriteStep env L st i).engine.globals = st.engine.globals := by
  unfold DrawScanline.spriteStep
  split
  · rfl
  · split_ifs
    · rfl
    · rw [drawSprite_globals]
      exact updateSprite_globals env _ _ _

theorem priorityLayerStep_globals (L : Int) (st : PassState) (c : Nat) :
    (DrawScanline.priorityLayerStep env L st c).engine.globals = st.engine.globals := by
  unfold DrawScanline.priorityLayerStep
  split
  · rfl
  · split_ifs
    · exact callDraw_globals env _ _ _ _
    · rfl

theorem overlayStep_globals (L : Int) (st : PassState) :
    (DrawScanline.overlayStep L st).engine.globals = st.engine.globals := by
  unfold DrawScanline.overlayStep
  split_ifs <;> rfl

theorem foldl_globals (f : PassState → Nat → PassState)
    (hf : ∀ st c, (f st c).engine.globals = st.engine.globals) (l : List Nat) :
    ∀ st : PassState, (l.foldl f st).engine.globals = st.engine.globals := by
  induction l with
  | nil => intro st; rfl
  | cons a l ih => intro st; rw [List.foldl_cons, ih, hf]

theorem passes_globals (L : Int) (st : PassState) :
    (DrawScanline.passes env L st).engine.globals = st.engine.globals := by
  unfold DrawScanline.passes
  rw [overlayStep_globals, foldl_globals _ (priorityLayerStep_globals env L),
    foldl_globals _ (spriteStep_globals env L), foldl_globals _ (layerStep_globals env L)]

/-- The engine as the raster callback of `DrawScanline` leaves it. -/
theorem start_globals (e : Engine) :
    (DrawScanline.start env e).engine.globals = (DrawScanline.afterRaster env e).globals := rfl

/-- **C1.** Every call of `DrawScanline` clears the engine `dirty` flag, returns true
exactly when the new value of `line` is less than the framebuffer height,
and increases `line` by exactly one, the raster callback (if one is
registered) leaving `line` as it found it. -/
theorem DrawScanline_advances (e : Engine) :
    (DrawScanline env e).engine.dirty = false
    ∧ ((DrawScanline env e).ret = true
        ↔ (DrawScanline env e).engine.line < (DrawScanline env e).engine.framebuffer.height)
    ∧ ((∀ cb, e.cb_raster = some cb → (env.callbacks cb e.line e).line = e.line)
        → (DrawScanline env e).engine.line = e.line + 1) := by
  refine ⟨rfl, ?_, ?_⟩
  · simp [DrawScanline]
  · intro hcb
    have h := congrArg Engine.line (passes_globals env e.line (DrawScanline.start env e))
    have h2 := congrArg Engine.line (start_globals env e)
    simp only [Engine.globals] at h h2
    show (DrawScanline.passes env e.line (DrawScanline.start env e)).engine.line + 1 = e.line + 1
    rw [h, h2]
    unfold DrawScanline.afterRaster
    cases hc : e.cb_raster with
    | none => rfl
    | some cb => simp only [hcb cb hc]

/-- Witness of C1 on the demo scene with the demo raster callback registered. -/
theorem DrawScanline_advances_witness :
    (∀ cb, ({ demoEngine with cb_raster := some 0 } : Engine).cb_raster = some cb →
        (demoEnv.callbacks cb 0 { demoEngine with cb_raster := some 0 }).line = 0)
    ∧ (DrawScanline demoEnv { demoEngine with cb_raster := some 0 }).engine.line = 1 :=
  ⟨fun _ _ => rfl,
   (DrawScanline_advances demoEnv { demoEngine with cb_raster := some 0 }).2.2 (fun _ _ => rfl)⟩


/-! ## Order of the draw calls within a scanline -/

theorem Similar.refl (e : Engine) : Similar e e := ⟨rfl, rfl, rfl⟩

theorem Similar.trans {a b c : Engine} (h1 : Similar a b) (h2 : Similar b c) : Similar a c :=
  ⟨h2.1.trans h1.1, h2.2.1.trans h1.2.1, h2.2.2.trans h1.2.2⟩

theorem similar_of_control {e e' : Engine} (h : e'.control = e.control) : Similar e e' := by
  refine ⟨globals_of_control h, ?_, ?_⟩
  · have h1 := congrArg (fun x : Engine => x.layers.map Layer.sched) h
    simpa [Engine.control, List.map_map, Function.comp_def, Layer.sched, Layer.noBuffer] using h1
  · have h1 := congrArg (fun x : Engine => x.sprites) h
    simpa [Engine.control] using h1

theorem callDraw_similar (d : Option ScanDrawPtr) (i : Nat) (L : Int) (e : Engine) :
    Similar e (callDraw env d i L e).2 :=
  similar_of_control (callDraw_control env d i L e)

theorem layerRead_nat (c : Nat) (e : Engine) (layer : Layer) (hl : e.layers[c]? = some layer) :
    layerRead env e (c : Int) = layer := by
  simp [layerRead, hl]

theorem layerWrite_nat (c : Nat) (e : Engine) (l : Layer) :
    layerWrite e (c : Int) l = { e with layers := e.layers.set c l } := by
  simp [layerWrite]

theorem TLN_SetLayerPosition_similar (c : Nat) (h v : Int) (e : Engine) (layer : Layer)
    (hl : e.layers[c]? = some layer) (hok : layer.ok = true) :
    Similar e (TLN_SetLayerPosition env c h v e).2 := by
  unfold TLN_SetLayerPosition
  rw [layerRead_nat env c e layer hl]
  simp only [layerWrite_nat, TLN_SetLastError]
  split_ifs
  all_goals first
    | exact ⟨rfl, rfl, rfl⟩
    | exact ⟨rfl, map_set_of_eq _ _ _ _ _ hl (by simp [Layer.sched, hok]), rfl⟩

theorem clearLayerDirty_similar (c : Nat) (e : Engine) : Similar e (clearLayerDirty e c) := by
  unfold clearLayerDirty
  split
  · next layer hl =>
    refine ⟨rfl, ?_, rfl⟩
    exact map_set_of_eq _ _ _ _ _ hl rfl
  · exact Similar.refl e

theorem updateLayer_similar (c : Nat) (layer : Layer) (e : Engine)
    (hl : e.layers[c]? = some layer) (hok : layer.ok = true) :
    Similar e (DrawScanline.updateLayer env c layer e) := by
  unfold DrawScanline.updateLayer
  split_ifs
  · exact (TLN_SetLayerPosition_similar env c _ _ e layer hl hok).trans
      (clearLayerDirty_similar c _)
  · exact Similar.refl e

theorem sched_getElem? {e e' : Engine} (h : Similar e e') (c : Nat) :
    (e'.layers[c]?).map Layer.sched = (e.layers[c]?).map Layer.sched := by
  have := congrArg (fun l : List _ => l[c]?) h.2.1
  simpa [List.getElem?_map] using this

theorem layerDrawn_similar {e e' : Engine} (h : Similar e e') (L : Int) (p : Bool) (c : Nat) :
    layerDrawn e' L p c = layerDrawn e L p c := by
  unfold layerDrawn
  rw [sched_getElem? h]

theorem layers_length_similar {e e' : Engine} (h : Similar e e') :
    e'.layers.length = e.layers.length := by
  have := congrArg List.length h.2.1
  simpa using this

theorem sprites_length_similar {e e' : Engine} (h : Similar e e') :
    e'.sprites.length = e.sprites.length := by
  have := congrArg List.length h.2.2
  simpa using this

/-- The layer draw block appends the draw event exactly when the layer is a
non-priority layer whose clip range contains the line. -/
theorem drawLayer_spec (L : Int) (c : Nat) (st : PassState) (layer : Layer)
    (hl : st.engine.layers[c]? = some layer) (hok : layer.ok = true) :
    Similar st.engine (DrawScanline.drawLayer env L c st).engine
    ∧ (DrawScanline.drawLayer env L c st).events
        = st.events ++ (if layerDrawn st.engine L false c then [Event.layerDraw c L] else []) := by
  unfold DrawScanline.drawLayer
  simp only [hl, layerDrawn, Option.map_some', Layer.sched, schedDrawn, hok, Bool.true_and]
  by_cases hp : layer.priority = true
  · simp [hp, Similar.refl]
  · simp only [Bool.not_eq_true] at hp
    by_cases h1 : layer.clip.y1 ≤ L <;> by_cases h2 : L ≤ layer.clip.y2 <;>
      simp [hp, h1, h2, Similar.refl, callDraw_similar]

theorem layerStep_spec (L : Int) (st : PassState) (c : Nat) :
    Similar st.engine (DrawScanline.layerStep env L st c).engine
    ∧ (DrawScanline.layerStep env L st c).events
        = st.events ++ (if layerDrawn st.engine L false c then [Event.layerDraw c L] else []) := by
  unfold DrawScanline.layerStep
  cases hl : st.engine.layers[c]? with
  | none => simp [layerDrawn, hl, schedDrawn, Similar.refl]
  | some layer =>
    by_cases hok : layer.ok = true
    · simp only [hok, if_true]
      have hs := updateLayer_similar env c layer st.engine hl hok
      have hl' := sched_getElem? hs c
      rw [hl] at hl'
      cases hl1 : (DrawScanline.updateLayer env c layer st.engine).layers[c]? with
      | none => simp [hl1] at hl'
      | some layer1 =>
        have hok1 : layer1.ok = true := by
          simp only [hl1, Option.map_some', Layer.sched, Option.some.injEq, Prod.mk.injEq] at hl'
          rw [hl'.1, hok]
        have := drawLayer_spec env L c
          { st with engine := DrawScanline.updateLayer env c layer st.engine } layer1 hl1 hok1
        refine ⟨hs.trans this.1, ?_⟩
        rw [this.2, layerDrawn_similar hs]
    · simp only [hok, if_false]
      simp [layerDrawn, hl, schedDrawn, Layer.sched, hok, Similar.refl]

theorem priorityLayerStep_spec (L : Int) (st : PassState) (c : Nat) :
    Similar st.engine (DrawScanline.priorityLayerStep env L st c).engine
    ∧ (DrawScanline.priorityLayerStep env L st c).events
        = st.events ++ (if layerDrawn st.engine L true c then [Event.layerDraw c L] else []) := by
  unfold DrawScanline.priorityLayerStep
  cases hl : st.engine.layers[c]? with
  | none => simp [layerDrawn, hl, schedDrawn, Similar.refl]
  | some layer =>
    simp only [layerDrawn, hl, Option.map_some', Layer.sched, schedDrawn]
    by_cases hok : layer.ok = true <;> by_cases hp : layer.priority = true <;>
      by_cases h1 : layer.clip.y1 ≤ L <;> by_cases h2 : L ≤ layer.clip.y2 <;>
      simp [hok, hp, h1, h2, Similar.refl, callDraw_similar]

/-- A loop whose body preserves `Similar` and appends an event exactly when a test on
the scene holds appends the events of the indices that pass the test. -/
theorem foldl_layer_events (f : PassState → Nat → PassState) (P : Engine → Nat → Bool)
    (ev : Nat → Event)
    (hP : ∀ e e', Similar e e' → ∀ c, P e' c = P e c)
    (hf : ∀ st c, Similar st.engine (f st c).engine
      ∧ (f st c).events = st.events ++ (if P st.engine c then [ev c] else []))
    (l : List Nat) :
    ∀ st : PassState, Similar st.engine (l.foldl f st).engine
      ∧ (l.foldl f st).events = st.events ++ (l.filter (P st.engine)).map ev := by
  induction l with
  | nil => intro st; simp [Similar.refl]
  | cons a l ih =>
    intro st
    rw [List.foldl_cons]
    obtain ⟨h1, h2⟩ := ih (f st a)
    obtain ⟨h3, h4⟩ := hf st a
    refine ⟨h3.trans h1, ?_⟩
    rw [h2, h4]
    have : (fun c => P (f st a).engine c) = (fun c => P st.engine c) := by
      funext c; exact hP _ _ h3 c
    simp only [this, List.filter_cons]
    by_cases hp : P st.engine a = true <;> simp [hp]

theorem mask_of_globals {e e' : Engine} (he : e'.globals = e.globals) :
    e'.sprite_mask_top = e.sprite_mask_top ∧ e'.sprite_mask_bottom = e.sprite_mask_bottom := by
  constructor
  · have := congrArg Engine.sprite_mask_top he; exact this
  · have := congrArg Engine.sprite_mask_bottom he; exact this

theorem coverage_congr {e e' : Engine} {s s' : Sprite} (L : Int)
    (he : e'.sprite_mask_top = e.sprite_mask_top ∧ e'.sprite_mask_bottom = e.sprite_mask_bottom)
    (hs : s'.noCollision = s.noCollision) :
    check_sprite_coverage e' s' L = check_sprite_coverage e s L := by
  have h1 : s'.dstrect = s.dstrect := by
    have := congrArg Sprite.dstrect hs; exact this
  have h2 : s'.srcrect = s.srcrect := by
    have := congrArg Sprite.srcrect hs; exact this
  have h3 : s'.flags = s.flags := by
    have := congrArg Sprite.flags hs; exact this
  have h4 := he.1
  have h5 := he.2
  unfold check_sprite_coverage
  rw [h1, h2, h3, h4, h5]

theorem spriteDrawn_congr {a a' b b' : Engine} (L : Int) (i : Nat)
    (h1 : (a'.sprites[i]?).map Sprite.noCollision = (a.sprites[i]?).map Sprite.noCollision)
    (h2 : (b'.sprites[i]?).map Sprite.noCollision = (b.sprites[i]?).map Sprite.noCollision)
    (h3 : b'.sprite_mask_top = b.sprite_mask_top ∧ b'.sprite_mask_bottom = b.sprite_mask_bottom) :
    spriteDrawn a' b' L i = spriteDrawn a b L i := by
  unfold spriteDrawn
  cases ha : a.sprites[i]? <;> cases ha' : a'.sprites[i]? <;>
    cases hb : b.sprites[i]? <;> cases hb' : b'.sprites[i]? <;>
    simp only [ha, ha', hb, hb', Option.map_some', Option.map_none', Option.some.injEq,
      reduceCtorEq] at h1 h2 <;> try rfl
  rename_i s s' t t'
  have e1 : s'.ok = s.ok := by
    have := congrArg Sprite.ok h1; exact this
  have e2 : t'.flags = t.flags := by
    have := congrArg Sprite.flags h2; exact this
  show (s'.ok && check_sprite_coverage b' t' L && !hasFlag t'.flags FLAG_PRIORITY)
    = (s.ok && check_sprite_coverage b t L && !hasFlag t.flags FLAG_PRIORITY)
  rw [coverage_congr L h3 h2, e1, e2]

theorem sprite_getElem?_similar {e e' : Engine} (h : Similar e e') (j : Nat) :
    (e'.sprites[j]?).map Sprite.noCollision = (e.sprites[j]?).map Sprite.noCollision := by
  have := congrArg (fun l : List _ => l[j]?) h.2.2
  simpa [List.getElem?_map] using this

/-- What one turn of the sprite loop does to the state and to the list of calls. -/
theorem spriteStep_spec (L : Int) (st : PassState) (i : Nat) :
    (DrawScanline.spriteStep env L st i).engine.globals = st.engine.globals
    ∧ (DrawScanline.spriteStep env L st i).engine.layers.map Layer.sched
        = st.engine.layers.map Layer.sched
    ∧ (∀ j, j ≠ i →
        ((DrawScanline.spriteStep env L st i).engine.sprites[j]?).map Sprite.noCollision
          = (st.engine.sprites[j]?).map Sprite.noCollision)
    ∧ (DrawScanline.spriteStep env L st i).events
        = st.events ++
          (if spriteDrawn st.engine (DrawScanline.spriteStep env L st i).engine L i
            then [Event.spriteDraw i L] else []) := by
  unfold DrawScanline.spriteStep
  cases hs : st.engine.sprites[i]? with
  | none => simp [spriteDrawn, hs]
  | some sprite =>
    by_cases hok : sprite.ok = true
    swap
    · simp [spriteDrawn, hs, hok]
    simp only [hok, Bool.not_true, Bool.false_eq_true, if_false]
    -- the update block
    have hu1 : (DrawScanline.updateSprite env i sprite st.engine).globals = st.engine.globals :=
      updateSprite_globals env i sprite st.engine
    have hu2 : (DrawScanline.updateSprite env i sprite st.engine).layers = st.engine.layers := by
      unfold DrawScanline.updateSprite
      split_ifs <;> rfl
    have hu3 : ∀ j, j ≠ i →
        (DrawScanline.updateSprite env i sprite st.engine).sprites[j]? = st.engine.sprites[j]? := by
      intro j hj
      unfold DrawScanline.updateSprite
      split_ifs
      · simp [List.getElem?_set, Ne.symm hj]
      · rfl
    have hu4 : ∃ s1, (DrawScanline.updateSprite env i sprite st.engine).sprites[i]? = some s1 := by
      unfold DrawScanline.updateSprite
      have hlt : i < st.engine.sprites.length := (List.getElem?_eq_some_iff.mp hs).1
      split_ifs
      · exact ⟨_, List.getElem?_set_self hlt⟩
      · exact ⟨sprite, hs⟩
    obtain ⟨s1, hs1⟩ := hu4
    generalize DrawScanline.updateSprite env i sprite st.engine = e1 at hu1 hu2 hu3 hs1
    unfold DrawScanline.drawSprite
    simp only [hs1, spriteDrawn, hs, hok, Bool.true_and]
    by_cases hc : check_sprite_coverage e1 s1 L = true
    · by_cases hp : hasFlag s1.flags FLAG_PRIORITY = true
      · simp [hc, hp, hu1, hu2, hs1]
        intro j hj
        rw [hu3 j hj]
      · have hp' : hasFlag s1.flags FLAG_PRIORITY = false := by simpa using hp
        simp only [hc, hp', if_true, Bool.not_false]
        have hsim := callDraw_similar env s1.draw i L e1
        refine ⟨hsim.1.trans hu1, ?_, ?_, ?_⟩
        · rw [hsim.2.1, hu2]
        · intro j hj
          rw [sprite_getElem?_similar hsim, hu3 j hj]
        · have h2 := sprite_getElem?_similar hsim i
          rw [hs1] at h2
          cases hq : (callDraw env s1.draw i L e1).2.sprites[i]? with
          | none => simp [hq] at h2
          | some s2 =>
            simp only [hq, Option.map_some', Option.some.injEq] at h2
            have e2 : s2.flags = s1.flags := by
              have := congrArg Sprite.flags h2; exact this
            simp [coverage_congr L (mask_of_globals hsim.1) h2, e2, hc, hp', hok]
    · simp [hc, hu1, hu2, hs1]
      intro j hj
      rw [hu3 j hj]

/-- The sprite loop over a duplicate-free list of indices: the calls it appends are
those of the indices whose sprite, enabled on entry and taken with the
rectangles it has when the loop ends, is covered and not a priority
sprite. -/
theorem foldl_sprite_events (L : Int) (e0 : Engine) (l : List Nat) (hnd : l.Nodup) :
    ∀ st : PassState,
      (∀ j ∈ l, (st.engine.sprites[j]?).map Sprite.noCollision
          = (e0.sprites[j]?).map Sprite.noCollision) →
      (l.foldl (DrawScanline.spriteStep env L) st).engine.globals = st.engine.globals
      ∧ (l.foldl (DrawScanline.spriteStep env L) st).engine.layers.map Layer.sched
          = st.engine.layers.map Layer.sched
      ∧ (∀ j, j ∉ l →
          ((l.foldl (DrawScanline.spriteStep env L) st).engine.sprites[j]?).map Sprite.noCollision
            = (st.engine.sprites[j]?).map Sprite.noCollision)
      ∧ (l.foldl (DrawScanline.spriteStep env L) st).events
          = st.events ++
            (l.filter (spriteDrawn e0 (l.foldl (DrawScanline.spriteStep env L) st).engine L)).map
              (fun i => Event.spriteDraw i L) := by
  induction l with
  | nil => intro st _; simp
  | cons i l ih =>
    intro st h0
    rw [List.foldl_cons]
    have hnd' := (List.nodup_cons.mp hnd)
    obtain ⟨g1, g2, g3, g4⟩ := spriteStep_spec env L st i
    have h1 : ∀ j ∈ l, ((DrawScanline.spriteStep env L st i).engine.sprites[j]?).map
        Sprite.noCollision = (e0.sprites[j]?).map Sprite.noCollision := by
      intro j hj
      have hji : j ≠ i := fun h => hnd'.1 (h ▸ hj)
      rw [g3 j hji]
      exact h0 j (List.mem_cons_of_mem _ hj)
    obtain ⟨f1, f2, f3, f4⟩ := ih hnd'.2 (DrawScanline.spriteStep env L st i) h1
    refine ⟨f1.trans g1, f2.trans g2, ?_, ?_⟩
    · intro j hj
      have hji : j ≠ i := fun h => hj (h ▸ List.mem_cons_self _ _)
      have hjl : j ∉ l := fun h => hj (List.mem_cons_of_mem _ h)
      rw [f3 j hjl, g3 j hji]
    · rw [f4, g4]
      have hd : spriteDrawn e0 (List.foldl (DrawScanline.spriteStep env L)
            (DrawScanline.spriteStep env L st i) l).engine L i
          = spriteDrawn st.engine (DrawScanline.spriteStep env L st i).engine L i :=
        spriteDrawn_congr L i (h0 i (List.mem_cons_self _ _)).symm (f3 i hnd'.1)
          (mask_of_globals f1)
      rw [List.filter_cons, hd]
      split_ifs <;> simp

theorem layerDrawn_congr_fun {e e' : Engine} (h : Similar e e') (L : Int) (p : Bool) :
    layerDrawn e' L p = layerDrawn e L p :=
  funext (layerDrawn_similar h L p)

theorem start_similar (e : Engine) :
    Similar (DrawScanline.afterRaster env e) (DrawScanline.start env e).engine :=
  ⟨rfl, rfl, rfl⟩

theorem afterRaster_none (e : Engine) (h : e.cb_raster = none) :
    DrawScanline.afterRaster env e = e := by
  unfold DrawScanline.afterRaster
  rw [h]

theorem overlayStep_spec (L : Int) (st : PassState) :
    Similar st.engine (DrawScanline.overlayStep L st).engine
    ∧ (DrawScanline.overlayStep L st).events
        = st.events ++ (if st.background_priority then [Event.overlay L] else []) := by
  unfold DrawScanline.overlayStep
  split_ifs <;> simp [Similar.refl]
  exact ⟨rfl, rfl, rfl⟩

/-- The calls made by the three loops and the overlay of `DrawScanline`, started in a
state whose layers and sprites are those of the scene `e` up to what draw
procedures write. -/
theorem passes_events (L : Int) (e : Engine) (st0 : PassState) (hs0 : Similar e st0.engine) :
    ∃ overlay : Bool,
      (DrawScanline.passes env L st0).events =
        st0.events
          ++ ((List.range e.layers.length).reverse.filter (layerDrawn e L false)).map
              (fun c => Event.layerDraw c L)
          ++ ((List.range e.sprites.length).filter
                (spriteDrawn e (DrawScanline.passes env L st0).engine L)).map
              (fun i => Event.spriteDraw i L)
          ++ ((List.range e.layers.length).reverse.filter (layerDrawn e L true)).map
              (fun c => Event.layerDraw c L)
          ++ (if overlay then [Event.overlay L] else []) := by
  unfold DrawScanline.passes
  simp only []
  -- layer pass
  obtain ⟨hs1, hev1⟩ := foldl_layer_events (DrawScanline.layerStep env L)
    (fun x c => layerDrawn x L false c) (fun c => Event.layerDraw c L)
    (fun a b hab c => layerDrawn_similar hab _ _ c) (layerStep_spec env L)
    (List.range st0.engine.layers.length).reverse st0
  generalize (List.range st0.engine.layers.length).reverse.foldl
      (DrawScanline.layerStep env L) st0 = st1 at hs1 hev1 ⊢
  have hs01 : Similar e st1.engine := hs0.trans hs1
  -- sprite pass
  obtain ⟨g1, g2, g3, hev2⟩ := foldl_sprite_events env L e
    (List.range st1.engine.sprites.length) (List.nodup_range _) st1
    (fun j _ => sprite_getElem?_similar hs01 j)
  generalize (List.range st1.engine.sprites.length).foldl
      (DrawScanline.spriteStep env L) st1 = st2 at g1 g2 g3 hev2 ⊢
  have hsched2 : st2.engine.layers.map Layer.sched = e.layers.map Layer.sched :=
    g2.trans hs01.2.1
  -- priority layer pass
  obtain ⟨hs3, hev3⟩ := foldl_layer_events (DrawScanline.priorityLayerStep env L)
    (fun x c => layerDrawn x L true c) (fun c => Event.layerDraw c L)
    (fun a b hab c => layerDrawn_similar hab _ _ c) (priorityLayerStep_spec env L)
    (List.range st2.engine.layers.length).reverse st2
  generalize (List.range st2.engine.layers.length).reverse.foldl
      (DrawScanline.priorityLayerStep env L) st2 = st3 at hs3 hev3 ⊢
  obtain ⟨hs4, hev4⟩ := overlayStep_spec L st3
  -- lengths and tests in terms of the scene on entry
  have hl0 : st0.engine.layers.length = e.layers.length := layers_length_similar hs0
  have hl1 : st1.engine.sprites.length = e.sprites.length := sprites_length_similar hs01
  have hl2 : st2.engine.layers.length = e.layers.length := by
    have := congrArg List.length hsched2
    simpa using this
  have hd0 : (fun c => layerDrawn st0.engine L false c) = layerDrawn e L false :=
    layerDrawn_congr_fun hs0 _ _
  have hd2 : (fun c => layerDrawn st2.engine L true c) = layerDrawn e L true := by
    funext c
    unfold layerDrawn
    have := congrArg (fun l : List _ => l[c]?) hsched2
    simp only [List.getElem?_map] at this
    rw [this]
  have hd1 : spriteDrawn e (DrawScanline.overlayStep L st3).engine L
      = spriteDrawn e st2.engine L := by
    funext i
    apply spriteDrawn_congr L i rfl
    · rw [sprite_getElem?_similar hs4, sprite_getElem?_similar hs3]
    · exact mask_of_globals (hs4.1.trans hs3.1)
  refine ⟨st3.background_priority, ?_⟩
  rw [hev4, hev3, hev2, hev1, hd1]
  simp only [hl0, hl1, hl2, hd0, hd2]

theorem DrawScanline_engine (e : Engine) :
    (DrawScanline env e).engine
      = { (DrawScanline.passes env e.line (DrawScanline.start env e)).engine with
          dirty := false
          line := (DrawScanline.passes env e.line (DrawScanline.start env e)).engine.line + 1 } := by
  unfold DrawScanline
  rfl

theorem DrawScanline_events (e : Engine) :
    (DrawScanline env e).events
      = (DrawScanline.passes env e.line (DrawScanline.start env e)).events := by
  unfold DrawScanline
  rfl

/-- **C2.** Within one scanline `L` without a raster callback, `DrawScanline` calls
draw procedures in exactly this order, each at most once: every enabled
non-priority layer with `clip.y1 ≤ L ≤ clip.y2` from the highest index down
to 0; then every enabled, covered sprite without `FLAG_PRIORITY` in
increasing index (covered with the rectangles that the call leaves it);
then every enabled whole-layer-priority layer with `clip.y1 ≤ L ≤ clip.y2`
from the highest index down to 0; the priority overlay, when it takes
place, comes last. -/
theorem DrawScanline_order (e : Engine) (h : e.cb_raster = none) :
    ∃ overlay : Bool,
      (DrawScanline env e).events =
        Event.scanline e.line ::
          (((List.range e.layers.length).reverse.filter (layerDrawn e e.line false)).map
              (fun c => Event.layerDraw c e.line)
            ++ ((List.range e.sprites.length).filter
                (spriteDrawn e (DrawScanline env e).engine e.line)).map
              (fun i => Event.spriteDraw i e.line)
            ++ ((List.range e.layers.length).reverse.filter (layerDrawn e e.line true)).map
              (fun c => Event.layerDraw c e.line)
            ++ (if overlay then [Event.overlay e.line] else [])) := by
  have hsim := start_similar env e
  rw [afterRaster_none env e h] at hsim
  obtain ⟨ov, hev⟩ := passes_events env e.line e (DrawScanline.start env e) hsim
  have hev0 : (DrawScanline.start env e).events = [Event.scanline e.line] := by
    simp [DrawScanline.start, DrawScanline.rasterCall, h]
  have hd : spriteDrawn e (DrawScanline env e).engine e.line
      = spriteDrawn e (DrawScanline.passes env e.line (DrawScanline.start env e)).engine
          e.line := by
    funext i
    rw [DrawScanline_engine]
    generalize (DrawScanline.passes env e.line (DrawScanline.start env e)).engine = x
    exact spriteDrawn_congr e.line i rfl rfl ⟨rfl, rfl⟩
  refine ⟨ov, ?_⟩
  rw [hd, DrawScanline_events, hev, hev0]
  simp

/-! ## C integer operations on the ranges the renderer uses -/

theorem cmod_of_nonneg {a b : Int} (ha : 0 ≤ a) (hb : 0 ≤ b) : cmod a b = a % b :=
  Int.tmod_eq_emod ha hb

theorem shr_eq_div (a : Int) {k : Int} : shr a k = a / (2 : Int) ^ k.toNat := by
  unfold shr
  rw [Int.shiftRight_eq_div_pow]
  norm_cast

theorem band_bounds (a : Int) {m : Int} (hm : 0 ≤ m) : 0 ≤ band a m ∧ band a m ≤ m := by
  obtain ⟨n, rfl⟩ := Int.eq_ofNat_of_zero_le hm
  unfold band
  cases a with
  | ofNat k =>
    show (0 : Int) ≤ ((k &&& n : Nat) : Int) ∧ ((k &&& n : Nat) : Int) ≤ (n : Int)
    exact ⟨Int.ofNat_nonneg _, Int.ofNat_le.mpr Nat.and_le_right⟩
  | negSucc k =>
    show (0 : Int) ≤ ((Nat.ldiff n k : Nat) : Int) ∧ ((Nat.ldiff n k : Nat) : Int) ≤ (n : Int)
    refine ⟨Int.ofNat_nonneg _, Int.ofNat_le.mpr ?_⟩
    apply Nat.le_of_testBit
    intro i hi
    rw [Nat.testBit_ldiff] at hi
    simp only [Bool.and_eq_true] at hi
    exact hi.1

theorem band_pow_mask {a : Int} (ha : 0 ≤ a) (n : Nat) :
    band a ((2 : Int) ^ n - 1) = a % (2 : Int) ^ n := by
  obtain ⟨k, rfl⟩ := Int.eq_ofNat_of_zero_le ha
  have h1 : ((2 : Int) ^ n - 1) = ((2 ^ n - 1 : Nat) : Int) := by
    have : 1 ≤ 2 ^ n := Nat.one_le_two_pow
    push_cast [Nat.cast_sub this]
    rfl
  unfold band
  rw [h1]
  show ((k &&& (2 ^ n - 1) : Nat) : Int) = _
  rw [Nat.and_pow_two_sub_one_eq_mod]
  push_cast
  rfl

/-! ## The span loop of the normal-mode renderer -/

theorem shl_add (a b n : Int) : shl (a + b) n = shl a n + shl b n := by
  unfold shl; ring

theorem shl_zero (n : Int) : shl 0 n = 0 := by
  unfold shl; ring

/-- The spans of the loop, entered with `0 ≤ srcx < tileset.width` and enough
iterations for the rest of the clip range: each is well formed, they are
laid out left to right without overlap, and they cover the range. -/
theorem loop_spans (layer : Layer) (ts : Tileset) (tm : Tilemap) (nscan shift : Int) :
    ∀ (fuel : Nat) (x0 xtile srcx col d p : Int),
      0 ≤ srcx → srcx < ts.width → (layer.clip.x2 - x0).toNat ≤ fuel →
      (∀ s ∈ DrawLayerScanline.loop layer ts tm nscan shift fuel x0 xtile srcx col d p,
          SpanWF layer ts tm nscan shift x0 d p s)
      ∧ (DrawLayerScanline.loop layer ts tm nscan shift fuel x0 xtile srcx col d p).Pairwise
          (fun a b => a.x + a.width ≤ b.x)
      ∧ (∀ x, x0 ≤ x → x < layer.clip.x2 →
          ∃ s ∈ DrawLayerScanline.loop layer ts tm nscan shift fuel x0 xtile srcx col d p,
            s.x ≤ x ∧ x < s.x + s.width) := by
  intro fuel
  induction fuel with
  | zero =>
    intro x0 xtile srcx col d p _ _ hf
    have hx : layer.clip.x2 ≤ x0 := by omega
    refine ⟨by simp [DrawLayerScanline.loop], by simp [DrawLayerScanline.loop], ?_⟩
    intro x h1 h2
    omega
  | succ fuel ih =>
    intro x0 xtile srcx col d p h0 h1 hf
    unfold DrawLayerScanline.loop
    by_cases hx : x0 < layer.clip.x2
    swap
    · simp only [hx, if_false]
      refine ⟨by simp, by simp, ?_⟩
      intro x h1 h2
      omega
    simp only [hx, if_true]
    -- the width of the head span
    have hw : 1 ≤ (if x0 + (ts.width - srcx) > layer.clip.x2 then layer.clip.x2
        else x0 + (ts.width - srcx)) - x0 := by
      split_ifs <;> omega
    have hw2 : x0 + ((if x0 + (ts.width - srcx) > layer.clip.x2 then layer.clip.x2
        else x0 + (ts.width - srcx)) - x0) ≤ layer.clip.x2 := by
      split_ifs <;> omega
    have hw3 : (if x0 + (ts.width - srcx) > layer.clip.x2 then layer.clip.x2
        else x0 + (ts.width - srcx)) - x0 ≤ ts.width - srcx := by
      split_ifs <;> omega
    have hw4 : (if x0 + (ts.width - srcx) > layer.clip.x2 then layer.clip.x2
        else x0 + (ts.width - srcx)) - x0 = ts.width - srcx
        ∨ x0 + ((if x0 + (ts.width - srcx) > layer.clip.x2 then layer.clip.x2
        else x0 + (ts.width - srcx)) - x0) = layer.clip.x2 := by
      split_ifs <;> omega
    generalize (if x0 + (ts.width - srcx) > layer.clip.x2 then layer.clip.x2
        else x0 + (ts.width - srcx)) - x0 = w at hw hw2 hw3 hw4
    obtain ⟨i1, i2, i3⟩ := ih (x0 + w) (cmod (xtile + 1) tm.cols) 0 (col + 1)
      (d + shl w shift) (p + shl w shift) (le_refl 0) (by omega) (by omega)
    refine ⟨?_, ?_, ?_⟩
    · intro s hs
      rcases List.mem_cons.mp hs with rfl | hs
      · exact { x_ge := le_refl _, width_pos := hw, width_le := hw3, in_clip := hw2,
                width_eq := hw4,
                tilewidth_eq := rfl, srcx_nonneg := h0, srcx_lt := h1, step_eq := rfl,
                tile_eq := rfl, ytile_eq := rfl, srcy_eq := rfl,
                dstoff_eq := by simp [shl_zero], prioff_eq := by simp [shl_zero] }
      · have q := i1 s hs
        exact { x_ge := by have := q.x_ge; omega, width_pos := q.width_pos,
                width_le := q.width_le, in_clip := q.in_clip, width_eq := q.width_eq,
                tilewidth_eq := q.tilewidth_eq, srcx_nonneg := q.srcx_nonneg,
                srcx_lt := q.srcx_lt, step_eq := q.step_eq, tile_eq := q.tile_eq,
                ytile_eq := q.ytile_eq, srcy_eq := q.srcy_eq,
                dstoff_eq := by
                  rw [q.dstoff_eq, add_assoc, ← shl_add]; congr 2; ring
                prioff_eq := by
                  rw [q.prioff_eq, add_assoc, ← shl_add]; congr 2; ring }
    · rw [List.pairwise_cons]
      refine ⟨?_, i2⟩
      intro s hs
      exact (i1 s hs).x_ge
    · intro x hx1 hx2
      by_cases hxw : x < x0 + w
      · exact ⟨_, List.mem_cons_self _ _, hx1, hxw⟩
      · obtain ⟨s, hs, h⟩ := i3 x (by omega) hx2
        exact ⟨s, List.mem_cons_of_mem _ hs, h⟩

theorem tile_div_mod {t tw r : Int} (h0 : 0 ≤ r) (h1 : r < tw) :
    (t * tw + r) / tw = t ∧ (t * tw + r) % tw = r := by
  have htw : 0 < tw := by omega
  constructor
  · rw [add_comm, Int.add_mul_ediv_right _ _ (by omega), Int.ediv_eq_zero_of_lt h0 h1]
    simp
  · rw [add_comm, Int.add_mul_emod_self, Int.emod_eq_of_lt h0 h1]

theorem emod_shift {A W r d : Int} (hA : A % W = r) (h0 : 0 ≤ r + d) (h1 : r + d < W) :
    (A + d) % W = r + d := by
  have hW : 0 < W := by omega
  have h := Int.emod_add_ediv A W
  have : A + d = (r + d) + W * (A / W) := by rw [← hA]; omega
  rw [this, Int.add_mul_emod_self_left, Int.emod_eq_of_lt h0 h1]

theorem next_tile {cols tw t : Int} (htw : 0 < tw) :
    ((t + 1) * tw) % (cols * tw) = ((t + 1) % cols) * tw := by
  rw [mul_comm (t + 1) tw, mul_comm cols tw, Int.mul_emod_mul_of_pos _ _ htw, mul_comm]

theorem loop_nil (layer : Layer) (ts : Tileset) (tm : Tilemap) (nscan shift : Int)
    (fuel : Nat) (x0 xtile srcx col d p : Int) (hx : layer.clip.x2 ≤ x0) :
    DrawLayerScanline.loop layer ts tm nscan shift fuel x0 xtile srcx col d p = [] := by
  cases fuel with
  | zero => rfl
  | succ n =>
    unfold DrawLayerScanline.loop
    have : ¬ x0 < layer.clip.x2 := by omega
    simp [this]

/-- The tile column and in-tile column of every span of the loop are those of the
layer position `(hstart + x) mod layer_width` of its first pixel. -/
theorem loop_tiles (layer : Layer) (ts : Tileset) (tm : Tilemap) (nscan shift : Int)
    (hc : 0 < tm.cols) :
    ∀ (fuel : Nat) (x0 xtile srcx col d p : Int),
      0 ≤ srcx → srcx < ts.width → 0 ≤ xtile → xtile < tm.cols →
      (layer.hstart + x0) % (tm.cols * ts.width) = xtile * ts.width + srcx →
      ∀ s ∈ DrawLayerScanline.loop layer ts tm nscan shift fuel x0 xtile srcx col d p,
        0 ≤ s.xtile ∧ s.xtile < tm.cols
        ∧ (layer.hstart + s.x) % (tm.cols * ts.width) = s.xtile * ts.width + s.srcx := by
  intro fuel
  induction fuel with
  | zero =>
    intro x0 xtile srcx col d p _ _ _ _ _ s hs
    simp [DrawLayerScanline.loop] at hs
  | succ fuel ih =>
    intro x0 xtile srcx col d p h0 h1 ht0 ht1 hA s hs
    unfold DrawLayerScanline.loop at hs
    by_cases hx : x0 < layer.clip.x2
    swap
    · simp [hx] at hs
    simp only [hx, if_true] at hs
    rcases List.mem_cons.mp hs with rfl | hs
    · exact ⟨ht0, ht1, hA⟩
    · by_cases hclip : x0 + (ts.width - srcx) > layer.clip.x2
      · simp only [hclip, if_true] at hs
        rw [loop_nil _ _ _ _ _ _ _ _ _ _ _ _ (by omega)] at hs
        simp at hs
      · simp only [hclip, if_false] at hs
        have htw : 0 < ts.width := by omega
        have hm0 : 0 ≤ (xtile + 1) % tm.cols := Int.emod_nonneg _ (by omega)
        have hm1 : (xtile + 1) % tm.cols < tm.cols := Int.emod_lt_of_pos _ hc
        have hcm : cmod (xtile + 1) tm.cols = (xtile + 1) % tm.cols :=
          cmod_of_nonneg (by omega) (by omega)
        rw [hcm] at hs
        refine ih _ _ _ _ _ _ (le_refl 0) htw hm0 hm1 ?_ s hs
        have e1 : layer.hstart + (x0 + (x0 + (ts.width - srcx) - x0))
            = (layer.hstart + x0) + (ts.width - srcx) := by ring
        have h := Int.emod_add_ediv (layer.hstart + x0) (tm.cols * ts.width)
        have e2 : (layer.hstart + x0) + (ts.width - srcx)
            = (xtile + 1) * ts.width
              + (tm.cols * ts.width) * ((layer.hstart + x0) / (tm.cols * ts.width)) := by
          rw [hA] at h
          linear_combination -h
        rw [e1, e2, Int.add_mul_emod_self_left, next_tile htw]
        ring

/-! ## What one blit writes -/

theorem storeWords_outside (dst : Buf) (a width : Int) (f : Int → Nat → Option Nat) (p : Int)
    (hp : p < a ∨ a + width ≤ p) : storeWords dst (4 * a) width f p = dst p := by
  unfold storeWords
  have h4 : 4 * a % 4 = 0 := by omega
  have h5 : 4 * a / 4 = a := by omega
  simp only [h4, if_true, h5]
  have : ¬ (0 ≤ p - a ∧ p - a < width) := by omega
  rw [if_neg this]

theorem storeWords_inside (dst : Buf) (a width : Int) (f : Int → Nat → Option Nat) (p : Int)
    (h1 : a ≤ p) (h2 : p < a + width) :
    storeWords dst (4 * a) width f p = (f (p - a) (dst p)).getD (dst p) := by
  unfold storeWords
  have h4 : 4 * a % 4 = 0 := by omega
  have h5 : 4 * a / 4 = a := by omega
  simp only [h4, if_true, h5]
  have : (0 ≤ p - a ∧ p - a < width) := by omega
  rw [if_pos this]

theorem storeBytesInWords_outside (dst : Buf) (a width : Int) (f : Int → Option Nat) (p : Int)
    (hp : p < a ∨ a + width ≤ p) : storeBytesInWords dst (4 * a) width f p = dst p := by
  unfold storeBytesInWords
  have key : ∀ (l : List Nat) (d : Buf), (∀ i ∈ l, (i : Int) < width) →
      (l.foldl (fun (d : Buf) (i : Nat) => match f (i : Int) with
        | some v => pokeByte d (4 * a + (i : Int)) v
        | none => d) d) p = d p := by
    intro l
    induction l with
    | nil => intro d _; rfl
    | cons i l ih =>
      intro d hl
      rw [List.foldl_cons, ih _ (fun j hj => hl j (List.mem_cons_of_mem _ hj))]
      have hi := hl i (List.mem_cons_self _ _)
      cases f (i : Int) with
      | none => rfl
      | some v =>
        show pokeByte d (4 * a + (i : Int)) v p = d p
        unfold pokeByte
        have : p ≠ (4 * a + (i : Int)) / 4 := by omega
        simp [this]
  apply key
  intro i hi
  have := List.mem_range.mp hi
  omega

theorem blitToWords_outside (b : Option ScanBlitPtr) (fb : Nat) (pals : Nat → Option Palette)
    (src : Buf) (srcoff : Int) (pal : Nat) (dst : Buf) (a width dx offset : Int)
    (blend : Option BlendTable) (p : Int) (hp : p < a ∨ a + width ≤ p) :
    blitToWords b fb pals src srcoff pal dst (4 * a) width dx offset blend p = dst p := by
  unfold blitToWords
  cases b with
  | none => rfl
  | some b =>
    simp only []
    split_ifs
    · exact storeWords_outside _ _ _ _ _ hp
    · exact storeBytesInWords_outside _ _ _ _ _ hp

theorem blitToWords_inside (b : ScanBlitPtr) (hb : b.bpp32 = true) (fb : Nat)
    (pals : Nat → Option Palette)
    (src : Buf) (srcoff : Int) (pal : Nat) (dst : Buf) (a width dx offset : Int)
    (blend : Option BlendTable) (p : Int) (h1 : a ≤ p) (h2 : p < a + width) :
    blitToWords (some b) fb pals src srcoff pal dst (4 * a) width dx offset blend p
      = (blitValue b pals pal blend (blitSource b fb src srcoff dx offset (p - a)) (dst p)).getD
          (dst p) := by
  unfold blitToWords
  simp only [hb, if_true]
  exact storeWords_inside _ _ _ _ _ h1 h2

/-- A span of an empty cell invokes no blitter: it leaves both buffers as they are. -/
theorem paintSpan_empty (fb : Nat) (pals : Nat → Option Palette) (layer : Layer)
    (ts : Tileset) (m : Bool) (st : Buf × Buf) (s : Span) (h : s.tile.index = 0) :
    paintSpan fb pals layer ts m st s = st := by
  unfold paintSpan
  simp [h]

theorem paintSpan_scan_outside (fb : Nat) (pals : Nat → Option Palette) (layer : Layer)
    (ts : Tileset) (st : Buf × Buf) (s : Span) (p : Int) (hd : s.dstoff = 4 * s.x)
    (hp : p < s.x ∨ s.x + s.width ≤ p ∨ s.tile.index = 0
      ∨ hasFlag s.tile.flags FLAG_PRIORITY = true) :
    (paintSpan fb pals layer ts false st s).1 p = st.1 p := by
  unfold paintSpan
  by_cases h0 : s.tile.index = 0
  · simp [h0]
  by_cases h1 : hasFlag s.tile.flags FLAG_PRIORITY = true
  · simp [h0, h1]
  simp only [h0, h1, ne_eq, not_false_eq_true, if_true, if_false, Bool.false_eq_true, hd]
  apply blitToWords_outside
  tauto

theorem paintSpan_pri_outside (fb : Nat) (pals : Nat → Option Palette) (layer : Layer)
    (ts : Tileset) (m : Bool) (st : Buf × Buf) (s : Span) (a p : Int) (hd : s.prioff = 4 * a)
    (hp : p < a ∨ a + s.width ≤ p ∨ s.tile.index = 0
      ∨ hasFlag s.tile.flags FLAG_PRIORITY = false) :
    (paintSpan fb pals layer ts m st s).2 p = st.2 p := by
  unfold paintSpan
  by_cases h0 : s.tile.index = 0
  · simp [h0]
  by_cases h1 : hasFlag s.tile.flags FLAG_PRIORITY = true
  · simp only [h0, h1, ne_eq, not_false_eq_true, if_true, hd]
    apply blitToWords_outside
    simp [h0, h1] at hp
    exact hp
  · simp only [h0, h1, ne_eq, not_false_eq_true, if_true, if_false, Bool.false_eq_true]
    split_ifs <;> rfl

theorem foldl_paint_scan_outside (fb : Nat) (pals : Nat → Option Palette) (layer : Layer)
    (ts : Tileset) (p : Int) (l : List Span) :
    ∀ st : Buf × Buf,
      (∀ s ∈ l, s.dstoff = 4 * s.x ∧ (p < s.x ∨ s.x + s.width ≤ p ∨ s.tile.index = 0
        ∨ hasFlag s.tile.flags FLAG_PRIORITY = true)) →
      (l.foldl (paintSpan fb pals layer ts false) st).1 p = st.1 p := by
  induction l with
  | nil => intro st _; rfl
  | cons s l ih =>
    intro st h
    rw [List.foldl_cons, ih _ (fun t ht => h t (List.mem_cons_of_mem _ ht))]
    exact paintSpan_scan_outside fb pals layer ts st s p (h s (List.mem_cons_self _ _)).1
      (h s (List.mem_cons_self _ _)).2

theorem foldl_paint_pri_outside (fb : Nat) (pals : Nat → Option Palette) (layer : Layer)
    (ts : Tileset) (m : Bool) (x1 p : Int) (l : List Span) :
    ∀ st : Buf × Buf,
      (∀ s ∈ l, s.prioff = 4 * (s.x - x1) ∧ (p < s.x - x1 ∨ s.x - x1 + s.width ≤ p
        ∨ s.tile.index = 0 ∨ hasFlag s.tile.flags FLAG_PRIORITY = false)) →
      (l.foldl (paintSpan fb pals layer ts m) st).2 p = st.2 p := by
  induction l with
  | nil => intro st _; rfl
  | cons s l ih =>
    intro st h
    rw [List.foldl_cons, ih _ (fun t ht => h t (List.mem_cons_of_mem _ ht))]
    exact paintSpan_pri_outside fb pals layer ts m st s _ p (h s (List.mem_cons_self _ _)).1
      (h s (List.mem_cons_self _ _)).2

/-! ## Normal mode: the span and the source pixel of every destination pixel -/

theorem GetTilesetPixelAddr_add (ts : Tileset) (i x y d : Int) :
    GetTilesetPixelAddr ts i x y + d = GetTilesetPixelAddr ts i (x + d) y := by
  unfold GetTilesetPixelAddr; ring

/-- Under `NormalScene`, every destination `x` of the clip range lies in exactly the
span whose cell is the one the claim names, and whose in-tile position is
the claim's `(u, v)` before flipping. -/
theorem normal_span_at (layer : Layer) (ts : Tileset) (tm : Tilemap) (L x : Int)
    (hwf : NormalScene layer ts tm L) (hx1 : layer.clip.x1 ≤ x) (hx2 : x < layer.clip.x2) :
    ∃ s ∈ DrawLayerScanline.spans layer ts tm L 2,
      s.x ≤ x ∧ x < s.x + s.width
      ∧ SpanWF layer ts tm L 2 layer.clip.x1 (4 * layer.clip.x1) 0 s
      ∧ s.tile = specCell layer ts tm L x
      ∧ s.srcx + (x - s.x) = ((layer.hstart + x) % layer.width) % ts.width
      ∧ s.srcy = ((layer.vstart + L) % layer.height) % ts.height := by
  have htw : 0 < ts.width := by rw [hwf.width_eq]; positivity
  have hth : 0 < ts.height := by rw [hwf.height_eq]; positivity
  have hW : 0 < layer.width := by
    rw [hwf.layer_width]; exact Int.mul_pos hwf.cols_pos htw
  have hH : 0 < layer.height := by
    rw [hwf.layer_height]; exact Int.mul_pos hwf.rows_pos hth
  have hx0 : 0 ≤ layer.hstart + layer.clip.x1 := by
    have := hwf.hstart_nonneg; have := hwf.clip_nonneg; omega
  have hy0 : 0 ≤ layer.vstart + L := by
    have := hwf.vstart_nonneg; have := hwf.nscan_nonneg; omega
  -- initial state
  have hxpos : cmod (layer.hstart + layer.clip.x1) layer.width
      = (layer.hstart + layer.clip.x1) % layer.width := cmod_of_nonneg hx0 hW.le
  have hxp0 : 0 ≤ (layer.hstart + layer.clip.x1) % layer.width := Int.emod_nonneg _ hW.ne'
  have hxp1 : (layer.hstart + layer.clip.x1) % layer.width < layer.width :=
    Int.emod_lt_of_pos _ hW
  have hsh : ∀ a, shr a ts.hshift = a / ts.width := by
    intro a; rw [shr_eq_div, hwf.width_eq]
  have hba : ∀ a, 0 ≤ a → band a ts.hmask = a % ts.width := by
    intro a ha; rw [hwf.hmask_eq, hwf.width_eq, band_pow_mask ha]
  have hsv : ∀ a, shr a ts.vshift = a / ts.height := by
    intro a; rw [shr_eq_div, hwf.height_eq]
  have hbv : ∀ a, 0 ≤ a → band a ts.vmask = a % ts.height := by
    intro a ha; rw [hwf.vmask_eq, hwf.height_eq, band_pow_mask ha]
  have hspans : DrawLayerScanline.spans layer ts tm L 2
      = DrawLayerScanline.loop layer ts tm L 2 (layer.clip.x2 - layer.clip.x1).toNat
          layer.clip.x1 (((layer.hstart + layer.clip.x1) % layer.width) / ts.width)
          (((layer.hstart + layer.clip.x1) % layer.width) % ts.width)
          (cmod layer.clip.x1 ts.width) (4 * layer.clip.x1) 0 := by
    unfold DrawLayerScanline.spans
    simp only [hxpos, hsh, hba _ hxp0]
    congr 1
    show layer.clip.x1 * 2 ^ (2 : Int).toNat = 4 * layer.clip.x1
    have : (2 : Int).toNat = 2 := rfl
    rw [this]; ring
  rw [hspans]
  have hs0 : 0 ≤ ((layer.hstart + layer.clip.x1) % layer.width) % ts.width :=
    Int.emod_nonneg _ htw.ne'
  have hs1 : ((layer.hstart + layer.clip.x1) % layer.width) % ts.width < ts.width :=
    Int.emod_lt_of_pos _ htw
  have ht0 : 0 ≤ ((layer.hstart + layer.clip.x1) % layer.width) / ts.width :=
    Int.ediv_nonneg hxp0 htw.le
  have ht1 : ((layer.hstart + layer.clip.x1) % layer.width) / ts.width < tm.cols := by
    apply Int.ediv_lt_of_lt_mul htw
    rw [← hwf.layer_width]; exact hxp1
  have hA : (layer.hstart + layer.clip.x1) % (tm.cols * ts.width)
      = ((layer.hstart + layer.clip.x1) % layer.width) / ts.width * ts.width
        + ((layer.hstart + layer.clip.x1) % layer.width) % ts.width := by
    rw [← hwf.layer_width]
    exact (Int.ediv_add_emod' _ _).symm
  obtain ⟨p1, _, p3⟩ := loop_spans layer ts tm L 2 (layer.clip.x2 - layer.clip.x1).toNat
    layer.clip.x1 _ _ (cmod layer.clip.x1 ts.width) (4 * layer.clip.x1) 0 hs0 hs1 (le_refl _)
  obtain ⟨s, hs, hsx1, hsx2⟩ := p3 x hx1 hx2
  have q := p1 s hs
  obtain ⟨t0, t1, tA⟩ := loop_tiles layer ts tm L 2 hwf.cols_pos _ _ _ _ _ _ _
    hs0 hs1 ht0 ht1 hA s hs
  refine ⟨s, hs, hsx1, hsx2, q, ?_, ?_, ?_⟩
  · -- the cell
    have hd0 : 0 ≤ s.srcx + (x - s.x) := by have := q.srcx_nonneg; omega
    have hd1 : s.srcx + (x - s.x) < ts.width := by
      have := q.width_le; have := q.tilewidth_eq; omega
    have hX : (layer.hstart + x) % layer.width = s.xtile * ts.width + (s.srcx + (x - s.x)) := by
      have e : layer.hstart + x = (layer.hstart + s.x) + (x - s.x) := by ring
      rw [e, hwf.layer_width, ← add_assoc]
      apply emod_shift tA
      · have := Int.mul_nonneg t0 htw.le; omega
      · have : (s.xtile + 1) * ts.width ≤ tm.cols * ts.width :=
          Int.mul_le_mul_of_nonneg_right (by omega) htw.le
        have e2 : (s.xtile + 1) * ts.width = s.xtile * ts.width + ts.width := by ring
        omega
    have hY : cmod (layer.vstart + L) layer.height = (layer.vstart + L) % layer.height :=
      cmod_of_nonneg hy0 hH.le
    unfold specCell
    rw [q.tile_eq, q.ytile_eq, hX, (tile_div_mod hd0 hd1).1]
    unfold DrawLayerScanline.ypos
    rw [hwf.no_column]
    simp only [hY, hsv]
  · have hd0 : 0 ≤ s.srcx + (x - s.x) := by have := q.srcx_nonneg; omega
    have hd1 : s.srcx + (x - s.x) < ts.width := by
      have := q.width_le; have := q.tilewidth_eq; omega
    have hX : (layer.hstart + x) % layer.width = s.xtile * ts.width + (s.srcx + (x - s.x)) := by
      have e : layer.hstart + x = (layer.hstart + s.x) + (x - s.x) := by ring
      rw [e, hwf.layer_width, ← add_assoc]
      apply emod_shift tA
      · have := Int.mul_nonneg t0 htw.le; omega
      · have : (s.xtile + 1) * ts.width ≤ tm.cols * ts.width :=
          Int.mul_le_mul_of_nonneg_right (by omega) htw.le
        have e2 : (s.xtile + 1) * ts.width = s.xtile * ts.width + ts.width := by ring
        omega
    rw [hX, (tile_div_mod hd0 hd1).2]
  · have hY : cmod (layer.vstart + L) layer.height = (layer.vstart + L) % layer.height :=
      cmod_of_nonneg hy0 hH.le
    rw [q.srcy_eq]
    unfold DrawLayerScanline.ypos
    rw [hwf.no_column]
    simp only [hY]
    exact hbv _ (Int.emod_nonneg _ hH.ne')

/-! ## Normal mode: what the layer writes to the line and to the priority buffer -/

/-- The spans of a normal-mode scanline drawn to the framebuffer, for a tileset
with `hmask = width - 1 ≥ 0`: well formed, left to right, covering the clip
range. -/
theorem spans_wf (layer : Layer) (ts : Tileset) (tm : Tilemap) (L : Int)
    (hm : ts.hmask = ts.width - 1) (h0 : 0 ≤ ts.hmask) :
    (∀ s ∈ DrawLayerScanline.spans layer ts tm L 2,
        SpanWF layer ts tm L 2 layer.clip.x1 (4 * layer.clip.x1) 0 s)
    ∧ (DrawLayerScanline.spans layer ts tm L 2).Pairwise (fun a b => a.x + a.width ≤ b.x)
    ∧ (∀ x, layer.clip.x1 ≤ x → x < layer.clip.x2 →
        ∃ s ∈ DrawLayerScanline.spans layer ts tm L 2, s.x ≤ x ∧ x < s.x + s.width) := by
  have hb := band_bounds (cmod (layer.hstart + layer.clip.x1) layer.width) h0
  have e : shl layer.clip.x1 2 = 4 * layer.clip.x1 := by
    show layer.clip.x1 * 2 ^ (2 : Int).toNat = 4 * layer.clip.x1
    have : (2 : Int).toNat = 2 := rfl
    rw [this]; ring
  unfold DrawLayerScanline.spans
  simp only [e]
  exact loop_spans layer ts tm L 2 _ _ _ _ _ _ _ hb.1 (by omega) (le_refl _)

theorem span_dstoff {layer : Layer} {ts : Tileset} {tm : Tilemap} {L x1 : Int} {s : Span}
    (q : SpanWF layer ts tm L 2 x1 (4 * x1) 0 s) :
    s.dstoff = 4 * s.x ∧ s.prioff = 4 * (s.x - x1) := by
  have e : ∀ a : Int, shl a 2 = 4 * a := by
    intro a
    show a * 2 ^ (2 : Int).toNat = 4 * a
    have : (2 : Int).toNat = 2 := rfl
    rw [this]; ring
  constructor
  · rw [q.dstoff_eq, e]; ring
  · rw [q.prioff_eq, e]; ring

theorem paintSpan_scan_inside (fb : Nat) (pals : Nat → Option Palette) (layer : Layer)
    (ts : Tileset) (st : Buf × Buf) (s : Span) (b : ScanBlitPtr) (x : Int)
    (hne : s.tile.index ≠ 0) (hp : hasFlag s.tile.flags FLAG_PRIORITY = false)
    (hb : s.blitter layer ts = some b) (h32 : b.bpp32 = true) (hd : s.dstoff = 4 * s.x)
    (hx1 : s.x ≤ x) (hx2 : x < s.x + s.width) :
    (paintSpan fb pals layer ts false st s).1 x
      = (blitValue b pals s.palette layer.blend
          (blitSource b fb ts.data (s.srcoff ts) s.direction 0 (x - s.x)) (st.1 x)).getD
          (st.1 x) := by
  unfold paintSpan
  simp only [hne, hp, ne_eq, not_false_eq_true, if_true, if_false, Bool.false_eq_true, hb, hd]
  exact blitToWords_inside b h32 fb pals _ _ _ _ _ _ _ _ _ _ hx1 hx2

/-- The framebuffer line after the spans are painted, at a pixel `x` of the span
`s`: the result of painting `s` alone over the original pixel. -/
theorem normal_scan_at (fb : Nat) (pals : Nat → Option Palette) (layer : Layer) (ts : Tileset)
    (tm : Tilemap) (L : Int) (hm : ts.hmask = ts.width - 1) (h0 : 0 ≤ ts.hmask)
    (scan pri : Buf) (s : Span) (hs : s ∈ DrawLayerScanline.spans layer ts tm L 2)
    (x : Int) (hx1 : s.x ≤ x) (hx2 : x < s.x + s.width) :
    ((s.tile.index = 0 ∨ hasFlag s.tile.flags FLAG_PRIORITY = true) →
      ((DrawLayerScanline.spans layer ts tm L 2).foldl
        (paintSpan fb pals layer ts false) (scan, pri)).1 x = scan x)
    ∧ (∀ b, s.tile.index ≠ 0 → hasFlag s.tile.flags FLAG_PRIORITY = false →
        s.blitter layer ts = some b → b.bpp32 = true →
        ((DrawLayerScanline.spans layer ts tm L 2).foldl
          (paintSpan fb pals layer ts false) (scan, pri)).1 x
        = (blitValue b pals s.palette layer.blend
            (blitSource b fb ts.data (s.srcoff ts) s.direction 0 (x - s.x)) (scan x)).getD
            (scan x)) := by
  obtain ⟨w1, w2, _⟩ := spans_wf layer ts tm L hm h0
  obtain ⟨l1, l2, hl⟩ := List.append_of_mem hs
  rw [hl] at w1 w2 ⊢
  rw [List.pairwise_append] at w2
  obtain ⟨_, w3, w4⟩ := w2
  rw [List.pairwise_cons] at w3
  have hd := (span_dstoff (w1 s (by simp))).1
  have f1 : ∀ st : Buf × Buf, (l1.foldl (paintSpan fb pals layer ts false) st).1 x = st.1 x := by
    intro st
    apply foldl_paint_scan_outside
    intro t ht
    refine ⟨(span_dstoff (w1 t (by simp [ht]))).1, ?_⟩
    have := w4 t ht s (by simp)
    right; left; omega
  have f2 : ∀ st : Buf × Buf, (l2.foldl (paintSpan fb pals layer ts false) st).1 x = st.1 x := by
    intro st
    apply foldl_paint_scan_outside
    intro t ht
    refine ⟨(span_dstoff (w1 t (by simp [ht]))).1, ?_⟩
    have := w3.1 t ht
    left; omega
  rw [List.foldl_append, List.foldl_cons, f2]
  constructor
  · intro h
    rw [paintSpan_scan_outside fb pals layer ts _ s x hd (by tauto), f1]
  · intro b hne hp hb h32
    rw [paintSpan_scan_inside fb pals layer ts _ s b x hne hp hb h32 hd hx1 hx2, f1]

/-- The priority buffer after the spans are painted, at the word `x - clip.x1` that
a span `s` with pixel `x` addresses, when `s` stores nothing there. -/
theorem normal_pri_at (fb : Nat) (pals : Nat → Option Palette) (layer : Layer) (ts : Tileset)
    (tm : Tilemap) (L : Int) (hm : ts.hmask = ts.width - 1) (h0 : 0 ≤ ts.hmask)
    (scan pri : Buf) (s : Span) (hs : s ∈ DrawLayerScanline.spans layer ts tm L 2)
    (x : Int) (hx1 : s.x ≤ x) (hx2 : x < s.x + s.width)
    (h : s.tile.index = 0 ∨ hasFlag s.tile.flags FLAG_PRIORITY = false) :
    ((DrawLayerScanline.spans layer ts tm L 2).foldl
      (paintSpan fb pals layer ts false) (scan, pri)).2 (x - layer.clip.x1)
      = pri (x - layer.clip.x1) := by
  obtain ⟨w1, w2, _⟩ := spans_wf layer ts tm L hm h0
  apply foldl_paint_pri_outside fb pals layer ts false layer.clip.x1
  intro t ht
  refine ⟨(span_dstoff (w1 t ht)).2, ?_⟩
  by_cases hts : t = s
  · subst hts; tauto
  · obtain ⟨l1, l2, hl⟩ := List.append_of_mem hs
    rw [hl] at w2 ht
    rw [List.pairwise_append] at w2
    obtain ⟨_, w3, w4⟩ := w2
    rw [List.pairwise_cons] at w3
    rcases List.mem_append.mp ht with h1 | h1
    · have := w4 t h1 s (by simp)
      right; left; omega
    · rcases List.mem_cons.mp h1 with h2 | h2
      · exact absurd h2 hts
      · have := w3.1 t h2
        left; omega

/-- The part of C3 that the code fulfils for every clip rectangle. Normal mode without
mosaic or column offsets, for every destination `x`
with `clip.x1 ≤ x < clip.x2` on line `L` whose cell (row `Y / tile_h`, column
`X / tile_w`, with `X = (hstart + x) mod layer_width` and
`Y = (vstart + L) mod layer_height`) is not empty: the span loop contains a
span that covers `x`, carries that cell, has its destination pointer at
pixel `s.x` of its buffer, and makes every non-scaling blitter read, for
the pixel `x`, the tile pixel at `(u, v)`, `u = X mod tile_w` mirrored to
`tile_w - 1 - u` under `FLAG_FLIPX` and `v = Y mod tile_h` mirrored to
`tile_h - 1 - v` under `FLAG_FLIPY`; and when the cell is not a priority cell
and the bound blitter is a 32-bit non-scaling one, the pixel `x` of the
line after the layer is drawn is what that blitter stores for this source
index over the pixel that was there. -/
theorem DrawLayerScanline_normal_source (fb : Nat) (pals : Nat → Option Palette) (fbwidth : Int)
    (layer : Layer) (ts : Tileset) (tm : Tilemap) (L x : Int) (scan pri tmp : Buf)
    (hwf : NormalScene layer ts tm L) (hx1 : layer.clip.x1 ≤ x) (hx2 : x < layer.clip.x2)
    (hne : (specCell layer ts tm L x).index ≠ 0) :
    (∃ s ∈ DrawLayerScanline.spans layer ts tm L 2,
        s.x ≤ x ∧ x < s.x + s.width ∧ s.tile = specCell layer ts tm L x
        ∧ s.dstoff = 4 * s.x
        ∧ ∀ b : ScanBlitPtr, b.scaling = false →
            blitSource b fb ts.data (s.srcoff ts) s.direction 0 (x - s.x)
              = specSourceIndex layer ts tm L x)
    ∧ (hasFlag (specCell layer ts tm L x).flags FLAG_PRIORITY = false →
        ∀ b : ScanBlitPtr,
          layer.blitters (ts.color_key (GetTilesetLine ts
            ((ts.tiles ((specCell layer ts tm L x).index : Int) : Nat) : Int)
            (specSrcY layer ts tm L x))) = some b →
          b.bpp32 = true → b.scaling = false →
          (DrawLayerScanlineCore fb pals fbwidth layer ts tm L scan pri tmp).scan x
            = (blitValue b pals ((specCell layer ts tm L x).flags &&& FLAG_PALETTES) layer.blend
                (specSourceIndex layer ts tm L x) (scan x)).getD (scan x)) := by
  obtain ⟨s, hs, hsx1, hsx2, q, hcell, hu, hv⟩ := normal_span_at layer ts tm L x hwf hx1 hx2
  have hsy : s.blitSrcy ts = specSrcY layer ts tm L x := by
    unfold Span.blitSrcy specSrcY
    rw [hcell, hv]
    split_ifs <;> ring
  have hti : s.tileIndex ts = ((ts.tiles ((specCell layer ts tm L x).index : Int) : Nat) : Int) := by
    unfold Span.tileIndex
    rw [hcell]
  have hsrc : s.srcoff ts + (x - s.x) * s.direction
      = GetTilesetPixelAddr ts
          ((ts.tiles ((specCell layer ts tm L x).index : Int) : Nat) : Int)
          (specSrcX layer ts tm L x) (specSrcY layer ts tm L x) := by
    unfold Span.srcoff
    rw [GetTilesetPixelAddr_add, hsy, hti]
    congr 1
    unfold Span.blitSrcx Span.direction specSrcX
    rw [q.step_eq, q.tilewidth_eq, hcell, ← hu]
    split_ifs <;> ring
  have hsi : ∀ b : ScanBlitPtr, b.scaling = false →
      blitSource b fb ts.data (s.srcoff ts) s.direction 0 (x - s.x)
        = specSourceIndex layer ts tm L x := by
    intro b hb
    unfold blitSource specSourceIndex GetTilesetPixel
    simp only [hb, Bool.false_eq_true, if_false]
    rw [hsrc]
  refine ⟨⟨s, hs, hsx1, hsx2, hcell, (span_dstoff q).1, hsi⟩, ?_⟩
  intro hp b hb h32 hsc
  have htw : 0 < ts.width := by rw [hwf.width_eq]; positivity
  have hm0 : 0 ≤ ts.hmask := by rw [hwf.hmask_eq]; omega
  have hcore : (DrawLayerScanlineCore fb pals fbwidth layer ts tm L scan pri tmp).scan
      = ((DrawLayerScanline.spans layer ts tm L 2).foldl
          (paintSpan fb pals layer ts false) (scan, pri)).1 := by
    unfold DrawLayerScanlineCore
    simp [hwf.mosaic_off]
  rw [hcore]
  have hb' : s.blitter layer ts = some b := by
    unfold Span.blitter
    rw [hsy, hti, hb]
  have := (normal_scan_at fb pals layer ts tm L hwf.hmask_eq hm0 scan pri s hs x hsx1 hsx2).2 b
    (by rw [hcell]; exact hne) (by rw [hcell]; exact hp) hb' h32
  rw [this, hsi b hsc]
  unfold Span.palette
  rw [hcell]

/-- Witness of C2 on the demo scene, which has no raster callback. -/
theorem DrawScanline_order_witness :
    demoEngine.cb_raster = none
    ∧ ∃ overlay : Bool,
      (DrawScanline demoEnv demoEngine).events =
        Event.scanline demoEngine.line ::
          (((List.range demoEngine.layers.length).reverse.filter
                (layerDrawn demoEngine demoEngine.line false)).map
              (fun c => Event.layerDraw c demoEngine.line)
            ++ ((List.range demoEngine.sprites.length).filter
                (spriteDrawn demoEngine (DrawScanline demoEnv demoEngine).engine
                  demoEngine.line)).map
              (fun i => Event.spriteDraw i demoEngine.line)
            ++ ((List.range demoEngine.layers.length).reverse.filter
                (layerDrawn demoEngine demoEngine.line true)).map
              (fun c => Event.layerDraw c demoEngine.line)
            ++ (if overlay then [Event.overlay demoEngine.line] else [])) :=
  ⟨rfl, DrawScanline_order demoEnv demoEngine rfl⟩

/-- The scrolled demo layer, its tileset and tilemap form a scene of the normal-mode
theorems on line 0. -/
theorem demo_normal_scene : NormalScene demoLayerFlipped demoTileset demoTilemap 0 :=
  { hshift_nonneg := by decide, vshift_nonneg := by decide, width_eq := by decide,
    height_eq := by decide, hmask_eq := by decide, vmask_eq := by decide,
    cols_pos := by decide, rows_pos := by decide, layer_width := by decide,
    layer_height := by decide, hstart_nonneg := by decide, vstart_nonneg := by decide,
    nscan_nonneg := by decide, clip_nonneg := by decide, mosaic_off := by decide,
    no_column := rfl }

/-- An instance of the theorem above: with the horizontally flipped cell of the demo tilemap under the
destinations 0 to 7, destination 0 shows source pixel 7 of the tile (index
8) and destination 7 shows source pixel 0 (index 1). -/
theorem DrawLayerScanline_normal_source_witness :
    NormalScene demoLayerFlipped demoTileset demoTilemap 0
    ∧ (specCell demoLayerFlipped demoTileset demoTilemap 0 0).index ≠ 0
    ∧ (DrawLayerScanlineCore 16 demoEngine.indexed_palettes 16 demoLayerFlipped demoTileset
        demoTilemap 0 (fun _ => 0) (fun _ => 0) (fun _ => 0)).scan 0 = 0xFF000008
    ∧ (DrawLayerScanlineCore 16 demoEngine.indexed_palettes 16 demoLayerFlipped demoTileset
        demoTilemap 0 (fun _ => 0) (fun _ => 0) (fun _ => 0)).scan 7 = 0xFF000001 := by
  refine ⟨demo_normal_scene, by decide, ?_, ?_⟩
  · rw [(DrawLayerScanline_normal_source 16 demoEngine.indexed_palettes 16 demoLayerFlipped
      demoTileset demoTilemap 0 0 (fun _ => 0) (fun _ => 0) (fun _ => 0) demo_normal_scene
      (by decide) (by decide) (by decide)).2 (by decide) (GetBlitter 32 false false false)
      rfl rfl rfl]
    decide
  · rw [(DrawLayerScanline_normal_source 16 demoEngine.indexed_palettes 16 demoLayerFlipped
      demoTileset demoTilemap 0 7 (fun _ => 0) (fun _ => 0) (fun _ => 0) demo_normal_scene
      (by decide) (by decide) (by decide)).2 (by decide) (GetBlitter 32 false false false)
      rfl rfl rfl]
    decide

/-- **C4, as stated, fails.** Under a 16 x 1 mosaic the demo layer paints pixel 8 of
the line, which an empty cell covers, with the color of the mosaic block
that starts at pixel 0. -/
theorem empty_cell_modified_under_mosaic :
    (specCell demoLayerMosaic demoTileset demoTilemap 0 8).index = 0
    ∧ (DrawLayerScanlineCore 16 demoEngine.indexed_palettes 16 demoLayerMosaic demoTileset
          demoTilemap 0 (fun _ => 0) (fun _ => 0) (fun _ => 0)).scan 8 = 0xFF000001
    ∧ (DrawLayerScanlineCore 16 demoEngine.indexed_palettes 16 demoLayerMosaic demoTileset
          demoTilemap 0 (fun _ => 0) (fun _ => 0) (fun _ => 0)).scan 8
        ≠ (fun _ => 0 : Buf) 8 := by
  decide

/-- **C4, amended.** For a layer drawn in normal mode with mosaic disabled, over a
tileset with `hmask = width - 1 ≥ 0`, and every scanline: the spans of the
loop cover the clip range, every span carries the cell it looked up, and
for a span whose cell is empty no blitter is invoked, the framebuffer line
is unchanged by the layer's draw at the pixels of the span, and so is the
priority buffer when `clip.x1 = 0`. -/
theorem DrawLayerScanline_empty_cells (fb : Nat) (pals : Nat → Option Palette) (fbwidth : Int)
    (layer : Layer) (ts : Tileset) (tm : Tilemap) (L : Int) (scan pri tmp : Buf)
    (hmos : layer.mosaic.h = 0) (hm : ts.hmask = ts.width - 1) (h0 : 0 ≤ ts.hmask) :
    (∀ x, layer.clip.x1 ≤ x → x < layer.clip.x2 →
      ∃ s ∈ DrawLayerScanline.spans layer ts tm L 2, s.x ≤ x ∧ x < s.x + s.width)
    ∧ ∀ s ∈ DrawLayerScanline.spans layer ts tm L 2,
      s.tile = tm.tiles (s.ytile * tm.cols + s.xtile)
      ∧ (s.tile.index = 0 →
          (∀ st, paintSpan fb pals layer ts false st s = st)
          ∧ ∀ x, s.x ≤ x → x < s.x + s.width →
              (DrawLayerScanlineCore fb pals fbwidth layer ts tm L scan pri tmp).scan x = scan x
              ∧ (layer.clip.x1 = 0 →
                  (DrawLayerScanlineCore fb pals fbwidth layer ts tm L scan pri tmp).priority x
                    = pri x)) := by
  refine ⟨(spans_wf layer ts tm L hm h0).2.2, ?_⟩
  intro s hs
  have hcore : DrawLayerScanlineCore fb pals fbwidth layer ts tm L scan pri tmp
      = { scan := ((DrawLayerScanline.spans layer ts tm L 2).foldl
            (paintSpan fb pals layer ts false) (scan, pri)).1,
          priority := ((DrawLayerScanline.spans layer ts tm L 2).foldl
            (paintSpan fb pals layer ts false) (scan, pri)).2,
          tmpindex := tmp, mosaic := layer.mosaic.buffer,
          ret := (DrawLayerScanline.spans layer ts tm L 2).any Span.setsPriority } := by
    unfold DrawLayerScanlineCore
    simp [hmos]
  refine ⟨((spans_wf layer ts tm L hm h0).1 s hs).tile_eq, ?_⟩
  intro he
  refine ⟨fun st => paintSpan_empty fb pals layer ts false st s he, ?_⟩
  intro x hx1 hx2
  rw [hcore]
  refine ⟨(normal_scan_at fb pals layer ts tm L hm h0 scan pri s hs x hx1 hx2).1 (Or.inl he), ?_⟩
  intro hc
  have := normal_pri_at fb pals layer ts tm L hm h0 scan pri s hs x hx1 hx2 (Or.inl he)
  rw [hc] at this
  simpa using this

/-- Witness of the amended C4 on the demo layer scrolled to row 1 of the demo tilemap,
where the cell under the pixels 0 to 7 is empty: pixel 3 keeps its value. -/
theorem DrawLayerScanline_empty_cells_witness :
    demoLayer.mosaic.h = 0 ∧ demoTileset.hmask = demoTileset.width - 1 ∧ 0 ≤ demoTileset.hmask
    ∧ ∀ s ∈ DrawLayerScanline.spans { demoLayer with vstart := 8 } demoTileset demoTilemap 0 2,
      s.tile = demoTilemap.tiles (s.ytile * demoTilemap.cols + s.xtile)
      ∧ (s.tile.index = 0 →
          (∀ st, paintSpan 16 demoEngine.indexed_palettes { demoLayer with vstart := 8 }
              demoTileset false st s = st)
          ∧ ∀ x, s.x ≤ x → x < s.x + s.width →
              (DrawLayerScanlineCore 16 demoEngine.indexed_palettes 16
                  { demoLayer with vstart := 8 } demoTileset demoTilemap 0
                  (fun _ => 7) (fun _ => 9) (fun _ => 0)).scan x = (fun _ => 7 : Buf) x
              ∧ (({ demoLayer with vstart := 8 } : Layer).clip.x1 = 0 →
                  (DrawLayerScanlineCore 16 demoEngine.indexed_palettes 16
                    { demoLayer with vstart := 8 } demoTileset demoTilemap 0
                    (fun _ => 7) (fun _ => 9) (fun _ => 0)).priority x = (fun _ => 9 : Buf) x)) :=
  ⟨rfl, by decide, by decide,
   (DrawLayerScanline_empty_cells 16 demoEngine.indexed_palettes 16 { demoLayer with vstart := 8 }
     demoTileset demoTilemap 0 (fun _ => 7) (fun _ => 9) (fun _ => 0) rfl (by decide)
     (by decide)).2⟩

/-! ## The calls of one scanline, with a raster callback -/

/-- The calls of `DrawScanline`: the entry mark, the raster callback if one is
registered, then the draw calls for the scene as the callback left it. -/
theorem DrawScanline_calls (e : Engine) :
    ∃ overlay : Bool,
      (DrawScanline env e).events =
        Event.scanline e.line :: (DrawScanline.rasterCall e
          ++ drawCalls (DrawScanline.afterRaster env e) (DrawScanline env e).engine e.line
              overlay) := by
  obtain ⟨ov, hev⟩ := passes_events env e.line (DrawScanline.afterRaster env e)
    (DrawScanline.start env e) (start_similar env e)
  have hd : spriteDrawn (DrawScanline.afterRaster env e) (DrawScanline env e).engine e.line
      = spriteDrawn (DrawScanline.afterRaster env e)
          (DrawScanline.passes env e.line (DrawScanline.start env e)).engine e.line := by
    funext i
    rw [DrawScanline_engine]
    generalize (DrawScanline.passes env e.line (DrawScanline.start env e)).engine = x
    exact spriteDrawn_congr e.line i rfl rfl ⟨rfl, rfl⟩
  refine ⟨ov, ?_⟩
  unfold drawCalls
  rw [hd, DrawScanline_events, hev]
  simp [DrawScanline.start]

theorem scanlines_append (a b : List Event) : scanlines (a ++ b) = scanlines a ++ scanlines b := by
  unfold scanlines
  rw [List.filterMap_append]

theorem rasterCalls_append (a b : List Event) :
    rasterCalls (a ++ b) = rasterCalls a ++ rasterCalls b := by
  unfold rasterCalls
  rw [List.filterMap_append]

theorem scanlines_drawCalls (e e' : Engine) (L : Int) (ov : Bool) :
    scanlines (drawCalls e e' L ov) = [] := by
  unfold drawCalls scanlines
  simp only [List.filterMap_append, List.filterMap_map]
  cases ov <;> simp [Function.comp_def]

theorem rasterCalls_drawCalls (e e' : Engine) (L : Int) (ov : Bool) :
    rasterCalls (drawCalls e e' L ov) = [] := by
  unfold drawCalls rasterCalls
  simp only [List.filterMap_append, List.filterMap_map]
  cases ov <;> simp [Function.comp_def]

/-- One call of `DrawScanline` is entered once, on the line it finds in the engine. -/
theorem DrawScanline_scanlines (e : Engine) :
    scanlines (DrawScanline env e).events = [e.line] := by
  obtain ⟨ov, h⟩ := DrawScanline_calls env e
  rw [h]
  have : Event.scanline e.line :: (DrawScanline.rasterCall e
      ++ drawCalls (DrawScanline.afterRaster env e) (DrawScanline env e).engine e.line ov)
      = [Event.scanline e.line] ++ DrawScanline.rasterCall e
        ++ drawCalls (DrawScanline.afterRaster env e) (DrawScanline env e).engine e.line ov := by
    simp
  rw [this, scanlines_append, scanlines_append, scanlines_drawCalls]
  unfold DrawScanline.rasterCall scanlines
  cases e.cb_raster <;> simp

theorem DrawScanline_line (e : Engine) :
    (DrawScanline env e).engine.line = (DrawScanline.afterRaster env e).line + 1 := by
  have h := congrArg Engine.line (passes_globals env e.line (DrawScanline.start env e))
  have h2 := congrArg Engine.line (start_globals env e)
  simp only [Engine.globals] at h h2
  rw [DrawScanline_engine]
  show (DrawScanline.passes env e.line (DrawScanline.start env e)).engine.line + 1 = _
  rw [h, h2]

theorem DrawScanline_height (e : Engine) :
    (DrawScanline env e).engine.framebuffer.height
      = (DrawScanline.afterRaster env e).framebuffer.height := by
  have h := congrArg (fun x : Engine => x.framebuffer.height)
    (passes_globals env e.line (DrawScanline.start env e))
  have h2 := congrArg (fun x : Engine => x.framebuffer.height) (start_globals env e)
  simp only [Engine.globals] at h h2
  rw [DrawScanline_engine]
  show (DrawScanline.passes env e.line (DrawScanline.start env e)).engine.framebuffer.height = _
  rw [h, h2]

theorem DrawScanline_ret (e : Engine) :
    (DrawScanline env e).ret = true
      ↔ (DrawScanline env e).engine.line < (DrawScanline env e).engine.framebuffer.height := by
  simp [DrawScanline]

/-! ## The frame loop -/

/-- The loop `while (DrawScanline()) {}` under an invariant `Inv n` that holds when
`n` lines are drawn and makes `DrawScanline` return true exactly while
lines remain: from `n` lines drawn with `m` lines to go, the loop returns
after `m` calls, not earlier, in a state that satisfies `Inv h`. -/
theorem frame_loop (h : Nat) (Inv : Nat → Engine → List Event → Prop)
    (hstep : ∀ n e ev, n < h → Inv n e ev →
      Inv (n + 1) (DrawScanline env e).engine (ev ++ (DrawScanline env e).events)
      ∧ ((DrawScanline env e).ret = true ↔ n + 1 < h)) :
    ∀ m n e ev, n + m = h → 0 < m → Inv n e ev →
      (∀ fuel, m ≤ fuel →
        ∃ e' ev', TLN_UpdateFrame.loop env fuel e ev = some (e', ev') ∧ Inv h e' ev')
      ∧ (∀ fuel, fuel < m → TLN_UpdateFrame.loop env fuel e ev = none) := by
  intro m
  induction m with
  | zero => intro n e ev _ hm; omega
  | succ m ih =>
    intro n e ev hn _ hinv
    obtain ⟨hi, hr⟩ := hstep n e ev (by omega) hinv
    constructor
    · intro fuel hf
      obtain ⟨fuel, rfl⟩ : ∃ f, fuel = f + 1 := ⟨fuel - 1, by omega⟩
      unfold TLN_UpdateFrame.loop
      by_cases hm : m = 0
      · have : ¬ (DrawScanline env e).ret = true := by rw [hr]; omega
        simp only [this, if_false]
        have hn1 : n + 1 = h := by omega
        exact ⟨_, _, rfl, hn1 ▸ hi⟩
      · have : (DrawScanline env e).ret = true := by rw [hr]; omega
        simp only [this, if_true]
        exact (ih (n + 1) _ _ (by omega) (by omega) hi).1 fuel (by omega)
    · intro fuel hf
      cases fuel with
      | zero => rfl
      | succ fuel =>
        unfold TLN_UpdateFrame.loop
        have : (DrawScanline env e).ret = true := by rw [hr]; omega
        simp only [this, if_true]
        exact (ih (n + 1) _ _ (by omega) (by omega) hi).2 fuel (by omega)

theorem afterRaster_line_height (e : Engine)
    (hcb : ∀ id L x, (env.callbacks id L x).line = x.line
      ∧ (env.callbacks id L x).framebuffer.height = x.framebuffer.height) :
    (DrawScanline.afterRaster env e).line = e.line
    ∧ (DrawScanline.afterRaster env e).framebuffer.height = e.framebuffer.height := by
  unfold DrawScanline.afterRaster
  cases e.cb_raster with
  | none => exact ⟨rfl, rfl⟩
  | some cb => exact hcb cb e.line e

theorem BeginFrame_spec (frame : Int) (e : Engine)
    (hcb : ∀ id L x, (env.callbacks id L x).line = x.line
      ∧ (env.callbacks id L x).framebuffer.height = x.framebuffer.height) :
    (BeginFrame env frame e).1.line = 0
    ∧ (BeginFrame env frame e).1.framebuffer.height = e.framebuffer.height
    ∧ scanlines (BeginFrame env frame e).2 = [] := by
  unfold BeginFrame
  by_cases hf : frame ≠ 0
  · simp only [hf, if_true, ne_eq, not_false_eq_true]
    cases hc : e.cb_frame with
    | none => simp [hc, scanlines]
    | some cb =>
      simp only [hc]
      refine ⟨(hcb cb _ _).1, (hcb cb _ _).2, by simp [scanlines]⟩
  · simp only [hf, if_false]
    cases hc : e.cb_frame with
    | none => simp [hc, scanlines]
    | some cb =>
      simp only [hc]
      refine ⟨(hcb cb _ _).1, (hcb cb _ _).2, by simp [scanlines]⟩

/-- **C6.** For every framebuffer height `h ≥ 1` and callbacks that change neither
`line` nor the height, `TLN_UpdateFrame` returns after exactly `h` calls of
`DrawScanline` (`h` calls suffice and fewer do not), the calls are entered
on the lines `0, 1, ..., h - 1` in this order, and `engine.line` is `h`
afterwards. -/
theorem TLN_UpdateFrame_lines (e : Engine) (frame : Int) (hh : 1 ≤ e.framebuffer.height)
    (hcb : ∀ id L x, (env.callbacks id L x).line = x.line
      ∧ (env.callbacks id L x).framebuffer.height = x.framebuffer.height) :
    (∀ fuel, e.framebuffer.height.toNat ≤ fuel →
      ∃ e' ev, TLN_UpdateFrame env fuel frame e = some (e', ev)
        ∧ e'.line = e.framebuffer.height
        ∧ scanlines ev = (List.range e.framebuffer.height.toNat).map (fun n => (n : Int)))
    ∧ (∀ fuel, fuel < e.framebuffer.height.toNat → TLN_UpdateFrame env fuel frame e = none) := by
  obtain ⟨b1, b2, b3⟩ := BeginFrame_spec env frame e hcb
  have hloop := frame_loop env e.framebuffer.height.toNat
    (fun n x ev => x.line = (n : Int) ∧ x.framebuffer.height = e.framebuffer.height
      ∧ scanlines ev = (List.range n).map (fun n => (n : Int)))
    (by
      intro n x ev hn ⟨i1, i2, i3⟩
      obtain ⟨a1, a2⟩ := afterRaster_line_height env x hcb
      have hl : (DrawScanline env x).engine.line = (n : Int) + 1 := by
        rw [DrawScanline_line, a1, i1]
      have hht : (DrawScanline env x).engine.framebuffer.height = e.framebuffer.height := by
        rw [DrawScanline_height, a2, i2]
      refine ⟨⟨by push_cast; exact hl, hht, ?_⟩, ?_⟩
      · rw [scanlines_append, DrawScanline_scanlines, i3, i1, List.range_succ]
        simp
      · rw [DrawScanline_ret, hl, hht]
        omega)
    e.framebuffer.height.toNat 0 (BeginFrame env frame e).1 (BeginFrame env frame e).2
    (by omega) (by omega) ⟨by simpa using b1, b2, by simpa using b3⟩
  constructor
  · intro fuel hf
    obtain ⟨e', ev', h1, h2, _, h4⟩ := hloop.1 fuel hf
    refine ⟨TLN_SetLastError .TLN_ERR_OK e', ev', ?_, ?_, h4⟩
    · unfold TLN_UpdateFrame
      simp only [h1, Option.map_some']
    · show e'.line = _
      rw [h2]; omega
  · intro fuel hf
    unfold TLN_UpdateFrame
    simp only [hloop.2 fuel hf, Option.map_none']

/-- Witness of C6 on the demo scene (height 16, one raster callback that only sets
the background color). -/
theorem TLN_UpdateFrame_lines_witness :
    (1 ≤ ({ demoEngine with cb_raster := some 0 } : Engine).framebuffer.height)
    ∧ (∀ fuel, 16 ≤ fuel →
      ∃ e' ev, TLN_UpdateFrame demoEnv fuel 0 { demoEngine with cb_raster := some 0 }
          = some (e', ev)
        ∧ e'.line = 16
        ∧ scanlines ev = (List.range 16).map (fun n => (n : Int)))
    ∧ (∀ fuel, fuel < 16 →
        TLN_UpdateFrame demoEnv fuel 0 { demoEngine with cb_raster := some 0 } = none) :=
  ⟨by decide,
   TLN_UpdateFrame_lines demoEnv { demoEngine with cb_raster := some 0 } 0 (by decide)
     (by
      intro id L x
      show (if L = 1 then { x with bgcolor := 0xFF0000FF } else x).line = x.line
        ∧ (if L = 1 then { x with bgcolor := 0xFF0000FF } else x).framebuffer.height
          = x.framebuffer.height
      split_ifs <;> exact ⟨rfl, rfl⟩)⟩

/-! ## A scene without enabled layers and sprites -/

theorem layerStep_disabled (L : Int) (st : PassState) (c : Nat)
    (hl : ∀ l ∈ st.engine.layers, l.ok = false) : DrawScanline.layerStep env L st c = st := by
  unfold DrawScanline.layerStep
  cases h : st.engine.layers[c]? with
  | none => rfl
  | some layer => simp [hl layer (List.getElem?_mem h)]

theorem priorityLayerStep_disabled (L : Int) (st : PassState) (c : Nat)
    (hl : ∀ l ∈ st.engine.layers, l.ok = false) :
    DrawScanline.priorityLayerStep env L st c = st := by
  unfold DrawScanline.priorityLayerStep
  cases h : st.engine.layers[c]? with
  | none => rfl
  | some layer => simp [hl layer (List.getElem?_mem h)]

theorem spriteStep_disabled (L : Int) (st : PassState) (i : Nat)
    (hs : ∀ s ∈ st.engine.sprites, s.ok = false) : DrawScanline.spriteStep env L st i = st := by
  unfold DrawScanline.spriteStep
  cases h : st.engine.sprites[i]? with
  | none => rfl
  | some sprite => simp [hs sprite (List.getElem?_mem h)]

theorem foldl_fixed {α : Type} (f : PassState → α → PassState) (st : PassState)
    (hf : ∀ a, f st a = st) (l : List α) : l.foldl f st = st := by
  induction l with
  | nil => rfl
  | cons a l ih => rw [List.foldl_cons, hf, ih]

/-- In a scene without enabled layers and sprites the three loops and the overlay of
`DrawScanline` change nothing. -/
theorem passes_disabled (L : Int) (st : PassState)
    (hl : ∀ l ∈ st.engine.layers, l.ok = false) (hs : ∀ s ∈ st.engine.sprites, s.ok = false)
    (hb : st.background_priority = false) : DrawScanline.passes env L st = st := by
  unfold DrawScanline.passes
  simp only []
  rw [foldl_fixed _ st (fun c => layerStep_disabled env L st c hl),
    foldl_fixed _ st (fun i => spriteStep_disabled env L st i hs),
    foldl_fixed _ st (fun c => priorityLayerStep_disabled env L st c hl)]
  unfold DrawScanline.overlayStep
  simp [hb]

theorem BlitColor_inside (dst : Buf) (color : Nat) (width x : Int) (h0 : 0 ≤ x)
    (h1 : x < width) : BlitColor dst color width x = color := by
  unfold BlitColor
  have := storeWords_inside dst 0 width (fun _ _ => some color) x (by omega) (by omega)
  simpa using this

/-- The engine that `DrawScanline` leaves when the scene, as the raster callback left
it, has no enabled layer and no enabled sprite: the line is filled with
the background color and the counters are advanced. -/
theorem DrawScanline_disabled (e : Engine)
    (hl : ∀ l ∈ (DrawScanline.afterRaster env e).layers, l.ok = false)
    (hs : ∀ s ∈ (DrawScanline.afterRaster env e).sprites, s.ok = false) :
    (DrawScanline env e).engine
      = { (DrawScanline.start env e).engine with
          dirty := false, line := (DrawScanline.start env e).engine.line + 1 } := by
  rw [DrawScanline_engine, passes_disabled env e.line (DrawScanline.start env e) hl hs rfl]

/-- One scanline of a scene without enabled layers and sprites whose raster callback
sets the background color to `c` on line `k` and does nothing else. -/
theorem bgcolor_step (e : Engine) (cb : Nat) (k : Int) (c c0 : Nat) (n : Nat) (H W : Int)
    (hfun : ∀ L x, env.callbacks cb L x = if L = k then { x with bgcolor := c } else x)
    (h1 : e.line = (n : Int)) (h2 : e.framebuffer.height = H) (h3 : e.framebuffer.width = W)
    (h4 : e.cb_raster = some cb) (h5 : ∀ l ∈ e.layers, l.ok = false)
    (h6 : ∀ s ∈ e.sprites, s.ok = false)
    (h7 : e.bgcolor = if (n : Int) ≤ k then c0 else c)
    (h8 : ∀ L x, 0 ≤ L → L < (n : Int) → 0 ≤ x → x < W →
      e.framebuffer.data L x = if L < k then c0 else c) :
    (DrawScanline env e).engine.line = ((n + 1 : Nat) : Int)
    ∧ (DrawScanline env e).engine.framebuffer.height = H
    ∧ (DrawScanline env e).engine.framebuffer.width = W
    ∧ (DrawScanline env e).engine.cb_raster = some cb
    ∧ (∀ l ∈ (DrawScanline env e).engine.layers, l.ok = false)
    ∧ (∀ s ∈ (DrawScanline env e).engine.sprites, s.ok = false)
    ∧ ((DrawScanline env e).engine.bgcolor = if ((n + 1 : Nat) : Int) ≤ k then c0 else c)
    ∧ (∀ L x, 0 ≤ L → L < ((n + 1 : Nat) : Int) → 0 ≤ x → x < W →
        (DrawScanline env e).engine.framebuffer.data L x = if L < k then c0 else c) := by
  have hra : DrawScanline.afterRaster env e
      = if e.line = k then { e with bgcolor := c } else e := by
    rw [← hfun e.line e]
    unfold DrawScanline.afterRaster
    rw [h4]
  have hl : ∀ l ∈ (DrawScanline.afterRaster env e).layers, l.ok = false := by
    rw [hra]; split_ifs <;> exact h5
  have hs : ∀ s ∈ (DrawScanline.afterRaster env e).sprites, s.ok = false := by
    rw [hra]; split_ifs <;> exact h6
  have hx : ∃ x1, DrawScanline.afterRaster env e = x1 ∧ x1.line = e.line
      ∧ x1.framebuffer = e.framebuffer ∧ x1.cb_raster = e.cb_raster
      ∧ x1.layers = e.layers ∧ x1.sprites = e.sprites
      ∧ x1.bgcolor = if e.line = k then c else e.bgcolor := by
    rw [hra]
    split_ifs <;> exact ⟨_, rfl, rfl, rfl, rfl, rfl, rfl, rfl⟩
  rw [DrawScanline_disabled env e hl hs]
  unfold DrawScanline.start
  obtain ⟨x1, hx1, a1, a2, a3, a4, a5, a6⟩ := hx
  simp only [hx1, Engine.setLine, GetFramebufferLine]
  have hbg : x1.bgcolor = if ((n + 1 : Nat) : Int) ≤ k then c0 else c := by
    rw [a6, h7, h1]
    by_cases hnk : (n : Int) = k
    · have : ¬ ((n + 1 : Nat) : Int) ≤ k := by push_cast; omega
      rw [if_pos hnk, if_neg this]
    · rw [if_neg hnk]
      by_cases hle : (n : Int) ≤ k
      · have : ((n + 1 : Nat) : Int) ≤ k := by push_cast; omega
        rw [if_pos hle, if_pos this]
      · have : ¬ ((n + 1 : Nat) : Int) ≤ k := by push_cast; omega
        rw [if_neg hle, if_neg this]
  refine ⟨by rw [a1, h1]; push_cast; rfl, by rw [a2]; exact h2, by rw [a2]; exact h3,
    by rw [a3]; exact h4, by rw [a4]; exact h5, by rw [a5]; exact h6, hbg, ?_⟩
  intro L x hL0 hL1 hx0 hx1
  by_cases hLn : L = e.line
  · subst hLn
    rw [Function.update_same, BlitColor_inside _ _ _ _ hx0 (by rw [h3]; exact hx1), hbg]
    rw [h1]
    by_cases hle : ((n + 1 : Nat) : Int) ≤ k
    · have : (n : Int) < k := by push_cast at hle; omega
      rw [if_pos hle, if_pos this]
    · have : ¬ (n : Int) < k := by push_cast at hle; omega
      rw [if_neg hle, if_neg this]
  · rw [Function.update_noteq hLn, a2]
    exact h8 L x hL0 (by rw [h1] at hLn; push_cast at hL1; omega) hx0 hx1

/-- **C5.** With a raster callback `cb` registered, `DrawScanline` on line `L` calls it
exactly once, with `L`, before every draw call of the line, and the draw
calls are those of the scene as the callback left it. In particular, in a
frame of a scene without enabled layers and sprites, a callback that sets
the background color to `c` when `L = k` (and does nothing else) leaves
the lines `0 .. k - 1` filled with the old color and fills line `k` and all
later lines with `c`. -/
theorem raster_callback_line (e : Engine) (cb : Nat) (hcb : e.cb_raster = some cb) :
    (∃ overlay : Bool, (DrawScanline env e).events =
        Event.scanline e.line :: Event.raster cb e.line ::
          drawCalls (env.callbacks cb e.line e) (DrawScanline env e).engine e.line overlay)
    ∧ rasterCalls (DrawScanline env e).events = [(cb, e.line)]
    ∧ (∀ (k : Int) (c : Nat) (frame : Int), 0 ≤ k →
        (∀ L x, env.callbacks cb L x = if L = k then { x with bgcolor := c } else x) →
        e.cb_frame = none →
        (∀ l ∈ e.layers, l.ok = false) → (∀ s ∈ e.sprites, s.ok = false) →
        1 ≤ e.framebuffer.height →
        ∀ fuel, e.framebuffer.height.toNat ≤ fuel →
          ∃ e' ev, TLN_UpdateFrame env fuel frame e = some (e', ev)
            ∧ ∀ L x, 0 ≤ L → L < e.framebuffer.height → 0 ≤ x → x < e.framebuffer.width →
                e'.framebuffer.data L x = if L < k then e.bgcolor else c) := by
  obtain ⟨ov, hev⟩ := DrawScanline_calls env e
  have hra : DrawScanline.afterRaster env e = env.callbacks cb e.line e := by
    unfold DrawScanline.afterRaster; rw [hcb]
  have hrc : DrawScanline.rasterCall e = [Event.raster cb e.line] := by
    unfold DrawScanline.rasterCall; rw [hcb]
  rw [hra, hrc] at hev
  refine ⟨⟨ov, by rw [hev]; rfl⟩, ?_, ?_⟩
  · rw [hev]
    have : Event.scanline e.line :: ([Event.raster cb e.line]
        ++ drawCalls (env.callbacks cb e.line e) (DrawScanline env e).engine e.line ov)
        = [Event.scanline e.line, Event.raster cb e.line]
          ++ drawCalls (env.callbacks cb e.line e) (DrawScanline env e).engine e.line ov := by
      simp
    rw [this, rasterCalls_append, rasterCalls_drawCalls]
    simp [rasterCalls]
  · intro k c frame hk hfun hfr hl hs hh fuel hf
    have hb : BeginFrame env frame e
        = ({ (if frame ≠ 0 then { e with frame := frame } else { e with frame := e.frame + 1 })
              with line := 0 }, []) := by
      unfold BeginFrame
      by_cases hf0 : frame ≠ 0 <;> simp [hf0, hfr]
    have hloop := frame_loop env e.framebuffer.height.toNat
      (fun n x _ => x.line = (n : Int) ∧ x.framebuffer.height = e.framebuffer.height
        ∧ x.framebuffer.width = e.framebuffer.width ∧ x.cb_raster = some cb
        ∧ (∀ l ∈ x.layers, l.ok = false) ∧ (∀ s ∈ x.sprites, s.ok = false)
        ∧ (x.bgcolor = if (n : Int) ≤ k then e.bgcolor else c)
        ∧ (∀ L y, 0 ≤ L → L < (n : Int) → 0 ≤ y → y < e.framebuffer.width →
            x.framebuffer.data L y = if L < k then e.bgcolor else c))
      (by
        intro n x ev hn ⟨i1, i2, i3, i4, i5, i6, i7, i8⟩
        have st := bgcolor_step env x cb k c e.bgcolor n e.framebuffer.height e.framebuffer.width
          hfun i1 i2 i3 i4 i5 i6 i7 i8
        refine ⟨st, ?_⟩
        rw [DrawScanline_ret, st.1, st.2.1]
        push_cast
        omega)
      e.framebuffer.height.toNat 0 (BeginFrame env frame e).1 (BeginFrame env frame e).2
      (by omega) (by omega)
      (by
        rw [hb]
        refine ⟨rfl, ?_, ?_, ?_, ?_, ?_, ?_, ?_⟩
        · split_ifs <;> rfl
        · split_ifs <;> rfl
        · split_ifs <;> exact hcb
        · split_ifs <;> exact hl
        · split_ifs <;> exact hs
        · have : ((0 : Nat) : Int) ≤ k := by simpa using hk
          rw [if_pos this]
          split_ifs <;> rfl
        · intro L y h0 h1
          exact absurd h1 (by simpa using h0))
    obtain ⟨e', ev', g1, _, _, _, _, _, _, _, g8⟩ := hloop.1 fuel hf
    refine ⟨TLN_SetLastError .TLN_ERR_OK e', ev', ?_, ?_⟩
    · unfold TLN_UpdateFrame
      simp only [g1, Option.map_some']
    · intro L x h0 h1 hx0 hx1
      exact g8 L x h0 (by omega) hx0 hx1

/-- The demo scene without layers and sprites, with the demo raster callback: the
callback is called once on line 0, and after a frame line 0 holds the old
background color and the lines 1 to 15 the color set on line 1. -/
theorem raster_callback_line_witness :
    demoBareEngine.cb_raster = some 0
    ∧ rasterCalls (DrawScanline demoEnv demoBareEngine).events = [(0, demoBareEngine.line)]
    ∧ ∃ e' ev, TLN_UpdateFrame demoEnv 16 0 demoBareEngine = some (e', ev)
        ∧ ∀ L x, 0 ≤ L → L < demoBareEngine.framebuffer.height → 0 ≤ x →
            x < demoBareEngine.framebuffer.width →
            e'.framebuffer.data L x = if L < 1 then demoBareEngine.bgcolor else 0xFF0000FF :=
  ⟨rfl, (raster_callback_line demoEnv demoBareEngine 0 rfl).2.1,
    (raster_callback_line demoEnv demoBareEngine 0 rfl).2.2 1 0xFF0000FF 0 (by decide)
      (fun _ _ => rfl) rfl (by simp [demoBareEngine]) (by simp [demoBareEngine])
      (by decide) 16 (by decide)⟩

/-! ## A disabled layer -/

theorem setLayer_getElem?_ne (e : Engine) {k c : Nat} (l' : Layer) (h : c ≠ k) :
    (e.setLayer k l').layers[c]? = e.layers[c]? := by
  unfold Engine.setLayer
  exact List.getElem?_set_ne (Ne.symm h)

theorem setLayer_self (e : Engine) (k : Nat) (l : Layer) (h : e.layers[k]? = some l) :
    e.setLayer k l = e := by
  unfold Engine.setLayer
  have : e.layers.set k l = e.layers := by
    rcases List.getElem?_eq_some_iff.mp h with ⟨hlt, _⟩
    apply List.ext_getElem?
    intro j
    by_cases hj : k = j
    · subst hj
      rw [List.getElem?_set_self hlt, h]
    · rw [List.getElem?_set_ne hj]
  rw [this]

theorem runLayerDraw_setLayer (core : Nat → (Nat → Option Palette) → Int → Layer → Tileset →
      Tilemap → Int → Buf → Buf → Buf → LayerOut) (c k : Nat) (hck : c ≠ k) (L : Int)
    (e : Engine) (l' : Layer) :
    runLayerDraw core env c L (e.setLayer k l')
      = ((runLayerDraw core env c L e).1, (runLayerDraw core env c L e).2.setLayer k l') := by
  unfold runLayerDraw
  rw [setLayer_getElem?_ne e l' hck]
  cases e.layers[c]? with
  | none => rfl
  | some layer =>
    simp only [Engine.tilesetAt, Engine.tilemapAt, Engine.setLayer, Engine.setLine,
      GetFramebufferLine]
    cases layer.tileset.bind e.tilesets with
    | none => rfl
    | some ts =>
      cases layer.tilemap.bind e.tilemaps with
      | none => rfl
      | some tm =>
        simp only [Prod.mk.injEq, true_and]
        congr 1
        exact List.set_comm _ _ _ (Ne.symm hck)

theorem DrawSpriteScanline_setLayer (i k : Nat) (L : Int) (e : Engine) (l' : Layer) :
    DrawSpriteScanline env i L (e.setLayer k l')
      = ((DrawSpriteScanline env i L e).1, (DrawSpriteScanline env i L e).2.setLayer k l') := by
  unfold DrawSpriteScanline
  simp only [Engine.setLayer, Engine.tilesetAt, Engine.setLine, GetFramebufferLine]
  cases e.sprites[i]? with
  | none => rfl
  | some sprite =>
    simp only []
    cases sprite.tileset.bind e.tilesets with
    | none => rfl
    | some ts =>
      by_cases hc : sprite.do_collision = true
      · simp only [hc, if_true]
      · rw [Bool.not_eq_true] at hc
        simp only [hc, Bool.false_eq_true, if_false]

theorem DrawScalingSpriteScanline_setLayer (i k : Nat) (L : Int) (e : Engine) (l' : Layer) :
    DrawScalingSpriteScanline env i L (e.setLayer k l')
      = ((DrawScalingSpriteScanline env i L e).1,
          (DrawScalingSpriteScanline env i L e).2.setLayer k l') := by
  unfold DrawScalingSpriteScanline
  simp only [Engine.setLayer, Engine.tilesetAt, Engine.setLine, GetFramebufferLine]
  cases e.sprites[i]? with
  | none => rfl
  | some sprite =>
    simp only []
    cases sprite.tileset.bind e.tilesets with
    | none => rfl
    | some ts =>
      by_cases hc : sprite.do_collision = true
      · simp only [hc, if_true]
      · rw [Bool.not_eq_true] at hc
        simp only [hc, Bool.false_eq_true, if_false]

/-- A call through a draw pointer commutes with replacing layer `k`, when the call is
for another layer index or the pointer is a sprite procedure. -/
theorem callDraw_setLayer (d : Option ScanDrawPtr) (c k : Nat) (L : Int) (e : Engine)
    (l' : Layer) (h : c ≠ k ∨ ∃ mode, d = GetSpriteDraw mode) :
    callDraw env d c L (e.setLayer k l')
      = ((callDraw env d c L e).1, (callDraw env d c L e).2.setLayer k l') := by
  cases d with
  | none => rfl
  | some p =>
    cases p with
    | DrawSpriteScanline => exact DrawSpriteScanline_setLayer env c k L e l'
    | DrawScalingSpriteScanline => exact DrawScalingSpriteScanline_setLayer env c k L e l'
    | DrawLayerScanline =>
      rcases h with h | ⟨m, hm⟩
      · exact runLayerDraw_setLayer env _ c k h L e l'
      · cases m <;> simp [GetSpriteDraw, drawers] at hm
    | DrawLayerScanlineScaling =>
      rcases h with h | ⟨m, hm⟩
      · exact runLayerDraw_setLayer env _ c k h L e l'
      · cases m <;> simp [GetSpriteDraw, drawers] at hm
    | DrawLayerScanlineAffine =>
      rcases h with h | ⟨m, hm⟩
      · exact runLayerDraw_setLayer env _ c k h L e l'
      · cases m <;> simp [GetSpriteDraw, drawers] at hm
    | DrawLayerScanlinePixelMapping =>
      rcases h with h | ⟨m, hm⟩
      · exact runLayerDraw_setLayer env _ c k h L e l'
      · cases m <;> simp [GetSpriteDraw, drawers] at hm

theorem layerRead_setLayer (c k : Nat) (hck : c ≠ k) (e : Engine) (l' : Layer) :
    layerRead env (e.setLayer k l') (c : Int) = layerRead env e (c : Int) := by
  unfold layerRead
  simp only [Int.toNat_ofNat, setLayer_getElem?_ne e l' hck]

theorem TLN_SetLayerPosition_setLayer (c k : Nat) (hck : c ≠ k) (h v : Int) (e : Engine)
    (l' : Layer) :
    TLN_SetLayerPosition env c h v (e.setLayer k l')
      = ((TLN_SetLayerPosition env c h v e).1,
          (TLN_SetLayerPosition env c h v e).2.setLayer k l') := by
  unfold TLN_SetLayerPosition
  rw [layerRead_setLayer env c k hck]
  have hn : (e.setLayer k l').numlayers = e.numlayers := by
    simp [Engine.numlayers, Engine.setLayer]
  rw [hn]
  simp only [layerWrite_nat, TLN_SetLastError, Engine.tilemapAt, Engine.setLayer]
  split_ifs
  all_goals first
    | rfl
    | (simp only [Prod.mk.injEq, true_and]
       congr 1
       exact List.set_comm _ _ _ (Ne.symm hck))

theorem UpdateLayer_setLayer (c k : Nat) (hck : c ≠ k) (e : Engine) (l' : Layer) :
    UpdateLayer env c (e.setLayer k l') = (UpdateLayer env c e).setLayer k l' := by
  unfold UpdateLayer
  simp only [layerRead_setLayer env c k hck]
  have hx : (e.setLayer k l').xworld = e.xworld := rfl
  have hy : (e.setLayer k l').yworld = e.yworld := rfl
  rw [hx, hy, TLN_SetLayerPosition_setLayer env c k hck]

theorem clearLayerDirty_setLayer (c k : Nat) (hck : c ≠ k) (e : Engine) (l' : Layer) :
    clearLayerDirty (e.setLayer k l') c = (clearLayerDirty e c).setLayer k l' := by
  unfold clearLayerDirty
  rw [setLayer_getElem?_ne e l' hck]
  cases e.layers[c]? with
  | none => rfl
  | some layer =>
    simp only [Engine.setLayer]
    congr 1
    exact List.set_comm _ _ _ (Ne.symm hck)

theorem updateLayer_setLayer (c k : Nat) (hck : c ≠ k) (layer : Layer) (e : Engine)
    (l' : Layer) :
    DrawScanline.updateLayer env c layer (e.setLayer k l')
      = (DrawScanline.updateLayer env c layer e).setLayer k l' := by
  unfold DrawScanline.updateLayer
  have hd : (e.setLayer k l').dirty = e.dirty := rfl
  rw [hd]
  split_ifs
  · rw [UpdateLayer_setLayer env c k hck, clearLayerDirty_setLayer c k hck]
  · rfl

theorem drawLayer_setLayer (L : Int) (c k : Nat) (hck : c ≠ k) (st : PassState) (l' : Layer) :
    DrawScanline.drawLayer env L c (st.setLayer k l')
      = (DrawScanline.drawLayer env L c st).setLayer k l' := by
  unfold DrawScanline.drawLayer
  have hg : (st.setLayer k l').engine.layers[c]? = st.engine.layers[c]? :=
    setLayer_getElem?_ne st.engine l' hck
  rw [hg]
  cases st.engine.layers[c]? with
  | none => rfl
  | some layer =>
    simp only []
    split_ifs
    · have := callDraw_setLayer env layer.draw c k L st.engine l' (Or.inl hck)
      simp only [PassState.setLayer, this]
    · rfl

/-- One turn of the first layer loop commutes with replacing a disabled layer by a
disabled layer. -/
theorem layerStep_setLayer (L : Int) (st : PassState) (c k : Nat) (l l' : Layer)
    (hk : st.engine.layers[k]? = some l) (hok : l.ok = false) (hok' : l'.ok = false) :
    DrawScanline.layerStep env L (st.setLayer k l') c
      = (DrawScanline.layerStep env L st c).setLayer k l' := by
  by_cases hck : c = k
  · subst hck
    have hlt : c < st.engine.layers.length := (List.getElem?_eq_some_iff.mp hk).1
    have hg : (st.setLayer c l').engine.layers[c]? = some l' := by
      simp only [PassState.setLayer, Engine.setLayer]
      exact List.getElem?_set_self hlt
    unfold DrawScanline.layerStep
    rw [hg, hk]
    simp only [hok, hok']
    rfl
  · unfold DrawScanline.layerStep
    have hg : (st.setLayer k l').engine.layers[c]? = st.engine.layers[c]? :=
      setLayer_getElem?_ne st.engine l' hck
    rw [hg]
    cases st.engine.layers[c]? with
    | none => rfl
    | some layer =>
      simp only []
      split_ifs
      · have h1 : ({ st.setLayer k l' with
            engine := DrawScanline.updateLayer env c layer (st.setLayer k l').engine } : PassState)
            = ({ st with engine := DrawScanline.updateLayer env c layer st.engine } :
                PassState).setLayer k l' := by
          simp only [PassState.setLayer, updateLayer_setLayer env c k hck]
        rw [h1, drawLayer_setLayer env L c k hck]
      · rfl

/-- One turn of the priority layer loop commutes with replacing a disabled layer by a
disabled layer. -/
theorem priorityLayerStep_setLayer (L : Int) (st : PassState) (c k : Nat) (l l' : Layer)
    (hk : st.engine.layers[k]? = some l) (hok : l.ok = false) (hok' : l'.ok = false) :
    DrawScanline.priorityLayerStep env L (st.setLayer k l') c
      = (DrawScanline.priorityLayerStep env L st c).setLayer k l' := by
  by_cases hck : c = k
  · subst hck
    have hlt : c < st.engine.layers.length := (List.getElem?_eq_some_iff.mp hk).1
    have hg : (st.setLayer c l').engine.layers[c]? = some l' := by
      simp only [PassState.setLayer, Engine.setLayer]
      exact List.getElem?_set_self hlt
    unfold DrawScanline.priorityLayerStep
    rw [hg, hk]
    simp only [hok, hok']
    rfl
  · unfold DrawScanline.priorityLayerStep
    have hg : (st.setLayer k l').engine.layers[c]? = st.engine.layers[c]? :=
      setLayer_getElem?_ne st.engine l' hck
    rw [hg]
    cases st.engine.layers[c]? with
    | none => rfl
    | some layer =>
      simp only []
      split_ifs
      · have := callDraw_setLayer env layer.draw c k L st.engine l' (Or.inl hck)
        simp only [PassState.setLayer, this]
      · rfl

theorem overlayStep_setLayer (L : Int) (st : PassState) (k : Nat) (l' : Layer) :
    DrawScanline.overlayStep L (st.setLayer k l')
      = (DrawScanline.overlayStep L st).setLayer k l' := by
  unfold DrawScanline.overlayStep
  have hb : (st.setLayer k l').background_priority = st.background_priority := rfl
  rw [hb]
  split_ifs <;> rfl

theorem updateSprite_setLayer (i k : Nat) (sprite : Sprite) (e : Engine) (l' : Layer) :
    DrawScanline.updateSprite env i sprite (e.setLayer k l')
      = (DrawScanline.updateSprite env i sprite e).setLayer k l' := by
  unfold DrawScanline.updateSprite
  have hd : (e.setLayer k l').dirty = e.dirty := rfl
  rw [hd]
  split_ifs <;> rfl

theorem drawSprite_setLayer (L : Int) (i k : Nat) (st : PassState) (l' : Layer)
    (h : ∀ s, st.engine.sprites[i]? = some s → s.drawOk) :
    DrawScanline.drawSprite env L i (st.setLayer k l')
      = (DrawScanline.drawSprite env L i st).setLayer k l' := by
  unfold DrawScanline.drawSprite
  have hg : (st.setLayer k l').engine.sprites[i]? = st.engine.sprites[i]? := rfl
  rw [hg]
  cases hs : st.engine.sprites[i]? with
  | none => rfl
  | some sprite =>
    simp only []
    have hc : check_sprite_coverage (st.setLayer k l').engine sprite L
        = check_sprite_coverage st.engine sprite L := rfl
    rw [hc]
    split_ifs
    · have := callDraw_setLayer env sprite.draw i k L st.engine l' (Or.inr (h sprite hs))
      simp only [PassState.setLayer, this]
    · rfl
    · rfl

theorem drawOk_of_map {a b : List Sprite}
    (h : b.map Sprite.noCollision = a.map Sprite.noCollision)
    (ha : ∀ s ∈ a, s.drawOk) : ∀ s ∈ b, s.drawOk := by
  intro s hs
  have h1 : s.noCollision ∈ b.map Sprite.noCollision := List.mem_map_of_mem _ hs
  rw [h] at h1
  obtain ⟨t, ht, hts⟩ := List.mem_map.mp h1
  obtain ⟨m, hm⟩ := ha t ht
  have hd : t.draw = s.draw := by
    have := congrArg Sprite.draw hts
    exact this
  exact ⟨m, by rw [← hd, hm]⟩

theorem updateSprite_drawOk (i : Nat) (sprite : Sprite) (e : Engine)
    (hup : ∀ w h s, (env.UpdateSprite w h s).draw = s.draw)
    (hsp : sprite.drawOk) (ha : ∀ s ∈ e.sprites, s.drawOk) :
    ∀ s ∈ (DrawScanline.updateSprite env i sprite e).sprites, s.drawOk := by
  unfold DrawScanline.updateSprite
  split_ifs
  · intro s hs
    rcases List.mem_or_eq_of_mem_set hs with h | h
    · exact ha s h
    · obtain ⟨m, hm⟩ := hsp
      refine ⟨m, ?_⟩
      rw [h]
      show (env.UpdateSprite _ _ _).draw = _
      rw [hup]
      exact hm
  · exact ha

theorem drawSprite_drawOk (L : Int) (i : Nat) (st : PassState)
    (ha : ∀ s ∈ st.engine.sprites, s.drawOk) :
    ∀ s ∈ (DrawScanline.drawSprite env L i st).engine.sprites, s.drawOk := by
  unfold DrawScanline.drawSprite
  cases st.engine.sprites[i]? with
  | none => exact ha
  | some sprite =>
    simp only []
    split_ifs
    · have hc := callDraw_control env sprite.draw i L st.engine
      have hm := congrArg Engine.sprites hc
      exact drawOk_of_map hm ha
    · exact ha
    · exact ha

/-- One turn of the sprite loop commutes with replacing layer `k`, and keeps the sprites'
draw pointers sprite procedures. -/
theorem spriteStep_setLayer (L : Int) (st : PassState) (i k : Nat) (l' : Layer)
    (hup : ∀ w h s, (env.UpdateSprite w h s).draw = s.draw)
    (ha : ∀ s ∈ st.engine.sprites, s.drawOk) :
    DrawScanline.spriteStep env L (st.setLayer k l') i
      = (DrawScanline.spriteStep env L st i).setLayer k l'
    ∧ ∀ s ∈ (DrawScanline.spriteStep env L st i).engine.sprites, s.drawOk := by
  unfold DrawScanline.spriteStep
  have hg : (st.setLayer k l').engine.sprites[i]? = st.engine.sprites[i]? := rfl
  rw [hg]
  cases hs : st.engine.sprites[i]? with
  | none => exact ⟨rfl, ha⟩
  | some sprite =>
    simp only []
    split_ifs
    · exact ⟨rfl, ha⟩
    · have hin : sprite ∈ st.engine.sprites := List.getElem?_mem hs
      have hok := updateSprite_drawOk env i sprite st.engine hup (ha sprite hin) ha
      constructor
      · have h1 : ({ st.setLayer k l' with
            engine := DrawScanline.updateSprite env i sprite (st.setLayer k l').engine } :
              PassState)
            = ({ st with engine := DrawScanline.updateSprite env i sprite st.engine } :
                PassState).setLayer k l' := by
          simp only [PassState.setLayer, updateSprite_setLayer env i k]
        rw [h1]
        exact drawSprite_setLayer env L i k _ l' (fun s h => hok s (List.getElem?_mem h))
      · exact drawSprite_drawOk env L i _ hok

/-- A state that replacing layer `k` by `l` does not change has `l` as layer `k`. -/
theorem layer_kept (st : PassState) (k : Nat) (l : Layer)
    (h : st = st.setLayer k l) (hlen : k < st.engine.layers.length) :
    st.engine.layers[k]? = some l := by
  rw [h]
  simp only [PassState.setLayer, Engine.setLayer]
  exact List.getElem?_set_self hlen

theorem setLayer_state_self (st : PassState) (k : Nat) (l : Layer)
    (h : st.engine.layers[k]? = some l) : st.setLayer k l = st := by
  unfold PassState.setLayer
  rw [setLayer_self st.engine k l h]

theorem layerStep_keeps (L : Int) (st : PassState) (c k : Nat) (l : Layer)
    (hk : st.engine.layers[k]? = some l) (hok : l.ok = false)
    (ha : ∀ s ∈ st.engine.sprites, s.drawOk) :
    (DrawScanline.layerStep env L st c).engine.layers[k]? = some l
    ∧ ∀ s ∈ (DrawScanline.layerStep env L st c).engine.sprites, s.drawOk := by
  have hsim := (layerStep_spec env L st c).1
  constructor
  · apply layer_kept
    · have := layerStep_setLayer env L st c k l l hk hok hok
      rw [setLayer_state_self st k l hk] at this
      exact this
    · rw [layers_length_similar hsim]
      exact (List.getElem?_eq_some_iff.mp hk).1
  · exact drawOk_of_map hsim.2.2 ha

theorem priorityLayerStep_keeps (L : Int) (st : PassState) (c k : Nat) (l : Layer)
    (hk : st.engine.layers[k]? = some l) (hok : l.ok = false)
    (ha : ∀ s ∈ st.engine.sprites, s.drawOk) :
    (DrawScanline.priorityLayerStep env L st c).engine.layers[k]? = some l
    ∧ ∀ s ∈ (DrawScanline.priorityLayerStep env L st c).engine.sprites, s.drawOk := by
  have hsim := (priorityLayerStep_spec env L st c).1
  constructor
  · apply layer_kept
    · have := priorityLayerStep_setLayer env L st c k l l hk hok hok
      rw [setLayer_state_self st k l hk] at this
      exact this
    · rw [layers_length_similar hsim]
      exact (List.getElem?_eq_some_iff.mp hk).1
  · exact drawOk_of_map hsim.2.2 ha

theorem spriteStep_keeps (L : Int) (st : PassState) (i k : Nat) (l : Layer)
    (hup : ∀ w h s, (env.UpdateSprite w h s).draw = s.draw)
    (hk : st.engine.layers[k]? = some l)
    (ha : ∀ s ∈ st.engine.sprites, s.drawOk) :
    (DrawScanline.spriteStep env L st i).engine.layers[k]? = some l := by
  apply layer_kept
  · have := (spriteStep_setLayer env L st i k l hup ha).1
    rw [setLayer_state_self st k l hk] at this
    exact this
  · have := congrArg List.length (spriteStep_spec env L st i).2.1
    simp only [List.length_map] at this
    rw [this]
    exact (List.getElem?_eq_some_iff.mp hk).1

theorem overlayStep_keeps (L : Int) (st : PassState) (k : Nat) (l : Layer)
    (hk : st.engine.layers[k]? = some l) :
    (DrawScanline.overlayStep L st).engine.layers[k]? = some l := by
  unfold DrawScanline.overlayStep
  split_ifs
  · exact hk
  · exact hk

/-- A loop whose body commutes with replacing layer `k` under an invariant commutes
with it as a whole. -/
theorem foldl_setLayer (f : PassState → Nat → PassState) (k : Nat) (l' : Layer)
    (P : PassState → Prop)
    (hstep : ∀ st c, P st → f (st.setLayer k l') c = (f st c).setLayer k l' ∧ P (f st c))
    (xs : List Nat) (st : PassState) (h : P st) :
    xs.foldl f (st.setLayer k l') = (xs.foldl f st).setLayer k l' ∧ P (xs.foldl f st) := by
  induction xs generalizing st with
  | nil => exact ⟨rfl, h⟩
  | cons x xs ih =>
    simp only [List.foldl_cons]
    rw [(hstep st x h).1]
    exact ih _ (hstep st x h).2

/-- The three loops and the overlay commute with replacing a disabled layer by a
disabled layer, and leave the disabled layer as it was. -/
theorem passes_setLayer (L : Int) (st : PassState) (k : Nat) (l l' : Layer)
    (hup : ∀ w h s, (env.UpdateSprite w h s).draw = s.draw)
    (hk : st.engine.layers[k]? = some l) (hok : l.ok = false) (hok' : l'.ok = false)
    (ha : ∀ s ∈ st.engine.sprites, s.drawOk) :
    DrawScanline.passes env L (st.setLayer k l') = (DrawScanline.passes env L st).setLayer k l'
    ∧ (DrawScanline.passes env L st).engine.layers[k]? = some l := by
  let P : PassState → Prop := fun x =>
    x.engine.layers[k]? = some l ∧ ∀ s ∈ x.engine.sprites, s.drawOk
  have h1 := foldl_setLayer (DrawScanline.layerStep env L) k l' P
    (fun x c hx => ⟨layerStep_setLayer env L x c k l l' hx.1 hok hok',
      layerStep_keeps env L x c k l hx.1 hok hx.2⟩)
    (List.range st.engine.layers.length).reverse st ⟨hk, ha⟩
  have h2 := foldl_setLayer (DrawScanline.spriteStep env L) k l' P
    (fun x c hx => ⟨(spriteStep_setLayer env L x c k l' hup hx.2).1,
      spriteStep_keeps env L x c k l hup hx.1 hx.2,
      (spriteStep_setLayer env L x c k l' hup hx.2).2⟩)
  have h3 := foldl_setLayer (DrawScanline.priorityLayerStep env L) k l' P
    (fun x c hx => ⟨priorityLayerStep_setLayer env L x c k l l' hx.1 hok hok',
      priorityLayerStep_keeps env L x c k l hx.1 hok hx.2⟩)
  have hlen : ∀ x : PassState, (x.setLayer k l').engine.layers.length = x.engine.layers.length :=
    fun x => by simp [PassState.setLayer, Engine.setLayer]
  have hsl : ∀ x : PassState, (x.setLayer k l').engine.sprites = x.engine.sprites :=
    fun _ => rfl
  unfold DrawScanline.passes
  simp only [hlen]
  rw [h1.1, hsl]
  have h2' := h2 (List.range ((List.range st.engine.layers.length).reverse.foldl
    (DrawScanline.layerStep env L) st).engine.sprites.length) _ h1.2
  rw [h2'.1, hlen]
  have h3' := h3 (List.range ((List.range ((List.range st.engine.layers.length).reverse.foldl
    (DrawScanline.layerStep env L) st).engine.sprites.length).foldl
      (DrawScanline.spriteStep env L) ((List.range st.engine.layers.length).reverse.foldl
    (DrawScanline.layerStep env L) st)).engine.layers.length).reverse _ h2'.2
  rw [h3'.1, overlayStep_setLayer]
  refine ⟨rfl, ?_⟩
  exact overlayStep_keeps L _ k l h3'.2.1

theorem start_setLayer (e : Engine) (k : Nat) (l' : Layer)
    (hcb : DrawScanline.afterRaster env (e.setLayer k l')
      = (DrawScanline.afterRaster env e).setLayer k l') :
    DrawScanline.start env (e.setLayer k l') = (DrawScanline.start env e).setLayer k l' := by
  unfold DrawScanline.start
  simp only [hcb]
  rfl

theorem layerDraw_not_raster (e : Engine) (k : Nat) (L : Int) :
    Event.layerDraw k L ∉ DrawScanline.rasterCall e := by
  unfold DrawScanline.rasterCall
  cases e.cb_raster <;> simp

theorem layerDraw_not_drawCalls (e e' : Engine) (k : Nat) (l : Layer) (L line : Int)
    (ov : Bool) (hk : e.layers[k]? = some l) (hok : l.ok = false) :
    Event.layerDraw k L ∉ drawCalls e e' line ov := by
  have hd : ∀ p, layerDrawn e line p k = false := by
    intro p
    simp [layerDrawn, hk, schedDrawn, Layer.sched, hok]
  unfold drawCalls
  simp only [List.mem_append, List.mem_map, List.mem_filter, not_or, not_exists, not_and]
  refine ⟨⟨⟨?_, ?_⟩, ?_⟩, ?_⟩
  · intro c hc h
    injection h with h1 h2
    subst h1
    rw [hd] at hc
    exact absurd hc.2 (by simp)
  · intro c _ h
    cases h
  · intro c hc h
    injection h with h1 h2
    subst h1
    rw [hd] at hc
    exact absurd hc.2 (by simp)
  · cases ov <;> simp

/-- **C7.** A layer with `ok = false` is neither updated nor drawn by `DrawScanline`,
in the normal pass or in the priority pass. Let layer `k` be a disabled
record `l` when the layer loops start, and compare with the scene in which
slot `k` holds any other disabled record `l'` (an unused slot, say), the
raster callback, if any, treating both scenes alike and the sprites' draw
pointers being sprite procedures, which `UpdateSprite` keeps. Then
`DrawScanline` leaves the same engine state up to slot `k`: the same
framebuffer, sprites and other layers, the same calls and return value;
slot `k` still holds `l`, and no draw call for layer `k` is made.
`TLN_DisableLayer(k)` makes layer `k` such a record: it succeeds on a layer
index inside the array and clears `ok`, nothing else. -/
theorem DrawScanline_disabled_layer (e : Engine) (k : Nat) (l l' : Layer)
    (hk : (DrawScanline.afterRaster env e).layers[k]? = some l)
    (hok : l.ok = false) (hok' : l'.ok = false)
    (hcb : DrawScanline.afterRaster env (e.setLayer k l')
      = (DrawScanline.afterRaster env e).setLayer k l')
    (hsp : ∀ s ∈ (DrawScanline.afterRaster env e).sprites, s.drawOk)
    (hup : ∀ w h s, (env.UpdateSprite w h s).draw = s.draw) :
    (DrawScanline env (e.setLayer k l')).engine = (DrawScanline env e).engine.setLayer k l'
    ∧ (DrawScanline env (e.setLayer k l')).engine.framebuffer
        = (DrawScanline env e).engine.framebuffer
    ∧ (DrawScanline env (e.setLayer k l')).engine.sprites = (DrawScanline env e).engine.sprites
    ∧ (∀ c, c ≠ k → (DrawScanline env (e.setLayer k l')).engine.layers[c]?
        = (DrawScanline env e).engine.layers[c]?)
    ∧ (DrawScanline env (e.setLayer k l')).events = (DrawScanline env e).events
    ∧ (DrawScanline env (e.setLayer k l')).ret = (DrawScanline env e).ret
    ∧ (DrawScanline env e).engine.layers[k]? = some l
    ∧ (∀ L, Event.layerDraw k L ∉ (DrawScanline env e).events)
    ∧ (∀ (x : Engine) (lx : Layer), x.layers[k]? = some lx →
        (TLN_DisableLayer env k x).1 = true
        ∧ (TLN_DisableLayer env k x).2.layers[k]? = some { lx with ok := false }) := by
  have hp := passes_setLayer env e.line (DrawScanline.start env e) k l l' hup hk hok hok' hsp
  have hline : (e.setLayer k l').line = e.line := rfl
  have heng : (DrawScanline env (e.setLayer k l')).engine
      = (DrawScanline env e).engine.setLayer k l' := by
    rw [DrawScanline_engine, DrawScanline_engine, hline, start_setLayer env e k l' hcb, hp.1]
    generalize DrawScanline.passes env e.line (DrawScanline.start env e) = X
    rfl
  have hev : (DrawScanline env (e.setLayer k l')).events = (DrawScanline env e).events := by
    rw [DrawScanline_events, DrawScanline_events, hline, start_setLayer env e k l' hcb, hp.1]
    generalize DrawScanline.passes env e.line (DrawScanline.start env e) = X
    rfl
  refine ⟨heng, ?_, ?_, ?_, hev, ?_, ?_, ?_, ?_⟩
  · rw [heng]
    generalize (DrawScanline env e).engine = X
    rfl
  · rw [heng]
    generalize (DrawScanline env e).engine = X
    rfl
  · intro c hc
    rw [heng]
    exact setLayer_getElem?_ne _ l' hc
  · rw [Bool.eq_iff_iff, DrawScanline_ret, DrawScanline_ret, heng]
    generalize (DrawScanline env e).engine = X
    exact Iff.rfl
  · rw [DrawScanline_engine]
    exact hp.2
  · intro L
    obtain ⟨ov, hcalls⟩ := DrawScanline_calls env e
    rw [hcalls]
    simp only [List.mem_cons, List.mem_append, not_or]
    exact ⟨by simp, layerDraw_not_raster e k L,
      layerDraw_not_drawCalls _ _ k l L e.line ov hk hok⟩
  · intro x lx hx
    have hlt : k < x.layers.length := (List.getElem?_eq_some_iff.mp hx).1
    have hnl : ¬ ((k : Int) ≥ x.numlayers) := by
      unfold Engine.numlayers
      omega
    unfold TLN_DisableLayer
    rw [if_neg hnl, layerRead_nat env k x lx hx, layerWrite_nat]
    exact ⟨rfl, List.getElem?_set_self hlt⟩

/-- The demo scene, whose layer 1 is disabled: replacing it by a blank slot changes
nothing else. -/
theorem DrawScanline_disabled_layer_witness :
    (DrawScanline demoEnv (demoEngine.setLayer 1 blankLayer)).engine
        = (DrawScanline demoEnv demoEngine).engine.setLayer 1 blankLayer
    ∧ (DrawScanline demoEnv (demoEngine.setLayer 1 blankLayer)).engine.framebuffer
        = (DrawScanline demoEnv demoEngine).engine.framebuffer
    ∧ (DrawScanline demoEnv demoEngine).engine.layers[1]?
        = some { demoLayer with ok := false } :=
  have h := DrawScanline_disabled_layer demoEnv demoEngine 1 { demoLayer with ok := false }
    blankLayer rfl rfl rfl rfl
    (by
      intro s hs
      have : s = demoSprite 0 ∨ s = demoSprite 4 := by
        simpa [DrawScanline.afterRaster, demoEngine] using hs
      rcases this with h | h <;> rw [h] <;> exact ⟨.MODE_NORMAL, rfl⟩)
    (fun _ _ _ => rfl)
  ⟨h.1, h.2.1, h.2.2.2.2.2.2.1⟩

/-! ## The collision pass -/

theorem setCollision_length (l : List Sprite) (i : Nat) :
    (setCollision l i).length = l.length := by
  unfold setCollision
  cases l[i]? <;> simp

theorem flagged_setCollision (l : List Sprite) (i j : Nat) :
    flagged (setCollision l i) j = (flagged l j || (decide (i = j) && decide (j < l.length))) := by
  unfold setCollision
  cases h : l[i]? with
  | none =>
    have hi : l.length ≤ i := List.getElem?_eq_none_iff.mp h
    have : (decide (i = j) && decide (j < l.length)) = false := by
      by_cases hij : i = j
      · subst hij
        simp [Nat.not_lt.mpr hi]
      · simp [hij]
    simp [this]
  | some s =>
    have hi : i < l.length := (List.getElem?_eq_some_iff.mp h).1
    by_cases hij : i = j
    · subst hij
      simp [flagged, List.getElem?_set_self hi, hi]
    · simp [flagged, List.getElem?_set_ne hij, hij]

theorem DrawSpriteCollision_loop (n : Nat) (src : Buf) (dx : Int) (w : Nat)
    (srcoff dstoff : Int) (st : List Sprite × Buf) :
    DrawSpriteCollision n src dx w srcoff dstoff st
      = collisionLoop n (fun p => src (srcoff + (p - dstoff) * dx)) w dstoff st := by
  induction w generalizing srcoff dstoff st with
  | zero => rfl
  | succ w ih =>
    unfold DrawSpriteCollision collisionLoop
    rw [ih]
    have hf : (fun p => src (srcoff + dx + (p - (dstoff + 1)) * dx))
        = (fun p => src (srcoff + (p - dstoff) * dx)) := by
      funext p
      congr 1
      ring
    rw [hf]
    simp only [sub_self, zero_mul, add_zero]

theorem DrawSpriteCollisionScaling_loop (fb n : Nat) (src : Buf) (so dx : Int) (w : Nat)
    (srcx dstoff : Int) (st : List Sprite × Buf) :
    DrawSpriteCollisionScaling fb n src so dx w srcx dstoff st
      = collisionLoop n (fun p => src (so + cdiv (srcx + (p - dstoff) * dx) (2 ^ fb))) w
          dstoff st := by
  induction w generalizing srcx dstoff st with
  | zero => rfl
  | succ w ih =>
    unfold DrawSpriteCollisionScaling collisionLoop
    rw [ih]
    have hf : (fun p => src (so + cdiv (srcx + dx + (p - (dstoff + 1)) * dx) (2 ^ fb)))
        = (fun p => src (so + cdiv (srcx + (p - dstoff) * dx) (2 ^ fb))) := by
      funext p
      congr 3
      ring
    rw [hf]
    simp only [sub_self, zero_mul, add_zero]

/-- What the collision loop does: a visited slot under a non-zero source pixel holds
the sprite index (as a 16-bit value), every other slot is unchanged; a
sprite's flag is set afterwards exactly if it was set before or some
visited slot under a non-zero pixel was not `0xFFFF` and the sprite is the
current one or the one recorded in the slot. -/
theorem collisionLoop_spec (n : Nat) (pix : Int → Nat) (w : Nat) (d : Int)
    (st : List Sprite × Buf) :
    (∀ p, (collisionLoop n pix w d st).2 p
        = if d ≤ p ∧ p < d + w ∧ pix p ≠ 0 then n % 65536 else st.2 p)
    ∧ (∀ j, flagged (collisionLoop n pix w d st).1 j = true
        ↔ flagged st.1 j = true
          ∨ (j < st.1.length ∧ ∃ p, d ≤ p ∧ p < d + w ∧ pix p ≠ 0 ∧ st.2 p ≠ 0xFFFF
              ∧ (j = n ∨ j = st.2 p)))
    ∧ (collisionLoop n pix w d st).1.length = st.1.length
    ∧ (collisionLoop n pix w d st).1.map Sprite.noCollision = st.1.map Sprite.noCollision := by
  induction w generalizing d st with
  | zero =>
    refine ⟨fun p => ?_, fun j => ?_, rfl, rfl⟩
    · have : ¬ (d ≤ p ∧ p < d + ((0 : Nat) : Int) ∧ pix p ≠ 0) := by
        intro h
        have := h.2.1
        push_cast at this
        omega
      rw [if_neg this]
      rfl
    · constructor
      · intro h
        exact Or.inl h
      · rintro (h | ⟨_, p, h1, h2, _⟩)
        · exact h
        · push_cast at h2
          omega
  | succ w ih =>
    unfold collisionLoop
    obtain ⟨ha, hb, hc, hd⟩ := ih (d + 1)
      (if pix d ≠ 0 then
        ((if st.2 d ≠ 0xFFFF then setCollision (setCollision st.1 n) (st.2 d) else st.1),
         Function.update st.2 d (n % 65536))
       else st)
    have hbuf : ∀ p, p ≠ d →
        (if pix d ≠ 0 then
          ((if st.2 d ≠ 0xFFFF then setCollision (setCollision st.1 n) (st.2 d) else st.1),
           Function.update st.2 d (n % 65536))
         else st).2 p = st.2 p := by
      intro p hp
      by_cases h1 : pix d ≠ 0
      · rw [if_pos h1]
        exact Function.update_noteq hp _ _
      · rw [if_neg h1]
    have hlen : (if pix d ≠ 0 then
          ((if st.2 d ≠ 0xFFFF then setCollision (setCollision st.1 n) (st.2 d) else st.1),
           Function.update st.2 d (n % 65536))
         else st).1.length = st.1.length := by
      split_ifs <;> simp [setCollision_length]
    have hmap : (if pix d ≠ 0 then
          ((if st.2 d ≠ 0xFFFF then setCollision (setCollision st.1 n) (st.2 d) else st.1),
           Function.update st.2 d (n % 65536))
         else st).1.map Sprite.noCollision = st.1.map Sprite.noCollision := by
      split_ifs <;> simp [setCollision_map]
    have hfl : ∀ j, flagged (if pix d ≠ 0 then
          ((if st.2 d ≠ 0xFFFF then setCollision (setCollision st.1 n) (st.2 d) else st.1),
           Function.update st.2 d (n % 65536))
         else st).1 j = true
        ↔ flagged st.1 j = true
          ∨ (j < st.1.length ∧ pix d ≠ 0 ∧ st.2 d ≠ 0xFFFF ∧ (j = n ∨ j = st.2 d)) := by
      intro j
      by_cases h1 : pix d ≠ 0
      · by_cases h2 : st.2 d ≠ 0xFFFF
        · simp only [h1, h2, if_true, flagged_setCollision, setCollision_length,
            Bool.or_eq_true, Bool.and_eq_true, decide_eq_true_eq, ne_eq, not_false_eq_true,
            true_and]
          constructor
          · rintro ((h | ⟨h, hl⟩) | ⟨h, hl⟩)
            · exact Or.inl h
            · exact Or.inr ⟨hl, Or.inl h.symm⟩
            · exact Or.inr ⟨hl, Or.inr h.symm⟩
          · rintro (h | ⟨hl, h | h⟩)
            · exact Or.inl (Or.inl h)
            · exact Or.inl (Or.inr ⟨h.symm, hl⟩)
            · exact Or.inr ⟨h.symm, hl⟩
        · simp only [h1, h2, if_true, if_false, ne_eq, not_false_eq_true, not_true_eq_false,
            false_and, and_false, or_false]
      · simp only [h1, if_false, ne_eq, not_false_eq_true, not_true_eq_false,
            false_and, and_false, or_false]
    refine ⟨fun p => ?_, fun j => ?_, by rw [hc, hlen], by rw [hd, hmap]⟩
    · rw [ha p]
      by_cases hp : p = d
      · subst hp
        have : ¬ (p + 1 ≤ p ∧ p < p + 1 + (w : Int) ∧ pix p ≠ 0) := by
          intro h
          omega
        rw [if_neg this]
        by_cases h1 : pix p ≠ 0
        · have : p ≤ p ∧ p < p + ((w + 1 : Nat) : Int) ∧ pix p ≠ 0 :=
            ⟨le_refl _, by push_cast; omega, h1⟩
          rw [if_pos this, if_pos h1]
          exact Function.update_same _ _ _
        · have : ¬ (p ≤ p ∧ p < p + ((w + 1 : Nat) : Int) ∧ pix p ≠ 0) := fun h => h1 h.2.2
          rw [if_neg this, if_neg h1]
      · rw [hbuf p hp]
        have : (d + 1 ≤ p ∧ p < d + 1 + (w : Int) ∧ pix p ≠ 0)
            ↔ (d ≤ p ∧ p < d + ((w + 1 : Nat) : Int) ∧ pix p ≠ 0) := by
          push_cast
          constructor
          · rintro ⟨a, b, c⟩
            exact ⟨by omega, by omega, c⟩
          · rintro ⟨a, b, c⟩
            exact ⟨by omega, by omega, c⟩
        simp only [this]
    · rw [hb j, hfl j, hlen]
      constructor
      · rintro ((h | ⟨hl, h1, h2, h3⟩) | ⟨hl, p, p1, p2, p3, p4, p5⟩)
        · exact Or.inl h
        · exact Or.inr ⟨hl, d, le_refl _, by push_cast; omega, h1, h2, h3⟩
        · have hp : p ≠ d := by omega
          rw [hbuf p hp] at p4 p5
          exact Or.inr ⟨hl, p, by omega, by push_cast; omega, p3, p4, p5⟩
      · rintro (h | ⟨hl, p, p1, p2, p3, p4, p5⟩)
        · exact Or.inl (Or.inl h)
        · by_cases hp : p = d
          · subst hp
            exact Or.inl (Or.inr ⟨hl, p3, p4, p5⟩)
          · refine Or.inr ⟨hl, p, by omega, by push_cast at p2; omega, p3, ?_, ?_⟩
            · rw [hbuf p hp]; exact p4
            · rw [hbuf p hp]; exact p5

/-! ## Collisions within a frame -/

theorem kin_refl (e : Engine) : Kin e e := ⟨rfl, rfl, rfl⟩

theorem kin_trans {a b c : Engine} (h1 : Kin a b) (h2 : Kin b c) : Kin a c :=
  ⟨h2.sprites.trans h1.sprites, h2.draws.trans h1.draws, h2.globals.trans h1.globals⟩

theorem frameGlobals_of_globals {e e' : Engine} (h : e'.globals = e.globals) :
    e'.frameGlobals = e.frameGlobals := by
  unfold Engine.frameGlobals
  rw [h]

theorem spriteHits_congr {e x : Engine} {s t : Sprite} (hg : x.frameGlobals = e.frameGlobals)
    (hs : t.noCollision = s.noCollision) (L p : Int) :
    spriteHits env x t L p = spriteHits env e s L p := by
  have h1 : ∀ (y : Engine) (u : Sprite),
      spriteHits env y u L p = spriteHits env y.frameGlobals u.noCollision L p := fun _ _ => rfl
  rw [h1 x t, h1 e s, hg, hs]

theorem hits_congr {e x : Engine} (h : Kin e x) (i : Nat) (L p : Int) :
    hits env x i L p = hits env e i L p := by
  unfold hits
  have hi := congrArg (fun l : List Sprite => l[i]?) h.sprites
  simp only [List.getElem?_map] at hi
  cases hx : x.sprites[i]? with
  | none =>
    rw [hx] at hi
    cases he : e.sprites[i]? with
    | none => rfl
    | some s => rw [he] at hi; simp at hi
  | some t =>
    rw [hx] at hi
    cases he : e.sprites[i]? with
    | none => rw [he] at hi; simp at hi
    | some s =>
      rw [he] at hi
      simp only [Option.map_some', Option.some.injEq] at hi
      exact spriteHits_congr env h.globals hi L p

theorem layer_drawOk_of_map {a b : List Layer} (h : b.map Layer.draw = a.map Layer.draw)
    (ha : ∀ l ∈ a, l.drawOk) : ∀ l ∈ b, l.drawOk := by
  intro l hl
  have h1 : l.draw ∈ b.map Layer.draw := List.mem_map_of_mem _ hl
  rw [h] at h1
  obtain ⟨t, ht, hts⟩ := List.mem_map.mp h1
  have := ha t ht
  unfold Layer.drawOk at this ⊢
  rw [← hts]
  exact this

/-- A call through a layer's draw pointer leaves the sprites and the collision buffer
alone. -/
theorem callDraw_layer_neutral (d : Option ScanDrawPtr) (c : Nat) (L : Int) (e : Engine)
    (hd : d = none ∨ ∃ mode, d = drawers .DRAW_TILED_LAYER mode) :
    (callDraw env d c L e).2.sprites = e.sprites
    ∧ (callDraw env d c L e).2.collision = e.collision
    ∧ (callDraw env d c L e).2.layers.map Layer.draw = e.layers.map Layer.draw := by
  have hrun : ∀ core, (runLayerDraw core env c L e).2.sprites = e.sprites
      ∧ (runLayerDraw core env c L e).2.collision = e.collision
      ∧ (runLayerDraw core env c L e).2.layers.map Layer.draw = e.layers.map Layer.draw := by
    intro core
    unfold runLayerDraw
    split
    · exact ⟨rfl, rfl, rfl⟩
    · next layer hl =>
      split
      · exact ⟨rfl, rfl, map_set_of_eq _ _ _ _ _ hl rfl⟩
      · exact ⟨rfl, rfl, rfl⟩
  cases d with
  | none => exact ⟨rfl, rfl, rfl⟩
  | some q =>
    cases q with
    | DrawSpriteScanline =>
      rcases hd with h | ⟨m, h⟩
      · cases h
      · cases m <;> simp [drawers] at h
    | DrawScalingSpriteScanline =>
      rcases hd with h | ⟨m, h⟩
      · cases h
      · cases m <;> simp [drawers] at h
    | DrawLayerScanline => exact hrun _
    | DrawLayerScanlineScaling => exact hrun _
    | DrawLayerScanlineAffine => exact hrun _
    | DrawLayerScanlinePixelMapping => exact hrun _

theorem updateLayer_neutral (c : Nat) (layer : Layer) (e : Engine)
    (hl : e.layers[c]? = some layer) :
    (DrawScanline.updateLayer env c layer e).sprites = e.sprites
    ∧ (DrawScanline.updateLayer env c layer e).collision = e.collision
    ∧ (DrawScanline.updateLayer env c layer e).layers.map Layer.draw
        = e.layers.map Layer.draw := by
  have hpos : ∀ h v, (TLN_SetLayerPosition env c h v e).2.sprites = e.sprites
      ∧ (TLN_SetLayerPosition env c h v e).2.collision = e.collision
      ∧ (TLN_SetLayerPosition env c h v e).2.layers.map Layer.draw = e.layers.map Layer.draw := by
    intro h v
    unfold TLN_SetLayerPosition
    rw [layerRead_nat env c e layer hl]
    simp only [layerWrite_nat, TLN_SetLastError]
    split_ifs
    all_goals first
      | exact ⟨rfl, rfl, rfl⟩
      | exact ⟨rfl, rfl, map_set_of_eq _ _ _ _ _ hl rfl⟩
  have hclr : ∀ x : Engine, (clearLayerDirty x c).sprites = x.sprites
      ∧ (clearLayerDirty x c).collision = x.collision
      ∧ (clearLayerDirty x c).layers.map Layer.draw = x.layers.map Layer.draw := by
    intro x
    unfold clearLayerDirty
    split
    · next l0 h0 => exact ⟨rfl, rfl, map_set_of_eq _ _ _ _ _ h0 rfl⟩
    · exact ⟨rfl, rfl, rfl⟩
  unfold DrawScanline.updateLayer
  split_ifs
  · obtain ⟨a1, a2, a3⟩ := hclr (UpdateLayer env c e)
    obtain ⟨b1, b2, b3⟩ := hpos ((layerRead env e c).world.xfactor e.xworld
      - (layerRead env e c).world.offsetx) ((layerRead env e c).world.yfactor e.yworld
      - (layerRead env e c).world.offsety)
    exact ⟨a1.trans b1, a2.trans b2, a3.trans b3⟩
  · exact ⟨rfl, rfl, rfl⟩

/-- One turn of the first layer loop leaves the sprites and the collision buffer alone,
when the layers' draw pointers are layer procedures. -/
theorem layerStep_neutral (L : Int) (st : PassState) (c : Nat)
    (hd : ∀ l ∈ st.engine.layers, l.drawOk) :
    (DrawScanline.layerStep env L st c).engine.sprites = st.engine.sprites
    ∧ (DrawScanline.layerStep env L st c).engine.collision = st.engine.collision
    ∧ (DrawScanline.layerStep env L st c).engine.layers.map Layer.draw
        = st.engine.layers.map Layer.draw := by
  unfold DrawScanline.layerStep
  cases hl : st.engine.layers[c]? with
  | none => exact ⟨rfl, rfl, rfl⟩
  | some layer =>
    simp only []
    split_ifs
    · obtain ⟨u1, u2, u3⟩ := updateLayer_neutral env c layer st.engine hl
      unfold DrawScanline.drawLayer
      simp only []
      cases hl1 : (DrawScanline.updateLayer env c layer st.engine).layers[c]? with
      | none => exact ⟨u1, u2, u3⟩
      | some layer1 =>
        simp only []
        split_ifs
        · have hok : layer1.drawOk :=
            layer_drawOk_of_map u3 hd layer1 (List.getElem?_mem hl1)
          obtain ⟨c1, c2, c3⟩ := callDraw_layer_neutral env layer1.draw c L
            (DrawScanline.updateLayer env c layer st.engine) hok
          exact ⟨c1.trans u1, c2.trans u2, c3.trans u3⟩
        · exact ⟨u1, u2, u3⟩
    · exact ⟨rfl, rfl, rfl⟩

/-- One turn of the priority layer loop leaves the sprites and the collision buffer
alone, when the layers' draw pointers are layer procedures. -/
theorem priorityLayerStep_neutral (L : Int) (st : PassState) (c : Nat)
    (hd : ∀ l ∈ st.engine.layers, l.drawOk) :
    (DrawScanline.priorityLayerStep env L st c).engine.sprites = st.engine.sprites
    ∧ (DrawScanline.priorityLayerStep env L st c).engine.collision = st.engine.collision
    ∧ (DrawScanline.priorityLayerStep env L st c).engine.layers.map Layer.draw
        = st.engine.layers.map Layer.draw := by
  unfold DrawScanline.priorityLayerStep
  cases hl : st.engine.layers[c]? with
  | none => exact ⟨rfl, rfl, rfl⟩
  | some layer =>
    simp only []
    split_ifs
    · exact callDraw_layer_neutral env layer.draw c L st.engine
        (hd layer (List.getElem?_mem hl))
    · exact ⟨rfl, rfl, rfl⟩

/-- A loop whose turns leave the sprites and the collision buffer alone and keep the
layers' draw pointers does so as a whole. -/
theorem foldl_neutral (f : PassState → Nat → PassState)
    (hf : ∀ st c, (∀ l ∈ st.engine.layers, l.drawOk) →
      (f st c).engine.sprites = st.engine.sprites
      ∧ (f st c).engine.collision = st.engine.collision
      ∧ (f st c).engine.layers.map Layer.draw = st.engine.layers.map Layer.draw)
    (xs : List Nat) (st : PassState) (hd : ∀ l ∈ st.engine.layers, l.drawOk) :
    (xs.foldl f st).engine.sprites = st.engine.sprites
    ∧ (xs.foldl f st).engine.collision = st.engine.collision
    ∧ (xs.foldl f st).engine.layers.map Layer.draw = st.engine.layers.map Layer.draw := by
  induction xs generalizing st with
  | nil => exact ⟨rfl, rfl, rfl⟩
  | cons x xs ih =>
    simp only [List.foldl_cons]
    obtain ⟨a1, a2, a3⟩ := hf st x hd
    obtain ⟨b1, b2, b3⟩ := ih (f st x) (layer_drawOk_of_map a3 hd)
    exact ⟨b1.trans a1, b2.trans a2, b3.trans a3⟩

theorem Marks_same (i : Nat) (hit : Int → Bool) (a : List Sprite × Buf)
    (h : ∀ p, hit p = false) : Marks i hit a a := by
  refine ⟨fun p => by rw [h p]; rfl, fun j => ?_, rfl⟩
  constructor
  · intro hj
    exact Or.inl hj
  · rintro (hj | ⟨_, p, hp, _⟩)
    · exact hj
    · rw [h p] at hp
      cases hp

theorem Marks_of_loop (i : Nat) (hit : Int → Bool) (pix : Int → Nat) (w : Nat) (d : Int)
    (a : List Sprite × Buf)
    (h : ∀ p, hit p = true ↔ (d ≤ p ∧ p < d + w ∧ pix p ≠ 0)) :
    Marks i hit a (collisionLoop i pix w d a) := by
  obtain ⟨h1, h2, _, h4⟩ := collisionLoop_spec i pix w d a
  refine ⟨fun p => ?_, fun j => ?_, h4⟩
  · rw [h1 p]
    by_cases hp : hit p = true
    · rw [if_pos ((h p).mp hp), if_pos hp]
    · rw [if_neg (fun hh => hp ((h p).mpr hh)), if_neg hp]
  · rw [h2 j]
    constructor
    · rintro (hj | ⟨hl, p, p1, p2, p3, p4, p5⟩)
      · exact Or.inl hj
      · exact Or.inr ⟨hl, p, (h p).mpr ⟨p1, p2, p3⟩, p4, p5⟩
    · rintro (hj | ⟨hl, p, hp, p4, p5⟩)
      · exact Or.inl hj
      · obtain ⟨p1, p2, p3⟩ := (h p).mp hp
        exact Or.inr ⟨hl, p, p1, p2, p3, p4, p5⟩

/-- The slots that the collision pass within the draw procedure of sprite record `s`
marks on line `L`, the tests of the sprite loop apart. -/
theorem callDraw_marks (e : Engine) (i : Nat) (L : Int) (s : Sprite)
    (hs : e.sprites[i]? = some s) :
    Marks i
      (fun p => s.do_collision && decide (s.dstrect.x1 ≤ p) && decide (p < s.dstrect.x2)
        && match e.tilesetAt s.tileset with
           | some ts => collisionPixel env ts s L p != 0
           | none => false)
      (e.sprites, e.collision)
      ((callDraw env s.draw i L e).2.sprites, (callDraw env s.draw i L e).2.collision) := by
  have hrun : ∀ core, (runLayerDraw core env i L e).2.sprites = e.sprites
      ∧ (runLayerDraw core env i L e).2.collision = e.collision := by
    intro core
    unfold runLayerDraw
    split
    · exact ⟨rfl, rfl⟩
    · split
      · exact ⟨rfl, rfl⟩
      · exact ⟨rfl, rfl⟩
  cases hd : s.draw with
  | none =>
    apply Marks_same
    intro p
    cases e.tilesetAt s.tileset <;> simp [collisionPixel, hd]
  | some q =>
    cases q with
    | DrawSpriteScanline =>
      unfold callDraw
      simp only []
      unfold DrawSpriteScanline
      simp only [hs]
      cases hts : e.tilesetAt s.tileset with
      | none =>
        apply Marks_same
        intro p
        simp
      | some ts =>
        simp only []
        by_cases hc : s.do_collision = true
        · simp only [hc, if_true, DrawSpriteCollision_loop, Engine.setLine]
          apply Marks_of_loop
          intro p
          simp only [collisionPixel, hd, Bool.true_and, Bool.and_eq_true, decide_eq_true_eq,
            bne_iff_ne, ne_eq]
          constructor
          · rintro ⟨⟨h1, h2⟩, h3⟩
            exact ⟨h1, by omega, h3⟩
          · rintro ⟨h1, h2, h3⟩
            exact ⟨⟨h1, by omega⟩, h3⟩
        · rw [Bool.not_eq_true] at hc
          simp only [hc, Bool.false_eq_true, if_false]
          apply Marks_same
          intro p
          simp
    | DrawScalingSpriteScanline =>
      unfold callDraw
      simp only []
      unfold DrawScalingSpriteScanline
      simp only [hs]
      cases hts : e.tilesetAt s.tileset with
      | none =>
        apply Marks_same
        intro p
        simp
      | some ts =>
        simp only []
        by_cases hc : s.do_collision = true
        · simp only [hc, if_true, DrawSpriteCollisionScaling_loop, Engine.setLine]
          apply Marks_of_loop
          intro p
          simp only [collisionPixel, hd, Bool.true_and, Bool.and_eq_true, decide_eq_true_eq,
            bne_iff_ne, ne_eq]
          constructor
          · rintro ⟨⟨h1, h2⟩, h3⟩
            exact ⟨h1, by omega, h3⟩
          · rintro ⟨h1, h2, h3⟩
            exact ⟨⟨h1, by omega⟩, h3⟩
        · rw [Bool.not_eq_true] at hc
          simp only [hc, Bool.false_eq_true, if_false]
          apply Marks_same
          intro p
          simp
    | DrawLayerScanline =>
      unfold callDraw
      simp only []
      rw [(hrun _).1, (hrun _).2]
      apply Marks_same
      intro p
      cases e.tilesetAt s.tileset <;> simp [collisionPixel, hd]
    | DrawLayerScanlineScaling =>
      unfold callDraw
      simp only []
      rw [(hrun _).1, (hrun _).2]
      apply Marks_same
      intro p
      cases e.tilesetAt s.tileset <;> simp [collisionPixel, hd]
    | DrawLayerScanlineAffine =>
      unfold callDraw
      simp only []
      rw [(hrun _).1, (hrun _).2]
      apply Marks_same
      intro p
      cases e.tilesetAt s.tileset <;> simp [collisionPixel, hd]
    | DrawLayerScanlinePixelMapping =>
      unfold callDraw
      simp only []
      rw [(hrun _).1, (hrun _).2]
      apply Marks_same
      intro p
      cases e.tilesetAt s.tileset <;> simp [collisionPixel, hd]

theorem draws_of_control {e e' : Engine} (h : e'.control = e.control) :
    e'.layers.map Layer.draw = e.layers.map Layer.draw := by
  have h1 := congrArg (fun x : Engine => x.layers.map Layer.draw) h
  have h2 : ∀ x : Engine, x.control.layers.map Layer.draw = x.layers.map Layer.draw := by
    intro x
    simp only [Engine.control, List.map_map]
    rfl
  simp only [h2] at h1
  exact h1

/-- One turn of the sprite loop for sprite `i`, in a scene without world-space sprites:
the collision pass marks exactly the slots on which sprite `i` places a
non-zero pixel. -/
theorem spriteStep_marks (L : Int) (st : PassState) (i : Nat)
    (hw : ∀ s ∈ st.engine.sprites, s.world_space = false) :
    Marks i (hits env st.engine i L) (st.engine.sprites, st.engine.collision)
      ((DrawScanline.spriteStep env L st i).engine.sprites,
        (DrawScanline.spriteStep env L st i).engine.collision)
    ∧ (DrawScanline.spriteStep env L st i).engine.layers.map Layer.draw
        = st.engine.layers.map Layer.draw := by
  unfold DrawScanline.spriteStep
  cases hs : st.engine.sprites[i]? with
  | none => exact ⟨Marks_same _ _ _ (fun p => by simp [hits, hs]), rfl⟩
  | some s =>
    simp only []
    have hws := hw s (List.getElem?_mem hs)
    have hup : DrawScanline.updateSprite env i s st.engine = st.engine := by
      unfold DrawScanline.updateSprite
      simp [hws]
    by_cases hok : s.ok = true
    · simp only [hok, Bool.not_true, Bool.false_eq_true, if_false, hup]
      unfold DrawScanline.drawSprite
      simp only [hs]
      by_cases hcov : check_sprite_coverage st.engine s L = true
      · simp only [hcov, if_true]
        by_cases hp : hasFlag s.flags FLAG_PRIORITY = true
        · simp only [hp, Bool.not_true, Bool.false_eq_true, if_false]
          exact ⟨Marks_same _ _ _ (fun p => by simp [hits, hs, spriteHits, hp]), trivial⟩
        · rw [Bool.not_eq_true] at hp
          simp only [hp, Bool.not_false, if_true]
          have hm := callDraw_marks env st.engine i L s hs
          have hh : hits env st.engine i L
              = (fun p => s.do_collision && decide (s.dstrect.x1 ≤ p)
                  && decide (p < s.dstrect.x2)
                  && match st.engine.tilesetAt s.tileset with
                     | some ts => collisionPixel env ts s L p != 0
                     | none => false) := by
            funext p
            simp only [hits, hs, spriteHits, hok, hcov, hp, Bool.not_false, Bool.true_and,
              Bool.and_assoc]
          rw [hh]
          exact ⟨hm, draws_of_control (callDraw_control env s.draw i L st.engine)⟩
      · rw [Bool.not_eq_true] at hcov
        simp only [hcov, Bool.false_eq_true, if_false]
        exact ⟨Marks_same _ _ _ (fun p => by simp [hits, hs, spriteHits, hcov]), trivial⟩
    · rw [Bool.not_eq_true] at hok
      simp only [hok, Bool.not_false, if_true]
      exact ⟨Marks_same _ _ _ (fun p => by simp [hits, hs, spriteHits, hok]), trivial⟩

theorem hits_lt (e : Engine) (i : Nat) (L p : Int) (h : hits env e i L p = true) :
    i < e.sprites.length := by
  unfold hits at h
  cases hs : e.sprites[i]? with
  | none => rw [hs] at h; cases h
  | some s => exact (List.getElem?_eq_some_iff.mp hs).1

theorem hits_range (e : Engine) (hsc : CollisionScene e) (i : Nat) (L p : Int)
    (h : hits env e i L p = true) : 0 ≤ p ∧ p < e.framebuffer.width := by
  unfold hits at h
  cases hs : e.sprites[i]? with
  | none => rw [hs] at h; cases h
  | some s =>
    rw [hs] at h
    obtain ⟨_, h1, h2⟩ := hsc.sprites s (List.getElem?_mem hs)
    simp only [spriteHits, Bool.and_eq_true, decide_eq_true_eq] at h
    omega

theorem world_of_kin {e x : Engine} (hsc : CollisionScene e) (hk : Kin e x) :
    ∀ s ∈ x.sprites, s.world_space = false := by
  intro s hs
  have h1 : s.noCollision ∈ x.sprites.map Sprite.noCollision := List.mem_map_of_mem _ hs
  rw [hk.sprites] at h1
  obtain ⟨t, ht, hts⟩ := List.mem_map.mp h1
  have hw : t.world_space = s.world_space := by
    have := congrArg Sprite.world_space hts
    exact this
  rw [← hw]
  exact (hsc.sprites t ht).1

theorem spriteStep_kin {e : Engine} (hsc : CollisionScene e) (L : Int) (st : PassState)
    (i : Nat) (hk : Kin e st.engine) :
    Kin e (DrawScanline.spriteStep env L st i).engine := by
  obtain ⟨hm, hd⟩ := spriteStep_marks env L st i (world_of_kin hsc hk)
  exact ⟨hm.2.2.trans hk.sprites, hd.trans hk.draws,
    (frameGlobals_of_globals (spriteStep_globals env L st i)).trans hk.globals⟩

/-- The sprite loop of one line, after the sprites `0 .. m - 1`: a slot of the collision
buffer is empty if none of them placed a non-zero pixel on it and holds
the index of the last one that did otherwise; a sprite is flagged exactly
if it was flagged before the loop or shares a slot with another of them. -/
theorem sprite_loop_flags (e : Engine) (hsc : CollisionScene e) (L : Int) (st0 : PassState)
    (hk : Kin e st0.engine)
    (hc0 : ∀ p, 0 ≤ p → p < e.framebuffer.width → st0.engine.collision p = 0xFFFF)
    (m : Nat) (hm : m ≤ e.sprites.length) :
    Kin e ((List.range m).foldl (DrawScanline.spriteStep env L) st0).engine
    ∧ (∀ p, 0 ≤ p → p < e.framebuffer.width →
        (((List.range m).foldl (DrawScanline.spriteStep env L) st0).engine.collision p = 0xFFFF
          ∧ ∀ c, c < m → hits env e c L p = false)
        ∨ (∃ c, c < m ∧ hits env e c L p = true
            ∧ ((List.range m).foldl (DrawScanline.spriteStep env L) st0).engine.collision p = c
            ∧ ∀ c', c < c' → c' < m → hits env e c' L p = false))
    ∧ (∀ S, flagged ((List.range m).foldl (DrawScanline.spriteStep env L) st0).engine.sprites S
          = true
        ↔ flagged st0.engine.sprites S = true
          ∨ ∃ T p, T ≠ S ∧ S < m ∧ T < m ∧ hits env e S L p = true
              ∧ hits env e T L p = true) := by
  induction m with
  | zero =>
    refine ⟨hk, fun p h0 h1 => Or.inl ⟨hc0 p h0 h1, fun c hc => absurd hc (Nat.not_lt_zero c)⟩,
      fun S => ?_⟩
    constructor
    · intro h
      exact Or.inl h
    · rintro (h | ⟨T, p, _, h, _⟩)
      · exact h
      · exact absurd h (Nat.not_lt_zero S)
  | succ m ih =>
    obtain ⟨j1, j2, j3⟩ := ih (Nat.le_of_succ_le hm)
    rw [List.range_succ, List.foldl_append]
    simp only [List.foldl_cons, List.foldl_nil]
    generalize (List.range m).foldl (DrawScanline.spriteStep env L) st0 = st at j1 j2 j3 ⊢
    have hmk := (spriteStep_marks env L st m (world_of_kin hsc j1)).1
    have hhit : hits env st.engine m L = hits env e m L := funext (hits_congr env j1 m L)
    rw [hhit] at hmk
    obtain ⟨k1, k2, _⟩ := hmk
    simp only at k1 k2
    have hlen : st.engine.sprites.length = e.sprites.length := by
      have := congrArg List.length j1.sprites
      simpa using this
    have hm16 : m % 65536 = m := Nat.mod_eq_of_lt (by have := hsc.count; omega)
    refine ⟨spriteStep_kin env hsc L st m j1, fun p h0 h1 => ?_, fun S => ?_⟩
    · rw [k1 p]
      by_cases hp : hits env e m L p = true
      · rw [if_pos hp, hm16]
        exact Or.inr ⟨m, Nat.lt_succ_self m, hp, rfl, fun c' a b => by omega⟩
      · rw [if_neg hp]
        rw [Bool.not_eq_true] at hp
        rcases j2 p h0 h1 with ⟨a, b⟩ | ⟨c, a, b, d, f⟩
        · refine Or.inl ⟨a, fun c hc => ?_⟩
          rcases Nat.lt_succ_iff_lt_or_eq.mp hc with h | h
          · exact b c h
          · rw [h]; exact hp
        · refine Or.inr ⟨c, Nat.lt_succ_of_lt a, b, d, fun c' x y => ?_⟩
          rcases Nat.lt_succ_iff_lt_or_eq.mp y with h | h
          · exact f c' x h
          · rw [h]; exact hp
    · rw [k2 S, j3 S]
      constructor
      · rintro ((h | ⟨T, p, a, b, c, d, f⟩) | ⟨hl, p, hp, hne, hS⟩)
        · exact Or.inl h
        · exact Or.inr ⟨T, p, a, Nat.lt_succ_of_lt b, Nat.lt_succ_of_lt c, d, f⟩
        · obtain ⟨p0, p1⟩ := hits_range env e hsc m L p hp
          rcases j2 p p0 p1 with ⟨a, _⟩ | ⟨c, a, b, d, _⟩
          · exact absurd a hne
          · rcases hS with hS | hS
            · exact Or.inr ⟨c, p, by omega, by omega, by omega, by rw [hS]; exact hp, b⟩
            · have hSc : S = c := by rw [hS, d]
              exact Or.inr ⟨m, p, by omega, by omega, by omega, by rw [hSc]; exact b, hp⟩
      · rintro (h | ⟨T, p, a, b, c, d, f⟩)
        · exact Or.inl (Or.inl h)
        · obtain ⟨p0, p1⟩ := hits_range env e hsc S L p d
          have hSl : S < st.engine.sprites.length := by
            rw [hlen]; exact hits_lt env e S L p d
          by_cases hSm : S = m
          · have hT : T < m := by omega
            rcases j2 p p0 p1 with ⟨_, x⟩ | ⟨c, x, _, z, _⟩
            · rw [x T hT] at f
              cases f
            · refine Or.inr ⟨hSl, p, by rw [← hSm]; exact d, ?_, Or.inl hSm⟩
              rw [z]
              have := hsc.count
              omega
          · have hS : S < m := by omega
            by_cases hTm : T = m
            · rcases j2 p p0 p1 with ⟨_, x⟩ | ⟨c, x, y, z, w⟩
              · rw [x S hS] at d
                cases d
              · by_cases hSc : S = c
                · refine Or.inr ⟨hSl, p, by rw [← hTm]; exact f, ?_, Or.inr (by rw [z, hSc])⟩
                  rw [z]
                  have := hsc.count
                  omega
                · have hlt : S < c := by
                    by_contra hcon
                    have : c < S := by omega
                    rw [w S this hS] at d
                    cases d
                  exact Or.inl (Or.inr ⟨c, p, by omega, hS, x, d, y⟩)
            · exact Or.inl (Or.inr ⟨T, p, a, hS, by omega, d, f⟩)

theorem kin_of_neutral {e x y : Engine} (hk : Kin e x) (h1 : y.sprites = x.sprites)
    (h2 : y.layers.map Layer.draw = x.layers.map Layer.draw) (h3 : y.globals = x.globals) :
    Kin e y :=
  ⟨by rw [h1]; exact hk.sprites, h2.trans hk.draws, (frameGlobals_of_globals h3).trans hk.globals⟩

theorem kin_fields {e x : Engine} (hk : Kin e x) :
    x.cb_raster = e.cb_raster ∧ x.framebuffer.width = e.framebuffer.width
    ∧ x.framebuffer.height = e.framebuffer.height ∧ x.sprites.length = e.sprites.length := by
  have h1 := congrArg Engine.cb_raster hk.globals
  have h2 := congrArg (fun y : Engine => y.framebuffer.width) hk.globals
  have h3 := congrArg (fun y : Engine => y.framebuffer.height) hk.globals
  have h4 := congrArg List.length hk.sprites
  simp only [List.length_map] at h4
  exact ⟨h1, h2, h3, h4⟩

/-- The loops of one line in a collision scene, started with the collision buffer
reset: afterwards a sprite is flagged exactly if it was flagged before or
places, on this line, a non-zero pixel on a slot on which another sprite
places one too. -/
theorem passes_flags (e : Engine) (hsc : CollisionScene e) (L : Int) (st0 : PassState)
    (hk0 : Kin e st0.engine)
    (hc0 : ∀ p, 0 ≤ p → p < e.framebuffer.width → st0.engine.collision p = 0xFFFF) :
    Kin e (DrawScanline.passes env L st0).engine
    ∧ ∀ S, flagged (DrawScanline.passes env L st0).engine.sprites S = true
        ↔ flagged st0.engine.sprites S = true
          ∨ ∃ T p, T ≠ S ∧ hits env e S L p = true ∧ hits env e T L p = true := by
  unfold DrawScanline.passes
  simp only []
  -- the first layer loop
  have hd0 : ∀ l ∈ st0.engine.layers, l.drawOk := layer_drawOk_of_map hk0.draws hsc.layers
  obtain ⟨a1, a2, a3⟩ := foldl_neutral (DrawScanline.layerStep env L)
    (fun st c hd => layerStep_neutral env L st c hd)
    (List.range st0.engine.layers.length).reverse st0 hd0
  have ag := foldl_globals (DrawScanline.layerStep env L) (layerStep_globals env L)
    (List.range st0.engine.layers.length).reverse st0
  have hk1 := kin_of_neutral hk0 a1 a3 ag
  have hc1 : ∀ p, 0 ≤ p → p < e.framebuffer.width →
      ((List.range st0.engine.layers.length).reverse.foldl (DrawScanline.layerStep env L)
        st0).engine.collision p = 0xFFFF := by
    intro p h0 h1
    rw [a2]
    exact hc0 p h0 h1
  rw [← a1]
  generalize (List.range st0.engine.layers.length).reverse.foldl
    (DrawScanline.layerStep env L) st0 = st1 at hk1 hc1 ⊢
  -- the sprite loop
  have hn : st1.engine.sprites.length = e.sprites.length := (kin_fields hk1).2.2.2
  obtain ⟨hk2, _, hfl⟩ := sprite_loop_flags env e hsc L st1 hk1 hc1
    st1.engine.sprites.length (le_of_eq hn)
  have hfl' : ∀ S, flagged ((List.range st1.engine.sprites.length).foldl
      (DrawScanline.spriteStep env L) st1).engine.sprites S = true
      ↔ flagged st1.engine.sprites S = true
        ∨ ∃ T p, T ≠ S ∧ hits env e S L p = true ∧ hits env e T L p = true := by
    intro S
    rw [hfl S]
    constructor
    · rintro (h | ⟨T, p, a, _, _, d, f⟩)
      · exact Or.inl h
      · exact Or.inr ⟨T, p, a, d, f⟩
    · rintro (h | ⟨T, p, a, d, f⟩)
      · exact Or.inl h
      · exact Or.inr ⟨T, p, a, by rw [hn]; exact hits_lt env e S L p d,
          by rw [hn]; exact hits_lt env e T L p f, d, f⟩
  generalize (List.range st1.engine.sprites.length).foldl
    (DrawScanline.spriteStep env L) st1 = st2 at hk2 hfl' ⊢
  -- the priority layer loop and the overlay
  have hd2 : ∀ l ∈ st2.engine.layers, l.drawOk := layer_drawOk_of_map hk2.draws hsc.layers
  obtain ⟨b1, _, b3⟩ := foldl_neutral (DrawScanline.priorityLayerStep env L)
    (fun st c hd => priorityLayerStep_neutral env L st c hd)
    (List.range st2.engine.layers.length).reverse st2 hd2
  have bg := foldl_globals (DrawScanline.priorityLayerStep env L)
    (priorityLayerStep_globals env L) (List.range st2.engine.layers.length).reverse st2
  have hk3 := kin_of_neutral hk2 b1 b3 bg
  generalize (List.range st2.engine.layers.length).reverse.foldl
    (DrawScanline.priorityLayerStep env L) st2 = st3 at hk3 b1 ⊢
  have ho1 : (DrawScanline.overlayStep L st3).engine.sprites = st3.engine.sprites := by
    unfold DrawScanline.overlayStep
    split_ifs <;> rfl
  have ho2 : (DrawScanline.overlayStep L st3).engine.layers = st3.engine.layers := by
    unfold DrawScanline.overlayStep
    split_ifs <;> rfl
  refine ⟨kin_of_neutral hk3 ho1 (by rw [ho2]) (overlayStep_globals L st3), fun S => ?_⟩
  rw [ho1, b1]
  exact hfl' S

/-- One call of `DrawScanline` in a collision scene: afterwards a sprite is flagged
exactly if it was flagged before or places, on this line, a non-zero pixel
on a slot on which another sprite places one too. -/
theorem line_flags (e : Engine) (hsc : CollisionScene e) (x : Engine) (hk : Kin e x) :
    Kin e (DrawScanline env x).engine
    ∧ ∀ S, flagged (DrawScanline env x).engine.sprites S = true
        ↔ flagged x.sprites S = true
          ∨ ∃ T p, T ≠ S ∧ hits env e S x.line p = true ∧ hits env e T x.line p = true := by
  obtain ⟨f1, f2, _, f4⟩ := kin_fields hk
  have hra : DrawScanline.afterRaster env x = x :=
    afterRaster_none env x (f1.trans hsc.no_raster)
  have hs0 : (DrawScanline.start env x).engine.sprites = x.sprites := by
    unfold DrawScanline.start
    simp only [hra]
    rfl
  have hl0 : (DrawScanline.start env x).engine.layers = x.layers := by
    unfold DrawScanline.start
    simp only [hra]
    rfl
  have hg0 : (DrawScanline.start env x).engine.globals = x.globals := by
    rw [start_globals, hra]
  have hc0 : ∀ p, 0 ≤ p → p < e.framebuffer.width →
      (DrawScanline.start env x).engine.collision p = 0xFFFF := by
    intro p h0 h1
    unfold DrawScanline.start
    simp only [hra, memsetOnes16, Engine.setLine]
    rw [if_pos ⟨h0, by rw [f2]; exact h1⟩]
  have hk0 : Kin e (DrawScanline.start env x).engine :=
    kin_of_neutral hk hs0 (by rw [hl0]) hg0
  obtain ⟨g1, g2⟩ := passes_flags env e hsc x.line (DrawScanline.start env x) hk0 hc0
  rw [DrawScanline_engine]
  rw [hs0] at g2
  generalize DrawScanline.passes env x.line (DrawScanline.start env x) = st at g1 g2 ⊢
  exact ⟨⟨g1.sprites, g1.draws, g1.globals⟩, g2⟩

/-- A frame of a collision scene without frame callback: `TLN_UpdateFrame` returns, and
afterwards a sprite is flagged exactly if it was flagged before the frame
or places, on some line of the frame, a non-zero pixel on a slot on which
another sprite places one too. -/
theorem frame_flags (e : Engine) (hsc : CollisionScene e) (hfr : e.cb_frame = none)
    (hh : 1 ≤ e.framebuffer.height) (frame : Int) (fuel : Nat)
    (hf : e.framebuffer.height.toNat ≤ fuel) :
    ∃ e' ev, TLN_UpdateFrame env fuel frame e = some (e', ev)
      ∧ Kin e e'
      ∧ ∀ S, flagged e'.sprites S = true
          ↔ flagged e.sprites S = true
            ∨ ∃ L T p, 0 ≤ L ∧ L < e.framebuffer.height ∧ T ≠ S
                ∧ hits env e S L p = true ∧ hits env e T L p = true := by
  have hb : BeginFrame env frame e
      = ({ (if frame ≠ 0 then { e with frame := frame } else { e with frame := e.frame + 1 })
            with line := 0 }, []) := by
    unfold BeginFrame
    by_cases hf0 : frame ≠ 0 <;> simp [hf0, hfr]
  have hloop := frame_loop env e.framebuffer.height.toNat
    (fun n x _ => x.line = (n : Int) ∧ Kin e x
      ∧ ∀ S, flagged x.sprites S = true
          ↔ flagged e.sprites S = true
            ∨ ∃ L T p, 0 ≤ L ∧ L < (n : Int) ∧ T ≠ S
                ∧ hits env e S L p = true ∧ hits env e T L p = true)
    (by
      intro n x ev hn ⟨i1, i2, i3⟩
      obtain ⟨k1, k2⟩ := line_flags env e hsc x i2
      have hra : DrawScanline.afterRaster env x = x :=
        afterRaster_none env x ((kin_fields i2).1.trans hsc.no_raster)
      have hl : (DrawScanline env x).engine.line = (n : Int) + 1 := by
        rw [DrawScanline_line, hra, i1]
      refine ⟨⟨by push_cast; exact hl, k1, fun S => ?_⟩, ?_⟩
      · rw [k2 S, i3 S, i1]
        constructor
        · rintro ((h | ⟨L, T, p, a, b, c, d, f⟩) | ⟨T, p, c, d, f⟩)
          · exact Or.inl h
          · exact Or.inr ⟨L, T, p, a, by push_cast; omega, c, d, f⟩
          · exact Or.inr ⟨n, T, p, by omega, by push_cast; omega, c, d, f⟩
        · rintro (h | ⟨L, T, p, a, b, c, d, f⟩)
          · exact Or.inl (Or.inl h)
          · by_cases hL : L = (n : Int)
            · rw [hL] at d f
              exact Or.inr ⟨T, p, c, d, f⟩
            · exact Or.inl (Or.inr ⟨L, T, p, a, by push_cast at b; omega, c, d, f⟩)
      · rw [DrawScanline_ret, hl, (kin_fields k1).2.2.1]
        omega)
    e.framebuffer.height.toNat 0 (BeginFrame env frame e).1 (BeginFrame env frame e).2
    (by omega) (by omega)
    (by
      rw [hb]
      have hinit : ∀ y : Engine, y.sprites = e.sprites → y.layers = e.layers →
          y.frameGlobals = e.frameGlobals →
          ({ y with line := 0 } : Engine).line = ((0 : Nat) : Int) ∧ Kin e { y with line := 0 }
          ∧ ∀ S, flagged ({ y with line := 0 } : Engine).sprites S = true
              ↔ flagged e.sprites S = true
                ∨ ∃ L T p, 0 ≤ L ∧ L < ((0 : Nat) : Int) ∧ T ≠ S
                    ∧ hits env e S L p = true ∧ hits env e T L p = true := by
        intro y y1 y2 y3
        refine ⟨rfl, ⟨by rw [← y1], by rw [← y2], y3⟩, fun S => ?_⟩
        show flagged y.sprites S = true ↔ _
        rw [y1]
        constructor
        · intro h
          exact Or.inl h
        · rintro (h | ⟨L, T, p, a, b, _⟩)
          · exact h
          · simp at b
            omega
      by_cases hf0 : frame ≠ 0
      · rw [if_pos hf0]
        exact hinit _ rfl rfl rfl
      · rw [if_neg hf0]
        exact hinit _ rfl rfl rfl)
  obtain ⟨e', ev', g1, _, g2, g3⟩ := hloop.1 fuel hf
  refine ⟨TLN_SetLastError .TLN_ERR_OK e', ev', ?_, ⟨g2.sprites, g2.draws, g2.globals⟩, ?_⟩
  · unfold TLN_UpdateFrame
    simp only [g1, Option.map_some']
  · intro S
    have := g3 S
    have hcast : ((e.framebuffer.height.toNat : Nat) : Int) = e.framebuffer.height := by omega
    rw [hcast] at this
    exact this

theorem demo_collision_scene : CollisionScene demoEngine := by
  refine ⟨rfl, by decide, ?_, ?_⟩
  · intro s hs
    have : s = demoSprite 0 ∨ s = demoSprite 4 := by simpa [demoEngine] using hs
    rcases this with h | h <;> rw [h] <;> exact ⟨rfl, by decide, by decide⟩
  · intro l hl
    have : l = demoLayer ∨ l = { demoLayer with ok := false } := by
      simpa [demoEngine] using hl
    rcases this with h | h <;> rw [h] <;> exact Or.inr ⟨.MODE_NORMAL, rfl⟩

theorem demo_hits : hits demoEnv demoEngine 0 0 4 = true ∧ hits demoEnv demoEngine 1 0 4 = true := by
  constructor <;> decide

/-- **C9**, counterexample. In the demo scene, whose collision flags start false, sprite 0
is flagged after a frame although no sprite stands before it in index
order: the pass of sprite 1 finds sprite 0 recorded in the slots 4 to 7
and flags both. -/
theorem first_sprite_flagged :
    flagged demoEngine.sprites 0 = false
    ∧ ∃ e' ev, TLN_UpdateFrame demoEnv 16 0 demoEngine = some (e', ev)
        ∧ flagged e'.sprites 0 = true
        ∧ ¬ ∃ T L p, T < 0 ∧ hits demoEnv demoEngine 0 L p = true
            ∧ hits demoEnv demoEngine T L p = true := by
  refine ⟨by decide, ?_⟩
  obtain ⟨e', ev, h1, _, h3⟩ := frame_flags demoEnv demoEngine demo_collision_scene rfl
    (by decide) 0 16 (by decide)
  refine ⟨e', ev, h1, (h3 0).mpr (Or.inr ⟨0, 1, 4, by decide, by decide, by decide,
    demo_hits.1, demo_hits.2⟩), ?_⟩
  rintro ⟨T, _, _, hT, _⟩
  exact absurd hT (Nat.not_lt_zero T)

/-- **C9**, amended. After a frame of a collision scene without frame callback, the
collision flag of sprite `S` is true if and only if it was true before the
frame (flags are never reset) or, on some line `L` of the frame, `S` places
a non-zero pixel on a slot `p` on which another sprite `T`, earlier or
later in index order, places a non-zero pixel too (both enabled, covered,
collision-enabled and without `FLAG_PRIORITY`). -/
theorem collision_flag_iff (e : Engine) (hsc : CollisionScene e) (hfr : e.cb_frame = none)
    (hh : 1 ≤ e.framebuffer.height) (frame : Int) (fuel : Nat)
    (hf : e.framebuffer.height.toNat ≤ fuel) :
    ∃ e' ev, TLN_UpdateFrame env fuel frame e = some (e', ev)
      ∧ ∀ S, flagged e'.sprites S = true
          ↔ flagged e.sprites S = true
            ∨ ∃ L T p, 0 ≤ L ∧ L < e.framebuffer.height ∧ T ≠ S
                ∧ hits env e S L p = true ∧ hits env e T L p = true := by
  obtain ⟨e', ev, h1, _, h3⟩ := frame_flags env e hsc hfr hh frame fuel hf
  exact ⟨e', ev, h1, h3⟩

/-- The amended C9 on the demo scene. -/
theorem collision_flag_iff_witness :
    CollisionScene demoEngine ∧ demoEngine.cb_frame = none
    ∧ 1 ≤ demoEngine.framebuffer.height ∧ demoEngine.framebuffer.height.toNat ≤ 16
    ∧ ∃ e' ev, TLN_UpdateFrame demoEnv 16 0 demoEngine = some (e', ev)
      ∧ ∀ S, flagged e'.sprites S = true
          ↔ flagged demoEngine.sprites S = true
            ∨ ∃ L T p, 0 ≤ L ∧ L < demoEngine.framebuffer.height ∧ T ≠ S
                ∧ hits demoEnv demoEngine S L p = true ∧ hits demoEnv demoEngine T L p = true :=
  ⟨demo_collision_scene, rfl, by decide, by decide,
    collision_flag_iff demoEnv demoEngine demo_collision_scene rfl (by decide) 0 16
      (by decide)⟩

/-! ## Layer position -/

/-- The wrapping of `TLN_SetLayerPosition`, the C remainder corrected when negative, is
the Euclidean remainder for a positive size. -/
theorem wrap_eq_emod (h w : Int) (hw : 0 < w) :
    (if cmod h w < 0 then cmod h w + w else cmod h w) = h % w := by
  unfold cmod
  have hdef := Int.tmod_def h w
  have hlt := Int.tmod_lt_of_pos h hw
  have hgt : -w < Int.tmod h w := by
    by_cases hh : 0 ≤ h
    · have := Int.tmod_nonneg w hh
      omega
    · have h1 : Int.tmod h w = -(Int.tmod (-h) w) := by
        rw [Int.tmod_def, Int.tmod_def (-h) w, Int.neg_tdiv]
        ring
      have h2 := Int.tmod_lt_of_pos (-h) hw
      omega
  have hmod : (Int.tmod h w) % w = h % w := by
    rw [hdef, Int.sub_emod, Int.mul_emod_right, sub_zero, Int.emod_emod_of_dvd _ (dvd_refl w)]
  split_ifs with hneg
  · rw [← hmod, ← Int.add_emod_self]
    exact (Int.emod_eq_of_lt (by omega) (by omega)).symm
  · rw [← hmod]
    exact (Int.emod_eq_of_lt (by omega) hlt).symm

/-- **C10.** For a layer `n` of positive width and height (the size of the tilemap it
is bound to), `TLN_SetLayerPosition(n, h, v)` succeeds and stores
`hstart = h mod width` and `vstart = v mod height` as Euclidean remainders,
so `0 ≤ hstart < width` and `0 ≤ vstart < height` for every integer `h` and
`v`, negative ones included; the positions `(h, v)` and
`(h + width, v + height)` give the same engine state and hence the same
rendered line. -/
theorem TLN_SetLayerPosition_wraps (e : Engine) (n : Nat) (layer : Layer) (h v : Int)
    (hl : e.layers[n]? = some layer) (hw : 0 < layer.width) (hh : 0 < layer.height) :
    (TLN_SetLayerPosition env n h v e).1 = true
    ∧ (∃ l', (TLN_SetLayerPosition env n h v e).2.layers[n]? = some l'
        ∧ l'.hstart = h % layer.width ∧ l'.vstart = v % layer.height
        ∧ 0 ≤ l'.hstart ∧ l'.hstart < layer.width
        ∧ 0 ≤ l'.vstart ∧ l'.vstart < layer.height
        ∧ l'.width = layer.width ∧ l'.height = layer.height)
    ∧ TLN_SetLayerPosition env n (h + layer.width) (v + layer.height) e
        = TLN_SetLayerPosition env n h v e
    ∧ DrawScanline env (TLN_SetLayerPosition env n (h + layer.width) (v + layer.height) e).2
        = DrawScanline env (TLN_SetLayerPosition env n h v e).2 := by
  have hlt : n < e.layers.length := (List.getElem?_eq_some_iff.mp hl).1
  have hnl : ¬ ((n : Int) ≥ e.numlayers) := by
    unfold Engine.numlayers
    omega
  have hsz : ¬ (layer.width = 0 ∨ layer.height = 0) := by omega
  have hform : ∀ a b, TLN_SetLayerPosition env n a b e
      = (true, layerWrite (TLN_SetLastError .TLN_ERR_OK e) n
          (if (match e.tilemapAt layer.tilemap with
              | some tm => tm.visible
              | none => false) = true
            then { layer with hstart := a % layer.width, vstart := b % layer.height, ok := true }
            else { layer with hstart := a % layer.width, vstart := b % layer.height })) := by
    intro a b
    unfold TLN_SetLayerPosition
    rw [if_neg hnl, layerRead_nat env n e layer hl]
    simp only [hsz, if_false, wrap_eq_emod a layer.width hw, wrap_eq_emod b layer.height hh]
  have hsame : TLN_SetLayerPosition env n (h + layer.width) (v + layer.height) e
      = TLN_SetLayerPosition env n h v e := by
    rw [hform, hform, Int.add_emod_self, Int.add_emod_self]
  refine ⟨by rw [hform], ?_, hsame, by rw [hsame]⟩
  rw [hform]
  simp only [layerWrite_nat, TLN_SetLastError]
  have hb1 := Int.emod_nonneg h (ne_of_gt hw)
  have hb2 := Int.emod_lt_of_pos h hw
  have hb3 := Int.emod_nonneg v (ne_of_gt hh)
  have hb4 := Int.emod_lt_of_pos v hh
  split_ifs
  · exact ⟨_, List.getElem?_set_self hlt, rfl, rfl, hb1, hb2, hb3, hb4, rfl, rfl⟩
  · exact ⟨_, List.getElem?_set_self hlt, rfl, rfl, hb1, hb2, hb3, hb4, rfl, rfl⟩

/-- Layer 0 of the demo scene (16 x 16) at position `(-3, 37)`: the stored position is
`(13, 5)`, as for `(13, 53)`. -/
theorem TLN_SetLayerPosition_wraps_witness :
    demoEngine.layers[0]? = some demoLayer ∧ 0 < demoLayer.width ∧ 0 < demoLayer.height
    ∧ (TLN_SetLayerPosition demoEnv (0 : Nat) (-3) 37 demoEngine).1 = true
    ∧ (∃ l', (TLN_SetLayerPosition demoEnv (0 : Nat) (-3) 37 demoEngine).2.layers[0]? = some l'
        ∧ l'.hstart = 13 ∧ l'.vstart = 5)
    ∧ TLN_SetLayerPosition demoEnv (0 : Nat) (-3 + demoLayer.width) (37 + demoLayer.height)
          demoEngine
        = TLN_SetLayerPosition demoEnv (0 : Nat) (-3) 37 demoEngine :=
  have h := TLN_SetLayerPosition_wraps demoEnv demoEngine 0 demoLayer (-3) 37 rfl
    (by decide) (by decide)
  ⟨rfl, by decide, by decide, h.1,
    (by
      obtain ⟨l', h1, h2, h3, _⟩ := h.2.1
      exact ⟨l', h1, by rw [h2]; decide, by rw [h3]; decide⟩),
    h.2.2.1⟩

/-! ## Layer operations: invalid arguments -/

/-- **C11**, counterexample. In the demo scene layer 0 is enabled; `TLN_SetLayerTilemap`
with a null tilemap returns false and leaves the layer disabled, so the
`ok` flag does not keep its previous value. -/
theorem null_tilemap_disables_layer :
    (TLN_SetLayerTilemap demoEnv 0 none demoEngine).1 = false
    ∧ (demoEngine.layers[0]?).map Layer.ok = some true
    ∧ ((TLN_SetLayerTilemap demoEnv 0 none demoEngine).2.layers[0]?).map Layer.ok
        = some false := by
  decide

/-- **C11**, amended. `TLN_SetLayerTilemap` on a layer index inside the array, called
with a null or invalid tilemap or with a tilemap whose tileset is null or
invalid, returns false, records an error code, and clears the layer's `ok`
flag; nothing else changes: the layer's tileset, tilemap, width, height and
draw procedure, the other layers, and every tilemap and tileset keep their
previous values. -/
theorem TLN_SetLayerTilemap_invalid (e : Engine) (n : Nat) (layer : Layer)
    (tilemap : Option Nat) (hl : e.layers[n]? = some layer)
    (hbad : e.tilemapAt tilemap = none
      ∨ ∃ tm, e.tilemapAt tilemap = some tm ∧ e.tilesetAt tm.tileset = none) :
    (TLN_SetLayerTilemap env n tilemap e).1 = false
    ∧ (∃ err, err ≠ TLN_Error.TLN_ERR_OK
        ∧ (TLN_SetLayerTilemap env n tilemap e).2
          = TLN_SetLastError err (e.setLayer n { layer with ok := false }))
    ∧ (TLN_SetLayerTilemap env n tilemap e).2.layers[n]? = some { layer with ok := false }
    ∧ (∀ c, c ≠ n → (TLN_SetLayerTilemap env n tilemap e).2.layers[c]? = e.layers[c]?)
    ∧ (TLN_SetLayerTilemap env n tilemap e).2.tilemaps = e.tilemaps
    ∧ (TLN_SetLayerTilemap env n tilemap e).2.tilesets = e.tilesets := by
  have hlt : n < e.layers.length := (List.getElem?_eq_some_iff.mp hl).1
  have hnl : ¬ ((n : Int) ≥ e.numlayers) := by
    unfold Engine.numlayers
    omega
  have hform : ∃ err, err ≠ TLN_Error.TLN_ERR_OK
      ∧ TLN_SetLayerTilemap env n tilemap e
        = (false, TLN_SetLastError err (e.setLayer n { layer with ok := false })) := by
    unfold TLN_SetLayerTilemap
    rw [if_neg hnl, layerRead_nat env n e layer hl]
    simp only [layerWrite_nat]
    cases tilemap with
    | none => exact ⟨.TLN_ERR_NULL_POINTER, by decide, rfl⟩
    | some k =>
      cases hk : e.tilemaps k with
      | none =>
        refine ⟨.TLN_ERR_REF_TILEMAP, by decide, ?_⟩
        simp only [CheckBaseObject, hk]
        rfl
      | some tm =>
        have hts : e.tilesetAt tm.tileset = none := by
          rcases hbad with h | ⟨tm', h1, h2⟩
          · simp [Engine.tilemapAt, hk] at h
          · have h3 : some tm = some tm' := by
              rw [← hk, ← h1]
              rfl
            rw [Option.some.inj h3]
            exact h2
        cases hh : tm.tileset with
        | none =>
          refine ⟨.TLN_ERR_NULL_POINTER, by decide, ?_⟩
          simp only [CheckBaseObject, hk, hh]
          rfl
        | some j =>
          have hj : e.tilesets j = none := by
            simpa [Engine.tilesetAt, hh] using hts
          refine ⟨.TLN_ERR_REF_TILESET, by decide, ?_⟩
          simp only [CheckBaseObject, hk, hh, hj]
          rfl
  obtain ⟨err, herr, heq⟩ := hform
  rw [heq]
  refine ⟨rfl, ⟨err, herr, rfl⟩, ?_, ?_, rfl, rfl⟩
  · exact List.getElem?_set_self hlt
  · intro c hc
    exact List.getElem?_set_ne (Ne.symm hc)

/-- The amended C11 on the demo scene, for a null tilemap. -/
theorem TLN_SetLayerTilemap_invalid_witness :
    demoEngine.layers[0]? = some demoLayer
    ∧ (TLN_SetLayerTilemap demoEnv (0 : Nat) none demoEngine).1 = false
    ∧ (TLN_SetLayerTilemap demoEnv (0 : Nat) none demoEngine).2.layers[0]?
        = some { demoLayer with ok := false }
    ∧ (TLN_SetLayerTilemap demoEnv (0 : Nat) none demoEngine).2.tilemaps
        = demoEngine.tilemaps :=
  have h := TLN_SetLayerTilemap_invalid demoEnv demoEngine 0 demoLayer none rfl (Or.inl rfl)
  ⟨rfl, h.1, h.2.2.1, h.2.2.2.2.1⟩

/-- A tilemap whose maximum tile index exceeds the tile count of its tileset is not
rejected: the call returns true (the test on `maxindex` guards only the
binding of the tileset and tilemap to the layer). -/
theorem TLN_SetLayerTilemap_maxindex :
    (TLN_SetLayerTilemap demoEnv 0 (some 0)
      { demoEngine with
        tilemaps := fun h => if h = 0 then some { demoTilemap with maxindex := 3 } else none }).1
      = true := by
  decide

/-- **C12**, counterexample. `TLN_DisableLayer(-1)` returns true and records
`TLN_ERR_OK`: a negative layer index is not rejected. -/
theorem negative_layer_index_accepted :
    (TLN_DisableLayer demoEnv (-1) demoEngine).1 = true
    ∧ (TLN_DisableLayer demoEnv (-1) demoEngine).2.error = TLN_Error.TLN_ERR_OK := by
  decide

/-- **C12**, amended. Every layer operation called with a layer index
`nlayer ≥ numlayers` returns false, records `TLN_ERR_IDX_LAYER` and changes
nothing else, so no layer state. (A negative index is not tested.) -/
theorem layer_index_too_large (e : Engine) (n : Int) (h : n ≥ e.numlayers) :
    (TLN_SetLastError .TLN_ERR_IDX_LAYER e).error = TLN_Error.TLN_ERR_IDX_LAYER
    ∧ (TLN_SetLastError .TLN_ERR_IDX_LAYER e).layers = e.layers
    ∧ (∀ tilemap, TLN_SetLayerTilemap env n tilemap e
        = (false, TLN_SetLastError .TLN_ERR_IDX_LAYER e))
    ∧ (∀ hstart vstart, TLN_SetLayerPosition env n hstart vstart e
        = (false, TLN_SetLastError .TLN_ERR_IDX_LAYER e))
    ∧ (∀ x1 y1 x2 y2, TLN_SetLayerClip env n x1 y1 x2 y2 e
        = (false, TLN_SetLastError .TLN_ERR_IDX_LAYER e))
    ∧ TLN_DisableLayerClip env n e = (false, TLN_SetLastError .TLN_ERR_IDX_LAYER e)
    ∧ (∀ width height, TLN_SetLayerMosaic env n width height e
        = (false, TLN_SetLastError .TLN_ERR_IDX_LAYER e))
    ∧ TLN_DisableLayerMosaic env n e = (false, TLN_SetLastError .TLN_ERR_IDX_LAYER e)
    ∧ (∀ select mode, TLN_SetLayerBlendMode env select n mode e
        = (false, TLN_SetLastError .TLN_ERR_IDX_LAYER e))
    ∧ TLN_EnableLayer env n e = (false, TLN_SetLastError .TLN_ERR_IDX_LAYER e)
    ∧ TLN_DisableLayer env n e = (false, TLN_SetLastError .TLN_ERR_IDX_LAYER e)
    ∧ (∀ x y, TLN_SetLayerParallaxFactor env n x y e
        = (false, TLN_SetLastError .TLN_ERR_IDX_LAYER e))
    ∧ (∀ enable, TLN_SetLayerPriority env n enable e
        = (false, TLN_SetLastError .TLN_ERR_IDX_LAYER e))
    ∧ (∀ offset, TLN_SetLayerColumnOffset env n offset e
        = (false, TLN_SetLastError .TLN_ERR_IDX_LAYER e))
    ∧ (∀ affine, TLN_SetLayerAffineTransform env n affine e
        = (false, TLN_SetLastError .TLN_ERR_IDX_LAYER e))
    ∧ (∀ xfactor dx dy, TLN_SetLayerScaling env n xfactor dx dy e
        = (false, TLN_SetLastError .TLN_ERR_IDX_LAYER e))
    ∧ (∀ table, TLN_SetLayerPixelMapping env n table e
        = (false, TLN_SetLastError .TLN_ERR_IDX_LAYER e))
    ∧ TLN_ResetLayerMode env n e = (false, TLN_SetLastError .TLN_ERR_IDX_LAYER e) := by
  refine ⟨rfl, rfl, ?_, ?_, ?_, ?_, ?_, ?_, ?_, ?_, ?_, ?_, ?_, ?_, ?_, ?_, ?_, ?_⟩
  · intro tilemap
    unfold TLN_SetLayerTilemap
    rw [if_pos h]
  · intro hstart vstart
    unfold TLN_SetLayerPosition
    rw [if_pos h]
  · intro x1 y1 x2 y2
    unfold TLN_SetLayerClip
    rw [if_pos h]
  · unfold TLN_DisableLayerClip
    rw [if_pos h]
  · intro width height
    unfold TLN_SetLayerMosaic
    rw [if_pos h]
  · unfold TLN_DisableLayerMosaic
    rw [if_pos h]
  · intro select mode
    unfold TLN_SetLayerBlendMode
    rw [if_pos h]
  · unfold TLN_EnableLayer
    rw [if_pos h]
  · unfold TLN_DisableLayer
    rw [if_pos h]
  · intro x y
    unfold TLN_SetLayerParallaxFactor
    rw [if_pos h]
  · intro enable
    unfold TLN_SetLayerPriority
    rw [if_pos h]
  · intro offset
    unfold TLN_SetLayerColumnOffset
    rw [if_pos h]
  · intro affine
    unfold TLN_SetLayerAffineTransform
    rw [if_pos h]
  · intro xfactor dx dy
    unfold TLN_SetLayerScaling
    rw [if_pos h]
  · intro table
    unfold TLN_SetLayerPixelMapping
    rw [if_pos h]
  · unfold TLN_ResetLayerMode
    rw [if_pos h]

/-- The amended C12 on the demo scene, which has two layers, for the index 2. -/
theorem layer_index_too_large_witness :
    (2 : Int) ≥ demoEngine.numlayers
    ∧ TLN_DisableLayer demoEnv 2 demoEngine
        = (false, TLN_SetLastError .TLN_ERR_IDX_LAYER demoEngine)
    ∧ (∀ x1 y1 x2 y2, TLN_SetLayerClip demoEnv 2 x1 y1 x2 y2 demoEngine
        = (false, TLN_SetLastError .TLN_ERR_IDX_LAYER demoEngine)) :=
  have h := layer_index_too_large demoEnv demoEngine 2 (by decide)
  ⟨by decide, h.2.2.2.2.2.2.2.2.2.2.1, h.2.2.2.2.1⟩

/-- **C13**, at the failing inputs. `TLN_EnableLayer` on the configured layer 0 of the
demo scene returns true after recording `TLN_ERR_IDX_LAYER`; and
`TLN_SetPaletteColor` with an index past the palette's entries returns false
without recording anything, the last error staying `TLN_ERR_OK`. -/
theorem result_disagrees_with_error_code :
    (TLN_EnableLayer demoEnv 0 demoEngine).1 = true
    ∧ (TLN_EnableLayer demoEnv 0 demoEngine).2.error = TLN_Error.TLN_ERR_IDX_LAYER
    ∧ (TLN_SetPaletteColor 0 256 1 2 3 demoEngine).1 = false
    ∧ (TLN_SetPaletteColor 0 256 1 2 3 demoEngine).2.error = TLN_Error.TLN_ERR_OK := by
  decide

/-! ## Tilesets -/

/-- The shifts that the search loop of `TLN_CreateTileset` finds: `c` when the size is
`1 << c` with `1 ≤ c ≤ 8`, else 0. -/
theorem shifts_eq (width height : Int) :
    (TLN_CreateTileset.shifts width height).1
        = (if 256 = width then 8 else if 128 = width then 7 else if 64 = width then 6
           else if 32 = width then 5 else if 16 = width then 4 else if 8 = width then 3
           else if 4 = width then 2 else if 2 = width then 1 else 0)
    ∧ (TLN_CreateTileset.shifts width height).2
        = (if 256 = height then 8 else if 128 = height then 7 else if 64 = height then 6
           else if 32 = height then 5 else if 16 = height then 4 else if 8 = height then 3
           else if 4 = height then 2 else if 2 = height then 1 else 0) := by
  have hs : ∀ c : Nat, shl 1 (c : Int) = 2 ^ c := by
    intro c
    unfold shl
    simp
  unfold TLN_CreateTileset.shifts
  simp only [List.range_succ, List.range_zero, List.nil_append, List.cons_append,
    List.foldl_cons, List.foldl_nil, hs]
  constructor <;> norm_num

/-- The sizes for which the search loop finds a non-zero shift, and the shift it finds. -/
theorem shift_found (size : Int) (s : Int)
    (hs : s = (if 256 = size then 8 else if 128 = size then 7 else if 64 = size then 6
           else if 32 = size then 5 else if 16 = size then 4 else if 8 = size then 3
           else if 4 = size then 2 else if 2 = size then 1 else 0)) :
    (s ≠ 0 ↔ size ∈ ([2, 4, 8, 16, 32, 64, 128, 256] : List Int))
    ∧ (s ≠ 0 → 1 ≤ s ∧ s ≤ 8 ∧ size = shl 1 s) := by
  have hshl : ∀ c : Nat, shl 1 (c : Int) = 2 ^ c := by
    intro c
    unfold shl
    simp
  have h1 := hshl 1
  have h2 := hshl 2
  have h3 := hshl 3
  have h4 := hshl 4
  have h5 := hshl 5
  have h6 := hshl 6
  have h7 := hshl 7
  have h8 := hshl 8
  norm_num at h1 h2 h3 h4 h5 h6 h7 h8
  simp only [List.mem_cons, List.mem_singleton, List.not_mem_nil, or_false]
  split_ifs at hs with c8 c7 c6 c5 c4 c3 c2 c1
  all_goals subst hs
  all_goals first
    | (constructor
       · constructor
         · intro _; omega
         · intro _; omega
       · intro _
         refine ⟨by omega, by omega, ?_⟩
         first
           | (rw [h1]; omega) | (rw [h2]; omega) | (rw [h3]; omega) | (rw [h4]; omega)
           | (rw [h5]; omega) | (rw [h6]; omega) | (rw [h7]; omega) | (rw [h8]; omega))
    | (constructor
       · constructor
         · intro h; exact absurd rfl h
         · intro h; omega
       · intro h; exact absurd rfl h)

/-- What `TLN_CreateTileset` does when the allocation succeeds, by the shifts found. -/
theorem TLN_CreateTileset_cases (a : TilesetAlloc) (numtiles width height : Int)
    (attributes : Option (Int → TLN_TileAttributes)) (e : Engine) :
    ((width ∈ tileSizes ∧ height ∈ tileSizes)
      ∧ (TLN_CreateTileset (some a) numtiles width height attributes e).1 = some a.handle
      ∧ (TLN_CreateTileset (some a) numtiles width height attributes e).2.error
          = TLN_Error.TLN_ERR_OK
      ∧ ∃ ts, (TLN_CreateTileset (some a) numtiles width height attributes e).2.tilesets a.handle
            = some ts
          ∧ (∀ k, k ≠ a.handle →
              (TLN_CreateTileset (some a) numtiles width height attributes e).2.tilesets k
                = e.tilesets k)
          ∧ ts.width = width ∧ ts.height = height ∧ ts.numtiles = numtiles + 1
          ∧ ts.tstype = TilesetType.TILESET_TILES ∧ ts.data = a.data ∧ ts.SizesAgree
          ∧ 1 ≤ ts.hshift ∧ ts.hshift ≤ 8 ∧ 1 ≤ ts.vshift ∧ ts.vshift ≤ 8)
    ∨ (¬ (width ∈ tileSizes ∧ height ∈ tileSizes)
      ∧ TLN_CreateTileset (some a) numtiles width height attributes e
          = (none, TLN_SetLastError .TLN_ERR_WRONG_SIZE e)) := by
  obtain ⟨h1, h2⟩ := shifts_eq width height
  obtain ⟨hw1, hw2⟩ := shift_found width _ h1
  obtain ⟨hh1, hh2⟩ := shift_found height _ h2
  unfold tileSizes
  by_cases hz : (TLN_CreateTileset.shifts width height).1 = 0
      ∨ (TLN_CreateTileset.shifts width height).2 = 0
  · right
    refine ⟨?_, ?_⟩
    · rintro ⟨ha, hb⟩
      rcases hz with hz | hz
      · exact (hw1.mpr ha) hz
      · exact (hh1.mpr hb) hz
    · unfold TLN_CreateTileset
      simp only [if_pos hz]
  · left
    have hz1 : (TLN_CreateTileset.shifts width height).1 ≠ 0 := fun h => hz (Or.inl h)
    have hz2 : (TLN_CreateTileset.shifts width height).2 ≠ 0 := fun h => hz (Or.inr h)
    obtain ⟨hw3, hw4, hw5⟩ := hw2 hz1
    obtain ⟨hh3, hh4, hh5⟩ := hh2 hz2
    refine ⟨⟨hw1.mp hz1, hh1.mp hz2⟩, ?_, ?_, ?_⟩
    · unfold TLN_CreateTileset
      simp only [if_neg hz]
    · unfold TLN_CreateTileset
      simp only [if_neg hz]
      rfl
    · unfold TLN_CreateTileset
      simp only [if_neg hz]
      refine ⟨_, if_pos rfl, ?_, rfl, rfl, rfl, rfl, rfl, ⟨hw5, hh5, rfl, rfl⟩,
        hw3, hw4, hh3, hh4⟩
      · intro k hk
        unfold TLN_SetLastError Engine.setTileset
        simp only [if_neg hk]

/-- C14 (counterexample): width 1 is a power of two not greater than 256, and so
is height 8, yet `TLN_CreateTileset(1, 1, 8, NULL)` with a successful
allocation returns null and records `TLN_ERR_WRONG_SIZE`. -/
theorem unit_width_rejected :
    (1 : Int) = 2 ^ 0 ∧ (1 : Int) ≤ 256 ∧ (8 : Int) = 2 ^ 3 ∧ (8 : Int) ≤ 256
    ∧ (TLN_CreateTileset (some demoTilesetAlloc) 1 1 8 none demoEngine).1 = none
    ∧ (TLN_CreateTileset (some demoTilesetAlloc) 1 1 8 none demoEngine).2.error
        = TLN_Error.TLN_ERR_WRONG_SIZE := by
  decide

/-- C14 (amended): assuming allocation succeeds, `TLN_CreateTileset(n, width, height,
attrs)` returns a tileset if and only if width and height are each one of
2, 4, 8, 16, 32, 64, 128, 256 (a power of two from 2 to 256); it then
returns the new handle, which designates a tileset of that width and height
with `n + 1` slots, and records `TLN_ERR_OK`; otherwise it returns null,
records `TLN_ERR_WRONG_SIZE` and changes nothing else. -/
theorem TLN_CreateTileset_sizes (a : TilesetAlloc) (numtiles width height : Int)
    (attributes : Option (Int → TLN_TileAttributes)) (e : Engine) :
    (((TLN_CreateTileset (some a) numtiles width height attributes e).1 ≠ none)
        ↔ (width ∈ tileSizes ∧ height ∈ tileSizes))
    ∧ ((width ∈ tileSizes ∧ height ∈ tileSizes) →
        (TLN_CreateTileset (some a) numtiles width height attributes e).1 = some a.handle
        ∧ (TLN_CreateTileset (some a) numtiles width height attributes e).2.error
            = TLN_Error.TLN_ERR_OK
        ∧ ∃ ts, (TLN_CreateTileset (some a) numtiles width height attributes e).2.tilesets
              a.handle = some ts
            ∧ ts.width = width ∧ ts.height = height ∧ ts.numtiles = numtiles + 1)
    ∧ (¬ (width ∈ tileSizes ∧ height ∈ tileSizes) →
        TLN_CreateTileset (some a) numtiles width height attributes e
          = (none, TLN_SetLastError .TLN_ERR_WRONG_SIZE e)) := by
  rcases TLN_CreateTileset_cases a numtiles width height attributes e with
    ⟨hs, h1, h2, ts, h3, _, h4, h5, h6, _⟩ | ⟨hs, h1⟩
  · refine ⟨⟨fun _ => hs, fun _ => ?_⟩, fun _ => ⟨h1, h2, ts, h3, h4, h5, h6⟩,
      fun h => absurd hs h⟩
    rw [h1]
    exact Option.some_ne_none _
  · refine ⟨⟨fun h => ?_, fun h => absurd h hs⟩, fun h => absurd h hs, fun _ => h1⟩
    rw [h1] at h
    exact absurd rfl h

/-- C14 (witness): an 8 x 16 tileset is created, a 24 x 8 one is refused. -/
theorem TLN_CreateTileset_sizes_witness :
    (TLN_CreateTileset (some demoTilesetAlloc) 1 8 16 none demoEngine).1 = some 7
    ∧ TLN_CreateTileset (some demoTilesetAlloc) 1 24 8 none demoEngine
        = (none, TLN_SetLastError .TLN_ERR_WRONG_SIZE demoEngine) :=
  ⟨((TLN_CreateTileset_sizes demoTilesetAlloc 1 8 16 none demoEngine).2.1
      (by decide)).1,
   (TLN_CreateTileset_sizes demoTilesetAlloc 1 24 8 none demoEngine).2.2 (by decide)⟩

/-- The tilesets of the store after `TLN_CreateTileset`: the one created, or those
that were there. -/
theorem TLN_CreateTileset_store (alloc : Option TilesetAlloc) (numtiles width height : Int)
    (attributes : Option (Int → TLN_TileAttributes)) (e : Engine) (k : Nat) (ts : Tileset)
    (h : (TLN_CreateTileset alloc numtiles width height attributes e).2.tilesets k = some ts) :
    e.tilesets k = some ts
    ∨ ((TLN_CreateTileset alloc numtiles width height attributes e).1 = some k
        ∧ ts.SizesAgree) := by
  cases alloc with
  | none =>
    left
    unfold TLN_CreateTileset at h
    by_cases hz : (TLN_CreateTileset.shifts width height).1 = 0
        ∨ (TLN_CreateTileset.shifts width height).2 = 0
    · simp only [if_pos hz] at h
      exact h
    · simp only [if_neg hz] at h
      exact h
  | some a =>
    rcases TLN_CreateTileset_cases a numtiles width height attributes e with
      ⟨_, h1, _, ts1, h3, h4, _, _, _, _, _, h5, _⟩ | ⟨_, h1⟩
    · by_cases hk : k = a.handle
      · right
        subst hk
        rw [h3] at h
        rw [← Option.some.inj h]
        exact ⟨h1, h5⟩
      · left
        rw [← h4 k hk]
        exact h
    · left
      rw [h1] at h
      exact h

/-- The tilesets of the store after `TLN_SetTilesetPixels`: each has the sizes, shifts
and masks of the tileset that the handle designated before. -/
theorem TLN_SetTilesetPixels_store (tileset : Option Nat) (entry : Int) (srcdata : Buf)
    (srcpitch : Int) (e : Engine) (k : Nat) (ts : Tileset)
    (h : (TLN_SetTilesetPixels tileset entry srcdata srcpitch e).2.tilesets k = some ts) :
    ∃ ts0, e.tilesets k = some ts0 ∧ ts.width = ts0.width ∧ ts.height = ts0.height
      ∧ ts.hshift = ts0.hshift ∧ ts.vshift = ts0.vshift ∧ ts.hmask = ts0.hmask
      ∧ ts.vmask = ts0.vmask ∧ ts.numtiles = ts0.numtiles ∧ ts.tstype = ts0.tstype := by
  unfold TLN_SetTilesetPixels CheckBaseObject at h
  cases tileset with
  | none => exact ⟨ts, h, rfl, rfl, rfl, rfl, rfl, rfl, rfl, rfl⟩
  | some j =>
    cases hj : e.tilesets j with
    | none =>
      simp only [hj] at h
      exact ⟨ts, h, rfl, rfl, rfl, rfl, rfl, rfl, rfl, rfl⟩
    | some tj =>
      simp only [hj] at h
      by_cases hc : tj.tstype ≠ .TILESET_TILES ∨ entry < 1 ∨ entry > tj.numtiles
      · rw [if_pos hc] at h
        exact ⟨ts, h, rfl, rfl, rfl, rfl, rfl, rfl, rfl, rfl⟩
      · rw [if_neg hc] at h
        by_cases hk : k = j
        · subst hk
          have h2 : some { tj with
              data := ((List.range tj.height.toNat).foldl
                (TLN_SetTilesetPixels.row tj entry srcdata srcpitch) (tj.data, tj.color_key)).1,
              color_key := ((List.range tj.height.toNat).foldl
                (TLN_SetTilesetPixels.row tj entry srcdata srcpitch) (tj.data, tj.color_key)).2 }
              = some ts := by
            rw [← h]
            exact (if_pos rfl).symm
          rw [← Option.some.inj h2]
          exact ⟨tj, hj, rfl, rfl, rfl, rfl, rfl, rfl, rfl, rfl⟩
        · have h2 : e.tilesets k = some ts := by
            rw [← h]
            exact (if_neg hk).symm
          exact ⟨ts, h2, rfl, rfl, rfl, rfl, rfl, rfl, rfl, rfl⟩

/-- The tilesets of the store after `TLN_CloneTileset`: each has the sizes, shifts
and masks of a tileset that was in the store before. -/
theorem TLN_CloneTileset_store (alloc : Option CloneAlloc) (src : Option Nat) (e : Engine)
    (k : Nat) (ts : Tileset)
    (h : (TLN_CloneTileset alloc src e).2.tilesets k = some ts) :
    ∃ j ts0, e.tilesets j = some ts0 ∧ ts.width = ts0.width ∧ ts.height = ts0.height
      ∧ ts.hshift = ts0.hshift ∧ ts.vshift = ts0.vshift ∧ ts.hmask = ts0.hmask
      ∧ ts.vmask = ts0.vmask := by
  unfold TLN_CloneTileset CheckBaseObject at h
  cases src with
  | none => exact ⟨k, ts, h, rfl, rfl, rfl, rfl, rfl, rfl⟩
  | some j =>
    cases hj : e.tilesets j with
    | none =>
      simp only [hj] at h
      exact ⟨k, ts, h, rfl, rfl, rfl, rfl, rfl, rfl⟩
    | some tj =>
      simp only [hj] at h
      cases alloc with
      | none => exact ⟨k, ts, h, rfl, rfl, rfl, rfl, rfl, rfl⟩
      | some a =>
        simp only at h
        by_cases hk : k = a.handle
        · subst hk
          have h2 := h
          unfold Engine.setTileset at h2
          simp only [if_true] at h2
          rw [← Option.some.inj h2]
          exact ⟨j, tj, hj, rfl, rfl, rfl, rfl, rfl, rfl⟩
        · have h2 : e.tilesets k = some ts := by
            rw [← h]
            exact (if_neg hk).symm
          exact ⟨k, ts, h2, rfl, rfl, rfl, rfl, rfl, rfl⟩

/-- The size equalities hold for every tileset of the demo store. -/
theorem demo_sizes_agree : ∀ k ts, demoEngine.tilesets k = some ts → ts.SizesAgree := by
  intro k ts h
  by_cases hk : k = 0
  · subst hk
    have h2 : some demoTileset = some ts := h
    rw [← Option.some.inj h2]
    decide
  · have h2 : (none : Option Tileset) = some ts := by
      rw [← h]
      exact (if_neg hk).symm
    exact absurd h2 (by simp)

/-- C15: every tileset returned by `TLN_CreateTileset` satisfies
`width = 1 << hshift`, `height = 1 << vshift`, `hmask = width - 1` and
`vmask = height - 1`; and if these equalities hold for every tileset of the
store, they still hold for every tileset of the store after
`TLN_CreateTileset`, `TLN_SetTilesetPixels` and `TLN_CloneTileset`, whatever
the arguments and whether the call succeeds or not. -/
theorem tileset_sizes_agree (e : Engine) :
    (∀ alloc numtiles width height attributes k,
        (TLN_CreateTileset alloc numtiles width height attributes e).1 = some k →
        ∃ ts, (TLN_CreateTileset alloc numtiles width height attributes e).2.tilesets k = some ts
          ∧ ts.SizesAgree)
    ∧ ((∀ k ts, e.tilesets k = some ts → ts.SizesAgree) →
        (∀ alloc numtiles width height attributes k ts,
          (TLN_CreateTileset alloc numtiles width height attributes e).2.tilesets k = some ts →
          ts.SizesAgree)
        ∧ (∀ tileset entry srcdata srcpitch k ts,
          (TLN_SetTilesetPixels tileset entry srcdata srcpitch e).2.tilesets k = some ts →
          ts.SizesAgree)
        ∧ (∀ alloc src k ts,
          (TLN_CloneTileset alloc src e).2.tilesets k = some ts → ts.SizesAgree)) := by
  refine ⟨?_, fun hinv => ⟨?_, ?_, ?_⟩⟩
  · intro alloc numtiles width height attributes k hk
    cases alloc with
    | none =>
      exfalso
      unfold TLN_CreateTileset at hk
      by_cases hz : (TLN_CreateTileset.shifts width height).1 = 0
          ∨ (TLN_CreateTileset.shifts width height).2 = 0
      · simp only [if_pos hz] at hk
        exact absurd hk (by simp)
      · simp only [if_neg hz] at hk
        exact absurd hk (by simp)
    | some a =>
      rcases TLN_CreateTileset_cases a numtiles width height attributes e with
        ⟨_, h1, _, ts1, h3, _, _, _, _, _, _, h5, _⟩ | ⟨_, h1⟩
      · rw [h1] at hk
        rw [← Option.some.inj hk]
        exact ⟨ts1, h3, h5⟩
      · rw [h1] at hk
        exact absurd hk (by simp)
  · intro alloc numtiles width height attributes k ts h
    rcases TLN_CreateTileset_store alloc numtiles width height attributes e k ts h with h1 | h1
    · exact hinv k ts h1
    · exact h1.2
  · intro tileset entry srcdata srcpitch k ts h
    obtain ⟨ts0, h0, h1, h2, h3, h4, h5, h6, _⟩ :=
      TLN_SetTilesetPixels_store tileset entry srcdata srcpitch e k ts h
    have hi := hinv k ts0 h0
    unfold Tileset.SizesAgree at hi ⊢
    rw [h1, h2, h3, h4, h5, h6]
    exact hi
  · intro alloc src k ts h
    obtain ⟨j, ts0, h0, h1, h2, h3, h4, h5, h6⟩ := TLN_CloneTileset_store alloc src e k ts h
    have hi := hinv j ts0 h0
    unfold Tileset.SizesAgree at hi ⊢
    rw [h1, h2, h3, h4, h5, h6]
    exact hi

/-- C15 (witness): in the demo scene the store satisfies the equalities; the
tileset that `TLN_CreateTileset(1, 8, 16, NULL)` returns does, the tileset
at handle 0 still does after its tile 1 is rewritten, and so does its
clone. -/
theorem tileset_sizes_agree_witness :
    (∀ k ts, demoEngine.tilesets k = some ts → ts.SizesAgree)
    ∧ (∃ ts, (TLN_CreateTileset (some demoTilesetAlloc) 1 8 16 none demoEngine).2.tilesets 7
        = some ts ∧ ts.SizesAgree)
    ∧ (∃ ts, (TLN_SetTilesetPixels (some 0) 1 (fun _ => 9) 8 demoEngine).2.tilesets 0 = some ts
        ∧ ts.SizesAgree)
    ∧ (∃ ts, (TLN_CloneTileset (some demoCloneAlloc) (some 0) demoEngine).2.tilesets 8 = some ts
        ∧ ts.SizesAgree) := by
  have hset : ((TLN_SetTilesetPixels (some 0) 1 (fun _ => 9) 8 demoEngine).2.tilesets 0).isSome
      = true := by decide
  have hclone : ((TLN_CloneTileset (some demoCloneAlloc) (some 0) demoEngine).2.tilesets 8).isSome
      = true := by decide
  obtain ⟨t1, h1⟩ := Option.isSome_iff_exists.mp hset
  obtain ⟨t2, h2⟩ := Option.isSome_iff_exists.mp hclone
  exact ⟨demo_sizes_agree,
    (tileset_sizes_agree demoEngine).1 (some demoTilesetAlloc) 1 8 16 none 7 (by decide),
    ⟨t1, h1, ((tileset_sizes_agree demoEngine).2 demo_sizes_agree).2.1
      (some 0) 1 (fun _ => 9) 8 0 t1 h1⟩,
    ⟨t2, h2, ((tileset_sizes_agree demoEngine).2 demo_sizes_agree).2.2
      (some demoCloneAlloc) (some 0) 8 t2 h2⟩⟩

/-- The row loop of `TLN_SetTilesetPixels` after `n` rows: row `c < n` of the block
holds row `c` of the source, and the bank outside the first `n` rows of
the block is as before. -/
theorem SetTilesetPixels_rows (ts : Tileset) (entry : Int) (src : Buf) (pitch : Int)
    (hw : 0 ≤ ts.width) (n : Nat) :
    (∀ c : Nat, c < n → ∀ x, 0 ≤ x → x < ts.width →
        ((List.range n).foldl (TLN_SetTilesetPixels.row ts entry src pitch)
          (ts.data, ts.color_key)).1 (entry * ts.width * ts.height + c * ts.width + x)
          = src (c * pitch + x))
    ∧ (∀ a, (a < entry * ts.width * ts.height
              ∨ entry * ts.width * ts.height + n * ts.width ≤ a) →
        ((List.range n).foldl (TLN_SetTilesetPixels.row ts entry src pitch)
          (ts.data, ts.color_key)).1 a = ts.data a) := by
  induction n with
  | zero =>
    refine ⟨fun c hc => absurd hc (Nat.not_lt_zero c), fun a _ => rfl⟩
  | succ n ih =>
    obtain ⟨ih1, ih2⟩ := ih
    rw [List.range_succ, List.foldl_append]
    simp only [List.foldl_cons, List.foldl_nil]
    generalize (List.range n).foldl (TLN_SetTilesetPixels.row ts entry src pitch)
      (ts.data, ts.color_key) = st at ih1 ih2
    have hn : (0 : Int) ≤ (n : Int) * ts.width := Int.mul_nonneg (Int.ofNat_nonneg n) hw
    constructor
    · intro c hc x hx0 hx1
      unfold TLN_SetTilesetPixels.row memcpy
      simp only
      by_cases hcn : c = n
      · subst hcn
        rw [if_pos ⟨by omega, by omega⟩]
        congr 1
        ring
      · have hlt : c < n := by omega
        have hle : ((c : Int) + 1) * ts.width ≤ (n : Int) * ts.width :=
          Int.mul_le_mul_of_nonneg_right (by omega) hw
        have hne : ¬ (entry * ts.width * ts.height + (n : Int) * ts.width
              ≤ entry * ts.width * ts.height + (c : Int) * ts.width + x
            ∧ entry * ts.width * ts.height + (c : Int) * ts.width + x
              < entry * ts.width * ts.height + (n : Int) * ts.width + ts.width) := by
          intro h
          have h3 : ((c : Int) + 1) * ts.width = (c : Int) * ts.width + ts.width := by ring
          omega
        rw [if_neg hne]
        exact ih1 c hlt x hx0 hx1
    · intro a ha
      unfold TLN_SetTilesetPixels.row memcpy
      simp only
      have h3 : ((n + 1 : Nat) : Int) * ts.width = (n : Int) * ts.width + ts.width := by
        push_cast
        ring
      have hne : ¬ (entry * ts.width * ts.height + (n : Int) * ts.width ≤ a
            ∧ a < entry * ts.width * ts.height + (n : Int) * ts.width + ts.width) := by
        intro h
        omega
      rw [if_neg hne]
      apply ih2
      omega

/-- The address that the macro `GetTilesetPixel` selects, when the size equalities
hold: the linear offset of pixel `(x, y)` of tile `index`. -/
theorem GetTilesetPixelAddr_linear (ts : Tileset) (h : ts.SizesAgree) (index x y : Int) :
    GetTilesetPixelAddr ts index x y = index * ts.width * ts.height + y * ts.width + x := by
  obtain ⟨h1, h2, _, _⟩ := h
  unfold GetTilesetPixelAddr
  rw [h1, h2]
  unfold shl
  ring

/-- The pixel blocks of two different tiles do not meet. -/
theorem tile_blocks_apart (w h entry other x y : Int) (hne : other ≠ entry)
    (hx0 : 0 ≤ x) (hx1 : x < w) (hy0 : 0 ≤ y) (hy1 : y < h) :
    other * w * h + y * w + x < entry * w * h
    ∨ entry * w * h + h * w ≤ other * w * h + y * w + x := by
  have hw : 0 ≤ w := by omega
  have hh : 0 ≤ h := by omega
  have hwh : 0 ≤ w * h := Int.mul_nonneg hw hh
  have hyw : (y + 1) * w ≤ h * w := Int.mul_le_mul_of_nonneg_right (by omega) hw
  have hy2 : 0 ≤ y * w := Int.mul_nonneg hy0 hw
  have e1 : (y + 1) * w = y * w + w := by ring
  have e2 : h * w = w * h := by ring
  rcases lt_or_gt_of_ne hne with hlt | hgt
  · left
    have h5 : (other + 1) * (w * h) ≤ entry * (w * h) :=
      Int.mul_le_mul_of_nonneg_right (by omega) hwh
    have e3 : (other + 1) * (w * h) = other * w * h + w * h := by ring
    have e4 : entry * (w * h) = entry * w * h := by ring
    omega
  · right
    have h5 : (entry + 1) * (w * h) ≤ other * (w * h) :=
      Int.mul_le_mul_of_nonneg_right (by omega) hwh
    have e3 : (entry + 1) * (w * h) = entry * w * h + w * h := by ring
    have e4 : other * (w * h) = other * w * h := by ring
    omega

/-- What a successful `TLN_SetTilesetPixels` leaves: the same tileset with the bank
and the `color_key` array that the row loop produces; the other tilesets
as they were. -/
theorem TLN_SetTilesetPixels_ok (e : Engine) (k : Nat) (ts : Tileset) (entry : Int) (src : Buf)
    (pitch : Int) (hts : e.tilesets k = some ts)
    (hok : (TLN_SetTilesetPixels (some k) entry src pitch e).1 = true) :
    (ts.tstype = TilesetType.TILESET_TILES ∧ 1 ≤ entry ∧ entry ≤ ts.numtiles)
    ∧ (TLN_SetTilesetPixels (some k) entry src pitch e).2.tilesets k
        = some { ts with
            data := ((List.range ts.height.toNat).foldl
              (TLN_SetTilesetPixels.row ts entry src pitch) (ts.data, ts.color_key)).1,
            color_key := ((List.range ts.height.toNat).foldl
              (TLN_SetTilesetPixels.row ts entry src pitch) (ts.data, ts.color_key)).2 }
    ∧ (∀ j, j ≠ k →
        (TLN_SetTilesetPixels (some k) entry src pitch e).2.tilesets j = e.tilesets j)
    ∧ (TLN_SetTilesetPixels (some k) entry src pitch e).2.error = TLN_Error.TLN_ERR_OK := by
  unfold TLN_SetTilesetPixels CheckBaseObject at hok ⊢
  simp only [hts] at hok ⊢
  by_cases hc : ts.tstype ≠ .TILESET_TILES ∨ entry < 1 ∨ entry > ts.numtiles
  · rw [if_pos hc] at hok
    exact absurd hok (by simp)
  · rw [if_neg hc]
    refine ⟨?_, if_pos rfl, fun j hj => if_neg hj, rfl⟩
    by_cases h1 : ts.tstype = .TILESET_TILES
    · refine ⟨h1, ?_, ?_⟩
      · by_contra h2
        exact hc (Or.inr (Or.inl (by omega)))
      · by_contra h2
        exact hc (Or.inr (Or.inr (by omega)))
    · exact absurd (Or.inl h1) hc

/-- C16: tile pixel round trip. After a successful
`TLN_SetTilesetPixels(ts, entry, src, pitch)` on a tileset whose size
equalities hold, for every `0 ≤ x < width` and `0 ≤ y < height` both
`GetTilesetPixel(ts, entry, x, y)` and
`TLN_GetTilesetPixels(ts, entry)[y*width + x]` equal `src[y*pitch + x]`, the
pixels of every other tile entry read the same through both accessors as
before the call, and the other tilesets of the store are as before. -/
theorem tile_pixel_round_trip (e : Engine) (k : Nat) (ts : Tileset) (entry : Int) (src : Buf)
    (pitch : Int) (hts : e.tilesets k = some ts) (hwf : ts.SizesAgree)
    (hok : (TLN_SetTilesetPixels (some k) entry src pitch e).1 = true) :
    ∃ ts', (TLN_SetTilesetPixels (some k) entry src pitch e).2.tilesets k = some ts'
      ∧ ts'.width = ts.width ∧ ts'.height = ts.height
      ∧ (∀ x y, 0 ≤ x → x < ts.width → 0 ≤ y → y < ts.height →
          GetTilesetPixel ts' entry x y = src (y * pitch + x)
          ∧ ts'.data (TLN_GetTilesetPixels ts' entry + (y * ts.width + x))
              = src (y * pitch + x))
      ∧ (∀ other x y, other ≠ entry → 0 ≤ x → x < ts.width → 0 ≤ y → y < ts.height →
          GetTilesetPixel ts' other x y = GetTilesetPixel ts other x y
          ∧ ts'.data (TLN_GetTilesetPixels ts' other + (y * ts.width + x))
              = ts.data (TLN_GetTilesetPixels ts other + (y * ts.width + x)))
      ∧ (∀ j, j ≠ k →
          (TLN_SetTilesetPixels (some k) entry src pitch e).2.tilesets j = e.tilesets j) := by
  obtain ⟨_, h2, h3, _⟩ := TLN_SetTilesetPixels_ok e k ts entry src pitch hts hok
  have hw : 0 ≤ ts.width := by
    rw [hwf.1]
    unfold shl
    positivity
  obtain ⟨r1, r2⟩ := SetTilesetPixels_rows ts entry src pitch hw ts.height.toNat
  generalize (List.range ts.height.toNat).foldl (TLN_SetTilesetPixels.row ts entry src pitch)
    (ts.data, ts.color_key) = st at h2 r1 r2
  have hwf' : Tileset.SizesAgree { ts with data := st.1, color_key := st.2 } := hwf
  refine ⟨_, h2, rfl, rfl, ?_, ?_, h3⟩
  · intro x y hx0 hx1 hy0 hy1
    have hy : ((y.toNat : Nat) : Int) = y := Int.toNat_of_nonneg hy0
    have hlt : y.toNat < ts.height.toNat := by omega
    have hr := r1 y.toNat hlt x hx0 hx1
    rw [hy] at hr
    constructor
    · unfold GetTilesetPixel
      rw [GetTilesetPixelAddr_linear _ hwf']
      exact hr
    · show st.1 (entry * ts.width * ts.height + (y * ts.width + x)) = _
      rw [← add_assoc]
      exact hr
  · intro other x y hne hx0 hx1 hy0 hy1
    have hh : ((ts.height.toNat : Nat) : Int) = ts.height := Int.toNat_of_nonneg (by omega)
    have hap := tile_blocks_apart ts.width ts.height entry other x y hne hx0 hx1 hy0 hy1
    have hr := r2 (other * ts.width * ts.height + y * ts.width + x) (by
      rw [hh]
      exact hap)
    constructor
    · unfold GetTilesetPixel
      rw [GetTilesetPixelAddr_linear _ hwf', GetTilesetPixelAddr_linear _ hwf]
      exact hr
    · show st.1 (other * ts.width * ts.height + (y * ts.width + x))
        = ts.data (other * ts.width * ts.height + (y * ts.width + x))
      rw [← add_assoc]
      exact hr

/-- C16 (witness): in the demo scene tile 1 of the 8 x 8 tileset is set from a source
with pitch 10 whose byte `i` is `i mod 251`. -/
theorem tile_pixel_round_trip_witness :
    demoEngine.tilesets 0 = some demoTileset ∧ demoTileset.SizesAgree
    ∧ (TLN_SetTilesetPixels (some 0) 1 (fun i => (i % 251).toNat) 10 demoEngine).1 = true
    ∧ ∃ ts, (TLN_SetTilesetPixels (some 0) 1 (fun i => (i % 251).toNat) 10
          demoEngine).2.tilesets 0 = some ts
      ∧ GetTilesetPixel ts 1 3 2 = 23
      ∧ ts.data (TLN_GetTilesetPixels ts 1 + (2 * 8 + 3)) = 23 := by
  obtain ⟨ts, h1, _, _, h2, _⟩ := tile_pixel_round_trip demoEngine 0 demoTileset 1
    (fun i => (i % 251).toNat) 10 rfl (by decide) (by decide)
  exact ⟨rfl, by decide, by decide, ts, h1, (h2 3 2 (by decide) (by decide) (by decide)
    (by decide)).1, (h2 3 2 (by decide) (by decide) (by decide) (by decide)).2⟩

/-- C17 (evaluation at the failing input): a tileset created with 1 tile of 8 x 8
pixels has 2 slots, so its bank is the 128 bytes at offsets 0 to 127.
`TLN_SetTilesetPixels` with entry 2 returns true, records `TLN_ERR_OK` and
writes at offset 128, outside the bank. -/
theorem entry_past_bank_accepted :
    (TLN_CreateTileset (some demoTilesetAlloc) 1 8 8 none demoEngine).1 = some 7
    ∧ ((TLN_CreateTileset (some demoTilesetAlloc) 1 8 8 none demoEngine).2.tilesets 7).map
        (fun t => (t.numtiles, t.width, t.height, t.data 128)) = some (2, 8, 8, 0)
    ∧ (TLN_SetTilesetPixels (some 7) 2 (fun _ => 9) 8
        (TLN_CreateTileset (some demoTilesetAlloc) 1 8 8 none demoEngine).2).1 = true
    ∧ (TLN_SetTilesetPixels (some 7) 2 (fun _ => 9) 8
        (TLN_CreateTileset (some demoTilesetAlloc) 1 8 8 none demoEngine).2).2.error
        = TLN_Error.TLN_ERR_OK
    ∧ ((TLN_SetTilesetPixels (some 7) 2 (fun _ => 9) 8
        (TLN_CreateTileset (some demoTilesetAlloc) 1 8 8 none demoEngine).2).2.tilesets 7).map
        (fun t => (t.data 128, t.data 191, t.data 192)) = some (9, 9, 0) := by
  decide

/-! ## Palettes and background -/

/-- C18 (evaluation at the failing input): `TLN_AddPaletteColor(0, 16, 16, 16, 0, 2)`
on the demo palette, whose entries 0 and 1 are `0xFF000000` and
`0xFF000001`, with a saturating-add table. The call returns true; entry 0
has received the color twice and entry 1 is as it was. -/
theorem palette_edit_hits_start_only :
    ((demoEngine.indexed_palettes 0).map (fun p => (p.data 0, p.data 1)))
        = some (0xFF000000, 0xFF000001)
    ∧ (TLN_AddPaletteColor demoAddTable 0 16 16 16 0 2 demoEngine).1 = true
    ∧ ((TLN_AddPaletteColor demoAddTable 0 16 16 16 0 2 demoEngine).2.indexed_palettes 0).map
        (fun p => (p.data 0, p.data 1)) = some (0xFF202020, 0xFF000001)
    ∧ PackRGB32 (blendfunc demoAddTable 0 16) (blendfunc demoAddTable 0 16)
        (blendfunc demoAddTable 1 16) = 0xFF101011 := by
  decide

/-- C19 (evaluation at the failing input): on a framebuffer whose pixels hold
`0xFF0000FF`, with no layer, sprite or callback, `DrawScanline` after
`TLN_DisableBGColor` sets the pixels of line 0 to 0. -/
theorem disabled_background_clears_line :
    (TLN_DisableBGColor demoPaintedEngine).bgcolor = 0
    ∧ (TLN_DisableBGColor demoPaintedEngine).framebuffer.data 0 3 = 0xFF0000FF
    ∧ (DrawScanline.start demoEnv (TLN_DisableBGColor demoPaintedEngine)).engine.framebuffer.data
        0 3 = 0
    ∧ (DrawScanline demoEnv (TLN_DisableBGColor demoPaintedEngine)).engine.framebuffer.data 0 3
        = 0
    ∧ (DrawScanline demoEnv (TLN_DisableBGColor demoPaintedEngine)).engine.framebuffer.data 0 15
        = 0
    ∧ (DrawScanline demoEnv (TLN_DisableBGColor demoPaintedEngine)).engine.framebuffer.data 1 3
        = 0xFF0000FF := by
  decide

/-! ## Sprite mask span -/

/-- The mask span stays as the raster callback left it to the end of `DrawScanline`. -/
theorem DrawScanline_mask (e : Engine) :
    (DrawScanline env e).engine.sprite_mask_top
        = (DrawScanline.afterRaster env e).sprite_mask_top
    ∧ (DrawScanline env e).engine.sprite_mask_bottom
        = (DrawScanline.afterRaster env e).sprite_mask_bottom := by
  have hg : (DrawScanline.passes env e.line (DrawScanline.start env e)).engine.globals
      = (DrawScanline.afterRaster env e).globals := by
    rw [passes_globals, start_globals]
  have hm := mask_of_globals hg
  rw [DrawScanline_engine]
  exact hm

/-- C20: a sprite with `FLAG_MASKED` is not covered on a scanline `L` with
`sprite_mask_top ≤ L ≤ sprite_mask_bottom`, both ends included, and
`DrawScanline` on such a line makes no draw call for it; on a scanline
outside that span, or for a sprite without `FLAG_MASKED`, the sprite is
covered exactly when `dstrect.y1 ≤ L < dstrect.y2`, `dstrect.x2 ≥ 0` and
`srcrect.x2 ≥ 0`, whatever the mask span is. -/
theorem masked_sprite_not_drawn (e : Engine) :
    (∀ (s : Sprite) (L : Int), hasFlag s.flags FLAG_MASKED = true →
        e.sprite_mask_top ≤ L → L ≤ e.sprite_mask_bottom →
        check_sprite_coverage e s L = false)
    ∧ (∀ (i : Nat) (s : Sprite), (DrawScanline env e).engine.sprites[i]? = some s →
        hasFlag s.flags FLAG_MASKED = true →
        (DrawScanline.afterRaster env e).sprite_mask_top ≤ e.line →
        e.line ≤ (DrawScanline.afterRaster env e).sprite_mask_bottom →
        Event.spriteDraw i e.line ∉ (DrawScanline env e).events)
    ∧ (∀ (s : Sprite) (L : Int),
        (hasFlag s.flags FLAG_MASKED = false ∨ L < e.sprite_mask_top
          ∨ e.sprite_mask_bottom < L) →
        check_sprite_coverage e s L
          = decide (s.dstrect.y1 ≤ L ∧ L < s.dstrect.y2 ∧ 0 ≤ s.dstrect.x2
              ∧ 0 ≤ s.srcrect.x2)) := by
  have hA : ∀ (x : Engine) (s : Sprite) (L : Int), hasFlag s.flags FLAG_MASKED = true →
      x.sprite_mask_top ≤ L → L ≤ x.sprite_mask_bottom →
      check_sprite_coverage x s L = false := by
    intro x s L hf ht hb
    unfold check_sprite_coverage
    by_cases h1 : L < s.dstrect.y1 ∨ L ≥ s.dstrect.y2
    · rw [if_pos h1]
    · rw [if_neg h1]
      by_cases h2 : s.dstrect.x2 < 0 ∨ s.srcrect.x2 < 0
      · rw [if_pos h2]
      · rw [if_neg h2, if_pos ⟨hf, ht, hb⟩]
  refine ⟨hA e, ?_, ?_⟩
  · intro i s hs hf ht hb hmem
    obtain ⟨ov, hev⟩ := DrawScanline_calls env e
    obtain ⟨m1, m2⟩ := DrawScanline_mask env e
    have hcov := hA (DrawScanline env e).engine s e.line hf (by rw [m1]; exact ht)
      (by rw [m2]; exact hb)
    rw [hev] at hmem
    unfold drawCalls DrawScanline.rasterCall at hmem
    simp only [List.mem_cons, List.mem_append, List.mem_map, List.mem_filter, List.mem_range,
      List.mem_reverse, reduceCtorEq, false_or, and_false, exists_false, or_false,
      Event.spriteDraw.injEq, and_true] at hmem
    have hd : spriteDrawn (DrawScanline.afterRaster env e) (DrawScanline env e).engine e.line i
        = true := by
      cases hcb : e.cb_raster with
      | none =>
        simp only [hcb, List.not_mem_nil, false_or] at hmem
        rcases hmem with ⟨j, ⟨_, hj⟩, hji⟩ | hmem
        · rw [← hji]
          exact hj
        · split at hmem
          · simp at hmem
          · simp at hmem
      | some cb =>
        simp only [hcb, List.mem_singleton, reduceCtorEq, false_or] at hmem
        rcases hmem with ⟨j, ⟨_, hj⟩, hji⟩ | hmem
        · rw [← hji]
          exact hj
        · split at hmem
          · simp at hmem
          · simp at hmem
    unfold spriteDrawn at hd
    rw [hs] at hd
    cases h0 : (DrawScanline.afterRaster env e).sprites[i]? with
    | none =>
      rw [h0] at hd
      exact absurd hd (by simp)
    | some s0 =>
      rw [h0] at hd
      simp only [hcov, Bool.and_false, Bool.false_and, Bool.false_eq_true] at hd
  · intro s L h
    unfold check_sprite_coverage
    by_cases h1 : L < s.dstrect.y1 ∨ L ≥ s.dstrect.y2
    · rw [if_pos h1]
      symm
      rw [decide_eq_false_iff_not]
      intro h2
      omega
    · rw [if_neg h1]
      by_cases h2 : s.dstrect.x2 < 0 ∨ s.srcrect.x2 < 0
      · rw [if_pos h2]
        symm
        rw [decide_eq_false_iff_not]
        intro h3
        omega
      · rw [if_neg h2]
        have h3 : ¬ (hasFlag s.flags FLAG_MASKED = true ∧ L ≥ e.sprite_mask_top
            ∧ L ≤ e.sprite_mask_bottom) := by
          rintro ⟨a, b, c⟩
          rcases h with h | h | h
          · rw [h] at a
            exact absurd a (by simp)
          · omega
          · omega
        rw [if_neg h3]
        symm
        rw [decide_eq_true_iff]
        omega

/-- C20 (witness): in the demo scene with `FLAG_MASKED` on sprite 0 and the mask span
`[0, 3]`, sprite 0 is not drawn on line 0 and sprite 1, unmasked, is; on
line 4, outside the span, sprite 0 is covered. -/
theorem masked_sprite_not_drawn_witness :
    Event.spriteDraw 0 0 ∉ (DrawScanline demoEnv demoMaskedEngine).events
    ∧ Event.spriteDraw 1 0 ∈ (DrawScanline demoEnv demoMaskedEngine).events
    ∧ check_sprite_coverage demoMaskedEngine { demoSprite 0 with flags := FLAG_MASKED } 3 = false
    ∧ check_sprite_coverage demoMaskedEngine { demoSprite 0 with flags := FLAG_MASKED } 4 = true :=
  ⟨(masked_sprite_not_drawn demoEnv demoMaskedEngine).2.1 0
      { demoSprite 0 with flags := FLAG_MASKED } rfl (by decide) (by decide) (by decide),
   by decide,
   (masked_sprite_not_drawn demoEnv demoMaskedEngine).1
      { demoSprite 0 with flags := FLAG_MASKED } 3 (by decide) (by decide) (by decide),
   ((masked_sprite_not_drawn demoEnv demoMaskedEngine).2.2
      { demoSprite 0 with flags := FLAG_MASKED } 4 (Or.inr (Or.inr (by decide)))).trans
      (by decide)⟩

/-! ## Priority overlay -/

/-- C23: the priority-tile overlay of `DrawScanline` sets each pixel `x` of the main
line, `0 ≤ x < width`, to the word of the priority buffer at the same `x`
when that word is non-zero and leaves it unchanged otherwise (as it leaves
every pixel from `width` on); applying the overlay twice with the same
priority buffer gives the same main line as applying it once, for the
overlay loop and for the overlay block of `DrawScanline` alike. -/
theorem overlay_idempotent (scan pri : Buf) (width : Int) (line : Int) (st : PassState) :
    (∀ x, 0 ≤ x → x < width →
        overlayPriority scan pri width x = if pri x ≠ 0 then pri x else scan x)
    ∧ (∀ x, (x < 0 ∨ width ≤ x) → overlayPriority scan pri width x = scan x)
    ∧ overlayPriority (overlayPriority scan pri width) pri width = overlayPriority scan pri width
    ∧ (st.background_priority = true →
        (∀ x, 0 ≤ x → x < st.engine.framebuffer.width →
          GetFramebufferLine (DrawScanline.overlayStep line st).engine line x
            = if st.engine.priority x ≠ 0 then st.engine.priority x
              else GetFramebufferLine st.engine line x)
        ∧ (DrawScanline.overlayStep line st).engine.priority = st.engine.priority
        ∧ (DrawScanline.overlayStep line (DrawScanline.overlayStep line st)).engine.framebuffer.data
            = (DrawScanline.overlayStep line st).engine.framebuffer.data) := by
  have h1 : ∀ (s p : Buf) (w x : Int), 0 ≤ x → x < w →
      overlayPriority s p w x = if p x ≠ 0 then p x else s x := by
    intro s p w x hx0 hx1
    unfold overlayPriority
    by_cases hp : p x ≠ 0
    · rw [if_pos ⟨hx0, hx1, hp⟩, if_pos hp]
    · rw [if_neg (fun h => hp h.2.2), if_neg hp]
  have h2 : ∀ (s p : Buf) (w x : Int), (x < 0 ∨ w ≤ x) → overlayPriority s p w x = s x := by
    intro s p w x hx
    unfold overlayPriority
    rw [if_neg (fun h => by omega)]
  have h3 : ∀ (s p : Buf) (w : Int),
      overlayPriority (overlayPriority s p w) p w = overlayPriority s p w := by
    intro s p w
    funext x
    by_cases hx : 0 ≤ x ∧ x < w
    · rw [h1 _ p w x hx.1 hx.2, h1 s p w x hx.1 hx.2]
      by_cases hp : p x ≠ 0
      · rw [if_pos hp, if_pos hp]
      · rw [if_neg hp]
    · rw [h2 _ p w x (by omega)]
  refine ⟨h1 scan pri width, h2 scan pri width, h3 scan pri width, ?_⟩
  intro hb
  have hstep : ∀ t : PassState, t.background_priority = true →
      (DrawScanline.overlayStep line t).engine
        = t.engine.setLine line
            (overlayPriority (GetFramebufferLine t.engine line) t.engine.priority
              t.engine.framebuffer.width)
      ∧ (DrawScanline.overlayStep line t).background_priority = true := by
    intro t ht
    unfold DrawScanline.overlayStep
    rw [if_pos ht]
    exact ⟨rfl, ht⟩
  obtain ⟨e1, b1⟩ := hstep st hb
  obtain ⟨e2, _⟩ := hstep _ b1
  have hline : ∀ (e : Engine) (s : Buf), GetFramebufferLine (e.setLine line s) line = s := by
    intro e s
    unfold GetFramebufferLine Engine.setLine
    simp
  refine ⟨?_, ?_, ?_⟩
  · intro x hx0 hx1
    rw [e1, hline]
    exact h1 _ _ _ x hx0 hx1
  · rw [e1]
    rfl
  · rw [e2, e1, hline]
    have hp : (st.engine.setLine line
        (overlayPriority (GetFramebufferLine st.engine line) st.engine.priority
          st.engine.framebuffer.width)).priority = st.engine.priority := rfl
    have hw : (st.engine.setLine line
        (overlayPriority (GetFramebufferLine st.engine line) st.engine.priority
          st.engine.framebuffer.width)).framebuffer.width = st.engine.framebuffer.width := rfl
    rw [hp, hw, h3]
    unfold Engine.setLine
    simp

/-- C23 (witness): a line `7, 7, 7, ...` under a priority buffer that holds 9 at
`x = 1` only: pixel 1 becomes 9, pixel 2 stays 7, and a second pass changes
nothing. -/
theorem overlay_idempotent_witness :
    overlayPriority (fun _ => 7) (fun x => if x = 1 then 9 else 0) 16 1 = 9
    ∧ overlayPriority (fun _ => 7) (fun x => if x = 1 then 9 else 0) 16 2 = 7
    ∧ overlayPriority (overlayPriority (fun _ => 7) (fun x => if x = 1 then 9 else 0) 16)
        (fun x => if x = 1 then 9 else 0) 16
        = overlayPriority (fun _ => 7) (fun x => if x = 1 then 9 else 0) 16 :=
  ⟨((overlay_idempotent (fun _ => 7) (fun x => if x = 1 then 9 else 0) 16 0
      { engine := demoEngine, background_priority := true, sprite_priority := false,
        events := [] }).1 1 (by decide) (by decide)).trans (by decide),
   ((overlay_idempotent (fun _ => 7) (fun x => if x = 1 then 9 else 0) 16 0
      { engine := demoEngine, background_priority := true, sprite_priority := false,
        events := [] }).1 2 (by decide) (by decide)).trans (by decide),
   (overlay_idempotent (fun _ => 7) (fun x => if x = 1 then 9 else 0) 16 0
      { engine := demoEngine, background_priority := true, sprite_priority := false,
        events := [] }).2.2.1⟩

/-! ## Error strings -/

/-- C24 (evaluation at the failing input): `TLN_GetErrorString(TLN_ERR_REF_SEQUENCE)`
returns the text for an invalid sequence pack, and
`TLN_GetErrorString(TLN_ERR_REF_SEQPACK)` the text for an invalid sequence:
entries 10 and 11 of `errornames` are in the opposite order of the
enumerators. A code from `TLN_MAX_ERR` on yields "Invalid error code". -/
theorem error_strings_swapped :
    TLN_Error.TLN_ERR_REF_SEQUENCE.documented = "Invalid TLN_Sequence reference"
    ∧ TLN_GetErrorString TLN_Error.TLN_ERR_REF_SEQUENCE.code = "Invalid SequencePack reference"
    ∧ TLN_Error.TLN_ERR_REF_SEQPACK.documented = "Invalid TLN_SequencePack reference"
    ∧ TLN_GetErrorString TLN_Error.TLN_ERR_REF_SEQPACK.code = "Invalid Sequence reference"
    ∧ TLN_GetErrorString TLN_Error.TLN_ERR_OK.code = TLN_Error.TLN_ERR_OK.documented
    ∧ TLN_GetErrorString TLN_Error.TLN_ERR_WRONG_SIZE.code
        = TLN_Error.TLN_ERR_WRONG_SIZE.documented
    ∧ TLN_GetErrorString TLN_MAX_ERR = "Invalid error code" := by
  decide

/-! ## Blitter selection -/

/-- C25 (evaluation at the failing inputs): after `TLN_SetLayerMosaic(0, 2, 2)` and
`TLN_DisableLayerMosaic(0)` the enabled layer 0 of the demo scene has
`mosaic.h = 0` and still the 8-bit blitters, where `SelectBlitter` on its
current state would bind the 32-bit ones; and after
`TLN_SetLayerScaling` and `TLN_SetLayerPixelMapping` with a table, the layer
is in pixel-map mode and still has the scaling blitters. -/
theorem blitters_not_reselected :
    (((TLN_DisableLayerMosaic demoEnv 0 (TLN_SetLayerMosaic demoEnv 0 2 2 demoEngine).2).2.layers[0]?).map
        (fun l => (l.ok, l.mosaic.h, l.blitters false, l.blitters true)))
      = some (true, 0, some (GetBlitter 8 false false false), some (GetBlitter 8 true false false))
    ∧ (((TLN_DisableLayerMosaic demoEnv 0 (TLN_SetLayerMosaic demoEnv 0 2 2 demoEngine).2).2.layers[0]?).map
        (fun l => ((SelectBlitter l).blitters false, (SelectBlitter l).blitters true)))
      = some (some (GetBlitter 32 false false false), some (GetBlitter 32 true false false))
    ∧ (((TLN_SetLayerPixelMapping demoEnv 0 (some (fun _ => { dx := 0, dy := 0 }))
          (TLN_SetLayerScaling demoEnv 0 65536 65536 65536 demoEngine).2).2.layers[0]?).map
        (fun l => (l.ok, l.mode, l.blitters false, l.blitters true)))
      = some (true, draw_t.MODE_PIXEL_MAP, some (GetBlitter 32 false true false),
          some (GetBlitter 32 true true false))
    ∧ (((TLN_SetLayerPixelMapping demoEnv 0 (some (fun _ => { dx := 0, dy := 0 }))
          (TLN_SetLayerScaling demoEnv 0 65536 65536 65536 demoEngine).2).2.layers[0]?).map
        (fun l => ((SelectBlitter l).blitters false, (SelectBlitter l).blitters true)))
      = some (some (GetBlitter 32 false false false), some (GetBlitter 32 true false false)) := by
  decide

/-! ## Coordinate wrap of the per-pixel renderers -/

/-- The wrap `abs(pos + dim) % dim` of the affine and pixel-mapping renderers: a value
in `[0, dim)`, the Euclidean remainder of `pos` when `pos ≥ -dim` and that
of `-pos` when `pos < -dim`. -/
theorem abs_wrap (pos dim : Int) (hd : 0 < dim) :
    (0 ≤ cmod (cabs (pos + dim)) dim ∧ cmod (cabs (pos + dim)) dim < dim)
    ∧ (-dim ≤ pos → cmod (cabs (pos + dim)) dim = pos % dim)
    ∧ (pos < -dim → cmod (cabs (pos + dim)) dim = (-pos) % dim) := by
  have hnn : 0 ≤ cabs (pos + dim) := by
    unfold cabs
    split_ifs <;> omega
  rw [cmod_of_nonneg hnn hd.le]
  refine ⟨⟨Int.emod_nonneg _ hd.ne', Int.emod_lt_of_pos _ hd⟩, ?_, ?_⟩
  · intro h
    unfold cabs
    rw [if_neg (by omega), Int.add_emod_self]
  · intro h
    unfold cabs
    rw [if_pos (by omega)]
    have : -(pos + dim) = -pos + dim * (-1) := by ring
    rw [this, Int.add_mul_emod_self_left]

/-- One turn of the pixel loop of `DrawLayerScanlineAffine` when the integer parts of
the source position are not below `-layer_width` and `-layer_height`: the
pixel is sampled at the Euclidean remainders of the position. -/
theorem affine_loop_step (fb : Nat) (layer : Layer) (ts : Tileset) (tm : Tilemap)
    (width dx dy : Int) (fuel : Nat) (x x1 y1 d : Int) (st : Buf × Option Tile)
    (hx : x < width) (hw : 0 < layer.width) (hh : 0 < layer.height)
    (h1 : -layer.width ≤ fix2int fb x1) (h2 : -layer.height ≤ fix2int fb y1) :
    DrawLayerScanlineAffine.loop fb layer ts tm width dx dy (fuel + 1) x x1 y1 d st
      = DrawLayerScanlineAffine.loop fb layer ts tm width dx dy fuel (x + 1) (x1 + dx) (y1 + dy)
          (d + 1)
          (plotPixel ts tm (fix2int fb x1 % layer.width) (fix2int fb y1 % layer.height) d st) := by
  rw [DrawLayerScanlineAffine.loop]
  simp only [if_pos hx]
  rw [(abs_wrap (fix2int fb x1) layer.width hw).2.1 h1,
    (abs_wrap (fix2int fb y1) layer.height hh).2.1 h2]

/-- C27 (counterexample): for `pos = -5` and `dim = 4` the wrap `abs(pos + dim) % dim`
is 1, which lies in `[0, 4)` but is not congruent to `-5` modulo 4 (the
difference 6 leaves remainder 2); the Euclidean remainder of `-5` is 3. -/
theorem wrap_not_congruent :
    cmod (cabs (-5 + 4)) 4 = 1 ∧ (cmod (cabs (-5 + 4)) 4 - (-5)) % 4 = 2 ∧ (-5 : Int) % 4 = 3 := by
  decide

/-- C27 (amended): for every `dim > 0` and every integer source coordinate `pos` the
wrap `abs(pos + dim) % dim` of the affine renderer lies in `[0, dim)`; for
`pos ≥ -dim` it is congruent to `pos` modulo `dim` (it is the Euclidean
remainder, an integer wrap-around), and the pixel loop then samples at
the remainders of the position; for `pos < -dim` it is congruent to `-pos`. -/
theorem affine_wrap (pos dim : Int) (hd : 0 < dim) :
    (0 ≤ cmod (cabs (pos + dim)) dim ∧ cmod (cabs (pos + dim)) dim < dim)
    ∧ (-dim ≤ pos →
        cmod (cabs (pos + dim)) dim = pos % dim
        ∧ (cmod (cabs (pos + dim)) dim - pos) % dim = 0)
    ∧ (pos < -dim → (cmod (cabs (pos + dim)) dim - (-pos)) % dim = 0)
    ∧ (∀ (fb : Nat) (layer : Layer) (ts : Tileset) (tm : Tilemap) (width dx dy : Int)
        (fuel : Nat) (x x1 y1 d : Int) (st : Buf × Option Tile),
        x < width → layer.width = dim → 0 < layer.height →
        fix2int fb x1 = pos → -dim ≤ pos → -layer.height ≤ fix2int fb y1 →
        DrawLayerScanlineAffine.loop fb layer ts tm width dx dy (fuel + 1) x x1 y1 d st
          = DrawLayerScanlineAffine.loop fb layer ts tm width dx dy fuel (x + 1) (x1 + dx)
              (y1 + dy) (d + 1)
              (plotPixel ts tm (pos % dim) (fix2int fb y1 % layer.height) d st)) := by
  obtain ⟨h1, h2, h3⟩ := abs_wrap pos dim hd
  refine ⟨h1, ?_, ?_, ?_⟩
  · intro h
    rw [h2 h]
    refine ⟨rfl, ?_⟩
    rw [Int.sub_emod, Int.emod_emod_of_dvd _ (dvd_refl dim), Int.sub_self, Int.zero_emod]
  · intro h
    rw [h3 h, Int.sub_emod, Int.emod_emod_of_dvd _ (dvd_refl dim), Int.sub_self, Int.zero_emod]
  · intro fb layer ts tm width dx dy fuel x x1 y1 d st hx hw hh hp hge hy
    subst hw
    subst hp
    exact affine_loop_step fb layer ts tm width dx dy fuel x x1 y1 d st hx hd hh hge hy

/-- C27 (witness): `dim = 16`, `pos = -3`: the wrap is 13, the remainder of `-3`. -/
theorem affine_wrap_witness :
    (0 : Int) < 16 ∧ (-16 : Int) ≤ -3 ∧ cmod (cabs (-3 + 16)) 16 = (-3) % 16
    ∧ (cmod (cabs (-3 + 16)) 16 - (-3)) % 16 = 0 :=
  ⟨by decide, by decide, ((affine_wrap (-3) 16 (by decide)).2.1 (by decide)).1,
    ((affine_wrap (-3) 16 (by decide)).2.1 (by decide)).2⟩

/-! ## Color-key flags of a tileset -/

/-- The scan of `HasTransparentPixels` from `p` up to `stop`, at least one byte: true
exactly when one of the bytes is 0. -/
theorem HasTransparentPixels_loop (src : Buf) (stop : Int) :
    ∀ (fuel : Nat) (p : Int), (fuel : Int) = stop - p → 1 ≤ fuel →
      (HasTransparentPixels.loop src stop fuel p = true
        ↔ ∃ q, p ≤ q ∧ q < stop ∧ src q = 0) := by
  intro fuel
  induction fuel with
  | zero => intro p _ h; omega
  | succ n ih =>
    intro p hf _
    rw [HasTransparentPixels.loop]
    by_cases h0 : src p = 0
    · rw [if_pos h0]
      refine ⟨fun _ => ⟨p, le_refl p, by omega, h0⟩, fun _ => rfl⟩
    · rw [if_neg h0]
      by_cases h1 : p + 1 < stop
      · rw [if_pos h1, ih (p + 1) (by omega) (by omega)]
        constructor
        · rintro ⟨q, hq1, hq2, hq3⟩
          exact ⟨q, by omega, hq2, hq3⟩
        · rintro ⟨q, hq1, hq2, hq3⟩
          have hne : q ≠ p := fun h => h0 (h ▸ hq3)
          exact ⟨q, by omega, hq2, hq3⟩
      · rw [if_neg h1]
        constructor
        · intro h
          exact absurd h (by simp)
        · rintro ⟨q, hq1, hq2, hq3⟩
          have : q = p := by omega
          exact absurd (this ▸ hq3) h0

/-- The routine `HasTransparentPixels(src + off, width)` for a width of at least one:
true exactly when one of the `width` bytes is 0. -/
theorem HasTransparentPixels_iff (src : Buf) (off width : Int) (hw : 1 ≤ width) :
    HasTransparentPixels src off width = true
      ↔ ∃ x, 0 ≤ x ∧ x < width ∧ src (off + x) = 0 := by
  unfold HasTransparentPixels
  rw [HasTransparentPixels_loop src (off + width) (max width 1).toNat off
    (by rw [Int.toNat_of_nonneg (by omega)]; omega) (by omega)]
  constructor
  · rintro ⟨q, h1, h2, h3⟩
    exact ⟨q - off, by omega, by omega, by rw [← h3]; congr 1; omega⟩
  · rintro ⟨x, h1, h2, h3⟩
    exact ⟨off + x, by omega, by omega, h3⟩

/-- The row loop of `TLN_SetTilesetPixels` after `n` rows, on the `color_key` array:
the flag of row `c < n` of the entry is what `HasTransparentPixels` says of
row `c` of the source. -/
theorem SetTilesetPixels_flags (ts : Tileset) (entry : Int) (src : Buf) (pitch : Int) (n : Nat) :
    ∀ c : Nat, c < n →
      ((List.range n).foldl (TLN_SetTilesetPixels.row ts entry src pitch)
        (ts.data, ts.color_key)).2 (entry * ts.height + c)
        = HasTransparentPixels src (c * pitch) ts.width := by
  induction n with
  | zero => intro c hc; omega
  | succ n ih =>
    intro c hc
    rw [List.range_succ, List.foldl_append]
    simp only [List.foldl_cons, List.foldl_nil]
    generalize (List.range n).foldl (TLN_SetTilesetPixels.row ts entry src pitch)
      (ts.data, ts.color_key) = st at ih
    unfold TLN_SetTilesetPixels.row
    simp only
    by_cases hcn : c = n
    · subst hcn
      rw [Function.update_same]
    · have hne : entry * ts.height + (c : Int) ≠ entry * ts.height + (n : Int) := by omega
      rw [Function.update_noteq hne]
      exact ih c (by omega)

/-- The line number that the macro `GetTilesetLine` selects, when the size equalities
hold. -/
theorem GetTilesetLine_linear (ts : Tileset) (h : ts.SizesAgree) (index y : Int) :
    GetTilesetLine ts index y = index * ts.height + y := by
  obtain ⟨_, h2, _, _⟩ := h
  unfold GetTilesetLine
  rw [h2]
  unfold shl
  ring

/-- C29: after a successful `TLN_SetTilesetPixels(ts, e, src, pitch)` on a tileset whose
size equalities hold, for every row `0 ≤ y < height` the flag
`color_key[e*height + y]`, which is the flag at `GetTilesetLine(ts, e, y)`
that the renderer reads to choose the keyed or the solid blitter, is true
if and only if `src[y*pitch + x] = 0` for some `0 ≤ x < width`. -/
theorem color_key_flags (e : Engine) (k : Nat) (ts : Tileset) (entry : Int) (src : Buf)
    (pitch : Int) (hts : e.tilesets k = some ts) (hwf : ts.SizesAgree)
    (hok : (TLN_SetTilesetPixels (some k) entry src pitch e).1 = true) :
    ∃ ts', (TLN_SetTilesetPixels (some k) entry src pitch e).2.tilesets k = some ts'
      ∧ ∀ y, 0 ≤ y → y < ts.height →
          GetTilesetLine ts' entry y = entry * ts.height + y
          ∧ (ts'.color_key (entry * ts.height + y) = true
              ↔ ∃ x, 0 ≤ x ∧ x < ts.width ∧ src (y * pitch + x) = 0)
          ∧ (ts'.color_key (GetTilesetLine ts' entry y) = true
              ↔ ∃ x, 0 ≤ x ∧ x < ts.width ∧ src (y * pitch + x) = 0) := by
  obtain ⟨_, h2, _, _⟩ := TLN_SetTilesetPixels_ok e k ts entry src pitch hts hok
  have hw : 1 ≤ ts.width := by
    rw [hwf.1]
    unfold shl
    have : (0 : Int) < 2 ^ ts.hshift.toNat := by positivity
    omega
  have hf := SetTilesetPixels_flags ts entry src pitch ts.height.toNat
  generalize (List.range ts.height.toNat).foldl (TLN_SetTilesetPixels.row ts entry src pitch)
    (ts.data, ts.color_key) = st at h2 hf
  have hwf' : Tileset.SizesAgree { ts with data := st.1, color_key := st.2 } := hwf
  refine ⟨_, h2, ?_⟩
  intro y hy0 hy1
  have hy : ((y.toNat : Nat) : Int) = y := Int.toNat_of_nonneg hy0
  have hr := hf y.toNat (by omega)
  rw [hy] at hr
  have hline := GetTilesetLine_linear _ hwf' entry y
  have hiff : st.2 (entry * ts.height + y) = true
      ↔ ∃ x, 0 ≤ x ∧ x < ts.width ∧ src (y * pitch + x) = 0 := by
    rw [hr]
    exact HasTransparentPixels_iff src (y * pitch) ts.width hw
  refine ⟨hline, hiff, ?_⟩
  rw [hline]
  exact hiff

/-- C29 (witness): tile 1 of the demo tileset is set from a source with pitch 10
whose byte 23 alone is 0: the flag of row 2 is true (byte 23 is pixel 3
of that row) and the flag of row 1 is false. -/
theorem color_key_flags_witness :
    demoEngine.tilesets 0 = some demoTileset ∧ demoTileset.SizesAgree
    ∧ (TLN_SetTilesetPixels (some 0) 1 (fun i => if i = 23 then 0 else 5) 10 demoEngine).1 = true
    ∧ ∃ ts, (TLN_SetTilesetPixels (some 0) 1 (fun i => if i = 23 then 0 else 5) 10
          demoEngine).2.tilesets 0 = some ts
      ∧ ts.color_key (1 * 8 + 2) = true
      ∧ ¬ ts.color_key (1 * 8 + 1) = true := by
  obtain ⟨ts, h1, h2⟩ := color_key_flags demoEngine 0 demoTileset 1
    (fun i => if i = 23 then 0 else 5) 10 rfl (by decide) (by decide)
  refine ⟨rfl, by decide, by decide, ts, h1, ?_, ?_⟩
  · exact (h2 2 (by decide) (by decide)).2.1.mpr ⟨3, by decide, by decide, by decide⟩
  · intro h
    obtain ⟨x, hx0, hx1, hx⟩ := (h2 1 (by decide) (by decide)).2.1.mp h
    have hne : (1 : Int) * 10 + x ≠ 23 := by
      have : x < 8 := hx1
      omega
    simp only [if_neg hne] at hx
    exact absurd hx (by decide)

/-! ## Tile query -/

/-- C30 (evaluation at the failing input): in the demo scene the cell under the layer
point `(8, 0)` is tile 1 with `FLAG_FLIPX`, whose row 0 holds the indices
1 to 8. The normal-mode renderer samples the mirrored pixel, index 8, and
paints the color of palette entry 8 at `x = 8` of line 0;
`TLN_GetLayerTile(0, 8, 0, info)` returns true and reports the color 1, the
pixel that is not mirrored. -/
theorem tile_query_ignores_flip :
    demoLayer.hstart = 0 ∧ demoLayer.vstart = 0
    ∧ specCell demoLayer demoTileset demoTilemap 0 8 = { index := 1, flags := FLAG_FLIPX }
    ∧ specSourceIndex demoLayer demoTileset demoTilemap 0 8 = 8
    ∧ (DrawLayerScanlineCore 16 demoEngine.indexed_palettes 16 demoLayer demoTileset demoTilemap 0
        (fun _ => 0) (fun _ => 0) (fun _ => 0)).scan 8 = paletteColor demoEngine.indexed_palettes 0 8
    ∧ (TLN_GetLayerTile demoEnv 0 8 0 (some TLN_TileInfo.zero) demoEngine).1 = true
    ∧ (TLN_GetLayerTile demoEnv 0 8 0 (some TLN_TileInfo.zero) demoEngine).2.1
        = some { index := 0, flags := FLAG_FLIPX, row := 0, col := 1, xoffset := 0, yoffset := 0,
                 color := 1, type := 0, empty := false } := by
  decide

/-! ## Sprites with `FLAG_PRIORITY` -/

/-- A sprite draw call among the calls of `DrawScanline` is a call on the current
line for a sprite that is enabled, covered and without `FLAG_PRIORITY`. -/
theorem spriteDraw_mem (e : Engine) (i : Nat) (L : Int)
    (h : Event.spriteDraw i L ∈ (DrawScanline env e).events) :
    L = e.line
    ∧ spriteDrawn (DrawScanline.afterRaster env e) (DrawScanline env e).engine e.line i = true := by
  obtain ⟨ov, hev⟩ := DrawScanline_calls env e
  rw [hev] at h
  unfold drawCalls DrawScanline.rasterCall at h
  simp only [List.mem_cons, List.mem_append, List.mem_map, List.mem_filter, List.mem_range,
    List.mem_reverse, reduceCtorEq, false_or, and_false, exists_false, or_false,
    Event.spriteDraw.injEq] at h
  have key : (∃ a, (a < (DrawScanline.afterRaster env e).sprites.length
        ∧ spriteDrawn (DrawScanline.afterRaster env e) (DrawScanline env e).engine e.line a = true)
        ∧ a = i ∧ e.line = L) →
      L = e.line
      ∧ spriteDrawn (DrawScanline.afterRaster env e) (DrawScanline env e).engine e.line i
          = true := by
    rintro ⟨j, ⟨_, hj⟩, hji, hl⟩
    rw [← hji]
    exact ⟨hl.symm, hj⟩
  cases hcb : e.cb_raster with
  | none =>
    simp only [hcb, List.not_mem_nil, false_or] at h
    rcases h with h | h
    · exact key h
    · split at h
      · simp at h
      · simp at h
  | some cb =>
    simp only [hcb, List.mem_singleton, reduceCtorEq, false_or] at h
    rcases h with h | h
    · exact key h
    · split at h
      · simp at h
      · simp at h

theorem layerStep_indicator (line : Int) (st : PassState) (x : Bool) (c : Nat) :
    DrawScanline.layerStep env line { st with sprite_priority := x } c
      = { DrawScanline.layerStep env line st c with sprite_priority := x } := by
  unfold DrawScanline.layerStep DrawScanline.drawLayer
  dsimp only
  split
  · rfl
  · split
    · split
      · rfl
      · split <;> rfl
    · rfl

theorem priorityLayerStep_indicator (line : Int) (st : PassState) (x : Bool) (c : Nat) :
    DrawScanline.priorityLayerStep env line { st with sprite_priority := x } c
      = { DrawScanline.priorityLayerStep env line st c with sprite_priority := x } := by
  unfold DrawScanline.priorityLayerStep
  dsimp only
  split
  · rfl
  · split <;> rfl

theorem overlayStep_indicator (line : Int) (st : PassState) (x : Bool) :
    DrawScanline.overlayStep line { st with sprite_priority := x }
      = { DrawScanline.overlayStep line st with sprite_priority := x } := by
  unfold DrawScanline.overlayStep
  dsimp only
  split <;> rfl

theorem spriteStep_indicator (line : Int) (st : PassState) (x : Bool) (i : Nat) :
    ∃ y, DrawScanline.spriteStep env line { st with sprite_priority := x } i
      = { DrawScanline.spriteStep env line st i with sprite_priority := y } := by
  unfold DrawScanline.spriteStep DrawScanline.drawSprite
  dsimp only
  split
  · exact ⟨x, rfl⟩
  · split
    · exact ⟨x, rfl⟩
    · split
      · exact ⟨x, rfl⟩
      · split
        · split
          · exact ⟨x, rfl⟩
          · exact ⟨true, rfl⟩
        · exact ⟨x, rfl⟩

theorem foldl_indicator {α : Type} (f : PassState → α → PassState)
    (hf : ∀ st x a, ∃ y, f { st with sprite_priority := x } a
      = { f st a with sprite_priority := y }) (l : List α) :
    ∀ st x, ∃ y, l.foldl f { st with sprite_priority := x }
      = { l.foldl f st with sprite_priority := y } := by
  induction l with
  | nil => intro st x; exact ⟨x, rfl⟩
  | cons a l ih =>
    intro st x
    obtain ⟨y, hy⟩ := hf st x a
    rw [List.foldl_cons, List.foldl_cons, hy]
    exact ih (f st a) y

/-- The passes of `DrawScanline` never read the local `sprite_priority`: started with
another value of it, they leave the same engine, the same calls and the
same `background_priority`. -/
theorem passes_indicator (line : Int) (st : PassState) (x : Bool) :
    ∃ y, DrawScanline.passes env line { st with sprite_priority := x }
      = { DrawScanline.passes env line st with sprite_priority := y } := by
  unfold DrawScanline.passes
  dsimp only
  obtain ⟨y1, h1⟩ := foldl_indicator (DrawScanline.layerStep env line)
    (fun st x a => ⟨x, layerStep_indicator env line st x a⟩)
    (List.range st.engine.layers.length).reverse st x
  rw [h1]
  dsimp only
  obtain ⟨y2, h2⟩ := foldl_indicator (DrawScanline.spriteStep env line)
    (fun st x a => spriteStep_indicator env line st x a)
    (List.range ((List.range st.engine.layers.length).reverse.foldl
      (DrawScanline.layerStep env line) st).engine.sprites.length)
    ((List.range st.engine.layers.length).reverse.foldl (DrawScanline.layerStep env line) st) y1
  rw [h2]
  dsimp only
  generalize (List.range ((List.range st.engine.layers.length).reverse.foldl
      (DrawScanline.layerStep env line) st).engine.sprites.length).foldl
      (DrawScanline.spriteStep env line)
      ((List.range st.engine.layers.length).reverse.foldl (DrawScanline.layerStep env line) st)
    = st2
  obtain ⟨y3, h3⟩ := foldl_indicator (DrawScanline.priorityLayerStep env line)
    (fun st x a => ⟨x, priorityLayerStep_indicator env line st x a⟩)
    (List.range st2.engine.layers.length).reverse st2 y2
  rw [h3, overlayStep_indicator]
  exact ⟨y3, rfl⟩

/-- C28: a sprite with `FLAG_PRIORITY` is never drawn. `DrawScanline` makes no draw
call, on any line, for a sprite whose flags (as the call leaves them)
contain `FLAG_PRIORITY`; the turn of the sprite loop for such a sprite
leaves the framebuffer, the collision buffer, the priority buffer, the
layers, the other sprites and the calls made as they are (the sprite
itself is at most updated from its world position); and the local
`sprite_priority` that the turn sets has no effect: the passes of
`DrawScanline` started with either value of it leave the same engine, the
same calls and the same `background_priority`. -/
theorem priority_sprite_never_drawn (e : Engine) :
    (∀ (i : Nat) (s : Sprite) (L : Int), (DrawScanline env e).engine.sprites[i]? = some s →
        hasFlag s.flags FLAG_PRIORITY = true →
        Event.spriteDraw i L ∉ (DrawScanline env e).events)
    ∧ (∀ (line : Int) (st : PassState) (i : Nat) (sprite : Sprite),
        st.engine.sprites[i]? = some sprite →
        (∀ s, (DrawScanline.updateSprite env i sprite st.engine).sprites[i]? = some s →
          hasFlag s.flags FLAG_PRIORITY = true) →
        (DrawScanline.spriteStep env line st i).engine.framebuffer = st.engine.framebuffer
        ∧ (DrawScanline.spriteStep env line st i).engine.collision = st.engine.collision
        ∧ (DrawScanline.spriteStep env line st i).engine.priority = st.engine.priority
        ∧ (DrawScanline.spriteStep env line st i).engine.layers = st.engine.layers
        ∧ (∀ j, j ≠ i →
            (DrawScanline.spriteStep env line st i).engine.sprites[j]? = st.engine.sprites[j]?)
        ∧ (DrawScanline.spriteStep env line st i).events = st.events
        ∧ (DrawScanline.spriteStep env line st i).background_priority = st.background_priority)
    ∧ (∀ (line : Int) (st : PassState) (x : Bool),
        (DrawScanline.passes env line { st with sprite_priority := x }).engine
          = (DrawScanline.passes env line st).engine
        ∧ (DrawScanline.passes env line { st with sprite_priority := x }).events
          = (DrawScanline.passes env line st).events
        ∧ (DrawScanline.passes env line { st with sprite_priority := x }).background_priority
          = (DrawScanline.passes env line st).background_priority) := by
  refine ⟨?_, ?_, ?_⟩
  · intro i s L hs hf hmem
    obtain ⟨_, hd⟩ := spriteDraw_mem env e i L hmem
    unfold spriteDrawn at hd
    rw [hs] at hd
    cases h0 : (DrawScanline.afterRaster env e).sprites[i]? with
    | none =>
      rw [h0] at hd
      exact absurd hd (by simp)
    | some s0 =>
      rw [h0] at hd
      simp only [hf, Bool.not_true, Bool.and_false, Bool.false_eq_true] at hd
  · intro line st i sprite hs hp
    have hupd : ∀ x : Engine,
        (DrawScanline.updateSprite env i sprite x).framebuffer = x.framebuffer
        ∧ (DrawScanline.updateSprite env i sprite x).collision = x.collision
        ∧ (DrawScanline.updateSprite env i sprite x).priority = x.priority
        ∧ (DrawScanline.updateSprite env i sprite x).layers = x.layers
        ∧ (∀ j, j ≠ i → (DrawScanline.updateSprite env i sprite x).sprites[j]? = x.sprites[j]?) := by
      intro x
      unfold DrawScanline.updateSprite
      split
      · refine ⟨rfl, rfl, rfl, rfl, ?_⟩
        intro j hj
        exact List.getElem?_set_ne (Ne.symm hj)
      · exact ⟨rfl, rfl, rfl, rfl, fun _ _ => rfl⟩
    have hstep : DrawScanline.spriteStep env line st i = st
        ∨ ∃ y, DrawScanline.spriteStep env line st i
            = { st with engine := DrawScanline.updateSprite env i sprite st.engine,
                        sprite_priority := y } := by
      unfold DrawScanline.spriteStep
      rw [hs]
      dsimp only
      split
      · left; rfl
      · right
        unfold DrawScanline.drawSprite
        dsimp only
        cases h1 : (DrawScanline.updateSprite env i sprite st.engine).sprites[i]? with
        | none => exact ⟨st.sprite_priority, rfl⟩
        | some s =>
          dsimp only
          have hf := hp s h1
          split
          · rw [hf]
            exact ⟨true, rfl⟩
          · exact ⟨st.sprite_priority, rfl⟩
    rcases hstep with h | ⟨y, h⟩
    · rw [h]
      exact ⟨rfl, rfl, rfl, rfl, fun _ _ => rfl, rfl, rfl⟩
    · rw [h]
      obtain ⟨u1, u2, u3, u4, u5⟩ := hupd st.engine
      exact ⟨u1, u2, u3, u4, u5, rfl, rfl⟩
  · intro line st x
    obtain ⟨y, hy⟩ := passes_indicator env line st x
    rw [hy]
    exact ⟨rfl, rfl, rfl⟩

/-- C28 (witness): in the demo scene with `FLAG_PRIORITY` on sprite 0, line 0 is drawn
with calls for the layer and for sprite 1 only, and sprite 1, which overlaps
sprite 0, is not flagged as colliding. -/
theorem priority_sprite_never_drawn_witness :
    Event.spriteDraw 0 0 ∉ (DrawScanline demoEnv demoPrioritySpriteEngine).events
    ∧ (DrawScanline demoEnv demoPrioritySpriteEngine).events
        = [Event.scanline 0, Event.layerDraw 0 0, Event.spriteDraw 1 0]
    ∧ ((DrawScanline demoEnv demoPrioritySpriteEngine).engine.sprites[1]?).map Sprite.collision
        = some false :=
  ⟨(priority_sprite_never_drawn demoEnv demoPrioritySpriteEngine).1 0
      { demoSprite 0 with flags := FLAG_PRIORITY } 0 rfl (by decide),
   by decide, by decide⟩

/-! ## The pixel loops of the affine and pixel-mapping renderers -/

/-- What one `plotPixel` leaves: the sampled pixel at `d` when the cell is not empty,
and the cell as the last one seen. -/
theorem plotPixel_spec (ts : Tileset) (tm : Tilemap) (X Y d : Int) (st : Buf × Option Tile) :
    (plotPixel ts tm X Y d st).1 d
        = (if (sampleCell ts tm X Y).index ≠ 0 then samplePixel ts tm X Y else st.1 d)
    ∧ (∀ p, p ≠ d → (plotPixel ts tm X Y d st).1 p = st.1 p)
    ∧ (plotPixel ts tm X Y d st).2 = some (sampleCell ts tm X Y) := by
  unfold plotPixel
  dsimp only
  refine ⟨?_, ?_, rfl⟩
  · split
    · rw [Function.update_same]
    · rfl
  · intro p hp
    split
    · rw [Function.update_noteq hp]
    · rfl

/-- The pixel loop of `DrawLayerScanlineAffine`, run for the `width - x` pixels that
remain, when every source position it passes has its integer parts not
below `-layer_width` and `-layer_height`: the byte `d + j` receives the
pixel sampled at the remainders of the position `(x1 + j*dx, y1 + j*dy)`. -/
theorem affine_loop (fb : Nat) (layer : Layer) (ts : Tileset) (tm : Tilemap)
    (width dx dy : Int) (hw : 0 < layer.width) (hh : 0 < layer.height) :
    ∀ (fuel : Nat) (x x1 y1 d : Int) (st : Buf × Option Tile), (fuel : Int) = width - x →
      (∀ j, 0 ≤ j → j < width - x →
        -layer.width ≤ fix2int fb (x1 + j * dx) ∧ -layer.height ≤ fix2int fb (y1 + j * dy)) →
      (∀ j, 0 ≤ j → j < width - x →
        (DrawLayerScanlineAffine.loop fb layer ts tm width dx dy fuel x x1 y1 d st).1 (d + j)
          = (if (sampleCell ts tm (fix2int fb (x1 + j * dx) % layer.width)
                  (fix2int fb (y1 + j * dy) % layer.height)).index ≠ 0
             then samplePixel ts tm (fix2int fb (x1 + j * dx) % layer.width)
                  (fix2int fb (y1 + j * dy) % layer.height)
             else st.1 (d + j)))
      ∧ (∀ p, (p < d ∨ d + (width - x) ≤ p) →
        (DrawLayerScanlineAffine.loop fb layer ts tm width dx dy fuel x x1 y1 d st).1 p = st.1 p)
      ∧ (0 < width - x →
        (DrawLayerScanlineAffine.loop fb layer ts tm width dx dy fuel x x1 y1 d st).2
          = some (sampleCell ts tm (fix2int fb (x1 + (width - x - 1) * dx) % layer.width)
              (fix2int fb (y1 + (width - x - 1) * dy) % layer.height))) := by
  intro fuel
  induction fuel with
  | zero =>
    intro x x1 y1 d st hf _
    have h0 : width - x = 0 := by omega
    refine ⟨fun j h1 h2 => by omega, fun p _ => rfl, fun h => by omega⟩
  | succ n ih =>
    intro x x1 y1 d st hf hpos
    have hx : x < width := by omega
    have hp0 := hpos 0 (le_refl 0) (by omega)
    simp only [zero_mul, add_zero] at hp0
    rw [affine_loop_step fb layer ts tm width dx dy n x x1 y1 d st hx hw hh hp0.1 hp0.2]
    obtain ⟨p1, p2, p3⟩ := plotPixel_spec ts tm (fix2int fb x1 % layer.width)
      (fix2int fb y1 % layer.height) d st
    generalize plotPixel ts tm (fix2int fb x1 % layer.width) (fix2int fb y1 % layer.height) d st
      = st' at p1 p2 p3
    have hshift : ∀ j : Int, x1 + dx + (j - 1) * dx = x1 + j * dx
        ∧ y1 + dy + (j - 1) * dy = y1 + j * dy := by
      intro j
      constructor <;> ring
    obtain ⟨i1, i2, i3⟩ := ih (x + 1) (x1 + dx) (y1 + dy) (d + 1) st' (by omega) (by
      intro j hj0 hj1
      have := hpos (j + 1) (by omega) (by omega)
      have e1 : x1 + dx + j * dx = x1 + (j + 1) * dx := by ring
      have e2 : y1 + dy + j * dy = y1 + (j + 1) * dy := by ring
      rw [e1, e2]
      exact this)
    refine ⟨?_, ?_, ?_⟩
    · intro j hj0 hj1
      by_cases hj : j = 0
      · subst hj
        rw [i2 (d + 0) (by omega)]
        simp only [add_zero, zero_mul] at p1 ⊢
        exact p1
      · have e1 : d + j = d + 1 + (j - 1) := by ring
        rw [e1, i1 (j - 1) (by omega) (by omega), p2 (d + 1 + (j - 1)) (by omega),
          (hshift j).1, (hshift j).2]
    · intro p hp
      rw [i2 p (by omega), p2 p (by omega)]
    · intro _
      by_cases hn : width - (x + 1) = 0
      · have hn0 : n = 0 := by omega
        subst hn0
        rw [DrawLayerScanlineAffine.loop, p3]
        have e : width - x - 1 = 0 := by omega
        rw [e]
        simp only [zero_mul, add_zero]
      · rw [i3 (by omega)]
        have e1 : x1 + dx + (width - (x + 1) - 1) * dx = x1 + (width - x - 1) * dx := by ring
        have e2 : y1 + dy + (width - (x + 1) - 1) * dy = y1 + (width - x - 1) * dy := by ring
        rw [e1, e2]

/-- The cell and the pixel that the per-pixel renderers sample at a layer position
with non-negative coordinates, for a tileset whose size equalities hold:
the tile pixel at that position. -/
theorem sample_tilePixelAt (ts : Tileset) (tm : Tilemap) (h : ts.SizesAgree) (X Y : Int)
    (hX : 0 ≤ X) (hY : 0 ≤ Y) :
    sampleCell ts tm X Y = tm.tiles (Y / ts.height * tm.cols + X / ts.width)
    ∧ (if (sampleCell ts tm X Y).index ≠ 0 then samplePixel ts tm X Y else 0)
        = tilePixelAt ts tm X Y := by
  obtain ⟨h1, h2, h3, h4⟩ := h
  have hw : ts.width = 2 ^ ts.hshift.toNat := by rw [h1]; unfold shl; ring
  have hh : ts.height = 2 ^ ts.vshift.toNat := by rw [h2]; unfold shl; ring
  have hsx : shr X ts.hshift = X / ts.width := by rw [shr_eq_div, hw]
  have hsy : shr Y ts.vshift = Y / ts.height := by rw [shr_eq_div, hh]
  have hbx : band X ts.hmask = X % ts.width := by rw [h3, hw, band_pow_mask hX]
  have hby : band Y ts.vmask = Y % ts.height := by rw [h4, hh, band_pow_mask hY]
  have hcell : sampleCell ts tm X Y = tm.tiles (Y / ts.height * tm.cols + X / ts.width) := by
    unfold sampleCell
    rw [hsx, hsy]
  refine ⟨hcell, ?_⟩
  unfold tilePixelAt samplePixel
  dsimp only
  rw [hcell, hbx, hby]
  by_cases h0 : (tm.tiles (Y / ts.height * tm.cols + X / ts.width)).index = 0
  · rw [if_pos h0, if_neg (by simpa using h0)]
  · rw [if_neg h0, if_pos h0]
    congr 1
    · split_ifs <;> ring
    · split_ifs <;> ring

/-! ## Pixel-mapping mode -/

/-- C22 (evaluation at the failing input): a scene without sprites whose layer 0 shows,
on line 0, tile 1 with palette 0 under the pixels 0 to 7 and tile 1 with
palette 1 under the pixels 8 to 15. With mosaic disabled `DrawScanline`
paints pixel 0 with entry 1 of palette 0 and pixel 8 with entry 1 of
palette 1. After `TLN_SetLayerMosaic(0, 1, 1)` it paints both with entry 1
of palette 1, the palette of the last cell of the line. -/
theorem unit_mosaic_changes_palette :
    paletteColor demoPalettes 0 1 = 0xFF000001 ∧ paletteColor demoPalettes 1 1 = 0xFF000101
    ∧ (demoPaletteEngine.layers[0]?).map (fun l => (l.ok, l.mosaic.h)) = some (true, 0)
    ∧ (DrawScanline demoEnv demoPaletteEngine).engine.framebuffer.data 0 0 = 0xFF000001
    ∧ (DrawScanline demoEnv demoPaletteEngine).engine.framebuffer.data 0 8 = 0xFF000101
    ∧ (TLN_SetLayerMosaic demoEnv 0 1 1 demoPaletteEngine).1 = true
    ∧ ((TLN_SetLayerMosaic demoEnv 0 1 1 demoPaletteEngine).2.layers[0]?).map
        (fun l => (l.ok, l.mosaic.w, l.mosaic.h)) = some (true, 1, 1)
    ∧ (DrawScanline demoEnv
        (TLN_SetLayerMosaic demoEnv 0 1 1 demoPaletteEngine).2).engine.framebuffer.data 0 0
        = 0xFF000101
    ∧ (DrawScanline demoEnv
        (TLN_SetLayerMosaic demoEnv 0 1 1 demoPaletteEngine).2).engine.framebuffer.data 0 8
        = 0xFF000101 := by
  decide

/-! ## Affine mode with the identity transform -/

theorem sizesAgree_of_normal {layer : Layer} {ts : Tileset} {tm : Tilemap} {L : Int}
    (h : NormalScene layer ts tm L) : ts.SizesAgree := by
  refine ⟨?_, ?_, h.hmask_eq, h.vmask_eq⟩
  · rw [h.width_eq]; unfold shl; ring
  · rw [h.height_eq]; unfold shl; ring

theorem fix2int_int2fix (fb : Nat) (a j : Int) :
    fix2int fb (int2fix fb a + j * 2 ^ fb) = a + j := by
  unfold fix2int int2fix
  rw [Int.shiftRight_eq_div_pow]
  have e : a * 2 ^ fb + j * 2 ^ fb = (a + j) * 2 ^ fb := by ring
  rw [e]
  push_cast
  exact Int.mul_ediv_cancel _ (by positivity)

/-- The tile pixel at the layer position of destination `x` on line `L` is the source
index that the claims about the normal mode name. -/
theorem tilePixelAt_spec (layer : Layer) (ts : Tileset) (tm : Tilemap) (L x : Int) :
    tilePixelAt ts tm ((layer.hstart + x) % layer.width) ((layer.vstart + L) % layer.height)
      = (if (specCell layer ts tm L x).index = 0 then 0 else specSourceIndex layer ts tm L x) :=
  rfl

/-- The framebuffer line that the normal-mode renderer leaves, pixel by pixel, for a
scene of the normal-mode theorems: outside the clip range, under an empty
cell and under a priority cell the pixel is kept; under another cell it is
what the bound 32-bit blitter stores for the source index of the pixel. -/
theorem normal_line (fb : Nat) (pals : Nat → Option Palette) (fbwidth : Int)
    (layer : Layer) (ts : Tileset) (tm : Tilemap) (L : Int) (scan pri tmp : Buf)
    (hwf : NormalScene layer ts tm L) (x : Int) :
    ((x < layer.clip.x1 ∨ layer.clip.x2 ≤ x) →
      (DrawLayerScanlineCore fb pals fbwidth layer ts tm L scan pri tmp).scan x = scan x)
    ∧ (layer.clip.x1 ≤ x → x < layer.clip.x2 →
        ((specCell layer ts tm L x).index = 0
          ∨ hasFlag (specCell layer ts tm L x).flags FLAG_PRIORITY = true) →
      (DrawLayerScanlineCore fb pals fbwidth layer ts tm L scan pri tmp).scan x = scan x)
    ∧ (layer.clip.x1 ≤ x → x < layer.clip.x2 → (specCell layer ts tm L x).index ≠ 0 →
        hasFlag (specCell layer ts tm L x).flags FLAG_PRIORITY = false →
        ∀ b : ScanBlitPtr,
          layer.blitters (ts.color_key (GetTilesetLine ts
            ((ts.tiles ((specCell layer ts tm L x).index : Int) : Nat) : Int)
            (specSrcY layer ts tm L x))) = some b →
          b.bpp32 = true → b.scaling = false →
          (DrawLayerScanlineCore fb pals fbwidth layer ts tm L scan pri tmp).scan x
            = (blitValue b pals ((specCell layer ts tm L x).flags &&& FLAG_PALETTES) layer.blend
                (specSourceIndex layer ts tm L x) (scan x)).getD (scan x)) := by
  have htw : 0 < ts.width := by rw [hwf.width_eq]; positivity
  have hm0 : 0 ≤ ts.hmask := by rw [hwf.hmask_eq]; omega
  have hcore : (DrawLayerScanlineCore fb pals fbwidth layer ts tm L scan pri tmp).scan
      = ((DrawLayerScanline.spans layer ts tm L 2).foldl
          (paintSpan fb pals layer ts false) (scan, pri)).1 := by
    unfold DrawLayerScanlineCore
    simp [hwf.mosaic_off]
  rw [hcore]
  refine ⟨?_, ?_, ?_⟩
  · intro hx
    obtain ⟨w1, _, _⟩ := spans_wf layer ts tm L hwf.hmask_eq hm0
    apply foldl_paint_scan_outside
    intro s hs
    have q := w1 s hs
    refine ⟨(span_dstoff q).1, ?_⟩
    have := q.x_ge
    have := q.in_clip
    have := q.width_pos
    rcases hx with hx | hx
    · left; omega
    · right; left; omega
  · intro hx1 hx2 hc
    obtain ⟨s, hs, hsx1, hsx2, q, hcell, hu, hv⟩ := normal_span_at layer ts tm L x hwf hx1 hx2
    exact (normal_scan_at fb pals layer ts tm L hwf.hmask_eq hm0 scan pri s hs x hsx1 hsx2).1
      (by rw [hcell]; exact hc)
  · intro hx1 hx2 hne hp b hb h32 hsc
    obtain ⟨s, hs, hsx1, hsx2, q, hcell, hu, hv⟩ := normal_span_at layer ts tm L x hwf hx1 hx2
    have hsy : s.blitSrcy ts = specSrcY layer ts tm L x := by
      unfold Span.blitSrcy specSrcY
      rw [hcell, hv]
      split_ifs <;> ring
    have hti : s.tileIndex ts
        = ((ts.tiles ((specCell layer ts tm L x).index : Int) : Nat) : Int) := by
      unfold Span.tileIndex
      rw [hcell]
    have hsrc : s.srcoff ts + (x - s.x) * s.direction
        = GetTilesetPixelAddr ts
            ((ts.tiles ((specCell layer ts tm L x).index : Int) : Nat) : Int)
            (specSrcX layer ts tm L x) (specSrcY layer ts tm L x) := by
      unfold Span.srcoff
      rw [GetTilesetPixelAddr_add, hsy, hti]
      congr 1
      unfold Span.blitSrcx Span.direction specSrcX
      rw [q.step_eq, q.tilewidth_eq, hcell, ← hu]
      split_ifs <;> ring
    have hsi : blitSource b fb ts.data (s.srcoff ts) s.direction 0 (x - s.x)
        = specSourceIndex layer ts tm L x := by
      unfold blitSource specSourceIndex GetTilesetPixel
      simp only [hsc, Bool.false_eq_true, if_false]
      rw [hsrc]
    have hb' : s.blitter layer ts = some b := by
      unfold Span.blitter
      rw [hsy, hti, hb]
    have := (normal_scan_at fb pals layer ts tm L hwf.hmask_eq hm0 scan pri s hs x hsx1 hsx2).2 b
      (by rw [hcell]; exact hne) (by rw [hcell]; exact hp) hb' h32
    rw [this, hsi]
    unfold Span.palette
    rw [hcell]

/-- The first pass of `DrawLayerScanlineAffine` under the identity transform, for a
layer with `clip.x1 = 0`: byte `x` of the index buffer, `0 ≤ x < clip.x2`,
receives the source index of the normal mode when the cell under `x` is
not empty, and the cell seen last is the one under `clip.x2 - 1`. -/
theorem affine_identity_pass (fb : Nat) (fbwidth : Int) (layer : Layer) (ts : Tileset)
    (tm : Tilemap) (L : Int) (buf : Buf) (hs : IdentityScene fb fbwidth layer ts tm L) :
    (∀ x, 0 ≤ x → x < layer.clip.x2 →
      (DrawLayerScanlineAffine.pass fb layer ts tm L buf).1 x
        = (if (specCell layer ts tm L x).index ≠ 0 then specSourceIndex layer ts tm L x
           else buf x))
    ∧ (∀ p, (p < 0 ∨ layer.clip.x2 ≤ p) →
      (DrawLayerScanlineAffine.pass fb layer ts tm L buf).1 p = buf p)
    ∧ (DrawLayerScanlineAffine.pass fb layer ts tm L buf).2
        = some (specCell layer ts tm L (layer.clip.x2 - 1)) := by
  have hn := hs.normal
  have htw : 0 < ts.width := by rw [hn.width_eq]; positivity
  have hth : 0 < ts.height := by rw [hn.height_eq]; positivity
  have hW : 0 < layer.width := by
    rw [hn.layer_width]; exact Int.mul_pos hn.cols_pos htw
  have hH : 0 < layer.height := by
    rw [hn.layer_height]; exact Int.mul_pos hn.rows_pos hth
  have hc2 := hs.clip_pos
  have hh0 := hn.hstart_nonneg
  have hv0 := hn.vstart_nonneg
  have hL0 := hn.nscan_nonneg
  have hdx : cdiv (int2fix fb (layer.hstart + layer.clip.x2) - int2fix fb layer.hstart)
      layer.clip.x2 = 2 ^ fb := by
    unfold cdiv int2fix
    have e : (layer.hstart + layer.clip.x2) * 2 ^ fb - layer.hstart * 2 ^ fb
        = layer.clip.x2 * 2 ^ fb := by ring
    rw [e]
    exact Int.mul_tdiv_cancel_left _ (by omega)
  have hdy : cdiv (int2fix fb (layer.vstart + L) - int2fix fb (layer.vstart + L))
      layer.clip.x2 = 0 := by
    unfold cdiv
    rw [Int.sub_self, Int.zero_tdiv]
  have hfx : ∀ j : Int, fix2int fb (int2fix fb layer.hstart + j * 2 ^ fb) = layer.hstart + j :=
    fun j => fix2int_int2fix fb layer.hstart j
  have hfy : ∀ j : Int, fix2int fb (int2fix fb (layer.vstart + L) + j * 0) = layer.vstart + L := by
    intro j
    have := fix2int_int2fix fb (layer.vstart + L) 0
    simp only [zero_mul, add_zero, mul_zero] at this ⊢
    exact this
  have hsa := sizesAgree_of_normal hn
  have hsample : ∀ x, 0 ≤ x →
      sampleCell ts tm ((layer.hstart + x) % layer.width) ((layer.vstart + L) % layer.height)
        = specCell layer ts tm L x
      ∧ ((specCell layer ts tm L x).index ≠ 0 →
          samplePixel ts tm ((layer.hstart + x) % layer.width)
            ((layer.vstart + L) % layer.height) = specSourceIndex layer ts tm L x) := by
    intro x hx
    obtain ⟨c1, c2⟩ := sample_tilePixelAt ts tm hsa ((layer.hstart + x) % layer.width)
      ((layer.vstart + L) % layer.height) (Int.emod_nonneg _ hW.ne') (Int.emod_nonneg _ hH.ne')
    have c1' : sampleCell ts tm ((layer.hstart + x) % layer.width)
        ((layer.vstart + L) % layer.height) = specCell layer ts tm L x := c1
    refine ⟨c1', ?_⟩
    intro hne
    rw [c1', if_pos hne, tilePixelAt_spec, if_neg hne] at c2
    exact c2
  unfold DrawLayerScanlineAffine.pass
  dsimp only
  rw [hs.identity, hs.identity, hs.clip_x1]
  dsimp only
  rw [hdx, hdy]
  simp only [sub_zero]
  obtain ⟨l1, l2, l3⟩ := affine_loop fb layer ts tm layer.clip.x2 (2 ^ fb) 0 hW hH
    layer.clip.x2.toNat 0 (int2fix fb layer.hstart) (int2fix fb (layer.vstart + L)) 0 (buf, none)
    (by rw [Int.toNat_of_nonneg (by omega)]; ring)
    (by
      intro j hj0 hj1
      rw [hfx, hfy]
      constructor <;> omega)
  simp only [sub_zero, zero_add] at l1 l2 l3
  refine ⟨?_, l2, ?_⟩
  · intro x hx0 hx2
    rw [l1 x hx0 hx2, hfx, hfy]
    obtain ⟨c1, c2⟩ := hsample x hx0
    rw [c1]
    by_cases hne : (specCell layer ts tm L x).index ≠ 0
    · rw [if_pos hne, if_pos hne, c2 hne]
    · rw [if_neg hne, if_neg hne]
  · rw [l3 hc2, hfx, hfy, (hsample (layer.clip.x2 - 1) (by omega)).1]

/-- A keyed and a solid 32-bit blitter store the same for a source index that is not
the transparent one. -/
theorem blitValue_key (bl ck : Bool) (pals : Nat → Option Palette) (pal : Nat)
    (blend : Option BlendTable) (s old : Nat) (h : ck = false → s ≠ 0) :
    blitValue (GetBlitter 32 ck false bl) pals pal blend s old
      = blitValue (GetBlitter 32 true false bl) pals pal blend s old := by
  cases ck with
  | true => rfl
  | false =>
    have hs := h rfl
    unfold blitValue GetBlitter
    simp [hs]

/-- The framebuffer line that the affine renderer leaves under the identity
transform, pixel by pixel: outside the clip range the pixel is kept, inside
it is what the keyed 32-bit blitter stores, with the palette of the last
cell of the line, for the source index of the normal mode (0 under an
empty cell). -/
theorem affine_identity_line (fb : Nat) (pals : Nat → Option Palette) (fbwidth : Int)
    (layer : Layer) (ts : Tileset) (tm : Tilemap) (L : Int) (scan pri tmp : Buf)
    (hs : IdentityScene fb fbwidth layer ts tm L) (bl : Bool)
    (hb : ∀ key, layer.blitters key = some (GetBlitter 32 key false bl)) (x : Int) :
    ((x < 0 ∨ layer.clip.x2 ≤ x) →
      (DrawLayerScanlineAffineCore fb pals fbwidth layer ts tm L scan pri tmp).scan x = scan x)
    ∧ (0 ≤ x → x < layer.clip.x2 →
      (DrawLayerScanlineAffineCore fb pals fbwidth layer ts tm L scan pri tmp).scan x
        = (blitValue (GetBlitter 32 true false bl) pals
            ((specCell layer ts tm L (layer.clip.x2 - 1)).flags &&& FLAG_PALETTES) layer.blend
            (if (specCell layer ts tm L x).index ≠ 0 then specSourceIndex layer ts tm L x else 0)
            (scan x)).getD (scan x)) := by
  obtain ⟨p1, _, p3⟩ := affine_identity_pass fb fbwidth layer ts tm L (memsetZero tmp fbwidth) hs
  have hcore : (DrawLayerScanlineAffineCore fb pals fbwidth layer ts tm L scan pri tmp).scan
      = indexFlush fb pals layer
          (DrawLayerScanlineAffine.pass fb layer ts tm L (memsetZero tmp fbwidth)).2
          (DrawLayerScanlineAffine.pass fb layer ts tm L (memsetZero tmp fbwidth)).1 scan := by
    unfold DrawLayerScanlineAffineCore
    simp [hs.normal.mosaic_off]
  have e0 : shl 0 2 = 4 * 0 := by
    unfold shl
    ring
  rw [hcore, p3]
  unfold indexFlush lastPalette
  dsimp only
  rw [hs.clip_x1, e0, hb true]
  simp only [sub_zero]
  constructor
  · intro hx
    exact blitToWords_outside _ _ _ _ _ _ _ _ _ _ _ _ _ (by omega)
  · intro hx0 hx2
    rw [blitToWords_inside (GetBlitter 32 true false bl) rfl fb pals _ _ _ _ _ _ _ _ _ _
      (by omega) (by omega)]
    have hsrc : blitSource (GetBlitter 32 true false bl) fb
        (DrawLayerScanlineAffine.pass fb layer ts tm L (memsetZero tmp fbwidth)).1 (4 * 0) 1 0
        (x - 0)
        = (if (specCell layer ts tm L x).index ≠ 0 then specSourceIndex layer ts tm L x
           else 0) := by
      unfold blitSource GetBlitter
      simp only [Bool.false_eq_true, if_false]
      have e : 4 * 0 + (x - 0) * 1 = x := by ring
      rw [e, p1 x hx0 hx2]
      have hz : memsetZero tmp fbwidth x = 0 := by
        unfold memsetZero
        rw [if_pos ⟨hx0, by have := hs.clip_le; omega⟩]
      rw [hz]
    rw [hsrc]

/-- C21 (counterexample): a scene whose layer shows, on line 0, a cell with
`FLAG_PRIORITY` under the pixels 0 to 7, and a sprite over the same pixels.
In normal mode the cell is drawn into the priority buffer and overlaid on
the sprite: pixel 0 of the line ends as the tile's color `0xFF000001`. In
affine mode with the identity transform the renderer writes the cell
straight to the line, and the sprite is drawn over it: pixel 0 ends as
the sprite's color `0xFF000008`. The renderers alone differ as well. -/
theorem affine_ignores_priority :
    demoLayerAffine.transform 3 5 = (int2fix 16 3, int2fix 16 5)
    ∧ (DrawScanline demoEnv (demoPriorityEngine demoLayer)).engine.framebuffer.data 0 0
        = 0xFF000001
    ∧ (DrawScanline demoEnv (demoPriorityEngine demoLayerAffine)).engine.framebuffer.data 0 0
        = 0xFF000008
    ∧ (DrawLayerScanlineCore 16 demoEngine.indexed_palettes 16 demoLayerAffine demoTileset
        demoTilemapPriority 0 (fun _ => 7) (fun _ => 0) (fun _ => 0)).scan 0 = 7
    ∧ (DrawLayerScanlineAffineCore 16 demoEngine.indexed_palettes 16 demoLayerAffine demoTileset
        demoTilemapPriority 0 (fun _ => 7) (fun _ => 0) (fun _ => 0)).scan 0 = 0xFF000001 := by
  decide

/-- C21 (amended): for a layer without mosaic and column offsets, with `clip.x1 = 0`
and the clip range inside the framebuffer width, and a scanline on which
no non-empty cell has `FLAG_PRIORITY` and every non-empty cell selects the
palette of the last cell of the line (tile rows flagged as solid holding
no transparent pixel), the affine renderer with the transform of angle 0,
`dx = dy = 0`, `sx = sy = 1` leaves the same framebuffer line as the
normal-mode renderer; and so do the two draw procedures called on an
engine that holds such a layer. -/
theorem affine_identity_is_normal (fb : Nat) (pals : Nat → Option Palette) (fbwidth : Int)
    (layer : Layer) (ts : Tileset) (tm : Tilemap) (L : Int) (scan pri tmp : Buf)
    (hs : IdentityScene fb fbwidth layer ts tm L) :
    (DrawLayerScanlineAffineCore fb pals fbwidth layer ts tm L scan pri tmp).scan
        = (DrawLayerScanlineCore fb pals fbwidth layer ts tm L scan pri tmp).scan
    ∧ ∀ (e : Engine) (n : Nat), e.layers[n]? = some layer →
        e.tilesetAt layer.tileset = some ts → e.tilemapAt layer.tilemap = some tm →
        env.FIXED_BITS = fb → e.framebuffer.width = fbwidth →
        (callDraw env (some .DrawLayerScanlineAffine) n L e).2.framebuffer
          = (callDraw env (some .DrawLayerScanline) n L e).2.framebuffer := by
  have hmain : ∀ (pals : Nat → Option Palette) (scan pri tmp : Buf),
      (DrawLayerScanlineAffineCore fb pals fbwidth layer ts tm L scan pri tmp).scan
        = (DrawLayerScanlineCore fb pals fbwidth layer ts tm L scan pri tmp).scan := by
    intro pals scan pri tmp
    obtain ⟨bl, hb⟩ := hs.blitters
    funext x
    obtain ⟨a1, a2⟩ := affine_identity_line fb pals fbwidth layer ts tm L scan pri tmp hs bl hb x
    obtain ⟨n1, n2, n3⟩ := normal_line fb pals fbwidth layer ts tm L scan pri tmp hs.normal x
    rw [hs.clip_x1] at n1 n2 n3
    by_cases hx : 0 ≤ x ∧ x < layer.clip.x2
    · obtain ⟨hx0, hx2⟩ := hx
      rw [a2 hx0 hx2]
      by_cases hne : (specCell layer ts tm L x).index ≠ 0
      · have hp := hs.no_priority x hx0 hx2 hne
        rw [n3 hx0 hx2 hne hp _ (hb _) rfl rfl, if_pos hne, ← hs.one_palette x hx0 hx2 hne]
        rw [blitValue_key bl _ pals _ layer.blend _ _ (hs.color_key x hx0 hx2 hne)]
      · rw [n2 hx0 hx2 (Or.inl (by simpa using hne)), if_neg hne]
        rfl
    · rw [a1 (by omega), n1 (by omega)]
  refine ⟨hmain pals scan pri tmp, ?_⟩
  intro e n hl hts htm hfb hw
  unfold callDraw
  dsimp only
  unfold runLayerDraw
  rw [hl]
  dsimp only
  rw [hts, htm]
  dsimp only
  rw [hfb, hw, hmain]

/-- The demo layer with the identity transform, the demo tileset and the demo tilemap
form a scene of the affine identity theorem on line 0. -/
theorem demo_identity_scene : IdentityScene 16 16 demoLayerAffine demoTileset demoTilemap 0 :=
  { normal :=
      { hshift_nonneg := by decide, vshift_nonneg := by decide, width_eq := by decide,
        height_eq := by decide, hmask_eq := by decide, vmask_eq := by decide,
        cols_pos := by decide, rows_pos := by decide, layer_width := by decide,
        layer_height := by decide, hstart_nonneg := by decide, vstart_nonneg := by decide,
        nscan_nonneg := by decide, clip_nonneg := by decide, mosaic_off := by decide,
        no_column := rfl }
    clip_x1 := rfl
    clip_pos := by decide
    clip_le := by decide
    identity := fun _ _ => rfl
    blitters := ⟨false, fun _ => rfl⟩
    no_priority := by
      intro x h0 h1 _
      have h2 : x < 16 := h1
      interval_cases x <;> decide
    one_palette := by
      intro x h0 h1 _
      have h2 : x < 16 := h1
      interval_cases x <;> decide
    color_key := by
      intro x h0 h1 _ _
      have h2 : x < 16 := h1
      interval_cases x <;> decide }

/-- C21 (witness): on the demo scene, line 0, the affine renderer with the identity
transform and the normal-mode renderer leave the same line, whose pixel 9,
under the horizontally flipped cell, has the color of index 7. -/
theorem affine_identity_is_normal_witness :
    IdentityScene 16 16 demoLayerAffine demoTileset demoTilemap 0
    ∧ (DrawLayerScanlineAffineCore 16 demoEngine.indexed_palettes 16 demoLayerAffine demoTileset
        demoTilemap 0 (fun _ => 7) (fun _ => 0) (fun _ => 0)).scan
      = (DrawLayerScanlineCore 16 demoEngine.indexed_palettes 16 demoLayerAffine demoTileset
        demoTilemap 0 (fun _ => 7) (fun _ => 0) (fun _ => 0)).scan
    ∧ (DrawLayerScanlineAffineCore 16 demoEngine.indexed_palettes 16 demoLayerAffine demoTileset
        demoTilemap 0 (fun _ => 7) (fun _ => 0) (fun _ => 0)).scan 9 = 0xFF000007 :=
  ⟨demo_identity_scene,
   (affine_identity_is_normal demoEnv 16 demoEngine.indexed_palettes 16 demoLayerAffine
      demoTileset demoTilemap 0 (fun _ => 7) (fun _ => 0) (fun _ => 0) demo_identity_scene).1,
   by decide⟩

/-! ## Scaled sprites: the source address -/

/-- The line that `DrawScalingSpriteScanline` leaves is the blit from the source pointer
`DrawScalingSpriteScanline.srcpixel`. -/
theorem scaling_sprite_source (nsprite : Nat) (nscan : Int) (e : Engine) (sprite : Sprite)
    (tileset : Tileset) (hs : e.sprites[nsprite]? = some sprite)
    (ht : e.tilesetAt sprite.tileset = some tileset) :
    (DrawScalingSpriteScanline env nsprite nscan e).2.framebuffer.data nscan
      = blitToWords sprite.blitter env.FIXED_BITS e.indexed_palettes tileset.data
          (DrawScalingSpriteScanline.srcpixel env sprite tileset nscan) sprite.palette_id
          (GetFramebufferLine e nscan) (shl sprite.dstrect.x1 2)
          (sprite.dstrect.x2 - sprite.dstrect.x1)
          (if hasFlag sprite.flags FLAG_FLIPX then -sprite.dx else sprite.dx)
          (if hasFlag sprite.flags FLAG_FLIPX
            then int2fix env.FIXED_BITS sprite.info.w - sprite.srcrect.x1
            else sprite.srcrect.x1)
          sprite.blend := by
  unfold DrawScalingSpriteScanline DrawScalingSpriteScanline.srcpixel
  simp only [hs, ht]
  split_ifs <;> simp [Engine.setLine]

/-- C31 (code at the failing input): for the 8 x 8 demo sprite at scale 1 (`dy = 65536`
with 16 fractional bits) on scanline 1 of its rectangle `[0, 8)`, the
source pointer is index 524352 of the tileset data, computed from the row
65536 in fixed point, while the bank of 2 tiles holds 128 pixels and the
tile of the sprite lies at 64 to 127. Line 0 shows the tile (pixel 3 has
color 4); line 1, whose source row is row 1 of the same tile, stays
empty. -/
theorem scaled_row_not_converted :
    DrawScalingSpriteScanline.srcpixel demoEnv demoScaledSprite demoTileset 1 = 524352
    ∧ demoTileset.numtiles * demoTileset.width * demoTileset.height = 128
    ∧ GetTilesetPixelAddr demoTileset demoScaledSprite.tileset_entry 0 1 = 72
    ∧ (DrawScalingSpriteScanline demoEnv 0 0 demoScaledEngine).2.framebuffer.data 0 3
        = 0xFF000004
    ∧ (DrawScalingSpriteScanline demoEnv 0 1 demoScaledEngine).2.framebuffer.data 1 3 = 0 := by
  decide

/-! ## Layer state after `TLN_Init` -/

/-- C32 (code at the failing input): on the layer that `TLN_Init` has just created,
`TLN_SetLayerTilemap` with a visible tilemap whose maximum index 3 exceeds
the 2 tiles of its tileset returns true and leaves the layer with
`ok = true`, no tilemap, no tileset, no draw procedure, and width and
height 0; `DrawScanline` then calls the layer's draw procedure. With a
tilemap that is not visible the layer is bound and keeps its null draw
procedure, and `TLN_EnableLayer` sets `ok = true` on it. -/
theorem fresh_layer_enabled_unbound :
    (TLN_SetLayerTilemap demoEnv 0 (some 0) demoFreshEngine).1 = true
    ∧ ((TLN_SetLayerTilemap demoEnv 0 (some 0) demoFreshEngine).2.layers[0]?).map
        (fun l => (l.ok, l.tilemap, l.tileset, l.draw))
        = some (true, none, none, none)
    ∧ ((TLN_SetLayerTilemap demoEnv 0 (some 0) demoFreshEngine).2.layers[0]?).map
        (fun l => (l.width, l.height)) = some (0, 0)
    ∧ (DrawScanline demoEnv (TLN_SetLayerTilemap demoEnv 0 (some 0) demoFreshEngine).2).events
        = [Event.scanline 0, Event.layerDraw 0 0]
    ∧ (TLN_EnableLayer demoEnv 0
        (TLN_SetLayerTilemap demoEnv 0 (some 0) demoHiddenEngine).2).1 = true
    ∧ ((TLN_EnableLayer demoEnv 0
        (TLN_SetLayerTilemap demoEnv 0 (some 0) demoHiddenEngine).2).2.layers[0]?).map
        (fun l => (l.ok, l.tilemap, l.tileset, l.draw))
        = some (true, some 0, some 0, none) := by
  refine ⟨by decide, by decide, by decide, by decide, by decide, by decide⟩

/-! ## Priority cells and the clip rectangle -/

/-- C33 (code at the failing input): with the clip rectangle `(4, 0, 16, 16)` the priority
cell of the demo tilemap covers the destinations 4 to 7 of line 0, and its
first pixel (source column 4, color 5) is written to pixel 0 of the
priority buffer: the overlay shows it at x = 0, outside the clip range,
and leaves the background at x = 4. -/
theorem priority_cell_shifted_by_clip :
    (TLN_SetLayerClip demoEnv 0 4 0 16 16 demoPriorityCellEngine).1 = true
    ∧ (DrawScanline demoEnv
        (TLN_SetLayerClip demoEnv 0 4 0 16 16 demoPriorityCellEngine).2).engine.priority 0
        = 0xFF000005
    ∧ (DrawScanline demoEnv
        (TLN_SetLayerClip demoEnv 0 4 0 16 16 demoPriorityCellEngine).2).engine.priority 4 = 0
    ∧ (DrawScanline demoEnv
        (TLN_SetLayerClip demoEnv 0 4 0 16 16 demoPriorityCellEngine).2).engine.framebuffer.data
        0 0 = 0xFF000005
    ∧ (DrawScanline demoEnv
        (TLN_SetLayerClip demoEnv 0 4 0 16 16 demoPriorityCellEngine).2).engine.framebuffer.data
        0 4 = 0xFF101010 := by
  decide

/-- C34 (code at the failing input): when the layer of the demo scene is a whole-layer-priority
layer, its draw on line 0 writes the priority cell into the priority buffer
(pixel 0 holds color 1), `DrawScanline` performs no overlay, and pixel 0 of
the line keeps the background color. As a non-priority layer the same
layer is followed by the overlay. -/
theorem priority_layer_cell_not_overlaid :
    (TLN_SetLayerPriority demoEnv 0 true demoPriorityCellEngine).1 = true
    ∧ (DrawScanline demoEnv (TLN_SetLayerPriority demoEnv 0 true demoPriorityCellEngine).2).events
        = [Event.scanline 0, Event.layerDraw 0 0]
    ∧ (DrawScanline demoEnv
        (TLN_SetLayerPriority demoEnv 0 true demoPriorityCellEngine).2).engine.priority 0
        = 0xFF000001
    ∧ (DrawScanline demoEnv
        (TLN_SetLayerPriority demoEnv 0 true demoPriorityCellEngine).2).engine.framebuffer.data
        0 0 = 0xFF101010
    ∧ (DrawScanline demoEnv demoPriorityCellEngine).events
        = [Event.scanline 0, Event.layerDraw 0 0, Event.overlay 0]
    ∧ (DrawScanline demoEnv demoPriorityCellEngine).engine.framebuffer.data 0 0
        = 0xFF000001 := by
  decide


/-! ## `TLN_SetLayerPosition` and the `ok` flag -/

/-- C35 (counterexample): the layer 0 of the demo engine, disabled with `TLN_DisableLayer`, has
`ok = true` again after `TLN_SetLayerPosition(0, 1, 1)`: its tilemap is
visible. -/
theorem position_enables_layer :
    ((TLN_DisableLayer demoEnv 0 demoEngine).2.layers[0]?).map Layer.ok = some false
    ∧ (TLN_SetLayerPosition demoEnv 0 1 1 (TLN_DisableLayer demoEnv 0 demoEngine).2).1 = true
    ∧ ((TLN_SetLayerPosition demoEnv 0 1 1
        (TLN_DisableLayer demoEnv 0 demoEngine).2).2.layers[0]?).map Layer.ok = some true := by
  decide

/-- C35 (amended): `TLN_SetLayerPosition` on a layer of the array changes the error code and, when
the layer has a non-zero width and height, the record of that layer only:
`hstart` and `vstart` take the wrapped position, and `ok` becomes true
when the layer's tilemap is non-null and visible and keeps its value
otherwise. A call on a layer of width or height 0, or with an index at or
beyond the layer count, changes the error code only. -/
theorem TLN_SetLayerPosition_frame (c : Nat) (n h v : Int) (e : Engine) (layer : Layer)
    (hl : e.layers[c]? = some layer) (hn : e.numlayers ≤ n) :
    TLN_SetLayerPosition env c h v e =
      (if layer.width = 0 ∨ layer.height = 0 then
        (false, { e with error := .TLN_ERR_REF_TILEMAP })
      else
        (true, { e with
          error := .TLN_ERR_OK
          layers := e.layers.set c
            { layer with
              hstart := if cmod h layer.width < 0 then cmod h layer.width + layer.width
                else cmod h layer.width
              vstart := if cmod v layer.height < 0 then cmod v layer.height + layer.height
                else cmod v layer.height
              ok := layer.ok || (match e.tilemapAt layer.tilemap with
                | some tm => tm.visible
                | none => false) } }))
    ∧ TLN_SetLayerPosition env n h v e = (false, { e with error := .TLN_ERR_IDX_LAYER }) := by
  have hlt : c < e.layers.length := (List.getElem?_eq_some_iff.mp hl).1
  have hnl : ¬ ((c : Int) ≥ e.numlayers) := by
    unfold Engine.numlayers
    omega
  constructor
  · unfold TLN_SetLayerPosition
    rw [if_neg hnl, layerRead_nat env c e layer hl]
    simp only [layerWrite_nat, TLN_SetLastError]
    by_cases hz : layer.width = 0 ∨ layer.height = 0
    · rw [if_pos hz, if_pos hz]
    · rw [if_neg hz, if_neg hz]
      cases htm : e.tilemapAt layer.tilemap with
      | none => simp [htm]
      | some tm => cases hv : tm.visible <;> simp [htm, hv]
  · unfold TLN_SetLayerPosition
    rw [if_pos (ge_iff_le.mpr hn)]
    rfl

/-- Witness of C35: on the demo engine, whose layer 0 is bound to a visible tilemap, the
position `(17, -1)` is stored as `(1, 15)` with `ok = true`, and the index 2
is refused. -/
theorem TLN_SetLayerPosition_frame_witness :
    demoEngine.layers[0]? = some demoLayer ∧ demoEngine.numlayers ≤ 2
    ∧ ((TLN_SetLayerPosition demoEnv 0 17 (-1) demoEngine).2.layers[0]?).map
        (fun l => (l.hstart, l.vstart, l.ok)) = some (1, 15, true)
    ∧ (TLN_SetLayerPosition demoEnv 2 17 (-1) demoEngine).1 = false := by
  have h := TLN_SetLayerPosition_frame demoEnv 0 2 17 (-1) demoEngine demoLayer rfl (by decide)
  refine ⟨rfl, by decide, ?_, ?_⟩
  · rw [show ((0 : Nat) : Int) = 0 from rfl] at h
    rw [h.1]
    decide
  · rw [h.2]

/-! ## The span loop: termination, widths and cells -/

/-- The span loop does not depend on the bound of its iterations, once the bound
covers the rest of the clip range: the loop leaves by its own condition. -/
theorem loop_fuel (layer : Layer) (ts : Tileset) (tm : Tilemap) (nscan shift : Int) :
    ∀ (f1 f2 : Nat) (x0 xtile srcx col d p : Int),
      0 ≤ srcx → srcx < ts.width →
      (layer.clip.x2 - x0).toNat ≤ f1 → (layer.clip.x2 - x0).toNat ≤ f2 →
      DrawLayerScanline.loop layer ts tm nscan shift f1 x0 xtile srcx col d p
        = DrawLayerScanline.loop layer ts tm nscan shift f2 x0 xtile srcx col d p := by
  intro f1
  induction f1 with
  | zero =>
    intro f2 x0 xtile srcx col d p _ _ h1 _
    have hx : layer.clip.x2 ≤ x0 := by omega
    rw [loop_nil layer ts tm nscan shift 0 x0 xtile srcx col d p hx,
      loop_nil layer ts tm nscan shift f2 x0 xtile srcx col d p hx]
  | succ f1 ih =>
    intro f2 x0 xtile srcx col d p h0 h1 hf1 hf2
    by_cases hx : x0 < layer.clip.x2
    swap
    · rw [loop_nil layer ts tm nscan shift _ x0 xtile srcx col d p (by omega),
        loop_nil layer ts tm nscan shift f2 x0 xtile srcx col d p (by omega)]
    cases f2 with
    | zero => omega
    | succ f2 =>
      unfold DrawLayerScanline.loop
      simp only [hx, if_true]
      have hw : 1 ≤ (if x0 + (ts.width - srcx) > layer.clip.x2 then layer.clip.x2
          else x0 + (ts.width - srcx)) - x0 := by
        split_ifs <;> omega
      generalize (if x0 + (ts.width - srcx) > layer.clip.x2 then layer.clip.x2
          else x0 + (ts.width - srcx)) - x0 = w at hw
      rw [ih f2 (x0 + w) (cmod (xtile + 1) tm.cols) 0 (col + 1) (d + shl w shift)
        (p + shl w shift) (le_refl 0) (by omega) (by omega) (by omega)]

/-- The widths of the spans of the loop, entered at `x0` at or before `clip.x2`, add up
to `clip.x2 - x0`. -/
theorem loop_sum (layer : Layer) (ts : Tileset) (tm : Tilemap) (nscan shift : Int) :
    ∀ (fuel : Nat) (x0 xtile srcx col d p : Int),
      0 ≤ srcx → srcx < ts.width → (layer.clip.x2 - x0).toNat ≤ fuel → x0 ≤ layer.clip.x2 →
      ((DrawLayerScanline.loop layer ts tm nscan shift fuel x0 xtile srcx col d p).map
        Span.width).sum = layer.clip.x2 - x0 := by
  intro fuel
  induction fuel with
  | zero =>
    intro x0 xtile srcx col d p _ _ hf hx
    have : layer.clip.x2 = x0 := by omega
    simp [DrawLayerScanline.loop, this]
  | succ fuel ih =>
    intro x0 xtile srcx col d p h0 h1 hf hx0
    by_cases hx : x0 < layer.clip.x2
    swap
    · rw [loop_nil layer ts tm nscan shift _ x0 xtile srcx col d p (by omega)]
      simp
      omega
    unfold DrawLayerScanline.loop
    simp only [hx, if_true]
    have hw : 1 ≤ (if x0 + (ts.width - srcx) > layer.clip.x2 then layer.clip.x2
        else x0 + (ts.width - srcx)) - x0 := by
      split_ifs <;> omega
    have hw2 : x0 + ((if x0 + (ts.width - srcx) > layer.clip.x2 then layer.clip.x2
        else x0 + (ts.width - srcx)) - x0) ≤ layer.clip.x2 := by
      split_ifs <;> omega
    generalize (if x0 + (ts.width - srcx) > layer.clip.x2 then layer.clip.x2
        else x0 + (ts.width - srcx)) - x0 = w at hw hw2
    rw [List.map_cons, List.sum_cons,
      ih (x0 + w) (cmod (xtile + 1) tm.cols) 0 (col + 1) (d + shl w shift)
        (p + shl w shift) (le_refl 0) (by omega) (by omega) hw2]
    show w + (layer.clip.x2 - (x0 + w)) = layer.clip.x2 - x0
    omega

/-- The row that a span samples lies in the layer, with or without column offsets. -/
theorem ypos_range (layer : Layer) (L column : Int) (hH : 0 < layer.height)
    (hv : 0 ≤ layer.vstart) (hL : 0 ≤ L) :
    0 ≤ DrawLayerScanline.ypos layer L column
    ∧ DrawLayerScanline.ypos layer L column < layer.height := by
  unfold DrawLayerScanline.ypos
  cases hc : layer.column with
  | none =>
    dsimp only
    rw [cmod_of_nonneg (by omega) hH.le]
    exact ⟨Int.emod_nonneg _ hH.ne', Int.emod_lt_of_pos _ hH⟩
  | some offsets =>
    dsimp only
    have h := wrap_eq_emod (layer.vstart + L + offsets column) layer.height hH
    have e : (if cmod (layer.vstart + L + offsets column) layer.height < 0
          then layer.height + cmod (layer.vstart + L + offsets column) layer.height
          else cmod (layer.vstart + L + offsets column) layer.height)
        = (layer.vstart + L + offsets column) % layer.height := by
      rw [← h]
      split_ifs
      · exact add_comm _ _
      · rfl
    rw [e]
    exact ⟨Int.emod_nonneg _ hH.ne', Int.emod_lt_of_pos _ hH⟩

/-- C36 (counterexample): with the clip rectangle `(8, 0, 4, 16)`, which `TLN_SetLayerClip` stores as
given, the layer of the demo engine satisfies the conditions of the claim
(bound, positioned, `0 <= clip.x1`, line 0), the loop has no span, and the
widths add up to 0, not to `clip.x2 - clip.x1 = -4`. -/
theorem inverted_clip_no_span :
    ((TLN_SetLayerClip demoEnv 0 8 0 4 16 demoEngine).2.layers[0]?).map (fun l => l.clip)
      = some demoLayerInverted.clip
    ∧ SpanScene demoLayerInverted demoTileset demoTilemap 0
    ∧ DrawLayerScanline.spans demoLayerInverted demoTileset demoTilemap 0 2 = []
    ∧ ((DrawLayerScanline.spans demoLayerInverted demoTileset demoTilemap 0 2).map
        Span.width).sum ≠ demoLayerInverted.clip.x2 - demoLayerInverted.clip.x1 := by
  refine ⟨by decide, ?_, by decide, by decide⟩
  exact
    { hshift_nonneg := by decide, vshift_nonneg := by decide, width_eq := by decide,
      height_eq := by decide, hmask_eq := by decide, vmask_eq := by decide,
      layer_width := by decide, layer_height := by decide, hstart_nonneg := by decide,
      hstart_lt := by decide, vstart_nonneg := by decide, vstart_lt := by decide,
      nscan_nonneg := by decide, clip_nonneg := by decide }

/-- C36 (amended): for a layer bound and positioned as the claim says, with `0 <= clip.x1` and a
scanline `L >= 0`, with or without column offsets, the span loop of
`DrawLayerScanline` terminates (any bound of at least `clip.x2 - clip.x1`
iterations yields the same spans, so the loop leaves by its own
condition), every span has a width between 1 and the tile width and looks
up a cell with `0 <= xtile < cols` and `0 <= ytile < rows`; the widths add
up to `clip.x2 - clip.x1` when `clip.x1 <= clip.x2`, and there is no span
when `clip.x2 <= clip.x1`. -/
theorem span_loop_safe (layer : Layer) (ts : Tileset) (tm : Tilemap) (L shift : Int)
    (hwf : SpanScene layer ts tm L) :
    (∀ fuel : Nat, (layer.clip.x2 - layer.clip.x1).toNat ≤ fuel →
        DrawLayerScanline.loop layer ts tm L shift fuel layer.clip.x1
          (shr (cmod (layer.hstart + layer.clip.x1) layer.width) ts.hshift)
          (band (cmod (layer.hstart + layer.clip.x1) layer.width) ts.hmask)
          (cmod layer.clip.x1 ts.width) (shl layer.clip.x1 shift) 0
        = DrawLayerScanline.spans layer ts tm L shift)
    ∧ (∀ s ∈ DrawLayerScanline.spans layer ts tm L shift,
        1 ≤ s.width ∧ s.width ≤ ts.width
        ∧ 0 ≤ s.xtile ∧ s.xtile < tm.cols ∧ 0 ≤ s.ytile ∧ s.ytile < tm.rows)
    ∧ (layer.clip.x1 ≤ layer.clip.x2 →
        ((DrawLayerScanline.spans layer ts tm L shift).map Span.width).sum
          = layer.clip.x2 - layer.clip.x1)
    ∧ (layer.clip.x2 ≤ layer.clip.x1 → DrawLayerScanline.spans layer ts tm L shift = []) := by
  have htw : 0 < ts.width := by rw [hwf.width_eq]; positivity
  have hth : 0 < ts.height := by rw [hwf.height_eq]; positivity
  have hW : 0 < layer.width := by
    have := hwf.hstart_nonneg; have := hwf.hstart_lt; omega
  have hH : 0 < layer.height := by
    have := hwf.vstart_nonneg; have := hwf.vstart_lt; omega
  have hcols : 0 < tm.cols := by
    have h := hW
    rw [hwf.layer_width] at h
    exact pos_of_mul_pos_left h htw.le
  have hrows : 0 < tm.rows := by
    have h := hH
    rw [hwf.layer_height] at h
    exact pos_of_mul_pos_left h hth.le
  have hx0 : 0 ≤ layer.hstart + layer.clip.x1 := by
    have := hwf.hstart_nonneg; have := hwf.clip_nonneg; omega
  have hxpos : cmod (layer.hstart + layer.clip.x1) layer.width
      = (layer.hstart + layer.clip.x1) % layer.width := cmod_of_nonneg hx0 hW.le
  have hxp0 : 0 ≤ (layer.hstart + layer.clip.x1) % layer.width := Int.emod_nonneg _ hW.ne'
  have hxp1 : (layer.hstart + layer.clip.x1) % layer.width < layer.width :=
    Int.emod_lt_of_pos _ hW
  have hsh : ∀ a, shr a ts.hshift = a / ts.width := by
    intro a; rw [shr_eq_div, hwf.width_eq]
  have hba : ∀ a, 0 ≤ a → band a ts.hmask = a % ts.width := by
    intro a ha; rw [hwf.hmask_eq, hwf.width_eq, band_pow_mask ha]
  have hsv : ∀ a, shr a ts.vshift = a / ts.height := by
    intro a; rw [shr_eq_div, hwf.height_eq]
  have hs0 : 0 ≤ band (cmod (layer.hstart + layer.clip.x1) layer.width) ts.hmask := by
    rw [hxpos, hba _ hxp0]; exact Int.emod_nonneg _ htw.ne'
  have hs1 : band (cmod (layer.hstart + layer.clip.x1) layer.width) ts.hmask < ts.width := by
    rw [hxpos, hba _ hxp0]; exact Int.emod_lt_of_pos _ htw
  have ht0 : 0 ≤ shr (cmod (layer.hstart + layer.clip.x1) layer.width) ts.hshift := by
    rw [hxpos, hsh]; exact Int.ediv_nonneg hxp0 htw.le
  have ht1 : shr (cmod (layer.hstart + layer.clip.x1) layer.width) ts.hshift < tm.cols := by
    rw [hxpos, hsh]
    apply Int.ediv_lt_of_lt_mul htw
    rw [← hwf.layer_width]; exact hxp1
  have hA : (layer.hstart + layer.clip.x1) % (tm.cols * ts.width)
      = shr (cmod (layer.hstart + layer.clip.x1) layer.width) ts.hshift * ts.width
        + band (cmod (layer.hstart + layer.clip.x1) layer.width) ts.hmask := by
    rw [hxpos, hsh, hba _ hxp0, ← hwf.layer_width]
    exact (Int.ediv_add_emod' _ _).symm
  have hspans : DrawLayerScanline.spans layer ts tm L shift
      = DrawLayerScanline.loop layer ts tm L shift (layer.clip.x2 - layer.clip.x1).toNat
          layer.clip.x1 (shr (cmod (layer.hstart + layer.clip.x1) layer.width) ts.hshift)
          (band (cmod (layer.hstart + layer.clip.x1) layer.width) ts.hmask)
          (cmod layer.clip.x1 ts.width) (shl layer.clip.x1 shift) 0 := rfl
  refine ⟨?_, ?_, ?_, ?_⟩
  · intro fuel hf
    rw [hspans]
    exact loop_fuel layer ts tm L shift _ _ _ _ _ _ _ _ hs0 hs1 hf (le_refl _)
  · intro s hs
    rw [hspans] at hs
    obtain ⟨p1, _, _⟩ := loop_spans layer ts tm L shift (layer.clip.x2 - layer.clip.x1).toNat
      layer.clip.x1 _ _ (cmod layer.clip.x1 ts.width) (shl layer.clip.x1 shift) 0 hs0 hs1
      (le_refl _)
    have q := p1 s hs
    obtain ⟨t0, t1, _⟩ := loop_tiles layer ts tm L shift hcols _ _ _ _ _ _ _
      hs0 hs1 ht0 ht1 hA s hs
    obtain ⟨y0, y1⟩ := ypos_range layer L s.column hH hwf.vstart_nonneg hwf.nscan_nonneg
    refine ⟨q.width_pos, ?_, t0, t1, ?_, ?_⟩
    · have := q.width_le; have := q.tilewidth_eq; have := q.srcx_nonneg; omega
    · rw [q.ytile_eq, hsv]; exact Int.ediv_nonneg y0 hth.le
    · rw [q.ytile_eq, hsv]
      apply Int.ediv_lt_of_lt_mul hth
      rw [← hwf.layer_height]; exact y1
  · intro hle
    rw [hspans]
    exact loop_sum layer ts tm L shift _ _ _ _ _ _ _ hs0 hs1 (le_refl _) hle
  · intro hle
    rw [hspans]
    exact loop_nil layer ts tm L shift _ _ _ _ _ _ _ hle

theorem demo_span_scene : SpanScene demoLayerColumn demoTileset demoTilemap 7 :=
  { hshift_nonneg := by decide, vshift_nonneg := by decide, width_eq := by decide,
    height_eq := by decide, hmask_eq := by decide, vmask_eq := by decide,
    layer_width := by decide, layer_height := by decide, hstart_nonneg := by decide,
    hstart_lt := by decide, vstart_nonneg := by decide, vstart_lt := by decide,
    nscan_nonneg := by decide, clip_nonneg := by decide }

/-- Witness of C36: the demo layer at position `(3, 5)` with the clip range `[2, 15)` and
column offsets, among them negative ones, on line 7: three spans of widths
3, 8 and 2, which add up to 13, over the cells of the columns 0, 1, 0 and
the rows 1, 0, 1. -/
theorem span_loop_safe_witness :
    SpanScene demoLayerColumn demoTileset demoTilemap 7
    ∧ (DrawLayerScanline.spans demoLayerColumn demoTileset demoTilemap 7 2).map
        (fun s => (s.x, s.width, s.xtile, s.ytile))
        = [(2, 3, 0, 1), (5, 8, 1, 0), (13, 2, 0, 1)]
    ∧ ((DrawLayerScanline.spans demoLayerColumn demoTileset demoTilemap 7 2).map
        Span.width).sum = 15 - 2 := by
  have h := span_loop_safe demoLayerColumn demoTileset demoTilemap 7 2 demo_span_scene
  exact ⟨demo_span_scene, by decide, h.2.2.1 (by decide)⟩
/-! ## The priority buffer and the pitch -/


theorem ldiff_three (m : Nat) : Nat.ldiff m 3 = m / 4 * 4 := by
  have h : m / 4 * 4 = (m >>> 2) <<< 2 := by
    rw [Nat.shiftLeft_eq, Nat.shiftRight_eq_div_pow]
  rw [h]
  apply Nat.eq_of_testBit_eq
  intro i
  rw [Nat.testBit_ldiff, Nat.testBit_shiftLeft, Nat.testBit_shiftRight]
  have h3 : Nat.testBit 3 i = decide (i < 2) := Nat.testBit_two_pow_sub_one 2 i
  rw [h3]
  by_cases hi : i < 2
  · have : ¬ i ≥ 2 := by omega
    simp [hi, this]
  · have h2 : i ≥ 2 := by omega
    have : 2 + (i - 2) = i := by omega
    simp [hi, h2, this]

theorem lor_three (m : Nat) : m ||| 3 = m / 4 * 4 + 3 := by
  have h : m / 4 * 4 = (m >>> 2) <<< 2 := by
    rw [Nat.shiftLeft_eq, Nat.shiftRight_eq_div_pow]
  have h4 : m / 4 * 4 + 3 = 2 ^ 2 * (m / 4) ||| 3 := by
    rw [← Nat.mul_add_lt_is_or (by decide : 3 < 2 ^ 2) (m / 4)]
    omega
  have h5 : 2 ^ 2 * (m / 4) = (m >>> 2) <<< 2 := by
    rw [← h]
    omega
  rw [h4, h5]
  apply Nat.eq_of_testBit_eq
  intro i
  rw [Nat.testBit_or, Nat.testBit_or, Nat.testBit_shiftLeft, Nat.testBit_shiftRight]
  have h3 : Nat.testBit 3 i = decide (i < 2) := Nat.testBit_two_pow_sub_one 2 i
  rw [h3]
  by_cases hi : i < 2
  · simp [hi]
  · have h2 : i ≥ 2 := by omega
    have : 2 + (i - 2) = i := by omega
    simp [hi, h2, this]

/-- The mask `& ~0x03` on a two's complement `int` subtracts the remainder modulo 4. -/
theorem band_not_three (x : Int) : band x (-4) = x - x % 4 := by
  unfold band
  cases x with
  | ofNat m =>
    show ((Nat.ldiff m 3 : Nat) : Int) = (m : Int) - (m : Int) % 4
    rw [ldiff_three]
    push_cast
    omega
  | negSucc m =>
    show Int.negSucc (m ||| 3) = Int.negSucc m - Int.negSucc m % 4
    rw [lor_three, Int.negSucc_eq, Int.negSucc_eq]
    push_cast
    omega

/-- The pitch of `TLN_Init` is the C expression `(((hres * 32) >> 3) + 3) & ~0x03`, and
equals `4 * hres`. -/
theorem pitch_mask (hres : Int) :
    TLN_Init.pitch hres = band (shr (hres * 32) 3 + 3) (-4)
    ∧ TLN_Init.pitch hres = 4 * hres := by
  constructor
  · rw [band_not_three]
    rfl
  · unfold TLN_Init.pitch
    dsimp only
    have h : shr (hres * 32) 3 = 4 * hres := by
      rw [shr_eq_div]
      have : (3 : Int).toNat = 3 := rfl
      rw [this]
      omega
    rw [h]
    omega

/-- C37 (code at the failing input): `TLN_Init(16, 16, 1, 0)` allocates 64 bytes for the priority
buffer; after `TLN_SetRenderTarget(data, 128)` the start of `DrawScanline`
clears 128 bytes, so that word 20 (bytes 80 to 83), which lies past the
allocation and held the pattern 7, is zero afterwards. With the pitch 64
of `TLN_Init` it is not touched. -/
theorem priority_clear_past_allocation :
    TLN_Init.pitch 16 = 64
    ∧ (TLN_SetRenderTarget (fun _ _ => 0) 128 demoFreshEngine).framebuffer.pitch = 128
    ∧ demoFreshEngine.priority 20 = 7
    ∧ (DrawScanline.start demoEnv
        (TLN_SetRenderTarget (fun _ _ => 0) 128 demoFreshEngine)).engine.priority 20 = 0
    ∧ (DrawScanline.start demoEnv demoFreshEngine).engine.priority 20 = 7 := by
  decide

/-! ## The clip rectangle -/

/-- C38 (code at the failing input): `TLN_SetLayerClip(0, 0, 0, 0, 16)` on the demo engine with the
layer in affine mode succeeds and stores `clip.x2 = 0`, the value by which
`DrawLayerScanlineAffine` divides. -/
theorem zero_clip_width_stored :
    (TLN_SetLayerClip demoEnv 0 0 0 0 16 (demoPriorityEngine demoLayerAffine)).1 = true
    ∧ ((TLN_SetLayerClip demoEnv 0 0 0 0 16 (demoPriorityEngine demoLayerAffine)).2.layers[0]?).map
        (fun l => (l.draw, l.ok, l.clip))
        = some (some .DrawLayerScanlineAffine, true, { x1 := 0, y1 := 0, x2 := 0, y2 := 16 }) := by
  decide

/-! ## Clip rectangles stay inside the framebuffer -/

theorem layerWrite_mem (e : Engine) (n : Int) (l layer : Layer)
    (h : layer ∈ (layerWrite e n l).layers) : layer ∈ e.layers ∨ layer = l := by
  unfold layerWrite at h
  split_ifs at h
  · exact List.mem_or_eq_of_mem_set h
  · exact Or.inl h

theorem layerWrite_inside (err : TLN_Error) (n : Int) (l : Layer) (e : Engine)
    (hinv : ClipsInside e) (hl : l.clip.inside e.framebuffer) :
    (TLN_SetLastError err (layerWrite e n l)).framebuffer = e.framebuffer
    ∧ (TLN_SetLastError err (layerWrite e n l)).layers.length = e.layers.length
    ∧ ClipsInside (TLN_SetLastError err (layerWrite e n l)) := by
  have hfb : (TLN_SetLastError err (layerWrite e n l)).framebuffer = e.framebuffer := by
    unfold layerWrite; split_ifs <;> rfl
  refine ⟨hfb, by unfold layerWrite; split_ifs <;> simp [TLN_SetLastError], ?_⟩
  intro layer hmem
  rw [hfb]
  rcases layerWrite_mem e n l layer hmem with h | h
  · exact hinv layer h
  · rw [h]; exact hl

theorem TLN_SetLayerClip_inside (n x1 y1 x2 y2 : Int) (e : Engine)
    (hw : 0 ≤ e.framebuffer.width) (hh : 0 ≤ e.framebuffer.height) (hinv : ClipsInside e) :
    (TLN_SetLayerClip env n x1 y1 x2 y2 e).2.framebuffer = e.framebuffer
    ∧ (TLN_SetLayerClip env n x1 y1 x2 y2 e).2.layers.length = e.layers.length
    ∧ ClipsInside (TLN_SetLayerClip env n x1 y1 x2 y2 e).2 := by
  unfold TLN_SetLayerClip
  by_cases hn : n ≥ e.numlayers
  · rw [if_pos hn]
    exact ⟨rfl, rfl, hinv⟩
  · rw [if_neg hn]
    apply layerWrite_inside
    · exact hinv
    · unfold rect_t.inside
      dsimp only
      split_ifs <;> omega

theorem TLN_DisableLayerClip_inside (n : Int) (e : Engine)
    (hw : 0 ≤ e.framebuffer.width) (hh : 0 ≤ e.framebuffer.height) (hinv : ClipsInside e) :
    (TLN_DisableLayerClip env n e).2.framebuffer = e.framebuffer
    ∧ (TLN_DisableLayerClip env n e).2.layers.length = e.layers.length
    ∧ ClipsInside (TLN_DisableLayerClip env n e).2 := by
  unfold TLN_DisableLayerClip
  by_cases hn : n ≥ e.numlayers
  · rw [if_pos hn]
    exact ⟨rfl, rfl, hinv⟩
  · rw [if_neg hn]
    apply layerWrite_inside
    · exact hinv
    · unfold rect_t.inside
      dsimp only
      omega

/-- The loop `for (c = 0; c < numlayers; c++) TLN_DisableLayerClip(c)` of `TLN_Init`, run on the
first `k` layers of an engine with at least `k` layers: the framebuffer
and the number of layers are kept, the first `k` layers have the full
clip rectangle, and a layer record changes in its clip rectangle only. -/
theorem init_clip_loop (e : Engine) :
    ∀ k : Nat, k ≤ e.layers.length →
      ((List.range k).foldl (fun (e : Engine) (c : Nat) => (TLN_DisableLayerClip env (c : Int) e).2) e).framebuffer
          = e.framebuffer
      ∧ ((List.range k).foldl
          (fun (e : Engine) (c : Nat) => (TLN_DisableLayerClip env (c : Int) e).2) e).layers.length
          = e.layers.length
      ∧ ∀ (i : Nat) (l : Layer),
          ((List.range k).foldl
            (fun (e : Engine) (c : Nat) => (TLN_DisableLayerClip env (c : Int) e).2) e).layers[i]? = some l →
          (i < k → l.clip = { x1 := 0, y1 := 0, x2 := e.framebuffer.width,
                              y2 := e.framebuffer.height })
          ∧ ∃ l0, e.layers[i]? = some l0 ∧ { l with clip := l0.clip } = l0 := by
  intro k
  induction k with
  | zero =>
    intro _
    refine ⟨rfl, rfl, ?_⟩
    intro i l hl
    exact ⟨fun h => absurd h (Nat.not_lt_zero _), l, hl, rfl⟩
  | succ k ih =>
    intro hk
    obtain ⟨hfb, hlen, hget⟩ := ih (by omega)
    rw [List.range_succ, List.foldl_append]
    simp only [List.foldl_cons, List.foldl_nil]
    generalize hE : (List.range k).foldl
      (fun (e : Engine) (c : Nat) => (TLN_DisableLayerClip env (c : Int) e).2) e = E at hfb hlen hget
    have hn : ¬ ((k : Int) ≥ E.numlayers) := by
      unfold Engine.numlayers
      omega
    have hstep : (TLN_DisableLayerClip env (k : Int) E).2
        = { E with
            error := .TLN_ERR_OK
            layers := E.layers.set k
              { layerRead env E k with
                clip := { x1 := 0, x2 := E.framebuffer.width, y1 := 0,
                          y2 := E.framebuffer.height } } } := by
      unfold TLN_DisableLayerClip
      rw [if_neg hn]
      simp only [layerWrite_nat, TLN_SetLastError]
    rw [hstep]
    refine ⟨hfb, by simp [hlen], ?_⟩
    intro i l hl
    have hklt : k < E.layers.length := by omega
    by_cases hik : i = k
    · subst hik
      obtain ⟨lk, hlk⟩ : ∃ lk, E.layers[i]? = some lk :=
        ⟨E.layers[i], List.getElem?_eq_getElem hklt⟩
      rw [layerRead_nat env i E lk hlk] at hl
      simp only [List.getElem?_set, hklt, if_true] at hl
      have hl2 := Option.some.inj hl
      obtain ⟨_, l0, h0, h1⟩ := hget i lk hlk
      refine ⟨fun _ => ?_, l0, h0, ?_⟩
      · rw [← hl2, hfb]
      · rw [← hl2, ← h1]
    · have hl2 : E.layers[i]? = some l := by
        simpa [List.getElem?_set, Ne.symm hik] using hl
      obtain ⟨h0, h1⟩ := hget i l hl2
      exact ⟨fun hi => h0 (by omega), h1⟩

/-- C39 (counterexample): `TLN_Init(16, -1, 1, 0)` returns an engine of height -1 whose layer has the
clip rectangle `(0, 0, 16, -1)`: `0 <= clip.y2` and `clip.y1 <= height` fail. -/
theorem negative_height_clip_outside :
    (TLN_Init demoEnv (some demoInitAlloc) 16 (-1) 1 0).map
        (fun e => (e.framebuffer.width, e.framebuffer.height, e.layers.map (fun l => l.clip)))
      = some (16, -1, [{ x1 := 0, y1 := 0, x2 := 16, y2 := -1 }])
    ∧ ∃ e, TLN_Init demoEnv (some demoInitAlloc) 16 (-1) 1 0 = some e ∧ ¬ ClipsInside e := by
  refine ⟨by decide, _, rfl, ?_⟩
  intro h
  have hmem : { blankLayer with
      mosaic := { w := 0, h := 0, buffer := demoInitAlloc.mosaic 0 }
      clip := { x1 := 0, y1 := 0, x2 := 16, y2 := -1 } }
      ∈ ((List.range (1 : Int).toNat).foldl
        (fun (e : Engine) (c : Nat) => (TLN_DisableLayerClip demoEnv (c : Int) e).2)
        (TLN_Init.context demoInitAlloc 16 (-1) 1 0)).layers := by
    simp [TLN_Init.context, TLN_DisableLayerClip, layerWrite, layerRead, TLN_SetLastError,
      Engine.numlayers, List.range_succ]
  have h2 := h _ hmem
  unfold rect_t.inside at h2
  exact absurd h2.2.2.2.2.2.2.1 (by decide)

/-- C39 (amended): for a resolution `hres`, `vres` that is not negative, `TLN_Init` returns an engine of
that width and height whose layers all have the clip rectangle
`(0, 0, hres, vres)`; and on an engine whose clip rectangles lie inside the
framebuffer, `TLN_SetLayerClip` and `TLN_DisableLayerClip` with any integer
arguments keep the framebuffer and leave every clip rectangle inside it:
`0 <= x1 <= width`, `0 <= x2 <= width`, `0 <= y1 <= height` and
`0 <= y2 <= height`. On a layer of the array `TLN_SetLayerClip` stores a
coordinate inside its range as given and replaces one outside by its
default (0 for `x1` and `y1`, the width for `x2`, the height for `y2`);
`TLN_DisableLayerClip` stores the four defaults. -/
theorem clip_inside_framebuffer (a : InitAlloc) (hres vres numlayers numsprites : Int)
    (hhres : 0 ≤ hres) (hvres : 0 ≤ vres)
    (e : Engine) (hw : 0 ≤ e.framebuffer.width) (hh : 0 ≤ e.framebuffer.height)
    (hinv : ClipsInside e) :
    (∃ e0, TLN_Init env (some a) hres vres numlayers numsprites = some e0
      ∧ e0.framebuffer.width = hres ∧ e0.framebuffer.height = vres
      ∧ e0.layers.length = numlayers.toNat
      ∧ ClipsInside e0
      ∧ ∀ layer ∈ e0.layers, layer.clip = { x1 := 0, y1 := 0, x2 := hres, y2 := vres })
    ∧ (∀ n x1 y1 x2 y2 : Int,
        (TLN_SetLayerClip env n x1 y1 x2 y2 e).2.framebuffer = e.framebuffer
        ∧ ClipsInside (TLN_SetLayerClip env n x1 y1 x2 y2 e).2
        ∧ ∀ (c : Nat) (layer : Layer), e.layers[c]? = some layer →
            (TLN_SetLayerClip env c x1 y1 x2 y2 e).2.layers[c]? = some
              { layer with
                clip :=
                  { x1 := if 0 ≤ x1 ∧ x1 ≤ e.framebuffer.width then x1 else 0
                    x2 := if 0 ≤ x2 ∧ x2 ≤ e.framebuffer.width then x2
                      else e.framebuffer.width
                    y1 := if 0 ≤ y1 ∧ y1 ≤ e.framebuffer.height then y1 else 0
                    y2 := if 0 ≤ y2 ∧ y2 ≤ e.framebuffer.height then y2
                      else e.framebuffer.height } })
    ∧ (∀ n : Int,
        (TLN_DisableLayerClip env n e).2.framebuffer = e.framebuffer
        ∧ ClipsInside (TLN_DisableLayerClip env n e).2
        ∧ ∀ (c : Nat) (layer : Layer), e.layers[c]? = some layer →
            (TLN_DisableLayerClip env c e).2.layers[c]? = some
              { layer with
                clip := { x1 := 0, y1 := 0, x2 := e.framebuffer.width,
                          y2 := e.framebuffer.height } }) := by
  refine ⟨?_, ?_, ?_⟩
  · unfold TLN_Init
    dsimp only
    refine ⟨_, rfl, ?_⟩
    generalize hctx : TLN_Init.context a hres vres numlayers numsprites = ctx
    have hcw : ctx.framebuffer.width = hres := by rw [← hctx]; rfl
    have hch : ctx.framebuffer.height = vres := by rw [← hctx]; rfl
    have hcl : ctx.layers.length = numlayers.toNat := by
      rw [← hctx]; simp [TLN_Init.context]
    obtain ⟨hfb, hlen, hget⟩ := init_clip_loop env ctx numlayers.toNat (by omega)
    have hfull : ∀ layer ∈ ((List.range numlayers.toNat).foldl
        (fun (e : Engine) (c : Nat) => (TLN_DisableLayerClip env (c : Int) e).2) ctx).layers,
        layer.clip = { x1 := 0, y1 := 0, x2 := hres, y2 := vres } := by
      intro layer hmem
      obtain ⟨i, hi⟩ := List.mem_iff_getElem?.mp hmem
      have hlt := (List.getElem?_eq_some_iff.mp hi).1
      have := (hget i layer hi).1 (by omega)
      rw [this, hcw, hch]
    refine ⟨by rw [hfb, hcw], by rw [hfb, hch], by rw [hlen, hcl], ?_, hfull⟩
    intro layer hmem
    rw [hfull layer hmem, hfb]
    unfold rect_t.inside
    dsimp only
    omega
  · intro n x1 y1 x2 y2
    obtain ⟨h1, _, h3⟩ := TLN_SetLayerClip_inside env n x1 y1 x2 y2 e hw hh hinv
    refine ⟨h1, h3, ?_⟩
    intro c layer hl
    have hlt : c < e.layers.length := (List.getElem?_eq_some_iff.mp hl).1
    have hnl : ¬ ((c : Int) ≥ e.numlayers) := by
      unfold Engine.numlayers
      omega
    unfold TLN_SetLayerClip
    rw [if_neg hnl, layerRead_nat env c e layer hl]
    simp only [layerWrite_nat, TLN_SetLastError, List.getElem?_set, hlt, if_true, ge_iff_le]
  · intro n
    obtain ⟨h1, _, h3⟩ := TLN_DisableLayerClip_inside env n e hw hh hinv
    refine ⟨h1, h3, ?_⟩
    intro c layer hl
    have hlt : c < e.layers.length := (List.getElem?_eq_some_iff.mp hl).1
    have hnl : ¬ ((c : Int) ≥ e.numlayers) := by
      unfold Engine.numlayers
      omega
    unfold TLN_DisableLayerClip
    rw [if_neg hnl, layerRead_nat env c e layer hl]
    simp only [layerWrite_nat, TLN_SetLastError, List.getElem?_set, hlt, if_true]

/-- Witness of C39: `TLN_Init(16, 16, 1, 0)` yields one layer with the clip rectangle
`(0, 0, 16, 16)`; on the demo engine `TLN_SetLayerClip(0, -3, 2, 40, 9)` stores
`(0, 2, 16, 9)`, and `TLN_DisableLayerClip(0)` stores `(0, 0, 16, 16)`. -/
theorem clip_inside_framebuffer_witness :
    ClipsInside demoEngine
    ∧ (TLN_Init demoEnv (some demoInitAlloc) 16 16 1 0).map
        (fun e => e.layers.map (fun l => l.clip)) = some [{ x1 := 0, y1 := 0, x2 := 16, y2 := 16 }]
    ∧ ClipsInside (TLN_SetLayerClip demoEnv 0 (-3) 2 40 9 demoEngine).2
    ∧ ((TLN_SetLayerClip demoEnv 0 (-3) 2 40 9 demoEngine).2.layers[0]?).map (fun l => l.clip)
        = some { x1 := 0, y1 := 2, x2 := 16, y2 := 9 }
    ∧ ((TLN_DisableLayerClip demoEnv 0 demoEngine).2.layers[0]?).map (fun l => l.clip)
        = some { x1 := 0, y1 := 0, x2 := 16, y2 := 16 } := by
  have hinv : ClipsInside demoEngine := by
    intro layer hmem
    have h : layer = demoLayer ∨ layer = { demoLayer with ok := false } := by
      simpa [demoEngine] using hmem
    rcases h with h | h <;> rw [h] <;> unfold rect_t.inside <;> decide
  have h := clip_inside_framebuffer demoEnv demoInitAlloc 16 16 1 0 (by decide) (by decide)
    demoEngine (by decide) (by decide) hinv
  exact ⟨hinv, by decide, (h.2.1 0 (-3) 2 40 9).2.1, by decide, by decide⟩

/-! ## The priority attribute -/

theorem applyPriorityAttribute_spec (a : Int → TLN_TileAttributes) (t : Tile) :
    (applyPriorityAttribute a t).index = t.index
    ∧ (applyPriorityAttribute a t).flags &&& 0xEFFF = t.flags &&& 0xEFFF
    ∧ (t.index = 0 → applyPriorityAttribute a t = t)
    ∧ (t.index ≠ 0 →
        hasFlag (applyPriorityAttribute a t).flags FLAG_PRIORITY
          = (a ((t.index : Int) - 1)).priority) := by
  unfold applyPriorityAttribute
  by_cases h0 : t.index = 0
  · simp [h0]
  · rw [if_pos h0]
    by_cases hp : (a ((t.index : Int) - 1)).priority = true
    · rw [if_pos hp]
      refine ⟨rfl, ?_, fun h => absurd h h0, fun _ => ?_⟩
      · show (t.flags ||| FLAG_PRIORITY) &&& 0xEFFF = t.flags &&& 0xEFFF
        rw [Nat.and_distrib_right]
        have : FLAG_PRIORITY &&& 0xEFFF = 0 := by decide
        rw [this, Nat.or_zero]
      · rw [hp]
        show ((t.flags ||| FLAG_PRIORITY) &&& FLAG_PRIORITY != 0) = true
        have hbit : ((t.flags ||| FLAG_PRIORITY) &&& FLAG_PRIORITY).testBit 12 = true := by
          have : FLAG_PRIORITY.testBit 12 = true := by decide
          rw [Nat.testBit_and, Nat.testBit_or, this]
          simp
        simp only [bne_iff_ne, ne_eq]
        intro hz
        rw [hz] at hbit
        simp at hbit
    · rw [if_neg hp]
      refine ⟨rfl, ?_, fun h => absurd h h0, fun _ => ?_⟩
      · show (t.flags &&& 0xEFFF) &&& 0xEFFF = t.flags &&& 0xEFFF
        rw [Nat.and_assoc, Nat.and_self]
      · have hp2 : (a ((t.index : Int) - 1)).priority = false := by
          simpa using hp
        rw [hp2]
        show ((t.flags &&& 0xEFFF) &&& FLAG_PRIORITY != 0) = false
        rw [Nat.and_assoc]
        have : (0xEFFF : Nat) &&& FLAG_PRIORITY = 0 := by decide
        rw [this, Nat.and_zero]
        rfl

/-- A bit of the flag word below the mask `0xEFFF` is read off the masked word. -/
theorem masked_flags {f g m : Nat} (h : f &&& 0xEFFF = g &&& 0xEFFF) (hm : 0xEFFF &&& m = m) :
    f &&& m = g &&& m := by
  rw [← hm, ← Nat.and_assoc, ← Nat.and_assoc, h]

/-- C40: a call of `TLN_SetLayerTilemap` with a layer index below the layer count, a live
tilemap and its live tileset with attributes returns true and stores the
tilemap back with the priority bit of its cells rewritten and nothing
else: every cell keeps its index, its flag bits other than the priority
bit (`flags & 0xEFFF`, among them the flip bits and the palette selector)
and every empty cell is unchanged; a non-empty cell among the
`rows * cols` cells has `FLAG_PRIORITY` exactly if the attribute record
`index - 1` has `priority = true`. The other fields of the tilemap, the
other tilemaps and the tilesets are unchanged. -/
theorem priority_bit_only (nlayer : Int) (k : Nat) (e : Engine) (tm : Tilemap) (ts : Tileset)
    (a : Int → TLN_TileAttributes) (hn : nlayer < e.numlayers)
    (htm : e.tilemaps k = some tm) (hts : e.tilesetAt tm.tileset = some ts)
    (ha : ts.attributes = some a) :
    (TLN_SetLayerTilemap env nlayer (some k) e).1 = true
    ∧ (TLN_SetLayerTilemap env nlayer (some k) e).2.tilesets = e.tilesets
    ∧ (∀ j, j ≠ k → (TLN_SetLayerTilemap env nlayer (some k) e).2.tilemaps j = e.tilemaps j)
    ∧ ∃ tm2, (TLN_SetLayerTilemap env nlayer (some k) e).2.tilemaps k = some tm2
        ∧ { tm2 with tiles := tm.tiles } = tm
        ∧ ∀ c : Int,
            (tm2.tiles c).index = (tm.tiles c).index
            ∧ (tm2.tiles c).flags &&& 0xEFFF = (tm.tiles c).flags &&& 0xEFFF
            ∧ hasFlag (tm2.tiles c).flags FLAG_FLIPX = hasFlag (tm.tiles c).flags FLAG_FLIPX
            ∧ hasFlag (tm2.tiles c).flags FLAG_FLIPY = hasFlag (tm.tiles c).flags FLAG_FLIPY
            ∧ (tm2.tiles c).flags &&& FLAG_PALETTES = (tm.tiles c).flags &&& FLAG_PALETTES
            ∧ ((tm.tiles c).index = 0 → tm2.tiles c = tm.tiles c)
            ∧ (0 ≤ c → c < tm.rows * tm.cols → (tm.tiles c).index ≠ 0 →
                hasFlag (tm2.tiles c).flags FLAG_PRIORITY
                  = (a (((tm.tiles c).index : Int) - 1)).priority) := by
  have hnl : ¬ (nlayer ≥ e.numlayers) := by omega
  have hstore : ∀ l, (layerWrite e nlayer l).tilemaps = e.tilemaps
      ∧ (layerWrite e nlayer l).tilesets = e.tilesets := by
    intro l
    unfold layerWrite
    split_ifs <;> exact ⟨rfl, rfl⟩
  obtain ⟨h, hh⟩ : ∃ h, tm.tileset = some h := by
    cases hx : tm.tileset with
    | none => simp [Engine.tilesetAt, hx] at hts
    | some h => exact ⟨h, rfl⟩
  have hts2 : e.tilesets h = some ts := by
    simpa [Engine.tilesetAt, hh] using hts
  have hcell : ∀ c : Int,
      ((applyPriorityAttributes ts tm).tiles c = applyPriorityAttribute a (tm.tiles c)
        ∧ 0 ≤ c ∧ c < tm.rows * tm.cols)
      ∨ ((applyPriorityAttributes ts tm).tiles c = tm.tiles c
        ∧ ¬ (0 ≤ c ∧ c < tm.rows * tm.cols)) := by
    intro c
    unfold applyPriorityAttributes
    rw [ha]
    dsimp only
    by_cases hc : 0 ≤ c ∧ c < tm.rows * tm.cols
    · rw [if_pos hc]; exact Or.inl ⟨rfl, hc⟩
    · rw [if_neg hc]; exact Or.inr ⟨rfl, hc⟩
  have hfields : { applyPriorityAttributes ts tm with tiles := tm.tiles } = tm := by
    unfold applyPriorityAttributes
    rw [ha]
  have hres : (TLN_SetLayerTilemap env nlayer (some k) e).1 = true
      ∧ (TLN_SetLayerTilemap env nlayer (some k) e).2.tilesets = e.tilesets
      ∧ (TLN_SetLayerTilemap env nlayer (some k) e).2.tilemaps
        = fun j => if j = k then some (applyPriorityAttributes ts tm) else e.tilemaps j := by
    unfold TLN_SetLayerTilemap
    rw [if_neg hnl]
    simp only [CheckBaseObject, (hstore _).1, (hstore _).2, htm, hh, hts2]
    refine ⟨trivial, ?_, ?_⟩
    · simp only [TLN_SetLastError, Engine.setTilemap]
      unfold layerWrite
      split_ifs <;> rfl
    · simp only [TLN_SetLastError, Engine.setTilemap]
      unfold layerWrite
      split_ifs <;> rfl
  obtain ⟨h1, h2, h3⟩ := hres
  refine ⟨h1, h2, ?_, applyPriorityAttributes ts tm, ?_, hfields, ?_⟩
  · intro j hj
    rw [h3]
    simp [hj]
  · rw [h3]
    simp
  · intro c
    obtain ⟨s1, s2, s3, s4⟩ := applyPriorityAttribute_spec a (tm.tiles c)
    rcases hcell c with ⟨hc, hc0, hc1⟩ | ⟨hc, hout⟩
    · rw [hc]
      refine ⟨s1, s2, ?_, ?_, masked_flags s2 (by decide), s3, fun _ _ hne => s4 hne⟩
      · unfold hasFlag
        rw [masked_flags s2 (by decide : 0xEFFF &&& FLAG_FLIPX = FLAG_FLIPX)]
      · unfold hasFlag
        rw [masked_flags s2 (by decide : 0xEFFF &&& FLAG_FLIPY = FLAG_FLIPY)]
    · rw [hc]
      exact ⟨rfl, rfl, rfl, rfl, rfl, fun _ => rfl, fun h0 h1 _ => absurd ⟨h0, h1⟩ hout⟩

/-- Witness of C40: on the demo tilemap over a tileset whose tile 0 alone has priority, the
cell of tile 1 gains `FLAG_PRIORITY`, the cell of tile 2 loses it and
keeps `FLAG_FLIPX` and palette 5, the empty cell keeps its flag word, and
the last cell keeps `FLAG_FLIPY`. -/
theorem priority_bit_only_witness :
    (0 : Int) < demoAttributesEngine.numlayers
    ∧ demoAttributesEngine.tilemaps 0 = some demoTilemapAttributes
    ∧ (TLN_SetLayerTilemap demoEnv 0 (some 0) demoAttributesEngine).1 = true
    ∧ ((TLN_SetLayerTilemap demoEnv 0 (some 0) demoAttributesEngine).2.tilemaps 0).map
        (fun t => [t.tiles 0, t.tiles 1, t.tiles 2, t.tiles 3])
        = some [{ index := 1, flags := 0x1000 }, { index := 2, flags := 0x8005 },
                { index := 0, flags := 0x1000 }, { index := 1, flags := 0x5000 }] := by
  refine ⟨by decide, rfl, ?_, by decide⟩
  exact (priority_bit_only demoEnv 0 0 demoAttributesEngine demoTilemapAttributes
    demoTilesetAttributes (fun i => { type := 0, priority := decide (i = 0) })
    (by decide) rfl rfl rfl).1

/-! ## Normal mode: where a priority cell is written -/

theorem paintSpan_pri_inside (fb : Nat) (pals : Nat → Option Palette) (layer : Layer)
    (ts : Tileset) (m : Bool) (st : Buf × Buf) (s : Span) (b : ScanBlitPtr) (a p : Int)
    (hne : s.tile.index ≠ 0) (hp : hasFlag s.tile.flags FLAG_PRIORITY = true)
    (hb : s.blitter layer ts = some b) (h32 : b.bpp32 = true) (hd : s.prioff = 4 * a)
    (hx1 : a ≤ p) (hx2 : p < a + s.width) :
    (paintSpan fb pals layer ts m st s).2 p
      = (blitValue b pals s.palette layer.blend
          (blitSource b fb ts.data (s.srcoff ts) s.direction 0 (p - a)) (st.2 p)).getD
          (st.2 p) := by
  unfold paintSpan
  simp only [hne, hp, ne_eq, not_false_eq_true, if_true, hb, hd]
  exact blitToWords_inside b h32 fb pals _ _ _ _ _ _ _ _ _ _ hx1 hx2

/-- The priority buffer after the spans are painted, at the word `x - clip.x1` that
the span `s` of a priority cell addresses for its pixel `x`: the result of
painting `s` alone over the original word. -/
theorem normal_pri_inside (fb : Nat) (pals : Nat → Option Palette) (layer : Layer)
    (ts : Tileset) (tm : Tilemap) (L : Int) (hm : ts.hmask = ts.width - 1) (h0 : 0 ≤ ts.hmask)
    (scan pri : Buf) (s : Span) (hs : s ∈ DrawLayerScanline.spans layer ts tm L 2)
    (x : Int) (hx1 : s.x ≤ x) (hx2 : x < s.x + s.width) (b : ScanBlitPtr)
    (hne : s.tile.index ≠ 0) (hp : hasFlag s.tile.flags FLAG_PRIORITY = true)
    (hb : s.blitter layer ts = some b) (h32 : b.bpp32 = true) :
    ((DrawLayerScanline.spans layer ts tm L 2).foldl
      (paintSpan fb pals layer ts false) (scan, pri)).2 (x - layer.clip.x1)
      = (blitValue b pals s.palette layer.blend
          (blitSource b fb ts.data (s.srcoff ts) s.direction 0 (x - s.x))
          (pri (x - layer.clip.x1))).getD (pri (x - layer.clip.x1)) := by
  obtain ⟨w1, w2, _⟩ := spans_wf layer ts tm L hm h0
  obtain ⟨l1, l2, hl⟩ := List.append_of_mem hs
  rw [hl] at w1 w2 ⊢
  rw [List.pairwise_append] at w2
  obtain ⟨_, w3, w4⟩ := w2
  rw [List.pairwise_cons] at w3
  have hd := (span_dstoff (w1 s (by simp))).2
  have f1 : ∀ st : Buf × Buf,
      (l1.foldl (paintSpan fb pals layer ts false) st).2 (x - layer.clip.x1)
        = st.2 (x - layer.clip.x1) := by
    intro st
    apply foldl_paint_pri_outside fb pals layer ts false layer.clip.x1
    intro t ht
    refine ⟨(span_dstoff (w1 t (by simp [ht]))).2, ?_⟩
    have := w4 t ht s (by simp)
    right; left; omega
  have f2 : ∀ st : Buf × Buf,
      (l2.foldl (paintSpan fb pals layer ts false) st).2 (x - layer.clip.x1)
        = st.2 (x - layer.clip.x1) := by
    intro st
    apply foldl_paint_pri_outside fb pals layer ts false layer.clip.x1
    intro t ht
    refine ⟨(span_dstoff (w1 t (by simp [ht]))).2, ?_⟩
    have := w3.1 t ht
    left; omega
  rw [List.foldl_append, List.foldl_cons, f2,
    paintSpan_pri_inside fb pals layer ts false _ s b (s.x - layer.clip.x1)
      (x - layer.clip.x1) hne hp hb h32 hd (by omega) (by omega), f1]
  have e : x - layer.clip.x1 - (s.x - layer.clip.x1) = x - s.x := by ring
  rw [e]

/-- Normal mode without mosaic or column offsets, for a destination `x` of the clip
range whose cell is a non-empty priority cell: the source index that the
claim names for `x` is stored, by the bound 32-bit non-scaling blitter, at
the word `x - clip.x1` of the priority buffer, and the pixel `x` of the line
is left as it was. The word is the word `x` exactly when `clip.x1 = 0`. -/
theorem normal_priority_word (fb : Nat) (pals : Nat → Option Palette) (fbwidth : Int)
    (layer : Layer) (ts : Tileset) (tm : Tilemap) (L x : Int) (scan pri tmp : Buf)
    (hwf : NormalScene layer ts tm L) (hx1 : layer.clip.x1 ≤ x) (hx2 : x < layer.clip.x2)
    (hne : (specCell layer ts tm L x).index ≠ 0)
    (hp : hasFlag (specCell layer ts tm L x).flags FLAG_PRIORITY = true)
    (b : ScanBlitPtr)
    (hb : layer.blitters (ts.color_key (GetTilesetLine ts
      ((ts.tiles ((specCell layer ts tm L x).index : Int) : Nat) : Int)
      (specSrcY layer ts tm L x))) = some b)
    (h32 : b.bpp32 = true) (hsc : b.scaling = false) :
    (DrawLayerScanlineCore fb pals fbwidth layer ts tm L scan pri tmp).priority
        (x - layer.clip.x1)
      = (blitValue b pals ((specCell layer ts tm L x).flags &&& FLAG_PALETTES) layer.blend
          (specSourceIndex layer ts tm L x) (pri (x - layer.clip.x1))).getD
          (pri (x - layer.clip.x1))
    ∧ (DrawLayerScanlineCore fb pals fbwidth layer ts tm L scan pri tmp).scan x = scan x := by
  obtain ⟨s, hs, hsx1, hsx2, q, hcell, hu, hv⟩ := normal_span_at layer ts tm L x hwf hx1 hx2
  have hsy : s.blitSrcy ts = specSrcY layer ts tm L x := by
    unfold Span.blitSrcy specSrcY
    rw [hcell, hv]
    split_ifs <;> ring
  have hti : s.tileIndex ts = ((ts.tiles ((specCell layer ts tm L x).index : Int) : Nat) : Int) := by
    unfold Span.tileIndex
    rw [hcell]
  have hsrc : s.srcoff ts + (x - s.x) * s.direction
      = GetTilesetPixelAddr ts
          ((ts.tiles ((specCell layer ts tm L x).index : Int) : Nat) : Int)
          (specSrcX layer ts tm L x) (specSrcY layer ts tm L x) := by
    unfold Span.srcoff
    rw [GetTilesetPixelAddr_add, hsy, hti]
    congr 1
    unfold Span.blitSrcx Span.direction specSrcX
    rw [q.step_eq, q.tilewidth_eq, hcell, ← hu]
    split_ifs <;> ring
  have hsi : blitSource b fb ts.data (s.srcoff ts) s.direction 0 (x - s.x)
      = specSourceIndex layer ts tm L x := by
    unfold blitSource specSourceIndex GetTilesetPixel
    simp only [hsc, Bool.false_eq_true, if_false]
    rw [hsrc]
  have htw : 0 < ts.width := by rw [hwf.width_eq]; positivity
  have hm0 : 0 ≤ ts.hmask := by rw [hwf.hmask_eq]; omega
  have hcore : (DrawLayerScanlineCore fb pals fbwidth layer ts tm L scan pri tmp).priority
      = ((DrawLayerScanline.spans layer ts tm L 2).foldl
          (paintSpan fb pals layer ts false) (scan, pri)).2 := by
    unfold DrawLayerScanlineCore
    simp [hwf.mosaic_off]
  have hb2 : s.blitter layer ts = some b := by
    unfold Span.blitter
    rw [hsy, hti, hb]
  constructor
  · rw [hcore, normal_pri_inside fb pals layer ts tm L hwf.hmask_eq hm0 scan pri s hs x hsx1 hsx2
      b (by rw [hcell]; exact hne) (by rw [hcell]; exact hp) hb2 h32, hsi]
    unfold Span.palette
    rw [hcell]
  · exact (normal_line fb pals fbwidth layer ts tm L scan pri tmp hwf x).2.1 hx1 hx2 (Or.inr hp)

theorem demo_clipped_scene : NormalScene demoLayerClipped demoTileset demoTilemapPriority 0 :=
  { hshift_nonneg := by decide, vshift_nonneg := by decide, width_eq := by decide,
    height_eq := by decide, hmask_eq := by decide, vmask_eq := by decide,
    cols_pos := by decide, rows_pos := by decide, layer_width := by decide,
    layer_height := by decide, hstart_nonneg := by decide, vstart_nonneg := by decide,
    nscan_nonneg := by decide, clip_nonneg := by decide, mosaic_off := by decide,
    no_column := rfl }

/-- C3 (code at the failing input): normal mode, no mosaic, no column offsets, the clip rectangle
`(4, 0, 16, 16)` that `TLN_SetLayerClip` stores, line 0, destination `x = 4`.
The cell at row 0, column 0 is tile 1 with `FLAG_PRIORITY`, the in-tile
offset is `(4, 0)` and the source index of the claim is 5. The renderer
stores it at pixel 0 of its destination, the priority buffer; pixel 4 of
the priority buffer and pixel 4 of the line keep their values, and after
the overlay of `DrawScanline` the index shows at pixel 0 of the line and
not at pixel 4. -/
theorem priority_source_displaced :
    NormalScene demoLayerClipped demoTileset demoTilemapPriority 0
    ∧ ((TLN_SetLayerClip demoEnv 0 4 0 16 16 demoPriorityCellEngine).2.layers[0]?).map
        (fun l => l.clip) = some demoLayerClipped.clip
    ∧ specCell demoLayerClipped demoTileset demoTilemapPriority 0 4
        = { index := 1, flags := FLAG_PRIORITY }
    ∧ specSrcX demoLayerClipped demoTileset demoTilemapPriority 0 4 = 4
    ∧ specSrcY demoLayerClipped demoTileset demoTilemapPriority 0 4 = 0
    ∧ specSourceIndex demoLayerClipped demoTileset demoTilemapPriority 0 4 = 5
    ∧ (DrawLayerScanlineCore 16 demoEngine.indexed_palettes 16 demoLayerClipped demoTileset
        demoTilemapPriority 0 (fun _ => 0) (fun _ => 0) (fun _ => 0)).priority 0 = 0xFF000005
    ∧ (DrawLayerScanlineCore 16 demoEngine.indexed_palettes 16 demoLayerClipped demoTileset
        demoTilemapPriority 0 (fun _ => 0) (fun _ => 0) (fun _ => 0)).priority 4 = 0
    ∧ (DrawLayerScanlineCore 16 demoEngine.indexed_palettes 16 demoLayerClipped demoTileset
        demoTilemapPriority 0 (fun _ => 0) (fun _ => 0) (fun _ => 0)).scan 4 = 0
    ∧ (DrawScanline demoEnv (TLN_SetLayerClip demoEnv 0 4 0 16 16
        demoPriorityCellEngine).2).engine.framebuffer.data 0 0 = 0xFF000005
    ∧ (DrawScanline demoEnv (TLN_SetLayerClip demoEnv 0 4 0 16 16
        demoPriorityCellEngine).2).engine.framebuffer.data 0 4 = 0xFF101010 := by
  refine ⟨demo_clipped_scene, by decide, by decide, by decide, by decide, by decide, by decide,
    by decide, by decide, by decide, by decide⟩

end Tiledjinn
